import Mathlib

/-!
# basic-neural-net: a shallow embedding of `Perceptron`, `PerceptronLayer`, `NeuralNetwork`

The three C++ classes are translated member function by member function.

* `double` is a commutative ring `α` with a division (exact arithmetic); the `<cmath>` functions the
  code calls are the fields of a `Libm α` record, so every definition is executable
  at `α := ℤ` or `ℚ` and is read over `ℝ` with `Real.tanh`, `Real.exp`, `Real.cosh`.
* Where the rounding of `double` arithmetic matters (the range of the output of
  `c_Perceptron::evaluate`), the member functions on that path have a second translation,
  named `..._double`, in which every operation returns `fl` of its exact result; over `ℝ`,
  `binary64.Nearest fl` says that `fl` rounds to the nearest `double`.
* `std::valarray<double>` is `List α`.  `resize` value-initialises every element.
* A pointer to a valarray is a `Ref` (a symbolic address); a pointer to one element
  of a valarray is a `Ref × Nat`.  `NULL` is `none`.
* A pointer to a layer is the index of that layer in the network's `m_Layers`.
* A member function of a layer that touches only its own object is a function on
  `c_PerceptronLayer`; it reads the arrays behind its pointers through a `Memory`.
  The ones that reach a neighbouring layer (`_build`, `setInput`, `setBias`) and the
  two passes act on the whole network state; the layer is named by its index.
* `m_Layers[i]` in `NeuralNetwork.cpp` is a checked access: the network-level
  functions return `none` when the index is outside the vector.
-/

/-! ## `std::valarray<double>` and `size_t` -/

namespace valarray

variable {α : Type}

/-- `v.resize(n)`: the array gets `n` elements, every one value-initialised. -/
def resize [Zero α] (n : Nat) : List α := List.replicate n 0

/-- `v = c` for a scalar `c`: every element is overwritten, the size is kept. -/
def fill (v : List α) (c : α) : List α := List.replicate v.length c

/-- `(a * b)` elementwise.  The operands have equal length wherever the library
uses it on a wired network; mismatched lengths are undefined in C++ and the model
keeps the common prefix. -/
def mul [Mul α] (a b : List α) : List α := List.zipWith (fun x y => x * y) a b

/-- `c * v` for a scalar `c`. -/
def smul [Mul α] (c : α) (v : List α) : List α := v.map (fun x => c * x)

/-- `v.sum()`. -/
def sum [AddMonoid α] (v : List α) : α := v.sum

/-- `a += b`: `a` keeps its size; slot `i` receives `b[i]` for every `i` below both
sizes (a longer `b` is truncated to the size of `a`). -/
def addAssign [Add α] (a b : List α) : List α :=
  List.zipWith (fun x y => x + y) a b ++ a.drop b.length

/-- `dst[std::slice(0, src.size(), 1)] = src`: the first `src.size()` elements of
`dst` are overwritten.  A slice reaching past the end of `dst` is a write outside
the array: `none`. -/
def sliceAssign (dst src : List α) : Option (List α) :=
  if src.length ≤ dst.length then some (src ++ dst.drop src.length) else none

/-- `v[i] = x`, i within the array. -/
def store (v : List α) (i : Nat) (x : α) : List α := v.set i x

end valarray

/-- `std::vector<T>::resize(n)`: the first `n` elements are kept, missing ones are
default-constructed. -/
def vector_resize {β : Type} (dflt : β) (v : List β) (n : Nat) : List β :=
  v.take n ++ List.replicate (n - v.length) dflt

/-- `a - b` on `size_t` (64 bit, wraps around). -/
def size_t_sub (a b : Nat) : Nat := (a + 2 ^ 64 - b % 2 ^ 64) % 2 ^ 64

/-- `for (size_t i = lo; i < lo + count; ++i) body(i)`. -/
def forLoop {σ : Type} (body : Nat → σ → σ) : Nat → Nat → σ → σ
  | _, 0, s => s
  | lo, count + 1, s => forLoop body (lo + 1) count (body lo s)

/-- `for (size_t i = 0; i < n; ++i) v[i].f(i)` on a `std::vector` `v`, where `f i` is
the effect of the call on element `i`. -/
def forEach {β : Type} (f : Nat → β → β) (n : Nat) (v : List β) : List β :=
  forLoop (fun i v => List.modify (f i) i v) 0 n v

/-- The same loop for a body that can fault: the first fault ends the run. -/
def forLoopM {σ : Type} (body : Nat → σ → Option σ) : Nat → Nat → σ → Option σ
  | _, 0, s => some s
  | lo, count + 1, s => (body lo s).bind (forLoopM body (lo + 1) count)

/-- `for (size_t i = hi; i > 0; --i) body(i - 1)`. -/
def forLoopDownM {σ : Type} (body : Nat → σ → Option σ) : Nat → σ → Option σ
  | 0, s => some s
  | i + 1, s => (body i s).bind (forLoopDownM body i)

/-! ## Addresses -/

/-- The address of a `std::valarray<double>` object. -/
inductive Ref where
  /-- a valarray owned by the caller (input and target vectors) -/
  | caller (a : Nat)
  /-- the network's `m_LocalInputs` -/
  | localInputs
  /-- `m_Layers[k].m_Outputs` -/
  | outputs (k : Nat)
  /-- `m_Layers[k].m_WeightedDeltaSumsOut` -/
  | deltaSums (k : Nat)
  deriving DecidableEq, Repr

/-- The contents of every valarray, by address. -/
abbrev Memory (α : Type) := Ref → List α

/-- `*p` for a pointer to element `p.2` of the valarray at `p.1`. -/
def Memory.deref {α : Type} [Zero α] (mem : Memory α) (p : Ref × Nat) : α :=
  (mem p.1).getD p.2 0

/-! ## `double`

The finite values of IEEE 754 binary64, as the real numbers they stand for. -/

/-- A finite `double`: an integer significand of at most 53 bits times a power of two
with an exponent between -1074 and 971. -/
def binary64.IsFinite (x : ℝ) : Prop :=
  ∃ m e : ℤ, |m| < 2 ^ 53 ∧ -1074 ≤ e ∧ e ≤ 971 ∧ x = (m : ℝ) * (2 : ℝ) ^ e

/-- Rounding to nearest: `fl x` is a finite `double`, and no finite `double` is nearer to
`x`.  (Beyond the largest `double`, where the machine returns an infinity, `fl x` is the
largest `double`.) -/
def binary64.Nearest (fl : ℝ → ℝ) : Prop :=
  ∀ x : ℝ, binary64.IsFinite (fl x) ∧ ∀ y : ℝ, binary64.IsFinite y → |fl x - x| ≤ |y - x|

/-! ## Perceptron.h / Perceptron.cpp -/

/-- `enum e_Activation`; `ACT_OTHER` is any value outside the two enumerators, the
one that reaches the `default:` label of the two `switch` statements. -/
inductive e_Activation where
  | ACT_TANH
  | ACT_SIGMOID
  | ACT_OTHER
  deriving DecidableEq, Repr

/-- The `<cmath>` functions called by `Perceptron.cpp`. -/
structure Libm (α : Type) where
  tanh : α → α
  exp : α → α
  cosh : α → α

/-- The data members of `class c_Perceptron`. -/
structure c_Perceptron (α : Type) where
  m_Inputs : Option Ref
  m_Weights : List α
  m_WeightedDeltas : List α
  m_Target : Option (Ref × Nat)
  m_WeightedDeltaSum : Option (Ref × Nat)
  m_SumProducts : α
  m_Output : α
  m_Delta : α
  m_TrainRate : α
  m_ActType : e_Activation

namespace c_Perceptron

variable {α : Type} [CommRing α] [Div α]

/-- `c_Perceptron::c_Perceptron()`. -/
def construct : c_Perceptron α :=
  { m_Inputs := none, m_Weights := [], m_WeightedDeltas := [], m_Target := none,
    m_WeightedDeltaSum := none, m_SumProducts := 0, m_Output := 0, m_Delta := 0,
    m_TrainRate := 0, m_ActType := e_Activation.ACT_TANH }

/-- `c_Perceptron::_copy`, the body of the copy constructor: every member is copied. -/
def _copy (src : c_Perceptron α) : c_Perceptron α :=
  { m_Inputs := src.m_Inputs, m_Weights := src.m_Weights,
    m_WeightedDeltas := src.m_WeightedDeltas, m_Target := src.m_Target,
    m_WeightedDeltaSum := src.m_WeightedDeltaSum, m_SumProducts := src.m_SumProducts,
    m_Output := src.m_Output, m_Delta := src.m_Delta, m_TrainRate := src.m_TrainRate,
    m_ActType := src.m_ActType }

/-- `c_Perceptron::setWeights()`: weight `i` becomes `rand() / RAND_MAX`, where
`rand i` is the value of the `i`-th call of `rand()`. -/
def setWeightsRandom (RAND_MAX : Nat) (rand : Nat → Nat) (p : c_Perceptron α) :
    c_Perceptron α :=
  { p with m_Weights :=
      (List.range p.m_Weights.length).map (fun i => (rand i : α) / (RAND_MAX : α)) }

/-- `c_Perceptron::setWeights(const std::valarray<double>&)`. -/
def setWeights (mem : Memory α) (weights : List α) (p : c_Perceptron α) :
    Option (c_Perceptron α) :=
  match p.m_Inputs with
  | some r =>
    if weights.length ≠ (mem r).length then
      (valarray.sliceAssign p.m_Weights weights).map (fun ws => { p with m_Weights := ws })
    else some { p with m_Weights := weights }
  | none => some { p with m_Weights := weights }

/-- `c_Perceptron::setInputs`. -/
def setInputs (mem : Memory α) (inputs : Ref) (p : c_Perceptron α) : c_Perceptron α :=
  let p1 := { p with m_Inputs := some inputs }
  if p1.m_Weights.length ≠ (mem inputs).length then
    { p1 with m_Weights := valarray.resize (mem inputs).length,
              m_WeightedDeltas := valarray.resize (mem inputs).length }
  else p1

/-- `c_Perceptron::setWeightedDeltaSum`. -/
def setWeightedDeltaSum (weightedDeltaSum : Ref × Nat) (p : c_Perceptron α) :
    c_Perceptron α :=
  { p with m_WeightedDeltaSum := some weightedDeltaSum, m_Target := none }

/-- `c_Perceptron::setTarget`. -/
def setTarget (target : Ref × Nat) (p : c_Perceptron α) : c_Perceptron α :=
  { p with m_Target := some target, m_WeightedDeltaSum := none }

/-- `c_Perceptron::setTrainRate`. -/
def setTrainRate (trainRate : α) (p : c_Perceptron α) : c_Perceptron α :=
  { p with m_TrainRate := trainRate }

/-- `c_Perceptron::setActivation`. -/
def setActivation (actType : e_Activation) (p : c_Perceptron α) : c_Perceptron α :=
  { p with m_ActType := actType }

/-- `c_Perceptron::getSize`. -/
def getSize (p : c_Perceptron α) : Nat := p.m_Weights.length

/-- `c_Perceptron::getOutput`. -/
def getOutput (p : c_Perceptron α) : α := p.m_Output

/-- `c_Perceptron::getWeights`. -/
def getWeights (p : c_Perceptron α) : List α := p.m_Weights

/-- `c_Perceptron::getWeightedDeltas`. -/
def getWeightedDeltas (p : c_Perceptron α) : List α := p.m_WeightedDeltas

/-- `c_Perceptron::_calcSumProducts`. -/
def _calcSumProducts (mem : Memory α) (p : c_Perceptron α) : Bool × c_Perceptron α :=
  match p.m_Inputs with
  | some r =>
    (true, { p with m_SumProducts := valarray.sum (valarray.mul p.m_Weights (mem r)) })
  | none => (false, p)

/-- `c_Perceptron::_calcNewWeights`. -/
def _calcNewWeights (mem : Memory α) (p : c_Perceptron α) : Bool × c_Perceptron α :=
  match p.m_Inputs with
  | some r =>
    let p1 := { p with m_WeightedDeltas := valarray.smul p.m_Delta p.m_Weights }
    (true, { p1 with m_Weights :=
      valarray.addAssign p1.m_Weights (valarray.smul (p1.m_TrainRate * p1.m_Delta) (mem r)) })
  | none => (false, p)

/-- `c_Perceptron::_calcActivation`. -/
def _calcActivation (M : Libm α) (p : c_Perceptron α) : c_Perceptron α :=
  match p.m_ActType with
  | e_Activation.ACT_TANH => { p with m_Output := M.tanh (p.m_SumProducts / 2) }
  | e_Activation.ACT_SIGMOID => { p with m_Output := 1 / (1 + M.exp (-p.m_SumProducts)) }
  | e_Activation.ACT_OTHER => { p with m_Output := p.m_SumProducts }

/-- `c_Perceptron::_calcActivDeriv`. -/
def _calcActivDeriv (M : Libm α) (p : c_Perceptron α) : α :=
  match p.m_ActType with
  | e_Activation.ACT_TANH =>
    (2 * M.cosh p.m_SumProducts / (M.cosh (2 * p.m_SumProducts) + 1)) ^ 2
  | e_Activation.ACT_SIGMOID => M.exp p.m_SumProducts / (M.exp p.m_SumProducts + 1) ^ 2
  | e_Activation.ACT_OTHER => p.m_SumProducts

/-- `c_Perceptron::_calcDelta`. -/
def _calcDelta (M : Libm α) (mem : Memory α) (p : c_Perceptron α) : c_Perceptron α :=
  let p1 := { p with m_Delta := _calcActivDeriv M p }
  match p1.m_Target with
  | some t => { p1 with m_Delta := p1.m_Delta * (mem.deref t - p1.m_Output) }
  | none =>
    match p1.m_WeightedDeltaSum with
    | some d => { p1 with m_Delta := p1.m_Delta * mem.deref d }
    | none => { p1 with m_Delta := 0 }

/-- `c_Perceptron::evaluate`. -/
def evaluate (M : Libm α) (mem : Memory α) (p : c_Perceptron α) : Bool × c_Perceptron α :=
  let r := _calcSumProducts mem p
  if r.1 then (true, _calcActivation M r.2) else (false, r.2)

/-- `c_Perceptron::train`. -/
def train (M : Libm α) (mem : Memory α) (p : c_Perceptron α) : Bool × c_Perceptron α :=
  let p1 := _calcDelta M mem p
  let r := _calcNewWeights mem p1
  (true, r.2)

end c_Perceptron

/-! ## PerceptronLayer.h / NeuralNetwork.h: the data members -/

/-- The data members of `class c_PerceptronLayer`. -/
structure c_PerceptronLayer (α : Type) where
  m_Inputs : Option Ref
  m_Targets : Option Ref
  m_WeightedDeltaSumsIn : Option Ref
  m_Input : Option Nat
  m_Output : Option Nat
  m_Outputs : List α
  m_WeightedDeltaSumsOut : List α
  m_Perceptrons : List (c_Perceptron α)
  m_Bias : Bool
  m_Size : Nat
  m_TrainRate : α
  m_ActType : e_Activation

/-- The data members of `class c_NeuralNetwork`, together with `heap`, the valarrays
of the caller that `m_Inputs` and `m_Targets` point to (by address). -/
structure c_NeuralNetwork (α : Type) where
  heap : Nat → List α
  m_Inputs : Option Ref
  m_Targets : Option Ref
  m_LocalInputs : List α
  m_Layers : List (c_PerceptronLayer α)
  m_Bias : Bool
  m_Size : Nat
  m_TrainRate : α
  m_ActType : e_Activation

namespace c_NeuralNetwork

variable {α : Type}

/-- The contents of the valarray at an address (empty for the members of a layer
that does not exist). -/
def memory (w : c_NeuralNetwork α) : Memory α
  | Ref.caller a => w.heap a
  | Ref.localInputs => w.m_LocalInputs
  | Ref.outputs k =>
    match w.m_Layers[k]? with
    | some L => L.m_Outputs
    | none => []
  | Ref.deltaSums k =>
    match w.m_Layers[k]? with
    | some L => L.m_WeightedDeltaSumsOut
    | none => []

/-- A member access through a pointer to layer `k`: the layer is replaced by `f` of it. -/
def onLayer (k : Nat) (f : c_PerceptronLayer α → c_PerceptronLayer α)
    (w : c_NeuralNetwork α) : c_NeuralNetwork α :=
  { w with m_Layers := w.m_Layers.modify f k }

end c_NeuralNetwork

/-! ## PerceptronLayer.cpp -/

namespace c_PerceptronLayer

variable {α : Type} [CommRing α] [Div α]

/-- The member initialiser list of `c_PerceptronLayer::c_PerceptronLayer(numPerceptrons)`. -/
def init (numPerceptrons : Nat) : c_PerceptronLayer α :=
  { m_Inputs := none, m_Targets := none, m_WeightedDeltaSumsIn := none, m_Input := none,
    m_Output := none, m_Outputs := [], m_WeightedDeltaSumsOut := [], m_Perceptrons := [],
    m_Bias := true, m_Size := numPerceptrons, m_TrainRate := 0,
    m_ActType := e_Activation.ACT_TANH }

/-- `c_PerceptronLayer::_connectInputs`. -/
def _connectInputs (mem : Memory α) (L : c_PerceptronLayer α) : c_PerceptronLayer α :=
  match L.m_Inputs with
  | some r =>
    { L with
      m_Perceptrons :=
        forEach (fun _ => c_Perceptron.setInputs mem r) L.m_Size L.m_Perceptrons }
  | none => L

/-- `c_PerceptronLayer::_connectTargets`. -/
def _connectTargets (mem : Memory α) (L : c_PerceptronLayer α) : c_PerceptronLayer α :=
  match L.m_Targets with
  | some t =>
    if (mem t).length = L.m_Size then
      { L with
        m_Perceptrons :=
          forEach (fun i => c_Perceptron.setTarget (t, i)) L.m_Size L.m_Perceptrons }
    else L
  | none => L

/-- `c_PerceptronLayer::_connectWeightedDeltaSums`. -/
def _connectWeightedDeltaSums (mem : Memory α) (L : c_PerceptronLayer α) :
    c_PerceptronLayer α :=
  match L.m_WeightedDeltaSumsIn with
  | some d =>
    if (mem d).length = L.m_Size then
      { L with
        m_Perceptrons :=
          forEach (fun i => c_Perceptron.setWeightedDeltaSum (d, i)) L.m_Size L.m_Perceptrons }
    else L
  | none => L

/-- `c_PerceptronLayer::_connect`. -/
def _connect (mem : Memory α) (L : c_PerceptronLayer α) : c_PerceptronLayer α :=
  _connectWeightedDeltaSums mem (_connectTargets mem (_connectInputs mem L))

/-- `c_PerceptronLayer::setInputs`. -/
def setInputs (mem : Memory α) (inputs : Ref) (L : c_PerceptronLayer α) :
    c_PerceptronLayer α :=
  _connectInputs mem { L with m_Inputs := some inputs }

/-- `c_PerceptronLayer::setTargets`. -/
def setTargets (mem : Memory α) (targets : Ref) (L : c_PerceptronLayer α) :
    c_PerceptronLayer α :=
  if (mem targets).length = L.m_Size then
    _connectTargets mem { L with m_Targets := some targets, m_WeightedDeltaSumsIn := none }
  else L

/-- `c_PerceptronLayer::setTrainRate`. -/
def setTrainRate (trainRate : α) (L : c_PerceptronLayer α) : c_PerceptronLayer α :=
  { L with
    m_TrainRate := trainRate
    m_Perceptrons :=
      forEach (fun _ => c_Perceptron.setTrainRate trainRate) L.m_Size L.m_Perceptrons }

/-- `c_PerceptronLayer::setActivation`. -/
def setActivation (actType : e_Activation) (L : c_PerceptronLayer α) : c_PerceptronLayer α :=
  { L with
    m_ActType := actType
    m_Perceptrons :=
      forEach (fun _ => c_Perceptron.setActivation actType) L.m_Size L.m_Perceptrons }

/-- `c_PerceptronLayer::_setOutput`. -/
def _setOutput (output : Nat) (L : c_PerceptronLayer α) : c_PerceptronLayer α :=
  { L with m_Output := some output }

/-- `c_PerceptronLayer::_setWeightedDeltaSumsIn`. -/
def _setWeightedDeltaSumsIn (mem : Memory α) (weightedDeltaSums : Ref)
    (L : c_PerceptronLayer α) : c_PerceptronLayer α :=
  _connectWeightedDeltaSums mem
    { L with m_WeightedDeltaSumsIn := some weightedDeltaSums, m_Targets := none }

/-- `c_PerceptronLayer::_copy`, the body of the copy constructor. -/
def _copy (mem : Memory α) (src : c_PerceptronLayer α) : c_PerceptronLayer α :=
  _connect mem
    { m_Inputs := src.m_Inputs, m_Targets := src.m_Targets,
      m_WeightedDeltaSumsIn := src.m_WeightedDeltaSumsIn, m_Input := src.m_Input,
      m_Output := src.m_Output, m_Outputs := src.m_Outputs,
      m_WeightedDeltaSumsOut := src.m_WeightedDeltaSumsOut,
      m_Perceptrons := src.m_Perceptrons.map c_Perceptron._copy,
      m_Bias := src.m_Bias, m_Size := src.m_Size, m_TrainRate := src.m_TrainRate,
      m_ActType := src.m_ActType }

/-- `c_PerceptronLayer::getSize`, through a pointer to layer `k`. -/
def getSize (k : Nat) (w : c_NeuralNetwork α) : Nat :=
  match w.m_Layers[k]? with
  | some L => L.m_Size
  | none => 0

/-- `c_PerceptronLayer::getOutputs`, as an address. -/
def getOutputs (k : Nat) : Ref := Ref.outputs k

/-- `c_PerceptronLayer::getWeightedDeltaSumsOut`, as an address. -/
def getWeightedDeltaSumsOut (k : Nat) : Ref := Ref.deltaSums k

/-- First block of `c_PerceptronLayer::_build`: the vector of units and the output
array are resized, the bias slot is set. -/
def _build_resize (L : c_PerceptronLayer α) : c_PerceptronLayer α :=
  if L.m_Bias then
    { L with
      m_Perceptrons := vector_resize c_Perceptron.construct L.m_Perceptrons L.m_Size
      m_Outputs := valarray.store (valarray.resize (L.m_Size + 1)) L.m_Size 1 }
  else
    { L with
      m_Perceptrons := vector_resize c_Perceptron.construct L.m_Perceptrons L.m_Size
      m_Outputs := valarray.resize L.m_Size }

/-- `m_WeightedDeltaSumsOut.resize(n)` on a layer. -/
def resizeDeltaSumsOut (n : Nat) (L : c_PerceptronLayer α) : c_PerceptronLayer α :=
  { L with m_WeightedDeltaSumsOut := valarray.resize n }

/-- Second block of `c_PerceptronLayer::_build` on layer `k` with input layer `j`, up to
and including `m_WeightedDeltaSumsOut.resize(m_Input->getSize())`. -/
def _build_input_resize (k j : Nat) (w : c_NeuralNetwork α) : c_NeuralNetwork α :=
  let a := w.onLayer k (setInputs w.memory (getOutputs j))
  let b := a.onLayer j (_setOutput k)
  b.onLayer k (resizeDeltaSumsOut (getSize j b))

/-- Second block of `c_PerceptronLayer::_build`, `if (m_Input != NULL)`, on layer `k`. -/
def _build_input (k : Nat) (w : c_NeuralNetwork α) : c_NeuralNetwork α :=
  match (w.m_Layers[k]?).bind (fun L => L.m_Input) with
  | some j =>
    let c := _build_input_resize k j w
    c.onLayer j (_setWeightedDeltaSumsIn c.memory (getWeightedDeltaSumsOut k))
  | none => w

/-- Third block of `c_PerceptronLayer::_build`, `if (m_Output != NULL)`, on layer `k`. -/
def _build_output (k : Nat) (w : c_NeuralNetwork α) : c_NeuralNetwork α :=
  match (w.m_Layers[k]?).bind (fun L => L.m_Output) with
  | some j =>
    w.onLayer j (resizeDeltaSumsOut (getSize k w))
  | none => w

/-- Last line of `c_PerceptronLayer::_build`: `_connect()` on layer `k`. -/
def _build_connect (k : Nat) (w : c_NeuralNetwork α) : c_NeuralNetwork α :=
  w.onLayer k (_connect w.memory)

/-- `c_PerceptronLayer::_build` on layer `k`. -/
def _build (k : Nat) (w : c_NeuralNetwork α) : c_NeuralNetwork α :=
  _build_connect k (_build_output k (_build_input k (w.onLayer k _build_resize)))

/-- `c_PerceptronLayer::setInput` on layer `k`. -/
def setInput (k : Nat) (input : Nat) (w : c_NeuralNetwork α) : c_NeuralNetwork α :=
  _build k (w.onLayer k (fun L => { L with m_Input := some input }))

/-- `c_PerceptronLayer::setBias` on layer `k`. -/
def setBias (k : Nat) (bias : Bool) (w : c_NeuralNetwork α) : c_NeuralNetwork α :=
  _build k (w.onLayer k (fun L => { L with m_Bias := bias }))

/-- One round of the loop of `c_PerceptronLayer::evaluate` on layer `k`. -/
def evaluateStep (M : Libm α) (k i : Nat) (w : c_NeuralNetwork α) : c_NeuralNetwork α :=
  match (w.m_Layers[k]?).bind (fun L => L.m_Perceptrons[i]?) with
  | some p =>
    let r := c_Perceptron.evaluate M w.memory p
    let w1 := w.onLayer k (fun L => { L with m_Perceptrons := L.m_Perceptrons.set i r.2 })
    if r.1 then
      w1.onLayer k (fun L =>
        { L with m_Outputs := valarray.store L.m_Outputs i (c_Perceptron.getOutput r.2) })
    else w1
  | none => w

/-- `c_PerceptronLayer::evaluate` on layer `k`. -/
def evaluate (M : Libm α) (k : Nat) (w : c_NeuralNetwork α) : c_NeuralNetwork α :=
  forLoop (evaluateStep M k) 0 (getSize k w) w

/-- One round of the loop of `c_PerceptronLayer::train` on layer `k`. -/
def trainStep (M : Libm α) (k i : Nat) (w : c_NeuralNetwork α) : c_NeuralNetwork α :=
  match (w.m_Layers[k]?).bind (fun L => L.m_Perceptrons[i]?) with
  | some p =>
    let r := c_Perceptron.train M w.memory p
    let w1 := w.onLayer k (fun L => { L with m_Perceptrons := L.m_Perceptrons.set i r.2 })
    if r.1 then
      w1.onLayer k (fun L =>
        { L with m_WeightedDeltaSumsOut :=
            valarray.addAssign L.m_WeightedDeltaSumsOut (c_Perceptron.getWeightedDeltas r.2) })
    else w1
  | none => w

/-- `c_PerceptronLayer::train` on layer `k`. -/
def train (M : Libm α) (k : Nat) (w : c_NeuralNetwork α) : c_NeuralNetwork α :=
  let w1 := w.onLayer k (fun L =>
    { L with m_WeightedDeltaSumsOut := valarray.fill L.m_WeightedDeltaSumsOut (0 : α) })
  forLoop (trainStep M k) 0 (getSize k w1) w1

end c_PerceptronLayer

/-! ## NeuralNetwork.cpp

`m_Layers[i]` faults (`none`) when `i` is not an index of the vector. -/

namespace c_NeuralNetwork

variable {α : Type} [CommRing α] [Div α]

/-- `m_Layers[i].f(...)`: the member function `f` called on the element at index `i`. -/
def atLayer (i : Nat) (f : Nat → c_NeuralNetwork α → c_NeuralNetwork α)
    (w : c_NeuralNetwork α) : Option (c_NeuralNetwork α) :=
  if i < w.m_Layers.length then some (f i w) else none

/-- `c_NeuralNetwork::_connectInputs`. -/
def _connectInputs (w : c_NeuralNetwork α) : Option (c_NeuralNetwork α) :=
  if w.m_Layers.length > 0 then
    match w.m_Inputs with
    | some _ =>
      atLayer 0 (fun k w => w.onLayer k (c_PerceptronLayer.setInputs w.memory Ref.localInputs)) w
    | none => some w
  else some w

/-- `c_NeuralNetwork::_connectTargets`. -/
def _connectTargets (w : c_NeuralNetwork α) : Option (c_NeuralNetwork α) :=
  if w.m_Layers.length > 0 then
    match w.m_Targets with
    | some t =>
      atLayer (size_t_sub w.m_Size 1)
        (fun k w => w.onLayer k (c_PerceptronLayer.setTargets w.memory t)) w
    | none => some w
  else some w

/-- `c_NeuralNetwork::_connectLayers`. -/
def _connectLayers (w : c_NeuralNetwork α) : Option (c_NeuralNetwork α) :=
  if w.m_Layers.length > 1 then
    forLoopM (fun i w =>
        if i - 1 < w.m_Layers.length then
          atLayer i (fun k => c_PerceptronLayer.setInput k (i - 1)) w
        else none)
      1 (w.m_Size - 1) w
  else some w

/-- `c_NeuralNetwork::_connect`. -/
def _connect (w : c_NeuralNetwork α) : Option (c_NeuralNetwork α) :=
  (_connectInputs w).bind (fun w => (_connectTargets w).bind _connectLayers)

/-- `m_Layers.push_back(n)`: a temporary layer is constructed from `n` (initialiser
list, then `_build`), and copy-constructed into the new last element.  The temporary
is modelled in the slot its copy gets: every pointer of it is `NULL`, so neither step
depends on the address. -/
def push_back (n : Nat) (w : c_NeuralNetwork α) : c_NeuralNetwork α :=
  let pushed := { w with m_Layers := w.m_Layers ++ [c_PerceptronLayer.init n] }
  let built := c_PerceptronLayer._build w.m_Layers.length pushed
  built.onLayer w.m_Layers.length (c_PerceptronLayer._copy built.memory)

/-- `c_NeuralNetwork::_build`. -/
def _build (layers : List Nat) (w : c_NeuralNetwork α) : Option (c_NeuralNetwork α) :=
  _connect (forLoop (fun i => push_back (layers.getD i 0)) 0 w.m_Size w)

/-- `c_NeuralNetwork::_resizeLocalInputs`. -/
def _resizeLocalInputs (w : c_NeuralNetwork α) : c_NeuralNetwork α :=
  match w.m_Inputs with
  | some r =>
    if w.m_Bias then { w with m_LocalInputs := valarray.resize ((w.memory r).length + 1) }
    else { w with m_LocalInputs := valarray.resize (w.memory r).length }
  | none => w

/-- `c_NeuralNetwork::_updateLocalInputs` (it dereferences `m_Inputs`).  The index
`m_LocalInputs.size() - 1` wraps around only when the array is empty, and is then
outside the array; so is `0 - 1 = 0` here. -/
def _updateLocalInputs (w : c_NeuralNetwork α) : Option (c_NeuralNetwork α) :=
  match w.m_Inputs with
  | some r =>
    if w.m_Bias then
      (valarray.sliceAssign w.m_LocalInputs (w.memory r)).bind (fun v =>
        if v.length - 1 < v.length then
          some { w with m_LocalInputs := valarray.store v (v.length - 1) 1 }
        else none)
    else some { w with m_LocalInputs := w.memory r }
  | none => none

/-- `c_NeuralNetwork::setInputs`. -/
def setInputs (inputs : Ref) (w : c_NeuralNetwork α) : Option (c_NeuralNetwork α) :=
  _connectInputs (_resizeLocalInputs { w with m_Inputs := some inputs })

/-- `c_NeuralNetwork::setTargets`. -/
def setTargets (targets : Ref) (w : c_NeuralNetwork α) : Option (c_NeuralNetwork α) :=
  _connectTargets { w with m_Targets := some targets }

/-- `c_NeuralNetwork::setTrainRate`. -/
def setTrainRate (trainRate : α) (w : c_NeuralNetwork α) : Option (c_NeuralNetwork α) :=
  forLoopM
    (fun i => atLayer i (fun k w => w.onLayer k (c_PerceptronLayer.setTrainRate trainRate)))
    0 w.m_Size { w with m_TrainRate := trainRate }

/-- `c_NeuralNetwork::setActivation`. -/
def setActivation (actType : e_Activation) (w : c_NeuralNetwork α) :
    Option (c_NeuralNetwork α) :=
  forLoopM
    (fun i => atLayer i (fun k w => w.onLayer k (c_PerceptronLayer.setActivation actType)))
    0 w.m_Size { w with m_ActType := actType }

/-- `c_NeuralNetwork::setBias`. -/
def setBias (bias : Bool) (w : c_NeuralNetwork α) : Option (c_NeuralNetwork α) :=
  (forLoopM (fun i => atLayer i (fun k => c_PerceptronLayer.setBias k bias))
    0 (size_t_sub w.m_Size 1) { w with m_Bias := bias }).bind (fun w =>
  (atLayer (size_t_sub w.m_Size 1) (fun k => c_PerceptronLayer.setBias k false) w).bind
    (fun w => _connectInputs (_resizeLocalInputs w)))

/-- `c_NeuralNetwork::operator[]`. -/
def index (idx : Nat) (w : c_NeuralNetwork α) : Option (c_PerceptronLayer α) :=
  w.m_Layers[idx]?

/-- `c_NeuralNetwork::getSize`. -/
def getSize (w : c_NeuralNetwork α) : Nat := w.m_Size

/-- `c_NeuralNetwork::getOutputs`: the contents of the array it returns. -/
def getOutputs (w : c_NeuralNetwork α) : Option (List α) :=
  (w.m_Layers[size_t_sub w.m_Size 1]?).map (fun L => L.m_Outputs)

/-- `c_NeuralNetwork::evaluate`. -/
def evaluate (M : Libm α) (w : c_NeuralNetwork α) : Option (c_NeuralNetwork α) :=
  match w.m_Inputs with
  | some _ =>
    (_updateLocalInputs w).bind
      (forLoopM (fun i => atLayer i (c_PerceptronLayer.evaluate M)) 0 w.m_Size)
  | none => some w

/-- `c_NeuralNetwork::train`. -/
def train (M : Libm α) (w : c_NeuralNetwork α) : Option (c_NeuralNetwork α) :=
  match w.m_Inputs, w.m_Targets with
  | some _, some _ =>
    (_updateLocalInputs w).bind
      (forLoopDownM (fun i => atLayer i (c_PerceptronLayer.train M)) w.m_Size)
  | _, _ => some w

/-- `c_NeuralNetwork::c_NeuralNetwork(inputs, targets, layers, actType, trainRate, bias)`.
`m_Bias`, `m_TrainRate` and `m_ActType` are not in the initialiser list; each is
assigned by its setter before anything reads it, the values here stand for the
indeterminate ones. -/
def construct (heap : Nat → List α) (inputs targets : Ref) (layers : List Nat)
    (actType : e_Activation) (trainRate : α) (bias : Bool) : Option (c_NeuralNetwork α) :=
  let w0 : c_NeuralNetwork α :=
    { heap := heap, m_Inputs := some inputs, m_Targets := some targets, m_LocalInputs := [],
      m_Layers := [], m_Bias := false, m_Size := layers.length, m_TrainRate := 0,
      m_ActType := e_Activation.ACT_TANH }
  (_build layers w0).bind (fun w =>
    (setBias bias w).bind (fun w =>
      (setTrainRate trainRate w).bind (setActivation actType)))

/-- `c_NeuralNetwork::_copy(src)` on a new network, the body of the copy constructor.
`m_LocalInputs` is not among the members assigned: the new network keeps the empty
array of its default constructor.  `m_Layers = src.m_Layers` copy-constructs every layer,
and `c_PerceptronLayer::_copy` follows the pointers it has copied into `src`.
`_connect()` then binds the pointers of the new layers to the members of the new
network, layer by layer.  It follows two pointers that still point into `src`, both in
`_build` of a layer `k` that has a layer after it: `m_Output`, for
`m_Output->m_WeightedDeltaSumsOut.resize(m_Size)`, and `m_WeightedDeltaSumsIn`, for the
size of the array.  The array of `src` they reach has the length of the one of layer
`k + 1` of the new network; here that one is resized and read, and `_build` of layer
`k + 1` resizes it to the same length again.  What the call does to `src` is not part of
the result. -/
def _copy (src : c_NeuralNetwork α) : Option (c_NeuralNetwork α) :=
  _connect
    { heap := src.heap, m_Inputs := src.m_Inputs, m_Targets := src.m_Targets,
      m_LocalInputs := [],
      m_Layers := src.m_Layers.map (c_PerceptronLayer._copy src.memory),
      m_Bias := src.m_Bias, m_Size := src.m_Size, m_TrainRate := src.m_TrainRate,
      m_ActType := src.m_ActType }

end c_NeuralNetwork

/-! ## The caller

What a program that owns a network does with it, one call at a time. -/

/-- One step of the caller. -/
inductive Call (α : Type) where
  /-- `net.setInputs(v)` for the caller's valarray at address `a` -/
  | setInputs (a : Nat)
  /-- `net.setTargets(v)` for the caller's valarray at address `a` -/
  | setTargets (a : Nat)
  | setTrainRate (trainRate : α)
  | setActivation (actType : e_Activation)
  | setBias (bias : Bool)
  | evaluate
  | train
  /-- `v[i] = x` on the caller's own valarray at address `a` -/
  | write (a i : Nat) (x : α)
  /-- `net[k][i].setWeights(weights)` -/
  | setWeights (k i : Nat) (weights : List α)

namespace Call

variable {α : Type} [CommRing α] [Div α]

/-- The effect of one step; `none` is a fault. -/
def run (M : Libm α) : Call α → c_NeuralNetwork α → Option (c_NeuralNetwork α)
  | setInputs a, w => c_NeuralNetwork.setInputs (Ref.caller a) w
  | setTargets a, w => c_NeuralNetwork.setTargets (Ref.caller a) w
  | setTrainRate r, w => c_NeuralNetwork.setTrainRate r w
  | setActivation t, w => c_NeuralNetwork.setActivation t w
  | setBias b, w => c_NeuralNetwork.setBias b w
  | evaluate, w => c_NeuralNetwork.evaluate M w
  | train, w => c_NeuralNetwork.train M w
  | write a i x, w =>
    if i < (w.heap a).length then
      some { w with heap := fun b => if b = a then valarray.store (w.heap a) i x else w.heap b }
    else none
  | setWeights k i weights, w =>
    ((w.m_Layers[k]?).bind (fun L => L.m_Perceptrons[i]?)).bind (fun p =>
      (c_Perceptron.setWeights w.memory weights p).map (fun q =>
        w.onLayer k (fun L => { L with m_Perceptrons := L.m_Perceptrons.set i q })))

/-- The steps that are calls of a public member function of `c_NeuralNetwork`. -/
def isMember : Call α → Bool
  | write _ _ _ => false
  | setWeights _ _ _ => false
  | _ => true

/-- The steps that are a forward or a backward pass. -/
def isPass : Call α → Bool
  | evaluate => true
  | train => true
  | _ => false

/-- The steps that leave the wiring alone: the passes, the two scalar setters, and what
the caller does to its own arrays and to the weights of a unit. -/
def keepsWiring : Call α → Bool
  | setInputs _ => false
  | setTargets _ => false
  | setBias _ => false
  | _ => true

/-- A sequence of steps, first to last; the first fault ends it. -/
def runAll (M : Libm α) : List (Call α) → c_NeuralNetwork α → Option (c_NeuralNetwork α)
  | [], w => some w
  | c :: cs, w => (run M c w).bind (runAll M cs)

end Call

/-! ## What holds of a network built by the constructor -/

/-- The state `_build` on layer `k` has reached when it calls `_connect()`. -/
def c_PerceptronLayer.beforeConnect {α : Type} [CommRing α] [Div α] (k : Nat)
    (w : c_NeuralNetwork α) : c_NeuralNetwork α :=
  c_PerceptronLayer._build_output k
    (c_PerceptronLayer._build_input k (w.onLayer k c_PerceptronLayer._build_resize))

/-- How a unit is bound: its input array, its two error sources, and as many weighted
deltas as weights. -/
structure c_Perceptron.Bound {α : Type} (inputs : Option Ref)
    (target deltaSum : Option (Ref × Nat)) (p : c_Perceptron α) : Prop where
  inputs : p.m_Inputs = inputs
  target : p.m_Target = target
  deltaSum : p.m_WeightedDeltaSum = deltaSum
  deltas : p.m_WeightedDeltas.length = p.m_Weights.length

/-- Layer `k` of a chain with unit counts `sizes` whose first `c` layers are linked to
each other (`_connectLayers` has set the input layer of the layers `1 .. c-1`). -/
structure c_PerceptronLayer.Linked {α : Type} [One α] (sizes : List Nat) (c : Nat)
    (w : c_NeuralNetwork α) (k : Nat) (L : c_PerceptronLayer α) : Prop where
  size : sizes[k]? = some L.m_Size
  units : L.m_Perceptrons.length = L.m_Size
  outputs : L.m_Outputs.length = L.m_Size + (if L.m_Bias then 1 else 0)
  biasSlot : L.m_Bias = true → L.m_Outputs[L.m_Size]? = some 1
  input : L.m_Input = if 0 < k ∧ k < c then some (k - 1) else none
  inputs : L.m_Inputs =
    if k = 0 then some Ref.localInputs else if k < c then some (Ref.outputs (k - 1)) else none
  output : L.m_Output = if k + 1 < c then some (k + 1) else none
  sumsIn : L.m_WeightedDeltaSumsIn = if k + 1 < c then some (Ref.deltaSums (k + 1)) else none
  sumsOut : L.m_WeightedDeltaSumsOut.length = if 0 < k ∧ k < c then sizes.getD (k - 1) 0 else 0
  targets : ∀ t, L.m_Targets = some t →
    k + 1 = sizes.length ∧ ∃ a, t = Ref.caller a ∧ (w.heap a).length = L.m_Size
  unit : ∀ (i : Nat) (p : c_Perceptron α), L.m_Perceptrons[i]? = some p →
    c_Perceptron.Bound L.m_Inputs (L.m_Targets.map (fun t => (t, i)))
      (L.m_WeightedDeltaSumsIn.map (fun d => (d, i))) p

/-- The units of `L` have as many weights as the array they read has elements. -/
def c_PerceptronLayer.Sync {α : Type} (w : c_NeuralNetwork α) (L : c_PerceptronLayer α) :
    Prop :=
  ∀ r, L.m_Inputs = some r → ∀ p ∈ L.m_Perceptrons, p.m_Weights.length = (w.memory r).length

/-- A network of `sizes.length` layers whose first `c` layers are linked. -/
structure c_NeuralNetwork.Linked {α : Type} [One α] (sizes : List Nat) (c : Nat)
    (w : c_NeuralNetwork α) : Prop where
  length : w.m_Layers.length = sizes.length
  size : w.m_Size = sizes.length
  pos : 0 < sizes.length
  bound : sizes.length < 2 ^ 64
  inputs : ∃ a, w.m_Inputs = some (Ref.caller a)
  targets : ∃ a, w.m_Targets = some (Ref.caller a)
  layer : ∀ (k : Nat) (L : c_PerceptronLayer α), w.m_Layers[k]? = some L → c_PerceptronLayer.Linked sizes c w k L

/-- The state of a network between two calls: every layer linked, the bias flag of
every layer but the last equal to the flag of the network, weights as many as inputs,
the local input array as long as the input array plus the bias slot. -/
structure c_NeuralNetwork.Wired {α : Type} [One α] (sizes : List Nat)
    (w : c_NeuralNetwork α) : Prop where
  linked : c_NeuralNetwork.Linked sizes sizes.length w
  bias : ∀ (k : Nat) (L : c_PerceptronLayer α), w.m_Layers[k]? = some L →
    L.m_Bias = (w.m_Bias && decide (k + 1 < sizes.length))
  sync : ∀ (k : Nat) (L : c_PerceptronLayer α), w.m_Layers[k]? = some L → c_PerceptronLayer.Sync w L
  localInputs : ∀ a, w.m_Inputs = some (Ref.caller a) →
    w.m_LocalInputs.length = (w.heap a).length + (if w.m_Bias then 1 else 0)

/-- A layer with another input layer and another bias flag: what `setInput` and
`setBias` assign before they call `_build`. -/
def c_PerceptronLayer.relink {α : Type} (input : Option Nat) (bias : Bool)
    (L : c_PerceptronLayer α) : c_PerceptronLayer α :=
  { L with m_Input := input, m_Bias := bias }

/-- The state `_build` on layer `k` starts from when `setInput` (with input layer
`k - 1`) or `setBias` (with flag `bias`) calls it. -/
def c_PerceptronLayer.buildStart {α : Type} (k : Nat) (bias : Bool) (w : c_NeuralNetwork α) :
    c_NeuralNetwork α :=
  w.onLayer k (c_PerceptronLayer.relink (if 0 < k then some (k - 1) else none) bias)

/-- Layer `k` after `_build` on it, in terms of the layer `L` and its input layer `Lj`
before the call. -/
def c_PerceptronLayer.builtSelf {α : Type} [CommRing α] [Div α] (k : Nat) (bias : Bool)
    (w : c_NeuralNetwork α) (L Lj : c_PerceptronLayer α) : c_PerceptronLayer α :=
  c_PerceptronLayer._connect
    (c_PerceptronLayer.beforeConnect k (c_PerceptronLayer.buildStart k bias w)).memory
    (if 0 < k then
      c_PerceptronLayer.resizeDeltaSumsOut Lj.m_Size
        (c_PerceptronLayer.setInputs
          ((c_PerceptronLayer.buildStart k bias w).onLayer k
            c_PerceptronLayer._build_resize).memory
          (Ref.outputs (k - 1))
          (c_PerceptronLayer._build_resize
            (c_PerceptronLayer.relink (if 0 < k then some (k - 1) else none) bias L)))
    else
      c_PerceptronLayer._build_resize
        (c_PerceptronLayer.relink (if 0 < k then some (k - 1) else none) bias L))

/-- Layer `k - 1` after `_build` on layer `k`, in terms of the layer `Lj` before. -/
def c_PerceptronLayer.builtPrev {α : Type} [CommRing α] [Div α] (k : Nat) (bias : Bool)
    (w : c_NeuralNetwork α) (Lj : c_PerceptronLayer α) : c_PerceptronLayer α :=
  c_PerceptronLayer._setWeightedDeltaSumsIn
    (c_PerceptronLayer._build_input_resize k (k - 1)
      ((c_PerceptronLayer.buildStart k bias w).onLayer k
        c_PerceptronLayer._build_resize)).memory
    (Ref.deltaSums k) (c_PerceptronLayer._setOutput k Lj)

/-- The unit `q` is the unit `p` after a rewiring: the scalars are kept, and the weights
too unless a resize has set every one of them to zero. -/
structure c_Perceptron.Rewired {α : Type} [Zero α] (p q : c_Perceptron α) : Prop where
  sumProducts : q.m_SumProducts = p.m_SumProducts
  output : q.m_Output = p.m_Output
  delta : q.m_Delta = p.m_Delta
  trainRate : q.m_TrainRate = p.m_TrainRate
  actType : q.m_ActType = p.m_ActType
  weights : q.m_Weights = p.m_Weights ∨ q.m_Weights = valarray.resize q.m_Weights.length

/-- The layer `L'` is the layer `L` after `_build` on layer `k` of the chain, `i` being
the index of `L`. -/
structure c_PerceptronLayer.Rebuilt {α : Type} [Zero α] [One α] (k : Nat) (b : Bool) (i : Nat)
    (L L' : c_PerceptronLayer α) : Prop where
  bias : L'.m_Bias = if i = k then b else L.m_Bias
  trainRate : L'.m_TrainRate = L.m_TrainRate
  actType : L'.m_ActType = L.m_ActType
  outputs : L'.m_Outputs =
    if i = k then List.replicate L.m_Size 0 ++ (if b then [1] else []) else L.m_Outputs
  unit : ∀ (u : Nat) (q : c_Perceptron α), L'.m_Perceptrons[u]? = some q →
    ∃ p, L.m_Perceptrons[u]? = some p ∧ c_Perceptron.Rewired p q ∧
      (i ≠ k → q.m_Weights = p.m_Weights ∧ q.m_Inputs = p.m_Inputs)
  sumsIn : L.m_WeightedDeltaSumsIn ≠ none → L'.m_WeightedDeltaSumsIn ≠ none
  targets : L'.m_Targets = L.m_Targets ∨ L'.m_WeightedDeltaSumsIn ≠ none

/-- The layer that `m_Layers.push_back(n)` appends. -/
def c_PerceptronLayer.fresh {α : Type} [CommRing α] [Div α] (n : Nat) : c_PerceptronLayer α :=
  c_PerceptronLayer._build_resize (c_PerceptronLayer.init n)

/-- A unit that has not been seeded, evaluated or trained: zero weights and scalars. -/
structure c_Perceptron.Blank {α : Type} [Zero α] (p : c_Perceptron α) : Prop where
  weights : p.m_Weights = valarray.resize p.m_Weights.length
  sumProducts : p.m_SumProducts = 0
  output : p.m_Output = 0
  delta : p.m_Delta = 0

/-- A network whose units are all blank and whose output slots are all zero. -/
def c_NeuralNetwork.Blank {α : Type} [Zero α] (w : c_NeuralNetwork α) : Prop :=
  ∀ (k : Nat) (L : c_PerceptronLayer α), w.m_Layers[k]? = some L →
    L.m_Outputs.take L.m_Size = List.replicate L.m_Size 0 ∧
    ∀ p ∈ L.m_Perceptrons, c_Perceptron.Blank p

/-- The state while the constructor runs `_build`: the first `c` layers linked, every
layer with the bias flag of a new layer, every unit blank, no local inputs yet. -/
structure c_NeuralNetwork.Chained {α : Type} [Zero α] [One α] (sizes : List Nat) (c : Nat)
    (heap : Nat → List α) (a t : Nat) (w : c_NeuralNetwork α) : Prop where
  linked : c_NeuralNetwork.Linked sizes c w
  bias : ∀ (k : Nat) (L : c_PerceptronLayer α), w.m_Layers[k]? = some L → L.m_Bias = true
  blank : c_NeuralNetwork.Blank w
  target : ∀ L : c_PerceptronLayer α, w.m_Layers[sizes.length - 1]? = some L →
    (heap t).length = L.m_Size → L.m_Targets = some (Ref.caller t)
  untarget : ∀ L : c_PerceptronLayer α, w.m_Layers[sizes.length - 1]? = some L →
    (heap t).length ≠ L.m_Size → L.m_Targets = none
  heap : w.heap = heap
  localInputs : w.m_LocalInputs = []
  inputs : w.m_Inputs = some (Ref.caller a)
  targets : w.m_Targets = some (Ref.caller t)

/-- What `c_PerceptronLayer::setBias` does to a fully linked chain. -/
structure c_PerceptronLayer.BiasStep {α : Type} [Zero α] [One α] (sizes : List Nat) (k : Nat) (b : Bool)
    (w v : c_NeuralNetwork α) : Prop where
  linked : c_NeuralNetwork.Linked sizes sizes.length v
  m_Bias : v.m_Bias = w.m_Bias
  localInputs : v.m_LocalInputs = w.m_LocalInputs
  heap : v.heap = w.heap
  inputs : v.m_Inputs = w.m_Inputs
  targets : v.m_Targets = w.m_Targets
  trainRate : v.m_TrainRate = w.m_TrainRate
  actType : v.m_ActType = w.m_ActType
  rebuilt : ∀ (i : Nat) (L' : c_PerceptronLayer α), v.m_Layers[i]? = some L' →
    ∃ L, w.m_Layers[i]? = some L ∧ c_PerceptronLayer.Rebuilt k b i L L'
  sync : ∀ L' : c_PerceptronLayer α, v.m_Layers[k]? = some L' → c_PerceptronLayer.Sync v L'
  syncOther : ∀ (i : Nat) (L L' : c_PerceptronLayer α), i ≠ k → i ≠ k + 1 →
    w.m_Layers[i]? = some L → v.m_Layers[i]? = some L' →
    c_PerceptronLayer.Sync w L → c_PerceptronLayer.Sync v L'


/-- The layer `L'` is the layer `L` after a rewiring: same size, rate and activation,
output slots kept or all reset to zero, every unit rewired, the target array kept
unless the layer has got a following layer to take its error sums from. -/
structure c_PerceptronLayer.Rewired {α : Type} [Zero α] (L L' : c_PerceptronLayer α) :
    Prop where
  size : L'.m_Size = L.m_Size
  trainRate : L'.m_TrainRate = L.m_TrainRate
  actType : L'.m_ActType = L.m_ActType
  outputs : L'.m_Outputs.take L'.m_Size = L.m_Outputs.take L.m_Size ∨
    L'.m_Outputs.take L'.m_Size = List.replicate L'.m_Size 0
  unit : ∀ (u : Nat) (q : c_Perceptron α), L'.m_Perceptrons[u]? = some q →
    ∃ p, L.m_Perceptrons[u]? = some p ∧ c_Perceptron.Rewired p q
  sumsIn : L.m_WeightedDeltaSumsIn ≠ none → L'.m_WeightedDeltaSumsIn ≠ none
  targets : L'.m_Targets = L.m_Targets ∨ L'.m_WeightedDeltaSumsIn ≠ none

/-- The network `v` is the network `w` after a rewiring (`setBias`, `setInputs`,
`setTargets`): the caller's arrays, the rate and the activation are kept, every layer
is rewired. -/
structure c_NeuralNetwork.Rewired {α : Type} [Zero α] (w v : c_NeuralNetwork α) : Prop where
  heap : v.heap = w.heap
  trainRate : v.m_TrainRate = w.m_TrainRate
  actType : v.m_ActType = w.m_ActType
  layer : ∀ (i : Nat) (L' : c_PerceptronLayer α), v.m_Layers[i]? = some L' →
    ∃ L, w.m_Layers[i]? = some L ∧ c_PerceptronLayer.Rewired L L'

/-- The state in the loop of `c_NeuralNetwork::setBias(b)`, the first `d` layers done. -/
structure c_NeuralNetwork.BiasLoop {α : Type} [Zero α] [One α] (sizes : List Nat) (b : Bool)
    (w : c_NeuralNetwork α) (d : Nat) (v : c_NeuralNetwork α) : Prop where
  linked : c_NeuralNetwork.Linked sizes sizes.length v
  m_Bias : v.m_Bias = b
  localInputs : v.m_LocalInputs = w.m_LocalInputs
  inputs : v.m_Inputs = w.m_Inputs
  targets : v.m_Targets = w.m_Targets
  rewired : c_NeuralNetwork.Rewired w v
  bias : ∀ (k : Nat) (L : c_PerceptronLayer α), k < d → v.m_Layers[k]? = some L →
    L.m_Bias = (b && decide (k + 1 < sizes.length))
  sync : ∀ (k : Nat) (L : c_PerceptronLayer α), 1 ≤ k → k < d → v.m_Layers[k]? = some L →
    c_PerceptronLayer.Sync v L

/-- The unit `q` is wired as the unit `p` is: same pointers, as many weights, and as many
weighted deltas as weights. -/
structure c_Perceptron.SameShape {α : Type} (p q : c_Perceptron α) : Prop where
  inputs : q.m_Inputs = p.m_Inputs
  target : q.m_Target = p.m_Target
  deltaSum : q.m_WeightedDeltaSum = p.m_WeightedDeltaSum
  weights : q.m_Weights.length = p.m_Weights.length
  deltas : q.m_WeightedDeltas.length = q.m_Weights.length

/-- The layer `L'` is wired as the layer `L` is: same pointers, flag and size, arrays of
the same lengths, the bias slot kept, every unit wired as before. -/
structure c_PerceptronLayer.SameShape {α : Type} (L L' : c_PerceptronLayer α) : Prop where
  inputs : L'.m_Inputs = L.m_Inputs
  targets : L'.m_Targets = L.m_Targets
  sumsIn : L'.m_WeightedDeltaSumsIn = L.m_WeightedDeltaSumsIn
  input : L'.m_Input = L.m_Input
  output : L'.m_Output = L.m_Output
  bias : L'.m_Bias = L.m_Bias
  size : L'.m_Size = L.m_Size
  outputs : L'.m_Outputs.length = L.m_Outputs.length
  biasSlot : L'.m_Outputs[L.m_Size]? = L.m_Outputs[L.m_Size]?
  sumsOut : L'.m_WeightedDeltaSumsOut.length = L.m_WeightedDeltaSumsOut.length
  units : L'.m_Perceptrons.length = L.m_Perceptrons.length
  unit : ∀ (u : Nat) (q : c_Perceptron α), L'.m_Perceptrons[u]? = some q →
    ∃ p, L.m_Perceptrons[u]? = some p ∧ c_Perceptron.SameShape p q

/-- The network `v` is wired as the network `w` is. -/
structure c_NeuralNetwork.SameShape {α : Type} (w v : c_NeuralNetwork α) : Prop where
  heap : ∀ a, (v.heap a).length = (w.heap a).length
  inputs : v.m_Inputs = w.m_Inputs
  targets : v.m_Targets = w.m_Targets
  localInputs : v.m_LocalInputs.length = w.m_LocalInputs.length
  bias : v.m_Bias = w.m_Bias
  size : v.m_Size = w.m_Size
  layers : v.m_Layers.length = w.m_Layers.length
  layer : ∀ (i : Nat) (L' : c_PerceptronLayer α), v.m_Layers[i]? = some L' →
    ∃ L, w.m_Layers[i]? = some L ∧ c_PerceptronLayer.SameShape L L'

/-- What the constructor leaves: a wired network of blank units with the given flag,
rate and activation, bound to the caller's input array and, if that has as many
entries as the last layer has units, to the caller's target array (to no target array
otherwise). -/
structure c_NeuralNetwork.Constructed {α : Type} [Zero α] [One α] (sizes : List Nat)
    (mem : Nat → List α) (a t : Nat) (actType : e_Activation) (trainRate : α) (bias : Bool)
    (w : c_NeuralNetwork α) : Prop where
  wired : c_NeuralNetwork.Wired sizes w
  blank : c_NeuralNetwork.Blank w
  m_Bias : w.m_Bias = bias
  heap : w.heap = mem
  inputs : w.m_Inputs = some (Ref.caller a)
  targets : w.m_Targets = some (Ref.caller t)
  unit : ∀ (k : Nat) (L : c_PerceptronLayer α), w.m_Layers[k]? = some L →
    ∀ p ∈ L.m_Perceptrons, p.m_ActType = actType ∧ p.m_TrainRate = trainRate
  target : ∀ L : c_PerceptronLayer α, w.m_Layers[sizes.length - 1]? = some L →
    (mem t).length = L.m_Size → L.m_Targets = some (Ref.caller t)
  untarget : ∀ L : c_PerceptronLayer α, w.m_Layers[sizes.length - 1]? = some L →
    (mem t).length ≠ L.m_Size → L.m_Targets = none

/-- The members of a network that a pass over its layers leaves alone. -/
structure c_NeuralNetwork.Frame {α : Type} (w v : c_NeuralNetwork α) : Prop where
  heap : v.heap = w.heap
  inputs : v.m_Inputs = w.m_Inputs
  targets : v.m_Targets = w.m_Targets
  bias : v.m_Bias = w.m_Bias
  size : v.m_Size = w.m_Size
  trainRate : v.m_TrainRate = w.m_TrainRate
  actType : v.m_ActType = w.m_ActType
  layers : v.m_Layers.length = w.m_Layers.length

/-- The network, every layer of it and every unit of every layer hold the training rate
`r` and the kind of activation `k`. -/
structure c_NeuralNetwork.Uniform {α : Type} (r : α) (k : e_Activation)
    (w : c_NeuralNetwork α) : Prop where
  trainRate : w.m_TrainRate = r
  actType : w.m_ActType = k
  layer : ∀ (i : Nat) (L : c_PerceptronLayer α), w.m_Layers[i]? = some L →
    L.m_TrainRate = r ∧ L.m_ActType = k ∧
    ∀ (u : Nat) (p : c_Perceptron α), L.m_Perceptrons[u]? = some p →
      p.m_TrainRate = r ∧ p.m_ActType = k

/-- The last layer of the network is bound to a target array of the caller, and to the
one the network points to if that has as many elements as the layer has units. -/
structure c_NeuralNetwork.Targeted {α : Type} (sizes : List Nat) (w : c_NeuralNetwork α) :
    Prop where
  bound : ∀ L : c_PerceptronLayer α, w.m_Layers[sizes.length - 1]? = some L →
    ∃ t, L.m_Targets = some (Ref.caller t)
  current : ∀ (L : c_PerceptronLayer α) (t : Nat), w.m_Layers[sizes.length - 1]? = some L →
    w.m_Targets = some (Ref.caller t) → (w.heap t).length = L.m_Size →
    L.m_Targets = some (Ref.caller t)

/-- The last layer of the network is bound to no target array, and the delta of every
unit is zero. -/
structure c_NeuralNetwork.Quiet {α : Type} [Zero α] (sizes : List Nat)
    (w : c_NeuralNetwork α) : Prop where
  untargeted : ∀ L : c_PerceptronLayer α, w.m_Layers[sizes.length - 1]? = some L →
    L.m_Targets = none
  delta : ∀ (k : Nat) (L : c_PerceptronLayer α), w.m_Layers[k]? = some L →
    ∀ p ∈ L.m_Perceptrons, p.m_Delta = 0

/-- The state of a copy `v` of the network `w` while `_connect` runs in the copy
constructor: every layer linked, the scalars of `w`, an empty local input array, and no
weight in the first layer. -/
structure c_NeuralNetwork.Unfed {α : Type} [One α] (sizes : List Nat)
    (w v : c_NeuralNetwork α) : Prop where
  linked : c_NeuralNetwork.Linked sizes sizes.length v
  localInputs : v.m_LocalInputs = []
  bias : v.m_Bias = w.m_Bias
  trainRate : v.m_TrainRate = w.m_TrainRate
  actType : v.m_ActType = w.m_ActType
  first : ∀ L : c_PerceptronLayer α, v.m_Layers[0]? = some L →
    ∀ p ∈ L.m_Perceptrons, p.m_Weights = []

/-! ## Closed forms of the two passes over a layer

Compared with the loops of the source in the section on the passes below. -/

/-- Closed form of `c_PerceptronLayer::evaluate`: every unit is evaluated on the memory
`mem`, and its output is stored in its slot of the output array. -/
def c_PerceptronLayer.evaluated {α : Type} [CommRing α] [Div α] (M : Libm α) (mem : Memory α)
    (L : c_PerceptronLayer α) : c_PerceptronLayer α :=
  { L with
    m_Perceptrons := L.m_Perceptrons.map (fun p => (c_Perceptron.evaluate M mem p).2)
    m_Outputs :=
      L.m_Perceptrons.map (fun p => (c_Perceptron.evaluate M mem p).2.m_Output)
        ++ L.m_Outputs.drop L.m_Size }

/-- Closed form of `c_PerceptronLayer::train`: every unit is trained on the memory `mem`,
and the weighted deltas of the units are added up, unit by unit, from zero. -/
def c_PerceptronLayer.trained {α : Type} [CommRing α] [Div α] (M : Libm α) (mem : Memory α)
    (L : c_PerceptronLayer α) : c_PerceptronLayer α :=
  { L with
    m_Perceptrons := L.m_Perceptrons.map (fun p => (c_Perceptron.train M mem p).2)
    m_WeightedDeltaSumsOut :=
      (L.m_Perceptrons.map (fun p => (c_Perceptron.train M mem p).2.m_WeightedDeltas)).foldl
        valarray.addAssign (valarray.fill L.m_WeightedDeltaSumsOut 0) }

/-! ## The caller of a unit or of a layer -/

/-- One call of one of the two setters of the error source of a unit. -/
inductive c_Perceptron.Bind where
  | setTarget (target : Ref × Nat)
  | setWeightedDeltaSum (weightedDeltaSum : Ref × Nat)

/-- The effect of one such call. -/
def c_Perceptron.Bind.run {α : Type} : c_Perceptron.Bind → c_Perceptron α → c_Perceptron α
  | c_Perceptron.Bind.setTarget t, p => c_Perceptron.setTarget t p
  | c_Perceptron.Bind.setWeightedDeltaSum d, p => c_Perceptron.setWeightedDeltaSum d p

/-- A sequence of such calls, first to last. -/
def c_Perceptron.Bind.runAll {α : Type} (calls : List c_Perceptron.Bind) (p : c_Perceptron α) :
    c_Perceptron α :=
  calls.foldl (fun q c => c.run q) p

/-- One call of one of the two setters of the error source of a layer. -/
inductive c_PerceptronLayer.Bind where
  | setTargets (targets : Ref)
  | _setWeightedDeltaSumsIn (weightedDeltaSums : Ref)

/-- The effect of one such call, the arrays being as in `mem`. -/
def c_PerceptronLayer.Bind.run {α : Type} [CommRing α] [Div α] (mem : Memory α) :
    c_PerceptronLayer.Bind → c_PerceptronLayer α → c_PerceptronLayer α
  | c_PerceptronLayer.Bind.setTargets r, L => c_PerceptronLayer.setTargets mem r L
  | c_PerceptronLayer.Bind._setWeightedDeltaSumsIn r, L =>
    c_PerceptronLayer._setWeightedDeltaSumsIn mem r L

/-- A sequence of such calls, first to last. -/
def c_PerceptronLayer.Bind.runAll {α : Type} [CommRing α] [Div α] (mem : Memory α)
    (calls : List c_PerceptronLayer.Bind) (L : c_PerceptronLayer α) : c_PerceptronLayer α :=
  calls.foldl (fun K c => c.run mem K) L

/-! ## The words of the specification, and concrete runs -/

/-- The activation function as the specification words it: `tanh(s / 2)` for the tanh
kind, `1 / (1 + exp(-s))` for the sigmoid kind, `s` for any other kind. -/
def spec_activation {α : Type} [CommRing α] [Div α] (M : Libm α) (kind : e_Activation)
    (s : α) : α :=
  match kind with
  | e_Activation.ACT_TANH => M.tanh (s / 2)
  | e_Activation.ACT_SIGMOID => 1 / (1 + M.exp (-s))
  | e_Activation.ACT_OTHER => s

/-- The effective input of layer `k` as the specification words it: for the first layer
the external input, followed by `1` when the bias is on; for a later layer the output
buffer of the layer before it. -/
def spec_effective_input {α : Type} [One α] (w : c_NeuralNetwork α) : Nat → List α
  | 0 =>
    match w.m_Inputs with
    | some r => w.memory r ++ (if w.m_Bias then [1] else [])
    | none => []
  | k + 1 => w.memory (Ref.outputs k)

/-- The training rate set most recently, one step on: the argument of the step if it is
`setTrainRate`, the rate before it otherwise. -/
def spec_rate_after {α : Type} (r : α) : Call α → α
  | Call.setTrainRate x => x
  | _ => r

/-- The kind of activation set most recently, one step on. -/
def spec_kind_after {α : Type} (k : e_Activation) : Call α → e_Activation
  | Call.setActivation x => x
  | _ => k

/-- The training rate set most recently, after the constructor (which sets `r`) and the
steps `cs`. -/
def spec_last_rate {α : Type} (r : α) (cs : List (Call α)) : α :=
  cs.foldl spec_rate_after r

/-- The kind of activation set most recently, after the constructor (which sets `k`) and
the steps `cs`. -/
def spec_last_kind {α : Type} (k : e_Activation) (cs : List (Call α)) : e_Activation :=
  cs.foldl spec_kind_after k

/-- A `<cmath>` over the integers for the concrete runs: every function is the identity;
the runs use the identity kind of activation, which calls none of them. -/
def exampleLibm : Libm ℤ := ⟨id, id, id⟩

/-- The arrays of the caller in the concrete runs: the input `[2, 3]` at address 0, the
target `[1]` at address 1. -/
def exampleHeap : Nat → List ℤ
  | 0 => [2, 3]
  | 1 => [1]
  | _ => []

/-- A run: unit counts `[2, 1]`, identity kind, rate 1, bias on; then `setBias(false)`,
`evaluate()`, `train()`. -/
def exampleChainRun : Option (c_NeuralNetwork ℤ) :=
  (c_NeuralNetwork.construct exampleHeap (Ref.caller 0) (Ref.caller 1) [2, 1]
    e_Activation.ACT_OTHER 1 true).bind
    (Call.runAll exampleLibm [Call.setBias false, Call.evaluate, Call.train])

/-- The state that run ends in. -/
def exampleChain : c_NeuralNetwork ℤ := exampleChainRun.get rfl

/-- A run: unit counts `[2, 1]`, identity kind, rate 1, bias on; then `evaluate()`,
`train()`, `evaluate()`. -/
def exampleBiasRun : Option (c_NeuralNetwork ℤ) :=
  (c_NeuralNetwork.construct exampleHeap (Ref.caller 0) (Ref.caller 1) [2, 1]
    e_Activation.ACT_OTHER 1 true).bind
    (Call.runAll exampleLibm [Call.evaluate, Call.train, Call.evaluate])

/-- A run: unit counts `[1, 1]`, identity kind, rate 1, bias on; no call after the
constructor. -/
def examplePairRun : Option (c_NeuralNetwork ℤ) :=
  (c_NeuralNetwork.construct exampleHeap (Ref.caller 0) (Ref.caller 1) [1, 1]
    e_Activation.ACT_OTHER 1 true).bind (Call.runAll exampleLibm [])

/-- The state that run ends in. -/
def examplePair : c_NeuralNetwork ℤ := examplePairRun.get rfl

/-- A run: unit counts `[1, 1]`, bias on; then `setBias(false)` on the first layer alone,
through `net[0]`. -/
def exampleLayerBiasRun : Option (c_NeuralNetwork ℤ) :=
  (c_NeuralNetwork.construct exampleHeap (Ref.caller 0) (Ref.caller 1) [1, 1]
    e_Activation.ACT_OTHER 1 true).bind
    (c_NeuralNetwork.atLayer 0 (fun k => c_PerceptronLayer.setBias k false))

/-- The state that run ends in. -/
def exampleLayerBias : c_NeuralNetwork ℤ := exampleLayerBiasRun.get rfl

/-- A run: unit counts `[2, 1]`, identity kind, rate 1, bias on; the weights of the two
units of the first layer are set to `[1, 1, 1]` and `[1, 0, 2]`, those of the unit of the
last layer to `[1, 2, 3]`; then `evaluate()`. -/
def exampleSeededRun : Option (c_NeuralNetwork ℤ) :=
  (c_NeuralNetwork.construct exampleHeap (Ref.caller 0) (Ref.caller 1) [2, 1]
    e_Activation.ACT_OTHER 1 true).bind
    (Call.runAll exampleLibm
      [Call.setWeights 0 0 [1, 1, 1], Call.setWeights 0 1 [1, 0, 2],
        Call.setWeights 1 0 [1, 2, 3], Call.evaluate])

/-- The state that run ends in. -/
def exampleSeeded : c_NeuralNetwork ℤ := exampleSeededRun.get rfl

/-- A run: one layer of one unit, identity kind, rate 0, bias off, the input `[2, 3]`;
the weights of the unit are set to `[1, 1]`. -/
def exampleSingleRun : Option (c_NeuralNetwork ℤ) :=
  (c_NeuralNetwork.construct exampleHeap (Ref.caller 0) (Ref.caller 1) [1]
    e_Activation.ACT_OTHER 0 false).bind
    (Call.runAll exampleLibm [Call.setWeights 0 0 [1, 1]])

/-- The state that run ends in. -/
def exampleSingle : c_NeuralNetwork ℤ := exampleSingleRun.get rfl

/-- A run: unit counts `[2, 1]`, identity kind, rate 1, bias on; the weights of the two
units of the first layer are set to `[1, 1, 1]` and `[1, 0, 2]`, those of the unit of the
last layer to `[1, 2, 3]`; no pass yet. -/
def exampleWeightedRun : Option (c_NeuralNetwork ℤ) :=
  (c_NeuralNetwork.construct exampleHeap (Ref.caller 0) (Ref.caller 1) [2, 1]
    e_Activation.ACT_OTHER 1 true).bind
    (Call.runAll exampleLibm
      [Call.setWeights 0 0 [1, 1, 1], Call.setWeights 0 1 [1, 0, 2],
        Call.setWeights 1 0 [1, 2, 3]])

/-- The state that run ends in. -/
def exampleWeighted : c_NeuralNetwork ℤ := exampleWeightedRun.get rfl

/-- A run: unit counts `[2, 1]`, tanh kind, rate 1, bias on; then `setTrainRate(3)`,
`evaluate()`, `setActivation` to the identity kind, `setBias(false)`, `train()`,
`setTrainRate(5)`. -/
def exampleConfigRun : Option (c_NeuralNetwork ℤ) :=
  (c_NeuralNetwork.construct exampleHeap (Ref.caller 0) (Ref.caller 1) [2, 1]
    e_Activation.ACT_TANH 1 true).bind
    (Call.runAll exampleLibm
      [Call.setTrainRate 3, Call.evaluate, Call.setActivation e_Activation.ACT_OTHER,
        Call.setBias false, Call.train, Call.setTrainRate 5])

/-- The state that run ends in. -/
def exampleConfig : c_NeuralNetwork ℤ := exampleConfigRun.get rfl

/-- A run: unit counts `[2, 1]`, identity kind, rate 1, bias on; then `setBias(false)`,
`setInputs` with the array at address 0, `setTargets` with the array at address 1,
`setBias(true)`. -/
def exampleTargetRun : Option (c_NeuralNetwork ℤ) :=
  (c_NeuralNetwork.construct exampleHeap (Ref.caller 0) (Ref.caller 1) [2, 1]
    e_Activation.ACT_OTHER 1 true).bind
    (Call.runAll exampleLibm
      [Call.setBias false, Call.setInputs 0, Call.setTargets 1, Call.setBias true])

/-- The state that run ends in. -/
def exampleTarget : c_NeuralNetwork ℤ := exampleTargetRun.get rfl

/-- A run: unit counts `[2, 1]`, identity kind, rate 1, bias on, the input `[2, 3]` and
the target `[1]`; `train()` right after the constructor. -/
def exampleFreshRun : Option (c_NeuralNetwork ℤ) :=
  (c_NeuralNetwork.construct exampleHeap (Ref.caller 0) (Ref.caller 1) [2, 1]
    e_Activation.ACT_OTHER 1 true).bind (c_NeuralNetwork.train exampleLibm)

/-- A run: unit counts `[2, 1]`, identity kind, rate 1, bias on; then `setInputs`,
`setTargets`, `setBias(false)`, `setTrainRate(2)`, `setActivation`, `evaluate()`,
`train()` and `setBias(true)`. -/
def exampleShapeRun : Option (c_NeuralNetwork ℤ) :=
  (c_NeuralNetwork.construct exampleHeap (Ref.caller 0) (Ref.caller 1) [2, 1]
    e_Activation.ACT_OTHER 1 true).bind
    (Call.runAll exampleLibm
      [Call.setInputs 0, Call.setTargets 1, Call.setBias false, Call.setTrainRate 2,
        Call.setActivation e_Activation.ACT_OTHER, Call.evaluate, Call.train,
        Call.setBias true])

/-- A run: unit counts `[2, 1]`, identity kind, rate 1, bias on, the array `[2, 3]` at
address 0 given as the input and as the target (two elements for a last layer of one
unit); the weights are set to `[1, 1, 1]`, `[1, 0, 2]` and `[1, 2, 3]`; then
`evaluate()`. -/
def exampleDeafRun : Option (c_NeuralNetwork ℤ) :=
  (c_NeuralNetwork.construct exampleHeap (Ref.caller 0) (Ref.caller 0) [2, 1]
    e_Activation.ACT_OTHER 1 true).bind
    (Call.runAll exampleLibm
      [Call.setWeights 0 0 [1, 1, 1], Call.setWeights 0 1 [1, 0, 2],
        Call.setWeights 1 0 [1, 2, 3], Call.evaluate])

/-- The state that run ends in. -/
def exampleDeaf : c_NeuralNetwork ℤ := exampleDeafRun.get rfl

/-! # Theorems -/

set_option linter.unusedSectionVars false
set_option linter.unusedVariables false

/-! ## Loops and nested updates -/

section basics

variable {α : Type}

theorem forLoop_modify_getElem? {β : Type} (f : Nat → β → β) (n lo : Nat) (l : List β)
    (j : Nat) :
    (forLoop (fun i ps => List.modify (f i) i ps) lo n l)[j]? =
      if lo ≤ j ∧ j < lo + n then (l[j]?).map (f j) else l[j]? := by
  induction n generalizing lo l with
  | zero =>
    have h : ¬ (lo ≤ j ∧ j < lo) := by omega
    simp [forLoop, h]
  | succ n ih =>
    rw [forLoop, ih, List.getElem?_modify]
    by_cases h1 : lo = j
    · subst h1
      simp
    · by_cases h2 : lo + 1 ≤ j ∧ j < lo + 1 + n
      · have h3 : lo ≤ j ∧ j < lo + (n + 1) := by omega
        simp [h1, h2, h3]
      · have h3 : ¬ (lo ≤ j ∧ j < lo + (n + 1)) := by omega
        simp [h1, h2, h3]

theorem forLoop_modify_length {β : Type} (f : Nat → β → β) (n lo : Nat) (l : List β) :
    (forLoop (fun i ps => List.modify (f i) i ps) lo n l).length = l.length := by
  induction n generalizing lo l with
  | zero => simp [forLoop]
  | succ n ih => rw [forLoop, ih, List.length_modify]

/-- A loop over `[0, n)` that updates slot `i` by `f i`, seen slot by slot. -/
theorem forEach_getElem? {β : Type} (f : Nat → β → β) (n : Nat) (l : List β) (j : Nat) :
    (forEach f n l)[j]? = if j < n then (l[j]?).map (f j) else l[j]? := by
  unfold forEach
  rw [forLoop_modify_getElem?]
  simp

@[simp] theorem forEach_length {β : Type} (f : Nat → β → β) (n : Nat) (l : List β) :
    (forEach f n l).length = l.length := by
  unfold forEach
  exact forLoop_modify_length f n 0 l

theorem forLoopM_some {σ : Type} (body : Nat → σ → Option σ) (P : Nat → σ → Prop) (n : Nat) :
    ∀ (lo : Nat) (s : σ), P lo s →
      (∀ i t, lo ≤ i → i < lo + n → P i t → ∃ u, body i t = some u ∧ P (i + 1) u) →
      ∃ u, forLoopM body lo n s = some u ∧ P (lo + n) u := by
  induction n with
  | zero => intro lo s h _; exact ⟨s, rfl, h⟩
  | succ n ih =>
    intro lo s h hstep
    obtain ⟨u, hu, hP⟩ := hstep lo s (Nat.le_refl _) (by omega) h
    obtain ⟨v, hv, hQ⟩ := ih (lo + 1) u hP (fun i t h1 h2 h3 => hstep i t (by omega) (by omega) h3)
    refine ⟨v, ?_, ?_⟩
    · simp [forLoopM, hu, hv]
    · have : lo + (n + 1) = lo + 1 + n := by omega
      rw [this]; exact hQ

theorem forLoop_inv {σ : Type} (body : Nat → σ → σ) (P : Nat → σ → Prop) (n : Nat) :
    ∀ (lo : Nat) (s : σ), P lo s →
      (∀ i t, lo ≤ i → i < lo + n → P i t → P (i + 1) (body i t)) →
      P (lo + n) (forLoop body lo n s) := by
  induction n with
  | zero => intro lo s h _; exact h
  | succ n ih =>
    intro lo s h hstep
    have h1 := hstep lo s (Nat.le_refl _) (by omega) h
    have h2 := ih (lo + 1) (body lo s) h1 (fun i t h1 h2 h3 => hstep i t (by omega) (by omega) h3)
    have : lo + (n + 1) = lo + 1 + n := by omega
    rw [this]; exact h2

theorem forLoopDownM_some {σ : Type} (body : Nat → σ → Option σ) (P : Nat → σ → Prop) (n : Nat) :
    ∀ (s : σ), P n s →
      (∀ i t, i < n → P (i + 1) t → ∃ u, body i t = some u ∧ P i u) →
      ∃ u, forLoopDownM body n s = some u ∧ P 0 u := by
  induction n with
  | zero => intro s h _; exact ⟨s, rfl, h⟩
  | succ n ih =>
    intro s h hstep
    obtain ⟨u, hu, hP⟩ := hstep n s (by omega) h
    obtain ⟨v, hv, hQ⟩ := ih u hP (fun i t h1 h2 => hstep i t (by omega) h2)
    exact ⟨v, by simp [forLoopDownM, hu, hv], hQ⟩

theorem size_t_sub_one (n : Nat) (h0 : 0 < n) (h : n < 2 ^ 64) : size_t_sub n 1 = n - 1 := by
  unfold size_t_sub
  have : (1 : Nat) % 2 ^ 64 = 1 := by norm_num
  rw [this]
  have h2 : n + 2 ^ 64 - 1 = (n - 1) + 2 ^ 64 := by omega
  rw [h2, Nat.add_mod_right]
  exact Nat.mod_eq_of_lt (by omega)

@[simp] theorem c_NeuralNetwork.onLayer_getElem? (w : c_NeuralNetwork α) (k j : Nat)
    (f : c_PerceptronLayer α → c_PerceptronLayer α) :
    (w.onLayer k f).m_Layers[j]? =
      if k = j then (w.m_Layers[j]?).map f else w.m_Layers[j]? := by
  simp only [c_NeuralNetwork.onLayer, List.getElem?_modify]
  by_cases h : k = j
  · simp [h]
  · cases w.m_Layers[j]? <;> simp [h]

/-- What `onLayer` leaves alone. -/
@[simp] theorem c_NeuralNetwork.frame_onLayer (w : c_NeuralNetwork α) (k : Nat)
    (f : c_PerceptronLayer α → c_PerceptronLayer α) :
    (w.onLayer k f).m_Layers.length = w.m_Layers.length ∧
    (w.onLayer k f).heap = w.heap ∧
    (w.onLayer k f).m_Inputs = w.m_Inputs ∧
    (w.onLayer k f).m_Targets = w.m_Targets ∧
    (w.onLayer k f).m_LocalInputs = w.m_LocalInputs ∧
    (w.onLayer k f).m_Bias = w.m_Bias ∧
    (w.onLayer k f).m_Size = w.m_Size ∧
    (w.onLayer k f).m_TrainRate = w.m_TrainRate ∧
    (w.onLayer k f).m_ActType = w.m_ActType := by
  simp [c_NeuralNetwork.onLayer]

theorem c_NeuralNetwork.memory_caller (w : c_NeuralNetwork α) (a : Nat) :
    w.memory (Ref.caller a) = w.heap a := rfl

theorem c_NeuralNetwork.memory_localInputs (w : c_NeuralNetwork α) :
    w.memory Ref.localInputs = w.m_LocalInputs := rfl

theorem c_NeuralNetwork.memory_outputs (w : c_NeuralNetwork α) (k : Nat)
    (L : c_PerceptronLayer α) (h : w.m_Layers[k]? = some L) :
    w.memory (Ref.outputs k) = L.m_Outputs := by
  simp [c_NeuralNetwork.memory, h]

theorem c_NeuralNetwork.memory_deltaSums (w : c_NeuralNetwork α) (k : Nat)
    (L : c_PerceptronLayer α) (h : w.m_Layers[k]? = some L) :
    w.memory (Ref.deltaSums k) = L.m_WeightedDeltaSumsOut := by
  simp [c_NeuralNetwork.memory, h]

/-- Two states with the same caller arrays, the same local inputs and, layer by layer,
the same output and delta-sum arrays have the same memory. -/
theorem c_NeuralNetwork.memory_congr (w v : c_NeuralNetwork α) (hh : v.heap = w.heap)
    (hl : v.m_LocalInputs = w.m_LocalInputs)
    (ho : ∀ k : Nat, (v.m_Layers[k]?).map (fun L : c_PerceptronLayer α => L.m_Outputs)
      = (w.m_Layers[k]?).map (fun L : c_PerceptronLayer α => L.m_Outputs))
    (hd : ∀ k : Nat, (v.m_Layers[k]?).map (fun L : c_PerceptronLayer α => L.m_WeightedDeltaSumsOut)
      = (w.m_Layers[k]?).map (fun L : c_PerceptronLayer α => L.m_WeightedDeltaSumsOut)) :
    v.memory = w.memory := by
  funext r
  cases r with
  | caller a => simp [c_NeuralNetwork.memory, hh]
  | localInputs => simp [c_NeuralNetwork.memory, hl]
  | outputs k =>
    have := ho k
    simp only [c_NeuralNetwork.memory]
    cases h1 : v.m_Layers[k]? <;> cases h2 : w.m_Layers[k]? <;> simp_all
  | deltaSums k =>
    have := hd k
    simp only [c_NeuralNetwork.memory]
    cases h1 : v.m_Layers[k]? <;> cases h2 : w.m_Layers[k]? <;> simp_all

/-- An update of layer `k` that keeps its two arrays keeps the memory. -/
theorem c_NeuralNetwork.memory_onLayer (w : c_NeuralNetwork α) (k : Nat)
    (f : c_PerceptronLayer α → c_PerceptronLayer α)
    (ho : ∀ L, (f L).m_Outputs = L.m_Outputs)
    (hd : ∀ L, (f L).m_WeightedDeltaSumsOut = L.m_WeightedDeltaSumsOut) :
    (w.onLayer k f).memory = w.memory := by
  apply c_NeuralNetwork.memory_congr
  · simp
  · simp
  · intro j
    by_cases h : k = j
    · cases h2 : w.m_Layers[j]? <;> simp [h, h2, ho]
    · simp [h]
  · intro j
    by_cases h : k = j
    · cases h2 : w.m_Layers[j]? <;> simp [h, h2, hd]
    · simp [h]

end basics

/-! ## Which members a member function of a layer leaves alone -/

section layer_fields

variable {α : Type} [CommRing α] [Div α]

/-- Members that `_connectInputs` leaves alone. -/
@[simp] theorem c_PerceptronLayer.frame_connectInputs (mem : Memory α) (L : c_PerceptronLayer α) :
    (c_PerceptronLayer._connectInputs mem L).m_Inputs = L.m_Inputs ∧
    (c_PerceptronLayer._connectInputs mem L).m_Targets = L.m_Targets ∧
    (c_PerceptronLayer._connectInputs mem L).m_WeightedDeltaSumsIn = L.m_WeightedDeltaSumsIn ∧
    (c_PerceptronLayer._connectInputs mem L).m_Input = L.m_Input ∧
    (c_PerceptronLayer._connectInputs mem L).m_Output = L.m_Output ∧
    (c_PerceptronLayer._connectInputs mem L).m_Outputs = L.m_Outputs ∧
    (c_PerceptronLayer._connectInputs mem L).m_WeightedDeltaSumsOut = L.m_WeightedDeltaSumsOut ∧
    (c_PerceptronLayer._connectInputs mem L).m_Bias = L.m_Bias ∧
    (c_PerceptronLayer._connectInputs mem L).m_Size = L.m_Size ∧
    (c_PerceptronLayer._connectInputs mem L).m_TrainRate = L.m_TrainRate ∧
    (c_PerceptronLayer._connectInputs mem L).m_ActType = L.m_ActType := by
  unfold c_PerceptronLayer._connectInputs; split <;> simp

/-- Members that `_connectTargets` leaves alone. -/
@[simp] theorem c_PerceptronLayer.frame_connectTargets (mem : Memory α) (L : c_PerceptronLayer α) :
    (c_PerceptronLayer._connectTargets mem L).m_Inputs = L.m_Inputs ∧
    (c_PerceptronLayer._connectTargets mem L).m_Targets = L.m_Targets ∧
    (c_PerceptronLayer._connectTargets mem L).m_WeightedDeltaSumsIn = L.m_WeightedDeltaSumsIn ∧
    (c_PerceptronLayer._connectTargets mem L).m_Input = L.m_Input ∧
    (c_PerceptronLayer._connectTargets mem L).m_Output = L.m_Output ∧
    (c_PerceptronLayer._connectTargets mem L).m_Outputs = L.m_Outputs ∧
    (c_PerceptronLayer._connectTargets mem L).m_WeightedDeltaSumsOut = L.m_WeightedDeltaSumsOut ∧
    (c_PerceptronLayer._connectTargets mem L).m_Bias = L.m_Bias ∧
    (c_PerceptronLayer._connectTargets mem L).m_Size = L.m_Size ∧
    (c_PerceptronLayer._connectTargets mem L).m_TrainRate = L.m_TrainRate ∧
    (c_PerceptronLayer._connectTargets mem L).m_ActType = L.m_ActType := by
  unfold c_PerceptronLayer._connectTargets; split
  · split <;> simp
  · simp

/-- Members that `_connectWeightedDeltaSums` leaves alone. -/
@[simp] theorem c_PerceptronLayer.frame_connectWeightedDeltaSums (mem : Memory α) (L : c_PerceptronLayer α) :
    (c_PerceptronLayer._connectWeightedDeltaSums mem L).m_Inputs = L.m_Inputs ∧
    (c_PerceptronLayer._connectWeightedDeltaSums mem L).m_Targets = L.m_Targets ∧
    (c_PerceptronLayer._connectWeightedDeltaSums mem L).m_WeightedDeltaSumsIn = L.m_WeightedDeltaSumsIn ∧
    (c_PerceptronLayer._connectWeightedDeltaSums mem L).m_Input = L.m_Input ∧
    (c_PerceptronLayer._connectWeightedDeltaSums mem L).m_Output = L.m_Output ∧
    (c_PerceptronLayer._connectWeightedDeltaSums mem L).m_Outputs = L.m_Outputs ∧
    (c_PerceptronLayer._connectWeightedDeltaSums mem L).m_WeightedDeltaSumsOut = L.m_WeightedDeltaSumsOut ∧
    (c_PerceptronLayer._connectWeightedDeltaSums mem L).m_Bias = L.m_Bias ∧
    (c_PerceptronLayer._connectWeightedDeltaSums mem L).m_Size = L.m_Size ∧
    (c_PerceptronLayer._connectWeightedDeltaSums mem L).m_TrainRate = L.m_TrainRate ∧
    (c_PerceptronLayer._connectWeightedDeltaSums mem L).m_ActType = L.m_ActType := by
  unfold c_PerceptronLayer._connectWeightedDeltaSums; split
  · split <;> simp
  · simp

/-- Members that `_connect` leaves alone. -/
@[simp] theorem c_PerceptronLayer.frame_connect (mem : Memory α) (L : c_PerceptronLayer α) :
    (c_PerceptronLayer._connect mem L).m_Inputs = L.m_Inputs ∧
    (c_PerceptronLayer._connect mem L).m_Targets = L.m_Targets ∧
    (c_PerceptronLayer._connect mem L).m_WeightedDeltaSumsIn = L.m_WeightedDeltaSumsIn ∧
    (c_PerceptronLayer._connect mem L).m_Input = L.m_Input ∧
    (c_PerceptronLayer._connect mem L).m_Output = L.m_Output ∧
    (c_PerceptronLayer._connect mem L).m_Outputs = L.m_Outputs ∧
    (c_PerceptronLayer._connect mem L).m_WeightedDeltaSumsOut = L.m_WeightedDeltaSumsOut ∧
    (c_PerceptronLayer._connect mem L).m_Bias = L.m_Bias ∧
    (c_PerceptronLayer._connect mem L).m_Size = L.m_Size ∧
    (c_PerceptronLayer._connect mem L).m_TrainRate = L.m_TrainRate ∧
    (c_PerceptronLayer._connect mem L).m_ActType = L.m_ActType := by
  simp [c_PerceptronLayer._connect]

/-- Members that `setInputs` leaves alone. -/
@[simp] theorem c_PerceptronLayer.frame_setInputs (mem : Memory α) (r : Ref) (L : c_PerceptronLayer α) :
    (c_PerceptronLayer.setInputs mem r L).m_Targets = L.m_Targets ∧
    (c_PerceptronLayer.setInputs mem r L).m_WeightedDeltaSumsIn = L.m_WeightedDeltaSumsIn ∧
    (c_PerceptronLayer.setInputs mem r L).m_Input = L.m_Input ∧
    (c_PerceptronLayer.setInputs mem r L).m_Output = L.m_Output ∧
    (c_PerceptronLayer.setInputs mem r L).m_Outputs = L.m_Outputs ∧
    (c_PerceptronLayer.setInputs mem r L).m_WeightedDeltaSumsOut = L.m_WeightedDeltaSumsOut ∧
    (c_PerceptronLayer.setInputs mem r L).m_Bias = L.m_Bias ∧
    (c_PerceptronLayer.setInputs mem r L).m_Size = L.m_Size ∧
    (c_PerceptronLayer.setInputs mem r L).m_TrainRate = L.m_TrainRate ∧
    (c_PerceptronLayer.setInputs mem r L).m_ActType = L.m_ActType := by
  simp [c_PerceptronLayer.setInputs]

/-- Members that `_setWeightedDeltaSumsIn` leaves alone. -/
@[simp] theorem c_PerceptronLayer.frame_setWeightedDeltaSumsIn (mem : Memory α) (r : Ref) (L : c_PerceptronLayer α) :
    (c_PerceptronLayer._setWeightedDeltaSumsIn mem r L).m_Inputs = L.m_Inputs ∧
    (c_PerceptronLayer._setWeightedDeltaSumsIn mem r L).m_Input = L.m_Input ∧
    (c_PerceptronLayer._setWeightedDeltaSumsIn mem r L).m_Output = L.m_Output ∧
    (c_PerceptronLayer._setWeightedDeltaSumsIn mem r L).m_Outputs = L.m_Outputs ∧
    (c_PerceptronLayer._setWeightedDeltaSumsIn mem r L).m_WeightedDeltaSumsOut = L.m_WeightedDeltaSumsOut ∧
    (c_PerceptronLayer._setWeightedDeltaSumsIn mem r L).m_Bias = L.m_Bias ∧
    (c_PerceptronLayer._setWeightedDeltaSumsIn mem r L).m_Size = L.m_Size ∧
    (c_PerceptronLayer._setWeightedDeltaSumsIn mem r L).m_TrainRate = L.m_TrainRate ∧
    (c_PerceptronLayer._setWeightedDeltaSumsIn mem r L).m_ActType = L.m_ActType := by
  simp [c_PerceptronLayer._setWeightedDeltaSumsIn]

/-- Members that `setTrainRate` leaves alone. -/
@[simp] theorem c_PerceptronLayer.frame_setTrainRate (x : α) (L : c_PerceptronLayer α) :
    (c_PerceptronLayer.setTrainRate x L).m_Inputs = L.m_Inputs ∧
    (c_PerceptronLayer.setTrainRate x L).m_Targets = L.m_Targets ∧
    (c_PerceptronLayer.setTrainRate x L).m_WeightedDeltaSumsIn = L.m_WeightedDeltaSumsIn ∧
    (c_PerceptronLayer.setTrainRate x L).m_Input = L.m_Input ∧
    (c_PerceptronLayer.setTrainRate x L).m_Output = L.m_Output ∧
    (c_PerceptronLayer.setTrainRate x L).m_Outputs = L.m_Outputs ∧
    (c_PerceptronLayer.setTrainRate x L).m_WeightedDeltaSumsOut = L.m_WeightedDeltaSumsOut ∧
    (c_PerceptronLayer.setTrainRate x L).m_Bias = L.m_Bias ∧
    (c_PerceptronLayer.setTrainRate x L).m_Size = L.m_Size ∧
    (c_PerceptronLayer.setTrainRate x L).m_ActType = L.m_ActType := by
  simp [c_PerceptronLayer.setTrainRate]

/-- Members that `setActivation` leaves alone. -/
@[simp] theorem c_PerceptronLayer.frame_setActivation (a : e_Activation) (L : c_PerceptronLayer α) :
    (c_PerceptronLayer.setActivation a L).m_Inputs = L.m_Inputs ∧
    (c_PerceptronLayer.setActivation a L).m_Targets = L.m_Targets ∧
    (c_PerceptronLayer.setActivation a L).m_WeightedDeltaSumsIn = L.m_WeightedDeltaSumsIn ∧
    (c_PerceptronLayer.setActivation a L).m_Input = L.m_Input ∧
    (c_PerceptronLayer.setActivation a L).m_Output = L.m_Output ∧
    (c_PerceptronLayer.setActivation a L).m_Outputs = L.m_Outputs ∧
    (c_PerceptronLayer.setActivation a L).m_WeightedDeltaSumsOut = L.m_WeightedDeltaSumsOut ∧
    (c_PerceptronLayer.setActivation a L).m_Bias = L.m_Bias ∧
    (c_PerceptronLayer.setActivation a L).m_Size = L.m_Size ∧
    (c_PerceptronLayer.setActivation a L).m_TrainRate = L.m_TrainRate := by
  simp [c_PerceptronLayer.setActivation]

/-- Members that `_setOutput` leaves alone. -/
@[simp] theorem c_PerceptronLayer.frame_setOutput (j : Nat) (L : c_PerceptronLayer α) :
    (c_PerceptronLayer._setOutput j L).m_Inputs = L.m_Inputs ∧
    (c_PerceptronLayer._setOutput j L).m_Targets = L.m_Targets ∧
    (c_PerceptronLayer._setOutput j L).m_WeightedDeltaSumsIn = L.m_WeightedDeltaSumsIn ∧
    (c_PerceptronLayer._setOutput j L).m_Input = L.m_Input ∧
    (c_PerceptronLayer._setOutput j L).m_Outputs = L.m_Outputs ∧
    (c_PerceptronLayer._setOutput j L).m_WeightedDeltaSumsOut = L.m_WeightedDeltaSumsOut ∧
    (c_PerceptronLayer._setOutput j L).m_Bias = L.m_Bias ∧
    (c_PerceptronLayer._setOutput j L).m_Size = L.m_Size ∧
    (c_PerceptronLayer._setOutput j L).m_TrainRate = L.m_TrainRate ∧
    (c_PerceptronLayer._setOutput j L).m_ActType = L.m_ActType := by
  simp [c_PerceptronLayer._setOutput]

/-- Members that the first block of `_build` leaves alone. -/
@[simp] theorem c_PerceptronLayer.frame_build_resize (L : c_PerceptronLayer α) :
    (c_PerceptronLayer._build_resize L).m_Inputs = L.m_Inputs ∧
    (c_PerceptronLayer._build_resize L).m_Targets = L.m_Targets ∧
    (c_PerceptronLayer._build_resize L).m_WeightedDeltaSumsIn = L.m_WeightedDeltaSumsIn ∧
    (c_PerceptronLayer._build_resize L).m_Input = L.m_Input ∧
    (c_PerceptronLayer._build_resize L).m_Output = L.m_Output ∧
    (c_PerceptronLayer._build_resize L).m_WeightedDeltaSumsOut = L.m_WeightedDeltaSumsOut ∧
    (c_PerceptronLayer._build_resize L).m_Bias = L.m_Bias ∧
    (c_PerceptronLayer._build_resize L).m_Size = L.m_Size ∧
    (c_PerceptronLayer._build_resize L).m_TrainRate = L.m_TrainRate ∧
    (c_PerceptronLayer._build_resize L).m_ActType = L.m_ActType := by
  unfold c_PerceptronLayer._build_resize; split <;> simp

/-- Members that `resizeDeltaSumsOut` leaves alone. -/
@[simp] theorem c_PerceptronLayer.frame_resizeDeltaSumsOut (n : Nat) (L : c_PerceptronLayer α) :
    (c_PerceptronLayer.resizeDeltaSumsOut n L).m_Inputs = L.m_Inputs ∧
    (c_PerceptronLayer.resizeDeltaSumsOut n L).m_Targets = L.m_Targets ∧
    (c_PerceptronLayer.resizeDeltaSumsOut n L).m_WeightedDeltaSumsIn = L.m_WeightedDeltaSumsIn ∧
    (c_PerceptronLayer.resizeDeltaSumsOut n L).m_Input = L.m_Input ∧
    (c_PerceptronLayer.resizeDeltaSumsOut n L).m_Output = L.m_Output ∧
    (c_PerceptronLayer.resizeDeltaSumsOut n L).m_Outputs = L.m_Outputs ∧
    (c_PerceptronLayer.resizeDeltaSumsOut n L).m_Perceptrons = L.m_Perceptrons ∧
    (c_PerceptronLayer.resizeDeltaSumsOut n L).m_Bias = L.m_Bias ∧
    (c_PerceptronLayer.resizeDeltaSumsOut n L).m_Size = L.m_Size ∧
    (c_PerceptronLayer.resizeDeltaSumsOut n L).m_TrainRate = L.m_TrainRate ∧
    (c_PerceptronLayer.resizeDeltaSumsOut n L).m_ActType = L.m_ActType ∧
    (c_PerceptronLayer.resizeDeltaSumsOut n L).m_WeightedDeltaSumsOut = valarray.resize n := by
  simp [c_PerceptronLayer.resizeDeltaSumsOut]

/-- Members that `setTargets` leaves alone. -/
@[simp] theorem c_PerceptronLayer.frame_setTargets (mem : Memory α) (r : Ref)
    (L : c_PerceptronLayer α) :
    (c_PerceptronLayer.setTargets mem r L).m_Inputs = L.m_Inputs ∧
    (c_PerceptronLayer.setTargets mem r L).m_Input = L.m_Input ∧
    (c_PerceptronLayer.setTargets mem r L).m_Output = L.m_Output ∧
    (c_PerceptronLayer.setTargets mem r L).m_Outputs = L.m_Outputs ∧
    (c_PerceptronLayer.setTargets mem r L).m_WeightedDeltaSumsOut = L.m_WeightedDeltaSumsOut ∧
    (c_PerceptronLayer.setTargets mem r L).m_Bias = L.m_Bias ∧
    (c_PerceptronLayer.setTargets mem r L).m_Size = L.m_Size ∧
    (c_PerceptronLayer.setTargets mem r L).m_TrainRate = L.m_TrainRate ∧
    (c_PerceptronLayer.setTargets mem r L).m_ActType = L.m_ActType := by
  unfold c_PerceptronLayer.setTargets
  split <;> simp

/-- What the setters of a layer assign. -/
@[simp] theorem c_PerceptronLayer.assigned (mem : Memory α) (r : Ref)
    (L : c_PerceptronLayer α) :
    (c_PerceptronLayer.setInputs mem r L).m_Inputs = some r ∧
    (c_PerceptronLayer._setWeightedDeltaSumsIn mem r L).m_WeightedDeltaSumsIn = some r ∧
    (c_PerceptronLayer._setWeightedDeltaSumsIn mem r L).m_Targets = none := by
  simp [c_PerceptronLayer.setInputs, c_PerceptronLayer._setWeightedDeltaSumsIn]

@[simp] theorem c_PerceptronLayer.assigned_setOutput (j : Nat) (L : c_PerceptronLayer α) :
    (c_PerceptronLayer._setOutput j L).m_Output = some j := rfl

end layer_fields

/-! ## The units of a layer after one of its member functions -/

section layer_units

variable {α : Type} [CommRing α] [Div α]

theorem c_PerceptronLayer.units_connectInputs (mem : Memory α) (L : c_PerceptronLayer α)
    (i : Nat) :
    (c_PerceptronLayer._connectInputs mem L).m_Perceptrons[i]? =
      (L.m_Perceptrons[i]?).map (fun p =>
        match L.m_Inputs with
        | some r => if i < L.m_Size then c_Perceptron.setInputs mem r p else p
        | none => p) := by
  unfold c_PerceptronLayer._connectInputs
  cases h : L.m_Inputs with
  | none => simp
  | some r =>
    simp only [forEach_getElem?]
    by_cases hi : i < L.m_Size <;> simp [hi]

theorem c_PerceptronLayer.units_connectTargets (mem : Memory α) (L : c_PerceptronLayer α)
    (i : Nat) :
    (c_PerceptronLayer._connectTargets mem L).m_Perceptrons[i]? =
      (L.m_Perceptrons[i]?).map (fun p =>
        match L.m_Targets with
        | some t =>
          if (mem t).length = L.m_Size ∧ i < L.m_Size then c_Perceptron.setTarget (t, i) p
          else p
        | none => p) := by
  unfold c_PerceptronLayer._connectTargets
  cases h : L.m_Targets with
  | none => simp
  | some t =>
    by_cases hl : (mem t).length = L.m_Size
    · simp only [hl, if_true, forEach_getElem?]
      by_cases hi : i < L.m_Size <;> simp [hi]
    · simp [hl]

theorem c_PerceptronLayer.units_connectWeightedDeltaSums (mem : Memory α)
    (L : c_PerceptronLayer α) (i : Nat) :
    (c_PerceptronLayer._connectWeightedDeltaSums mem L).m_Perceptrons[i]? =
      (L.m_Perceptrons[i]?).map (fun p =>
        match L.m_WeightedDeltaSumsIn with
        | some d =>
          if (mem d).length = L.m_Size ∧ i < L.m_Size then
            c_Perceptron.setWeightedDeltaSum (d, i) p
          else p
        | none => p) := by
  unfold c_PerceptronLayer._connectWeightedDeltaSums
  cases h : L.m_WeightedDeltaSumsIn with
  | none => simp
  | some t =>
    by_cases hl : (mem t).length = L.m_Size
    · simp only [hl, if_true, forEach_getElem?]
      by_cases hi : i < L.m_Size <;> simp [hi]
    · simp [hl]

@[simp] theorem c_PerceptronLayer.length_units_connectInputs (mem : Memory α)
    (L : c_PerceptronLayer α) :
    (c_PerceptronLayer._connectInputs mem L).m_Perceptrons.length = L.m_Perceptrons.length := by
  unfold c_PerceptronLayer._connectInputs; split <;> simp

@[simp] theorem c_PerceptronLayer.length_units_connectTargets (mem : Memory α)
    (L : c_PerceptronLayer α) :
    (c_PerceptronLayer._connectTargets mem L).m_Perceptrons.length = L.m_Perceptrons.length := by
  unfold c_PerceptronLayer._connectTargets; split
  · split <;> simp
  · simp

@[simp] theorem c_PerceptronLayer.length_units_connectWeightedDeltaSums (mem : Memory α)
    (L : c_PerceptronLayer α) :
    (c_PerceptronLayer._connectWeightedDeltaSums mem L).m_Perceptrons.length
      = L.m_Perceptrons.length := by
  unfold c_PerceptronLayer._connectWeightedDeltaSums; split
  · split <;> simp
  · simp

@[simp] theorem c_PerceptronLayer.length_units_connect (mem : Memory α)
    (L : c_PerceptronLayer α) :
    (c_PerceptronLayer._connect mem L).m_Perceptrons.length = L.m_Perceptrons.length := by
  simp [c_PerceptronLayer._connect]

@[simp] theorem c_PerceptronLayer.length_units_setInputs (mem : Memory α) (r : Ref)
    (L : c_PerceptronLayer α) :
    (c_PerceptronLayer.setInputs mem r L).m_Perceptrons.length = L.m_Perceptrons.length := by
  simp [c_PerceptronLayer.setInputs]

@[simp] theorem c_PerceptronLayer.length_units_setWeightedDeltaSumsIn (mem : Memory α)
    (r : Ref) (L : c_PerceptronLayer α) :
    (c_PerceptronLayer._setWeightedDeltaSumsIn mem r L).m_Perceptrons.length
      = L.m_Perceptrons.length := by
  simp [c_PerceptronLayer._setWeightedDeltaSumsIn]

@[simp] theorem c_PerceptronLayer.length_units_setTrainRate (x : α)
    (L : c_PerceptronLayer α) :
    (c_PerceptronLayer.setTrainRate x L).m_Perceptrons.length = L.m_Perceptrons.length := by
  simp [c_PerceptronLayer.setTrainRate]

@[simp] theorem c_PerceptronLayer.length_units_setActivation (a : e_Activation)
    (L : c_PerceptronLayer α) :
    (c_PerceptronLayer.setActivation a L).m_Perceptrons.length = L.m_Perceptrons.length := by
  simp [c_PerceptronLayer.setActivation]

@[simp] theorem c_PerceptronLayer.units_setOutput (j : Nat) (L : c_PerceptronLayer α) :
    (c_PerceptronLayer._setOutput j L).m_Perceptrons = L.m_Perceptrons := rfl

@[simp] theorem c_PerceptronLayer.length_units_build_resize (L : c_PerceptronLayer α) :
    (c_PerceptronLayer._build_resize L).m_Perceptrons.length = L.m_Size := by
  unfold c_PerceptronLayer._build_resize vector_resize
  split <;> simp <;> omega

@[simp] theorem c_PerceptronLayer.length_units_setTargets (mem : Memory α) (r : Ref)
    (L : c_PerceptronLayer α) :
    (c_PerceptronLayer.setTargets mem r L).m_Perceptrons.length = L.m_Perceptrons.length := by
  unfold c_PerceptronLayer.setTargets
  split <;> simp

/-- The first block of `_build` keeps the units of a layer that already has `m_Size`. -/
theorem c_PerceptronLayer.units_build_resize (L : c_PerceptronLayer α)
    (h : L.m_Perceptrons.length = L.m_Size) :
    (c_PerceptronLayer._build_resize L).m_Perceptrons = L.m_Perceptrons := by
  unfold c_PerceptronLayer._build_resize vector_resize
  split <;> simp [← h]

/-- The output array left by the first block of `_build`. -/
theorem c_PerceptronLayer.outputs_build_resize (L : c_PerceptronLayer α) :
    (c_PerceptronLayer._build_resize L).m_Outputs =
      List.replicate L.m_Size 0 ++ (if L.m_Bias then [1] else []) := by
  unfold c_PerceptronLayer._build_resize valarray.store valarray.resize
  split
  · rename_i hb
    simp only [hb, if_true]
    apply List.ext_getElem?
    intro i
    rw [List.getElem?_set]
    by_cases h1 : L.m_Size = i
    · subst h1
      simp [List.getElem?_append_right]
    · by_cases h2 : i < L.m_Size
      · simp [h1, List.getElem?_append_left, h2, List.getElem?_replicate]
        omega
      · have h3 : L.m_Size + 1 ≤ i := by omega
        simp [h1, List.getElem?_replicate]
        rw [List.getElem?_eq_none (by simp; omega)]
        split
        · omega
        · rfl
  · rename_i hb
    simp [hb]

end layer_units

/-! ## The blocks of `c_PerceptronLayer::_build`, layer by layer -/

section build_blocks

variable {α : Type} [CommRing α] [Div α]

theorem c_PerceptronLayer.getSize_eq (w : c_NeuralNetwork α) (k : Nat)
    (L : c_PerceptronLayer α) (h : w.m_Layers[k]? = some L) :
    c_PerceptronLayer.getSize k w = L.m_Size := by
  simp [c_PerceptronLayer.getSize, h]

/-- The second block of `_build` does nothing on a layer without an input layer. -/
theorem c_PerceptronLayer.build_input_none (w : c_NeuralNetwork α) (k : Nat)
    (L : c_PerceptronLayer α) (hk : w.m_Layers[k]? = some L) (hin : L.m_Input = none) :
    c_PerceptronLayer._build_input k w = w := by
  simp [c_PerceptronLayer._build_input, hk, hin]

/-- The second block of `_build` on layer `k` whose input layer is `j`, up to the resize
of the delta-sum array. -/
theorem c_PerceptronLayer.build_input_resize_spec (w : c_NeuralNetwork α) (k j : Nat)
    (L Lj : c_PerceptronLayer α) (hk : w.m_Layers[k]? = some L)
    (hj : w.m_Layers[j]? = some Lj) (hjk : j ≠ k) (i : Nat) :
    (c_PerceptronLayer._build_input_resize k j w).m_Layers[i]? =
      if i = k then
        some (c_PerceptronLayer.resizeDeltaSumsOut Lj.m_Size
          (c_PerceptronLayer.setInputs w.memory (Ref.outputs j) L))
      else if i = j then some (c_PerceptronLayer._setOutput k Lj)
      else w.m_Layers[i]? := by
  have hkj : k ≠ j := fun h => hjk h.symm
  have hs : c_PerceptronLayer.getSize j
      (c_NeuralNetwork.onLayer j (c_PerceptronLayer._setOutput k)
        (c_NeuralNetwork.onLayer k
          (c_PerceptronLayer.setInputs w.memory (Ref.outputs j)) w)) = Lj.m_Size := by
    simp [c_PerceptronLayer.getSize, hj, hkj]
  simp only [c_PerceptronLayer._build_input_resize, c_PerceptronLayer.getOutputs, hs]
  by_cases h1 : i = k
  · subst h1
    simp [hk, hjk]
  · by_cases h2 : i = j
    · subst h2
      simp [hj, hkj, h1]
    · have h3 : ¬ k = i := fun h => h1 h.symm
      have h4 : ¬ j = i := fun h => h2 h.symm
      simp [h1, h2, h3, h4]

/-- The second block of `_build` on layer `k` whose input layer is `j`: layer `k` is fed
from the outputs of `j` and gets a delta-sum array of the size of `j`; layer `j` gets
`k` as its output layer and that array as its error source; nothing else changes. -/
theorem c_PerceptronLayer.build_input_some (w : c_NeuralNetwork α) (k j : Nat)
    (L Lj : c_PerceptronLayer α) (hk : w.m_Layers[k]? = some L)
    (hj : w.m_Layers[j]? = some Lj) (hjk : j ≠ k) (hin : L.m_Input = some j) (i : Nat) :
    (c_PerceptronLayer._build_input k w).m_Layers[i]? =
      if i = k then
        some (c_PerceptronLayer.resizeDeltaSumsOut Lj.m_Size
          (c_PerceptronLayer.setInputs w.memory (Ref.outputs j) L))
      else if i = j then
        some (c_PerceptronLayer._setWeightedDeltaSumsIn
          (c_PerceptronLayer._build_input_resize k j w).memory (Ref.deltaSums k)
          (c_PerceptronLayer._setOutput k Lj))
      else w.m_Layers[i]? := by
  have hkj : k ≠ j := fun h => hjk h.symm
  simp only [c_PerceptronLayer._build_input, hk, Option.some_bind, hin,
    c_PerceptronLayer.getWeightedDeltaSumsOut, c_NeuralNetwork.onLayer_getElem?,
    c_PerceptronLayer.build_input_resize_spec w k j L Lj hk hj hjk]
  by_cases h1 : i = k
  · subst h1
    simp [hjk]
  · by_cases h2 : i = j
    · subst h2
      simp [h1]
    · have h4 : ¬ j = i := fun h => h2 h.symm
      simp [h1, h2, h4]

/-- The delta-sum array of layer `k` has the size of its input layer `j` when `j` gets
it as its error source. -/
theorem c_PerceptronLayer.build_input_resize_memory (w : c_NeuralNetwork α) (k j : Nat)
    (L Lj : c_PerceptronLayer α) (hk : w.m_Layers[k]? = some L)
    (hj : w.m_Layers[j]? = some Lj) (hjk : j ≠ k) :
    ((c_PerceptronLayer._build_input_resize k j w).memory (Ref.deltaSums k)).length
      = Lj.m_Size := by
  simp [c_NeuralNetwork.memory,
    c_PerceptronLayer.build_input_resize_spec w k j L Lj hk hj hjk, valarray.resize]

/-- The third block of `_build` does nothing on a layer without an output layer. -/
theorem c_PerceptronLayer.build_output_none (w : c_NeuralNetwork α) (k : Nat)
    (L : c_PerceptronLayer α) (hk : w.m_Layers[k]? = some L) (hout : L.m_Output = none) :
    c_PerceptronLayer._build_output k w = w := by
  simp [c_PerceptronLayer._build_output, hk, hout]

/-- The third block of `_build` on layer `k` whose output layer is `j`: the delta-sum
array of `j` is resized to the size of `k`; nothing else changes. -/
theorem c_PerceptronLayer.build_output_some (w : c_NeuralNetwork α) (k j : Nat)
    (L : c_PerceptronLayer α) (hk : w.m_Layers[k]? = some L) (hout : L.m_Output = some j)
    (i : Nat) :
    (c_PerceptronLayer._build_output k w).m_Layers[i]? =
      if j = i then
        (w.m_Layers[i]?).map (c_PerceptronLayer.resizeDeltaSumsOut L.m_Size)
      else w.m_Layers[i]? := by
  simp [c_PerceptronLayer._build_output, hk, hout, c_PerceptronLayer.getSize]

/-- The blocks of `_build` change the layers only. -/
theorem c_PerceptronLayer.frame_build_input (w : c_NeuralNetwork α) (k : Nat) :
    (c_PerceptronLayer._build_input k w).m_Layers.length = w.m_Layers.length ∧
    (c_PerceptronLayer._build_input k w).heap = w.heap ∧
    (c_PerceptronLayer._build_input k w).m_Inputs = w.m_Inputs ∧
    (c_PerceptronLayer._build_input k w).m_Targets = w.m_Targets ∧
    (c_PerceptronLayer._build_input k w).m_LocalInputs = w.m_LocalInputs ∧
    (c_PerceptronLayer._build_input k w).m_Bias = w.m_Bias ∧
    (c_PerceptronLayer._build_input k w).m_Size = w.m_Size ∧
    (c_PerceptronLayer._build_input k w).m_TrainRate = w.m_TrainRate ∧
    (c_PerceptronLayer._build_input k w).m_ActType = w.m_ActType := by
  unfold c_PerceptronLayer._build_input c_PerceptronLayer._build_input_resize
  split <;> simp

theorem c_PerceptronLayer.frame_build_output (w : c_NeuralNetwork α) (k : Nat) :
    (c_PerceptronLayer._build_output k w).m_Layers.length = w.m_Layers.length ∧
    (c_PerceptronLayer._build_output k w).heap = w.heap ∧
    (c_PerceptronLayer._build_output k w).m_Inputs = w.m_Inputs ∧
    (c_PerceptronLayer._build_output k w).m_Targets = w.m_Targets ∧
    (c_PerceptronLayer._build_output k w).m_LocalInputs = w.m_LocalInputs ∧
    (c_PerceptronLayer._build_output k w).m_Bias = w.m_Bias ∧
    (c_PerceptronLayer._build_output k w).m_Size = w.m_Size ∧
    (c_PerceptronLayer._build_output k w).m_TrainRate = w.m_TrainRate ∧
    (c_PerceptronLayer._build_output k w).m_ActType = w.m_ActType := by
  unfold c_PerceptronLayer._build_output
  split <;> simp

theorem c_PerceptronLayer.frame_build (w : c_NeuralNetwork α) (k : Nat) :
    (c_PerceptronLayer._build k w).m_Layers.length = w.m_Layers.length ∧
    (c_PerceptronLayer._build k w).heap = w.heap ∧
    (c_PerceptronLayer._build k w).m_Inputs = w.m_Inputs ∧
    (c_PerceptronLayer._build k w).m_Targets = w.m_Targets ∧
    (c_PerceptronLayer._build k w).m_LocalInputs = w.m_LocalInputs ∧
    (c_PerceptronLayer._build k w).m_Bias = w.m_Bias ∧
    (c_PerceptronLayer._build k w).m_Size = w.m_Size ∧
    (c_PerceptronLayer._build k w).m_TrainRate = w.m_TrainRate ∧
    (c_PerceptronLayer._build k w).m_ActType = w.m_ActType := by
  simp [c_PerceptronLayer._build, c_PerceptronLayer._build_connect,
    c_PerceptronLayer.frame_build_input, c_PerceptronLayer.frame_build_output]

end build_blocks

/-! ## `c_PerceptronLayer::_build` on a layer of a chain -/

section build_chain

variable {α : Type} [CommRing α] [Div α]

theorem c_PerceptronLayer.frame_beforeConnect (w : c_NeuralNetwork α) (k : Nat) :
    (c_PerceptronLayer.beforeConnect k w).m_Layers.length = w.m_Layers.length ∧
    (c_PerceptronLayer.beforeConnect k w).heap = w.heap ∧
    (c_PerceptronLayer.beforeConnect k w).m_LocalInputs = w.m_LocalInputs := by
  simp [c_PerceptronLayer.beforeConnect, c_PerceptronLayer.frame_build_input,
    c_PerceptronLayer.frame_build_output]

/-- The layers when `_build` on layer `k` calls `_connect()`, for a layer whose input
layer is `k - 1` (none for `k = 0`) and whose output layer, if any, is not `k` or `k - 1`. -/
theorem c_PerceptronLayer.beforeConnect_layers (w : c_NeuralNetwork α) (k : Nat)
    (L Lj : c_PerceptronLayer α) (hk : w.m_Layers[k]? = some L)
    (hin : L.m_Input = if 0 < k then some (k - 1) else none)
    (hj : 0 < k → w.m_Layers[k - 1]? = some Lj)
    (hout : ∀ j, L.m_Output = some j → j = k + 1) (i : Nat) :
    (c_PerceptronLayer.beforeConnect k w).m_Layers[i]? =
      if i = k then
        some (if 0 < k then
          c_PerceptronLayer.resizeDeltaSumsOut Lj.m_Size
            (c_PerceptronLayer.setInputs (w.onLayer k c_PerceptronLayer._build_resize).memory
              (Ref.outputs (k - 1)) (c_PerceptronLayer._build_resize L))
          else c_PerceptronLayer._build_resize L)
      else if 0 < k ∧ i = k - 1 then
        some (c_PerceptronLayer._setWeightedDeltaSumsIn
          (c_PerceptronLayer._build_input_resize k (k - 1)
            (w.onLayer k c_PerceptronLayer._build_resize)).memory (Ref.deltaSums k)
          (c_PerceptronLayer._setOutput k Lj))
      else if L.m_Output = some i then
        (w.m_Layers[i]?).map (c_PerceptronLayer.resizeDeltaSumsOut L.m_Size)
      else w.m_Layers[i]? := by
  have h1 : (w.onLayer k c_PerceptronLayer._build_resize).m_Layers[k]?
      = some (c_PerceptronLayer._build_resize L) := by simp [hk]
  unfold c_PerceptronLayer.beforeConnect
  by_cases hk0 : 0 < k
  · have hjk : k - 1 ≠ k := by omega
    have h2 : (w.onLayer k c_PerceptronLayer._build_resize).m_Layers[k - 1]? = some Lj := by
      have : ¬ k = k - 1 := by omega
      simp [this, hj hk0]
    have hin1 : (c_PerceptronLayer._build_resize L).m_Input = some (k - 1) := by
      simp [hin, hk0]
    have h3 := c_PerceptronLayer.build_input_some _ k (k - 1) _ Lj h1 h2 hjk hin1
    have h3k := h3 k
    simp only [if_true] at h3k
    cases ho : L.m_Output with
    | none =>
      rw [c_PerceptronLayer.build_output_none _ k _ h3k (by simp [ho]), h3 i]
      by_cases e1 : i = k
      · simp [e1, hk0]
      · by_cases e2 : i = k - 1
        · simp [e1, e2, hk0]
        · have : ¬ k = i := fun h => e1 h.symm
          simp [e1, e2, this]
    | some j =>
      have hj1 := hout j ho
      subst hj1
      rw [c_PerceptronLayer.build_output_some _ k (k + 1) _ h3k (by simp [ho]) i, h3 i]
      have n1 : ¬ k + 1 = k - 1 := by omega
      have n2 : ¬ k - 1 = k := by omega
      have n3 : ¬ k + 1 = k := by omega
      have n4 : ¬ k = k + 1 := by omega
      by_cases e1 : i = k
      · subst e1
        simp [hk0, n3]
      · by_cases e2 : i = k - 1
        · subst e2
          simp [hk0, n1, n2]
        · have e3 : ¬ k = i := fun h => e1 h.symm
          by_cases e4 : k + 1 = i
          · subst e4
            simp [e3, n3, e2]
          · have : ¬ i = k + 1 := fun h => e4 h.symm
            simp [e1, e2, e3, e4, this]
  · have hin1 : (c_PerceptronLayer._build_resize L).m_Input = none := by
      simp [hin, hk0]
    rw [c_PerceptronLayer.build_input_none _ k _ h1 hin1]
    cases ho : L.m_Output with
    | none =>
      rw [c_PerceptronLayer.build_output_none _ k _ h1 (by simp [ho])]
      by_cases e1 : i = k
      · simp [e1, hk0, hk]
      · have : ¬ k = i := fun h => e1 h.symm
        simp [e1, hk0, this]
    | some j =>
      have hj1 := hout j ho
      subst hj1
      rw [c_PerceptronLayer.build_output_some _ k (k + 1) _ h1 (by simp [ho]) i]
      by_cases e1 : i = k
      · subst e1
        simp [hk0, hk]
      · have e3 : ¬ k = i := fun h => e1 h.symm
        by_cases e4 : k + 1 = i
        · subst e4
          simp [e3, hk0]
        · have : ¬ i = k + 1 := fun h => e4 h.symm
          simp [e1, e3, e4, hk0, this]

end build_chain

/-! ## The units after `_connect` and after `_setWeightedDeltaSumsIn` -/

section connect_units

variable {α : Type} [CommRing α] [Div α]

theorem c_Perceptron.setInputs_fields (mem : Memory α) (r : Ref) (p : c_Perceptron α) :
    (c_Perceptron.setInputs mem r p).m_Inputs = some r ∧
    (c_Perceptron.setInputs mem r p).m_Weights.length = (mem r).length ∧
    (c_Perceptron.setInputs mem r p).m_Target = p.m_Target ∧
    (c_Perceptron.setInputs mem r p).m_WeightedDeltaSum = p.m_WeightedDeltaSum ∧
    (c_Perceptron.setInputs mem r p).m_SumProducts = p.m_SumProducts ∧
    (c_Perceptron.setInputs mem r p).m_Output = p.m_Output ∧
    (c_Perceptron.setInputs mem r p).m_Delta = p.m_Delta ∧
    (c_Perceptron.setInputs mem r p).m_TrainRate = p.m_TrainRate ∧
    (c_Perceptron.setInputs mem r p).m_ActType = p.m_ActType ∧
    (p.m_WeightedDeltas.length = p.m_Weights.length →
      (c_Perceptron.setInputs mem r p).m_WeightedDeltas.length = (mem r).length) := by
  unfold c_Perceptron.setInputs
  by_cases h : p.m_Weights.length = (mem r).length
  · simp [h]
  · simp [h, valarray.resize]

/-- A unit whose weights are as many as the elements of the array is left alone by
`setInputs` on that array, up to the pointer. -/
theorem c_Perceptron.setInputs_same (mem : Memory α) (r : Ref) (p : c_Perceptron α)
    (h : p.m_Weights.length = (mem r).length) :
    c_Perceptron.setInputs mem r p = { p with m_Inputs := some r } := by
  simp [c_Perceptron.setInputs, h]

/-- The units of a layer after `_connect`, given how they were bound to the error sources
before and that the arrays behind the layer's error pointers have `m_Size` elements. -/
theorem c_PerceptronLayer.connect_bound (mem : Memory α) (X : c_PerceptronLayer α)
    (hu : X.m_Perceptrons.length = X.m_Size)
    (hpre : ∀ (i : Nat) (p : c_Perceptron α), X.m_Perceptrons[i]? = some p →
      p.m_Target = X.m_Targets.map (fun t => (t, i)) ∧
      p.m_WeightedDeltaSum = X.m_WeightedDeltaSumsIn.map (fun d => (d, i)) ∧
      p.m_WeightedDeltas.length = p.m_Weights.length ∧
      (X.m_Inputs = none → p.m_Inputs = none))
    (ht : ∀ t, X.m_Targets = some t →
      (mem t).length = X.m_Size ∧ X.m_WeightedDeltaSumsIn = none)
    (hd : ∀ d, X.m_WeightedDeltaSumsIn = some d → (mem d).length = X.m_Size)
    (i : Nat) (q : c_Perceptron α)
    (hq : (c_PerceptronLayer._connect mem X).m_Perceptrons[i]? = some q) :
    c_Perceptron.Bound X.m_Inputs (X.m_Targets.map (fun t => (t, i)))
      (X.m_WeightedDeltaSumsIn.map (fun d => (d, i))) q ∧
    (∀ r, X.m_Inputs = some r → q.m_Weights.length = (mem r).length) ∧
    ∃ p, X.m_Perceptrons[i]? = some p ∧ q.m_SumProducts = p.m_SumProducts ∧
      q.m_Output = p.m_Output ∧ q.m_Delta = p.m_Delta ∧ q.m_TrainRate = p.m_TrainRate ∧
      q.m_ActType = p.m_ActType ∧
      (q.m_Weights = p.m_Weights ∨ q.m_Weights = valarray.resize q.m_Weights.length) := by
  simp only [c_PerceptronLayer._connect, c_PerceptronLayer.units_connectWeightedDeltaSums,
    c_PerceptronLayer.units_connectTargets, c_PerceptronLayer.units_connectInputs,
    c_PerceptronLayer.frame_connectTargets, c_PerceptronLayer.frame_connectInputs,
    Option.map_map, Option.map_eq_some'] at hq
  obtain ⟨p, hp, hq⟩ := hq
  have hi : i < X.m_Size := by
    have := (List.getElem?_eq_some_iff.mp hp).1
    omega
  obtain ⟨h1, h2, h3, h4⟩ := hpre i p hp
  have hs := fun r => c_Perceptron.setInputs_fields mem r p
  subst hq
  cases hI : X.m_Inputs with
  | none =>
    cases hT : X.m_Targets with
    | none =>
      cases hD : X.m_WeightedDeltaSumsIn with
      | none =>
        simp only [Function.comp, hI, hT, hD] at *
        exact ⟨⟨h4 trivial, by simpa using h1, by simpa using h2, h3⟩, by simp,
          p, hp, rfl, rfl, rfl, rfl, rfl, Or.inl rfl⟩
      | some d =>
        have := hd d hD
        simp only [Function.comp, hI, hT, hD, this, hi, and_self, if_true] at *
        exact ⟨⟨h4 trivial, rfl, rfl, h3⟩, by simp, p, hp, rfl, rfl, rfl, rfl, rfl, Or.inl rfl⟩
    | some t =>
      obtain ⟨e1, e2⟩ := ht t hT
      simp only [Function.comp, hI, hT, e2, e1, hi, and_self, if_true] at *
      exact ⟨⟨h4 trivial, rfl, rfl, h3⟩, by simp, p, hp, rfl, rfl, rfl, rfl, rfl, Or.inl rfl⟩
  | some r =>
    obtain ⟨s1, s2, s3, s4, s5, s6, s7, s8, s9, s10⟩ := hs r
    have hw : (c_Perceptron.setInputs mem r p).m_Weights = p.m_Weights ∨
        (c_Perceptron.setInputs mem r p).m_Weights
          = valarray.resize (c_Perceptron.setInputs mem r p).m_Weights.length := by
      unfold c_Perceptron.setInputs
      by_cases h : p.m_Weights.length = (mem r).length
      · left; simp [h]
      · right; simp [h, valarray.resize]
    cases hT : X.m_Targets with
    | none =>
      cases hD : X.m_WeightedDeltaSumsIn with
      | none =>
        simp only [Function.comp, hI, hT, hD, hi, if_true] at *
        refine ⟨⟨s1, by simpa [s3] using h1, by simpa [s4] using h2, ?_⟩, ?_,
          p, hp, s5, s6, s7, s8, s9, hw⟩
        · rw [s10 h3, s2]
        · intro r' hr'
          cases hr'
          exact s2
      | some d =>
        have := hd d hD
        simp only [Function.comp, hI, hT, hD, this, hi, and_self, if_true] at *
        refine ⟨⟨s1, rfl, rfl, ?_⟩, ?_, p, hp, s5, s6, s7, s8, s9, hw⟩
        · show (c_Perceptron.setInputs mem r p).m_WeightedDeltas.length = _
          rw [s10 h3]; exact s2.symm
        · intro r' hr'
          cases hr'
          exact s2
    | some t =>
      obtain ⟨e1, e2⟩ := ht t hT
      simp only [Function.comp, hI, hT, e2, e1, hi, and_self, if_true] at *
      refine ⟨⟨s1, rfl, rfl, ?_⟩, ?_, p, hp, s5, s6, s7, s8, s9, hw⟩
      · show (c_Perceptron.setInputs mem r p).m_WeightedDeltas.length = _
        rw [s10 h3]; exact s2.symm
      · intro r' hr'
        cases hr'
        exact s2

/-- The units of a layer after `_setWeightedDeltaSumsIn` with an array of `m_Size`
elements: each is bound to its slot of the array and has no target; nothing else of it
changes. -/
theorem c_PerceptronLayer.setWeightedDeltaSumsIn_units (mem : Memory α) (d : Ref)
    (X : c_PerceptronLayer α) (hu : X.m_Perceptrons.length = X.m_Size)
    (hd : (mem d).length = X.m_Size) (i : Nat) (q : c_Perceptron α)
    (hq : (c_PerceptronLayer._setWeightedDeltaSumsIn mem d X).m_Perceptrons[i]? = some q) :
    ∃ p, X.m_Perceptrons[i]? = some p ∧ q = c_Perceptron.setWeightedDeltaSum (d, i) p := by
  simp only [c_PerceptronLayer._setWeightedDeltaSumsIn,
    c_PerceptronLayer.units_connectWeightedDeltaSums, Option.map_eq_some'] at hq
  obtain ⟨p, hp, hq⟩ := hq
  have hi : i < X.m_Size := by
    have := (List.getElem?_eq_some_iff.mp hp).1
    omega
  refine ⟨p, hp, ?_⟩
  simp only [hd, hi, and_self, if_true] at hq
  exact hq.symm

end connect_units

/-! ## `_build` on layer `k` of a linked chain -/

section build_chain2

variable {α : Type} [CommRing α] [Div α]

@[simp] theorem c_PerceptronLayer.frame_relink (x : Option Nat) (b : Bool)
    (L : c_PerceptronLayer α) :
    (c_PerceptronLayer.relink x b L).m_Inputs = L.m_Inputs ∧
    (c_PerceptronLayer.relink x b L).m_Targets = L.m_Targets ∧
    (c_PerceptronLayer.relink x b L).m_WeightedDeltaSumsIn = L.m_WeightedDeltaSumsIn ∧
    (c_PerceptronLayer.relink x b L).m_Input = x ∧
    (c_PerceptronLayer.relink x b L).m_Output = L.m_Output ∧
    (c_PerceptronLayer.relink x b L).m_Outputs = L.m_Outputs ∧
    (c_PerceptronLayer.relink x b L).m_WeightedDeltaSumsOut = L.m_WeightedDeltaSumsOut ∧
    (c_PerceptronLayer.relink x b L).m_Perceptrons = L.m_Perceptrons ∧
    (c_PerceptronLayer.relink x b L).m_Bias = b ∧
    (c_PerceptronLayer.relink x b L).m_Size = L.m_Size ∧
    (c_PerceptronLayer.relink x b L).m_TrainRate = L.m_TrainRate ∧
    (c_PerceptronLayer.relink x b L).m_ActType = L.m_ActType := by
  simp [c_PerceptronLayer.relink]

theorem c_NeuralNetwork.Linked.get {sizes : List Nat} {c : Nat} {w : c_NeuralNetwork α}
    (h : c_NeuralNetwork.Linked sizes c w) (k : Nat) (hk : k < sizes.length) :
    ∃ L, w.m_Layers[k]? = some L ∧ c_PerceptronLayer.Linked sizes c w k L := by
  have hk2 : k < w.m_Layers.length := by rw [h.length]; exact hk
  exact ⟨w.m_Layers[k], List.getElem?_eq_getElem hk2,
    h.layer k _ (List.getElem?_eq_getElem hk2)⟩

/-- The layers when `_build` on layer `k` of a chain whose first `c ≥ k` layers are
linked calls `_connect()`. -/
theorem c_PerceptronLayer.beforeConnect_chain (sizes : List Nat) (c k : Nat) (b : Bool)
    (w : c_NeuralNetwork α) (h : c_NeuralNetwork.Linked sizes c w)
    (L Lj : c_PerceptronLayer α) (hL : w.m_Layers[k]? = some L)
    (hj : 0 < k → w.m_Layers[k - 1]? = some Lj) (i : Nat) :
    (c_PerceptronLayer.beforeConnect k (c_PerceptronLayer.buildStart k b w)).m_Layers[i]? =
      if i = k then
        some (if 0 < k then
          c_PerceptronLayer.resizeDeltaSumsOut Lj.m_Size
            (c_PerceptronLayer.setInputs
              ((c_PerceptronLayer.buildStart k b w).onLayer k
                c_PerceptronLayer._build_resize).memory
              (Ref.outputs (k - 1))
              (c_PerceptronLayer._build_resize
                (c_PerceptronLayer.relink (if 0 < k then some (k - 1) else none) b L)))
        else
          c_PerceptronLayer._build_resize
            (c_PerceptronLayer.relink (if 0 < k then some (k - 1) else none) b L))
      else if 0 < k ∧ i = k - 1 then some (c_PerceptronLayer.builtPrev k b w Lj)
      else if k + 1 < c ∧ i = k + 1 then
        (w.m_Layers[i]?).map (c_PerceptronLayer.resizeDeltaSumsOut L.m_Size)
      else w.m_Layers[i]? := by
  have hLk := h.layer k L hL
  have h0k : (c_PerceptronLayer.buildStart k b w).m_Layers[k]?
      = some (c_PerceptronLayer.relink (if 0 < k then some (k - 1) else none) b L) := by
    simp [c_PerceptronLayer.buildStart, hL]
  have h0i : ∀ i, i ≠ k →
      (c_PerceptronLayer.buildStart k b w).m_Layers[i]? = w.m_Layers[i]? := by
    intro i hi
    have : ¬ k = i := fun e => hi e.symm
    simp [c_PerceptronLayer.buildStart, this]
  have hout : ∀ j, (c_PerceptronLayer.relink (if 0 < k then some (k - 1) else none) b
      L).m_Output = some j → j = k + 1 := by
    intro j hj
    simp only [c_PerceptronLayer.frame_relink, hLk.output] at hj
    split at hj
    · exact (Option.some.inj hj).symm
    · cases hj
  have hbc := c_PerceptronLayer.beforeConnect_layers _ k _ Lj h0k (by simp)
    (fun hk0 => by rw [h0i _ (by omega)]; exact hj hk0) hout
  rw [hbc i]
  by_cases e1 : i = k
  · subst e1
    simp
  · have e2 : ¬ k = i := fun e => e1 e.symm
    simp only [e1, e2, if_false]
    by_cases e3 : 0 < k ∧ i = k - 1
    · simp [e3, c_PerceptronLayer.builtPrev]
    · simp only [e3, if_false, c_PerceptronLayer.frame_relink, hLk.output]
      by_cases e4 : k + 1 < c
      · by_cases e5 : i = k + 1
        · subst e5
          simp [e4, h0i]
        · have : ¬ k + 1 = i := fun e => e5 e.symm
          simp [e4, e5, this, h0i _ e1]
      · simp [e4, h0i _ e1]

/-- The layers after `c_PerceptronLayer::_build` on layer `k` of a chain whose first
`c ≥ k` layers are linked, called by `setInput` or `setBias`: layer `k`, its input layer
and its output layer change, no other. -/
theorem c_PerceptronLayer.build_chain (sizes : List Nat) (c k : Nat) (b : Bool)
    (w : c_NeuralNetwork α) (h : c_NeuralNetwork.Linked sizes c w)
    (L Lj : c_PerceptronLayer α) (hL : w.m_Layers[k]? = some L)
    (hj : 0 < k → w.m_Layers[k - 1]? = some Lj) (i : Nat) :
    (c_PerceptronLayer._build k (c_PerceptronLayer.buildStart k b w)).m_Layers[i]? =
      if i = k then some (c_PerceptronLayer.builtSelf k b w L Lj)
      else if 0 < k ∧ i = k - 1 then some (c_PerceptronLayer.builtPrev k b w Lj)
      else if k + 1 < c ∧ i = k + 1 then
        (w.m_Layers[i]?).map (c_PerceptronLayer.resizeDeltaSumsOut L.m_Size)
      else w.m_Layers[i]? := by
  have e : c_PerceptronLayer._build k (c_PerceptronLayer.buildStart k b w) =
      (c_PerceptronLayer.beforeConnect k (c_PerceptronLayer.buildStart k b w)).onLayer k
        (c_PerceptronLayer._connect
          (c_PerceptronLayer.beforeConnect k (c_PerceptronLayer.buildStart k b w)).memory) :=
    rfl
  rw [e, c_NeuralNetwork.onLayer_getElem?,
    c_PerceptronLayer.beforeConnect_chain sizes c k b w h L Lj hL hj i]
  by_cases e1 : i = k
  · subst e1
    simp [c_PerceptronLayer.builtSelf]
  · have e2 : ¬ k = i := fun e => e1 e.symm
    simp only [e1, e2, if_false]

/-- The arrays `_connect()` sees at the end of `_build` on layer `k` of a linked chain. -/
theorem c_PerceptronLayer.beforeConnect_memory (sizes : List Nat) (c k : Nat) (b : Bool)
    (w : c_NeuralNetwork α) (h : c_NeuralNetwork.Linked sizes c w) (hcn : c ≤ sizes.length)
    (L Lj : c_PerceptronLayer α) (hL : w.m_Layers[k]? = some L)
    (hj : 0 < k → w.m_Layers[k - 1]? = some Lj) :
    (∀ a, (c_PerceptronLayer.beforeConnect k (c_PerceptronLayer.buildStart k b w)).memory
      (Ref.caller a) = w.heap a) ∧
    (c_PerceptronLayer.beforeConnect k (c_PerceptronLayer.buildStart k b w)).memory
      Ref.localInputs = w.m_LocalInputs ∧
    (0 < k → (c_PerceptronLayer.beforeConnect k (c_PerceptronLayer.buildStart k b w)).memory
      (Ref.outputs (k - 1)) = Lj.m_Outputs) ∧
    (k + 1 < c → ((c_PerceptronLayer.beforeConnect k
      (c_PerceptronLayer.buildStart k b w)).memory (Ref.deltaSums (k + 1))).length
        = L.m_Size) ∧
    (0 < k → ((c_PerceptronLayer.buildStart k b w).onLayer k
      c_PerceptronLayer._build_resize).memory (Ref.outputs (k - 1)) = Lj.m_Outputs) ∧
    (0 < k → ((c_PerceptronLayer._build_input_resize k (k - 1)
      ((c_PerceptronLayer.buildStart k b w).onLayer k
        c_PerceptronLayer._build_resize)).memory (Ref.deltaSums k)).length = Lj.m_Size) := by
  have hfr := c_PerceptronLayer.frame_beforeConnect (c_PerceptronLayer.buildStart k b w) k
  have hbc := c_PerceptronLayer.beforeConnect_chain sizes c k b w h L Lj hL hj
  refine ⟨?_, ?_, ?_, ?_, ?_, ?_⟩
  · intro a
    rw [c_NeuralNetwork.memory_caller, hfr.2.1]
    simp [c_PerceptronLayer.buildStart]
  · rw [c_NeuralNetwork.memory_localInputs, hfr.2.2]
    simp [c_PerceptronLayer.buildStart]
  · intro hk0
    have e := hbc (k - 1)
    have n1 : ¬ k - 1 = k := by omega
    simp only [n1, if_false, hk0, and_self, if_true] at e
    rw [c_NeuralNetwork.memory_outputs _ _ _ e]
    simp [c_PerceptronLayer.builtPrev]
  · intro hk1
    obtain ⟨Ln, hn, _⟩ := h.get (k + 1) (by omega)
    have e := hbc (k + 1)
    have n1 : ¬ k + 1 = k := by omega
    have n2 : ¬ (0 < k ∧ k + 1 = k - 1) := by omega
    simp only [n1, n2, if_false, hk1, and_self, if_true, hn, Option.map_some'] at e
    rw [c_NeuralNetwork.memory_deltaSums _ _ _ e]
    simp [valarray.resize]
  · intro hk0
    have n1 : ¬ k = k - 1 := by omega
    have e : ((c_PerceptronLayer.buildStart k b w).onLayer k
        c_PerceptronLayer._build_resize).m_Layers[k - 1]? = some Lj := by
      simp [c_PerceptronLayer.buildStart, n1, hj hk0]
    rw [c_NeuralNetwork.memory_outputs _ _ _ e]
  · intro hk0
    have n1 : ¬ k = k - 1 := by omega
    have e1 : ((c_PerceptronLayer.buildStart k b w).onLayer k
        c_PerceptronLayer._build_resize).m_Layers[k - 1]? = some Lj := by
      simp [c_PerceptronLayer.buildStart, n1, hj hk0]
    have e2 : ((c_PerceptronLayer.buildStart k b w).onLayer k
        c_PerceptronLayer._build_resize).m_Layers[k]? = some (c_PerceptronLayer._build_resize
          (c_PerceptronLayer.relink (if 0 < k then some (k - 1) else none) b L)) := by
      simp [c_PerceptronLayer.buildStart, hL]
    exact c_PerceptronLayer.build_input_resize_memory _ k (k - 1) _ Lj e2 e1 (by omega)

end build_chain2

/-! ## The three layers `_build` changes keep the chain linked -/

section built

variable {α : Type} [CommRing α] [Div α]

theorem c_PerceptronLayer.units_setInputs (mem : Memory α) (r : Ref)
    (L : c_PerceptronLayer α) (hu : L.m_Perceptrons.length = L.m_Size) (i : Nat) :
    (c_PerceptronLayer.setInputs mem r L).m_Perceptrons[i]? =
      (L.m_Perceptrons[i]?).map (c_Perceptron.setInputs mem r) := by
  simp only [c_PerceptronLayer.setInputs, c_PerceptronLayer.units_connectInputs]
  cases hp : L.m_Perceptrons[i]? with
  | none => simp
  | some p =>
    have hi : i < L.m_Size := by
      have := (List.getElem?_eq_some_iff.mp hp).1
      omega
    simp [hi]

/-- Layer `k` after `_build` on it: linked as one of the first `max c (k + 1)` layers,
with the bias flag assigned, and with units that have as many weights as the array they
read; a unit keeps its scalars, and its weights unless they are all reset to zero. -/
theorem c_PerceptronLayer.builtSelf_spec (sizes : List Nat) (c k : Nat) (b : Bool)
    (w : c_NeuralNetwork α) (h : c_NeuralNetwork.Linked sizes c w) (hcn : c ≤ sizes.length)
    (hkc : k ≤ c) (hkn : k < sizes.length)
    (L Lj : c_PerceptronLayer α) (hL : w.m_Layers[k]? = some L)
    (hj : 0 < k → w.m_Layers[k - 1]? = some Lj)
    (v : c_NeuralNetwork α) (hv : v.heap = w.heap) :
    c_PerceptronLayer.Linked sizes (max c (k + 1)) v k (c_PerceptronLayer.builtSelf k b w L Lj) ∧
    (c_PerceptronLayer.builtSelf k b w L Lj).m_Bias = b ∧
    (c_PerceptronLayer.builtSelf k b w L Lj).m_TrainRate = L.m_TrainRate ∧
    (c_PerceptronLayer.builtSelf k b w L Lj).m_ActType = L.m_ActType ∧
    (c_PerceptronLayer.builtSelf k b w L Lj).m_Outputs =
      List.replicate L.m_Size 0 ++ (if b then [1] else []) ∧
    ∀ (i : Nat) (q : c_Perceptron α),
      (c_PerceptronLayer.builtSelf k b w L Lj).m_Perceptrons[i]? = some q →
      (0 < k → q.m_Weights.length = Lj.m_Outputs.length) ∧
      (k = 0 → q.m_Weights.length = w.m_LocalInputs.length) ∧
      ∃ p, L.m_Perceptrons[i]? = some p ∧ q.m_SumProducts = p.m_SumProducts ∧
        q.m_Output = p.m_Output ∧ q.m_Delta = p.m_Delta ∧ q.m_TrainRate = p.m_TrainRate ∧
        q.m_ActType = p.m_ActType ∧
        (q.m_Weights = p.m_Weights ∨ q.m_Weights = valarray.resize q.m_Weights.length) := by
  have hLk := h.layer k L hL
  obtain ⟨m1, m2, m3, m4, m5, m6⟩ :=
    c_PerceptronLayer.beforeConnect_memory sizes c k b w h hcn L Lj hL hj
  have hLj : 0 < k → c_PerceptronLayer.Linked sizes c w (k - 1) Lj :=
    fun hk0 => h.layer (k - 1) Lj (hj hk0)
  -- the layer `_connect` is called on
  have hX : ∃ X : c_PerceptronLayer α,
      c_PerceptronLayer.builtSelf k b w L Lj = c_PerceptronLayer._connect
        (c_PerceptronLayer.beforeConnect k (c_PerceptronLayer.buildStart k b w)).memory X ∧
      X.m_Size = L.m_Size ∧ X.m_Perceptrons.length = L.m_Size ∧
      X.m_Outputs = List.replicate L.m_Size 0 ++ (if b then [1] else []) ∧
      X.m_Bias = b ∧ X.m_Input = (if 0 < k then some (k - 1) else none) ∧
      X.m_Inputs = (if 0 < k then some (Ref.outputs (k - 1)) else some Ref.localInputs) ∧
      X.m_Output = L.m_Output ∧ X.m_WeightedDeltaSumsIn = L.m_WeightedDeltaSumsIn ∧
      X.m_Targets = L.m_Targets ∧ X.m_TrainRate = L.m_TrainRate ∧ X.m_ActType = L.m_ActType ∧
      X.m_WeightedDeltaSumsOut.length = (if 0 < k then sizes.getD (k - 1) 0 else 0) ∧
      ∀ (i : Nat) (p : c_Perceptron α), X.m_Perceptrons[i]? = some p →
        ∃ p0, L.m_Perceptrons[i]? = some p0 ∧
          (p = p0 ∨ ∃ (mem : Memory α) (r : Ref), p = c_Perceptron.setInputs mem r p0) := by
    by_cases hk0 : 0 < k
    · refine ⟨_, by simp only [c_PerceptronLayer.builtSelf, hk0, if_true]; rfl, ?_⟩
      have hs : Lj.m_Size = sizes.getD (k - 1) 0 := by
        have := (hLj hk0).size
        simp [List.getD, this]
      refine ⟨by simp, by simp, ?_, by simp, by simp [hk0], by simp [hk0], by simp,
        by simp, by simp, by simp, by simp, by simp [hk0, valarray.resize, hs], ?_⟩
      · simp [c_PerceptronLayer.outputs_build_resize]
      · intro i p hp
        simp only [c_PerceptronLayer.frame_resizeDeltaSumsOut] at hp
        rw [c_PerceptronLayer.units_setInputs _ _ _ (by simp)] at hp
        rw [c_PerceptronLayer.units_build_resize _ (by simpa using hLk.units)] at hp
        simp only [c_PerceptronLayer.frame_relink, Option.map_eq_some'] at hp
        obtain ⟨p0, hp0, e⟩ := hp
        exact ⟨p0, hp0, Or.inr ⟨_, _, e.symm⟩⟩
    · refine ⟨_, by simp only [c_PerceptronLayer.builtSelf, hk0, if_false]; rfl, ?_⟩
      have hk00 : k = 0 := by omega
      refine ⟨by simp, by simp, ?_, by simp, by simp [hk0], ?_, by simp,
        by simp, by simp, by simp, by simp, ?_, ?_⟩
      · simp [c_PerceptronLayer.outputs_build_resize]
      · simp [hk0, hLk.inputs, hk00]
      · simp [hk0, hLk.sumsOut, hk00]
      · intro i p hp
        rw [c_PerceptronLayer.units_build_resize _ (by simpa using hLk.units)] at hp
        simp only [c_PerceptronLayer.frame_relink] at hp
        exact ⟨p, hp, Or.inl rfl⟩
  obtain ⟨X, eX, x1, x2, x3, x4, x5, x6, x7, x8, x9, x10, x11, x12, x13⟩ := hX
  -- how the units of that layer are bound
  have hpre : ∀ (i : Nat) (p : c_Perceptron α), X.m_Perceptrons[i]? = some p →
      p.m_Target = X.m_Targets.map (fun t => (t, i)) ∧
      p.m_WeightedDeltaSum = X.m_WeightedDeltaSumsIn.map (fun d => (d, i)) ∧
      p.m_WeightedDeltas.length = p.m_Weights.length ∧
      (X.m_Inputs = none → p.m_Inputs = none) := by
    intro i p hp
    obtain ⟨p0, hp0, hor⟩ := x13 i p hp
    have hb := hLk.unit i p0 hp0
    have hnone : ¬ X.m_Inputs = none := by rw [x6]; split <;> simp
    rcases hor with e | ⟨mem, r, e⟩
    · subst e
      exact ⟨by rw [x9]; exact hb.target, by rw [x8]; exact hb.deltaSum, hb.deltas,
        fun hn => absurd hn hnone⟩
    · have hs := c_Perceptron.setInputs_fields mem r p0
      subst e
      refine ⟨by rw [x9, hs.2.2.1]; exact hb.target,
        by rw [x8, hs.2.2.2.1]; exact hb.deltaSum, ?_, fun hn => absurd hn hnone⟩
      rw [hs.2.2.2.2.2.2.2.2.2 hb.deltas, hs.2.1]
  have ht : ∀ t, X.m_Targets = some t →
      ((c_PerceptronLayer.beforeConnect k (c_PerceptronLayer.buildStart k b w)).memory t).length
        = X.m_Size ∧ X.m_WeightedDeltaSumsIn = none := by
    intro t htt
    rw [x9] at htt
    obtain ⟨e1, a, e2, e3⟩ := hLk.targets t htt
    subst e2
    refine ⟨by rw [m1 a, x1]; exact e3, ?_⟩
    rw [x8, hLk.sumsIn]
    have : ¬ k + 1 < c := by omega
    simp [this]
  have hd : ∀ d, X.m_WeightedDeltaSumsIn = some d →
      ((c_PerceptronLayer.beforeConnect k (c_PerceptronLayer.buildStart k b w)).memory d).length
        = X.m_Size := by
    intro d hdd
    rw [x8, hLk.sumsIn] at hdd
    by_cases hk1 : k + 1 < c
    · simp only [hk1, if_true, Option.some.injEq] at hdd
      subst hdd
      rw [m4 hk1, x1]
    · simp [hk1] at hdd
  have hcb := c_PerceptronLayer.connect_bound _ X (by rw [x2, x1]) hpre ht hd
  rw [eX]
  refine ⟨?_, by simpa using x4, by simpa using x10, by simpa using x11, by simpa using x3, ?_⟩
  · constructor
    · simpa [x1] using hLk.size
    · simp [x1, x2]
    · simp [x1, x3, x4]
      split <;> simp
    · intro hb
      simp only [c_PerceptronLayer.frame_connect, x4] at hb
      simp [x1, x3, hb, List.getElem?_append_right]
    · simp only [c_PerceptronLayer.frame_connect, x5]
      by_cases hk0 : 0 < k
      · have : k < max c (k + 1) := by omega
        simp [hk0, this]
      · simp [hk0]
    · simp only [c_PerceptronLayer.frame_connect, x6]
      by_cases hk0 : 0 < k
      · have : k < max c (k + 1) := by omega
        have h0 : ¬ k = 0 := by omega
        simp [hk0, this, h0]
      · have h0 : k = 0 := by omega
        simp [hk0, h0]
    · simp only [c_PerceptronLayer.frame_connect, x7, hLk.output]
      by_cases hk1 : k + 1 < c
      · have : k + 1 < max c (k + 1) := by omega
        simp [hk1, this]
      · have : ¬ k + 1 < max c (k + 1) := by omega
        simp [hk1, this]
    · simp only [c_PerceptronLayer.frame_connect, x8, hLk.sumsIn]
      by_cases hk1 : k + 1 < c
      · have : k + 1 < max c (k + 1) := by omega
        simp [hk1, this]
      · have : ¬ k + 1 < max c (k + 1) := by omega
        simp [hk1, this]
    · simp only [c_PerceptronLayer.frame_connect, x12]
      by_cases hk0 : 0 < k
      · have : k < max c (k + 1) := by omega
        simp [hk0, this]
      · simp [hk0]
    · intro t htt
      simp only [c_PerceptronLayer.frame_connect, x9] at htt
      obtain ⟨e1, a, e2, e3⟩ := hLk.targets t htt
      exact ⟨e1, a, e2, by simpa [hv, x1] using e3⟩
    · intro i q hq
      simpa using (hcb i q hq).1
  · intro i q hq
    obtain ⟨_, hw, p, hp, r1, r2, r3, r4, r5, r6⟩ := hcb i q hq
    obtain ⟨p0, hp0, hor⟩ := x13 i p hp
    refine ⟨?_, ?_, p0, hp0, ?_⟩
    · intro hk0
      have := hw (Ref.outputs (k - 1)) (by rw [x6]; simp [hk0])
      rw [this, m3 hk0]
    · intro hk0
      have := hw Ref.localInputs (by rw [x6]; simp [hk0])
      rw [this, m2]
    · rcases hor with e | ⟨mem, r, e⟩
      · subst e
        exact ⟨r1, r2, r3, r4, r5, r6⟩
      · have hs := c_Perceptron.setInputs_fields mem r p0
        subst e
        refine ⟨by rw [r1]; exact hs.2.2.2.2.1, by rw [r2]; exact hs.2.2.2.2.2.1,
          by rw [r3]; exact hs.2.2.2.2.2.2.1, by rw [r4]; exact hs.2.2.2.2.2.2.2.1,
          by rw [r5]; exact hs.2.2.2.2.2.2.2.2.1, ?_⟩
        rcases r6 with e | e
        · rw [e]
          unfold c_Perceptron.setInputs
          by_cases hh : p0.m_Weights.length = (mem r).length
          · left; simp [hh]
          · right; simp [hh, valarray.resize]
        · exact Or.inr e

end built

section built_neighbours

variable {α : Type} [CommRing α] [Div α]

/-- Layer `k - 1` after `_build` on layer `k`: linked, with layer `k` as its output layer
and the delta sums of layer `k` as its error source; each unit keeps everything but its
error source. -/
theorem c_PerceptronLayer.builtPrev_spec (sizes : List Nat) (c k : Nat) (b : Bool)
    (w : c_NeuralNetwork α) (h : c_NeuralNetwork.Linked sizes c w)
    (hcn : c ≤ sizes.length) (hkc : k ≤ c) (hk0 : 0 < k)
    (L Lj : c_PerceptronLayer α) (hL : w.m_Layers[k]? = some L)
    (hj : w.m_Layers[k - 1]? = some Lj) (v : c_NeuralNetwork α) :
    c_PerceptronLayer.Linked sizes (max c (k + 1)) v (k - 1)
      (c_PerceptronLayer.builtPrev k b w Lj) ∧
    (c_PerceptronLayer.builtPrev k b w Lj).m_Bias = Lj.m_Bias ∧
    (c_PerceptronLayer.builtPrev k b w Lj).m_TrainRate = Lj.m_TrainRate ∧
    (c_PerceptronLayer.builtPrev k b w Lj).m_ActType = Lj.m_ActType ∧
    (c_PerceptronLayer.builtPrev k b w Lj).m_Outputs = Lj.m_Outputs ∧
    ∀ (i : Nat) (q : c_Perceptron α),
      (c_PerceptronLayer.builtPrev k b w Lj).m_Perceptrons[i]? = some q →
      ∃ p, Lj.m_Perceptrons[i]? = some p ∧
        q = c_Perceptron.setWeightedDeltaSum (Ref.deltaSums k, i) p := by
  have hLj := h.layer (k - 1) Lj hj
  obtain ⟨m1, m2, m3, m4, m5, m6⟩ :=
    c_PerceptronLayer.beforeConnect_memory sizes c k b w h hcn L Lj hL (fun _ => hj)
  have hu := c_PerceptronLayer.setWeightedDeltaSumsIn_units
    (c_PerceptronLayer._build_input_resize k (k - 1)
      ((c_PerceptronLayer.buildStart k b w).onLayer k
        c_PerceptronLayer._build_resize)).memory (Ref.deltaSums k)
    (c_PerceptronLayer._setOutput k Lj) (by simpa using hLj.units) (by simpa using m6 hk0)
  have e1 : k - 1 + 1 = k := by omega
  have e2 : k < max c (k + 1) := by omega
  have e3 : k - 1 < c := by omega
  have e4 : k - 1 < max c (k + 1) := by omega
  unfold c_PerceptronLayer.builtPrev
  refine ⟨?_, by simp, by simp, by simp, by simp, ?_⟩
  · constructor
    · simpa using hLj.size
    · simpa using hLj.units
    · simpa using hLj.outputs
    · simpa using hLj.biasSlot
    · simp only [c_PerceptronLayer.frame_setWeightedDeltaSumsIn,
        c_PerceptronLayer.frame_setOutput, hLj.input, e3, e4]
    · simp only [c_PerceptronLayer.frame_setWeightedDeltaSumsIn,
        c_PerceptronLayer.frame_setOutput, hLj.inputs, e3, e4]
    · simp [e1, e2]
    · simp [e1, e2]
    · simp only [c_PerceptronLayer.frame_setWeightedDeltaSumsIn,
        c_PerceptronLayer.frame_setOutput, hLj.sumsOut, e3, e4]
    · intro t ht
      simp at ht
    · intro i q hq
      obtain ⟨p, hp, e⟩ := hu i q hq
      have hb := hLj.unit i p hp
      subst e
      simp only [c_PerceptronLayer.frame_setWeightedDeltaSumsIn,
        c_PerceptronLayer.frame_setOutput, c_PerceptronLayer.assigned, Option.map_none',
        Option.map_some']
      exact ⟨hb.inputs, rfl, rfl, hb.deltas⟩
  · exact hu

/-- Layer `k + 1` after `_build` on layer `k`: its delta-sum array is reset to the size
of layer `k`; the layer stays linked. -/
theorem c_PerceptronLayer.builtNext_spec (sizes : List Nat) (c k : Nat)
    (w : c_NeuralNetwork α) (h : c_NeuralNetwork.Linked sizes c w) (hk1 : k + 1 < c)
    (L Ln : c_PerceptronLayer α) (hL : w.m_Layers[k]? = some L)
    (hn : w.m_Layers[k + 1]? = some Ln) (v : c_NeuralNetwork α) (hv : v.heap = w.heap) :
    c_PerceptronLayer.Linked sizes (max c (k + 1)) v (k + 1)
      (c_PerceptronLayer.resizeDeltaSumsOut L.m_Size Ln) := by
  have hLn := h.layer (k + 1) Ln hn
  have hLk := h.layer k L hL
  have e : max c (k + 1) = c := by omega
  rw [e]
  constructor
  · simpa using hLn.size
  · simpa using hLn.units
  · simpa using hLn.outputs
  · simpa using hLn.biasSlot
  · simpa using hLn.input
  · simpa using hLn.inputs
  · simpa using hLn.output
  · simpa using hLn.sumsIn
  · have := hLk.size
    simp [hk1, valarray.resize, List.getD, this]
  · intro t ht
    obtain ⟨e1, a, e2, e3⟩ := hLn.targets t (by simpa using ht)
    exact ⟨e1, a, e2, by simpa [hv] using e3⟩
  · intro i q hq
    simpa using hLn.unit i q (by simpa using hq)

/-- A layer that `_build` on layer `k` does not touch stays linked. -/
theorem c_PerceptronLayer.Linked.other {sizes : List Nat} {c k i : Nat}
    {w v : c_NeuralNetwork α} {Lx : c_PerceptronLayer α}
    (h : c_PerceptronLayer.Linked sizes c w i Lx) (hv : v.heap = w.heap) (hkc : k ≤ c)
    (h1 : i ≠ k) (h2 : i + 1 ≠ k) :
    c_PerceptronLayer.Linked sizes (max c (k + 1)) v i Lx := by
  have e1 : (i < max c (k + 1)) ↔ (i < c) := by omega
  have e2 : (i + 1 < max c (k + 1)) ↔ (i + 1 < c) := by omega
  constructor
  · exact h.size
  · exact h.units
  · exact h.outputs
  · exact h.biasSlot
  · simpa only [e1] using h.input
  · simpa only [e1] using h.inputs
  · simpa only [e2] using h.output
  · simpa only [e2] using h.sumsIn
  · simpa only [e1] using h.sumsOut
  · intro t ht
    obtain ⟨e1, a, e2, e3⟩ := h.targets t ht
    exact ⟨e1, a, e2, by simpa [hv] using e3⟩
  · exact h.unit

end built_neighbours

/-! ## One `_build` in a chain -/

section build_step

variable {α : Type} [CommRing α] [Div α]

theorem c_Perceptron.Rewired.unit_refl (p : c_Perceptron α) : c_Perceptron.Rewired p p :=
  ⟨rfl, rfl, rfl, rfl, rfl, Or.inl rfl⟩

/-- The two error pointers of layer `k` after `_build` on it. -/
theorem c_PerceptronLayer.builtSelf_pointers (k : Nat) (b : Bool) (w : c_NeuralNetwork α)
    (L Lj : c_PerceptronLayer α) :
    (c_PerceptronLayer.builtSelf k b w L Lj).m_Targets = L.m_Targets ∧
    (c_PerceptronLayer.builtSelf k b w L Lj).m_WeightedDeltaSumsIn
      = L.m_WeightedDeltaSumsIn := by
  unfold c_PerceptronLayer.builtSelf
  split <;> simp [c_PerceptronLayer.relink]

/-- The error sums that layer `k - 1` points to after `_build` on layer `k`. -/
theorem c_PerceptronLayer.builtPrev_sumsIn (k : Nat) (b : Bool) (w : c_NeuralNetwork α)
    (Lj : c_PerceptronLayer α) :
    (c_PerceptronLayer.builtPrev k b w Lj).m_WeightedDeltaSumsIn
      = some (Ref.deltaSums k) := by
  simp [c_PerceptronLayer.builtPrev]

/-- `setInput(k - 1)` or `setBias(b)` on layer `k` of a chain whose first `c ≥ k` layers
are linked: the first `max c (k + 1)` layers are linked afterwards, only the layers
change, every layer is the old one rebuilt, and the units of layer `k` have as many
weights as the array they read. -/
theorem c_PerceptronLayer.build_step (sizes : List Nat) (c k : Nat) (b : Bool)
    (w : c_NeuralNetwork α) (h : c_NeuralNetwork.Linked sizes c w)
    (hcn : c ≤ sizes.length) (hkc : k ≤ c) (hkn : k < sizes.length) :
    c_NeuralNetwork.Linked sizes (max c (k + 1))
      (c_PerceptronLayer._build k (c_PerceptronLayer.buildStart k b w)) ∧
    (c_PerceptronLayer._build k (c_PerceptronLayer.buildStart k b w)).m_Bias = w.m_Bias ∧
    (c_PerceptronLayer._build k (c_PerceptronLayer.buildStart k b w)).m_LocalInputs
      = w.m_LocalInputs ∧
    (c_PerceptronLayer._build k (c_PerceptronLayer.buildStart k b w)).heap = w.heap ∧
    (c_PerceptronLayer._build k (c_PerceptronLayer.buildStart k b w)).m_Inputs = w.m_Inputs ∧
    (c_PerceptronLayer._build k (c_PerceptronLayer.buildStart k b w)).m_Targets = w.m_Targets ∧
    (c_PerceptronLayer._build k (c_PerceptronLayer.buildStart k b w)).m_TrainRate
      = w.m_TrainRate ∧
    (c_PerceptronLayer._build k (c_PerceptronLayer.buildStart k b w)).m_ActType
      = w.m_ActType ∧
    (∀ (i : Nat) (L' : c_PerceptronLayer α),
      (c_PerceptronLayer._build k (c_PerceptronLayer.buildStart k b w)).m_Layers[i]? = some L' →
      ∃ L, w.m_Layers[i]? = some L ∧ c_PerceptronLayer.Rebuilt k b i L L') ∧
    (∀ L' : c_PerceptronLayer α,
      (c_PerceptronLayer._build k (c_PerceptronLayer.buildStart k b w)).m_Layers[k]? = some L' →
      c_PerceptronLayer.Sync (c_PerceptronLayer._build k (c_PerceptronLayer.buildStart k b w))
        L') := by
  obtain ⟨L, hL, hLk⟩ := h.get k hkn
  have hprev : ∃ Lj, 0 < k → w.m_Layers[k - 1]? = some Lj := by
    by_cases hk0 : 0 < k
    · obtain ⟨Lj, hj, _⟩ := h.get (k - 1) (by omega)
      exact ⟨Lj, fun _ => hj⟩
    · exact ⟨L, fun h => absurd h hk0⟩
  obtain ⟨Lj, hj⟩ := hprev
  have hch := c_PerceptronLayer.build_chain sizes c k b w h L Lj hL hj
  have hfr := c_PerceptronLayer.frame_build (c_PerceptronLayer.buildStart k b w) k
  have hfs : (c_PerceptronLayer.buildStart k b w).m_Layers.length = w.m_Layers.length ∧
      (c_PerceptronLayer.buildStart k b w).heap = w.heap ∧
      (c_PerceptronLayer.buildStart k b w).m_Inputs = w.m_Inputs ∧
      (c_PerceptronLayer.buildStart k b w).m_Targets = w.m_Targets ∧
      (c_PerceptronLayer.buildStart k b w).m_LocalInputs = w.m_LocalInputs ∧
      (c_PerceptronLayer.buildStart k b w).m_Bias = w.m_Bias ∧
      (c_PerceptronLayer.buildStart k b w).m_Size = w.m_Size ∧
      (c_PerceptronLayer.buildStart k b w).m_TrainRate = w.m_TrainRate ∧
      (c_PerceptronLayer.buildStart k b w).m_ActType = w.m_ActType := by
    simp [c_PerceptronLayer.buildStart]
  have hheap : (c_PerceptronLayer._build k (c_PerceptronLayer.buildStart k b w)).heap
      = w.heap := by rw [hfr.2.1, hfs.2.1]
  have hself := c_PerceptronLayer.builtSelf_spec sizes c k b w h hcn hkc hkn L Lj hL hj
    (c_PerceptronLayer._build k (c_PerceptronLayer.buildStart k b w)) hheap
  -- every layer of the result
  have hall : ∀ (i : Nat) (L' : c_PerceptronLayer α),
      (c_PerceptronLayer._build k (c_PerceptronLayer.buildStart k b w)).m_Layers[i]? = some L' →
      c_PerceptronLayer.Linked sizes (max c (k + 1))
        (c_PerceptronLayer._build k (c_PerceptronLayer.buildStart k b w)) i L' ∧
      ∃ L, w.m_Layers[i]? = some L ∧ c_PerceptronLayer.Rebuilt k b i L L' := by
    intro i L' hL'
    rw [hch i] at hL'
    by_cases e1 : i = k
    · subst e1
      simp only [if_true, Option.some.injEq] at hL'
      subst hL'
      obtain ⟨s1, s2, s3, s4, s5, s6⟩ := hself
      have ht := c_PerceptronLayer.builtSelf_pointers i b w L Lj
      refine ⟨s1, L, hL, ⟨by simp [s2], s3, s4, by simp [s5], ?_,
        by rw [ht.2]; exact id, Or.inl ht.1⟩⟩
      intro u q hq
      obtain ⟨_, _, p, hp, r1, r2, r3, r4, r5, r6⟩ := s6 u q hq
      exact ⟨p, hp, ⟨r1, r2, r3, r4, r5, r6⟩, fun hne => absurd rfl hne⟩
    · simp only [e1, if_false] at hL'
      by_cases e2 : 0 < k ∧ i = k - 1
      · obtain ⟨hk0, e2⟩ := e2
        subst e2
        simp only [hk0, and_self, if_true, Option.some.injEq] at hL'
        subst hL'
        obtain ⟨s1, s2, s3, s4, s5, s6⟩ := c_PerceptronLayer.builtPrev_spec sizes c k b w h
          hcn hkc hk0 L Lj hL (hj hk0)
          (c_PerceptronLayer._build k (c_PerceptronLayer.buildStart k b w))
        have ht := c_PerceptronLayer.builtPrev_sumsIn k b w Lj
        refine ⟨s1, Lj, hj hk0, ⟨by simp [e1, s2], s3, s4, by simp [e1, s5], ?_,
          fun _ => by rw [ht]; simp, Or.inr (by rw [ht]; simp)⟩⟩
        intro u q hq
        obtain ⟨p, hp, e⟩ := s6 u q hq
        subst e
        exact ⟨p, hp, ⟨rfl, rfl, rfl, rfl, rfl, Or.inl rfl⟩, fun _ => ⟨rfl, rfl⟩⟩
      · simp only [e2, if_false] at hL'
        by_cases e3 : k + 1 < c ∧ i = k + 1
        · obtain ⟨hk1, e3⟩ := e3
          subst e3
          obtain ⟨Ln, hn, _⟩ := h.get (k + 1) (by omega)
          simp only [hk1, and_self, if_true, hn, Option.map_some', Option.some.injEq] at hL'
          subst hL'
          refine ⟨c_PerceptronLayer.builtNext_spec sizes c k w h hk1 L Ln hL hn _ hheap, Ln, hn,
            ⟨by simp [e1], by simp, by simp, by simp [e1], ?_, by simp, Or.inl (by simp)⟩⟩
          intro u q hq
          exact ⟨q, by simpa using hq, c_Perceptron.Rewired.unit_refl q, fun _ => ⟨rfl, rfl⟩⟩
        · simp only [e3, if_false] at hL'
          have hLi := h.layer i L' hL'
          have hne : i + 1 ≠ k := by
            intro e
            apply e2
            omega
          by_cases hik : i = k + 1
          · -- layer `k + 1` of a chain whose layer `k` is the last linked one
            have hkc' : ¬ k + 1 < c := fun hh => e3 ⟨hh, hik⟩
            refine ⟨?_, L', hL', ⟨by simp [e1], rfl, rfl, by simp [e1], ?_, id, Or.inl rfl⟩⟩
            · exact hLi.other hheap hkc e1 hne
            · intro u q hq
              exact ⟨q, hq, c_Perceptron.Rewired.unit_refl q, fun _ => ⟨rfl, rfl⟩⟩
          · refine ⟨hLi.other hheap hkc e1 hne, L', hL',
              ⟨by simp [e1], rfl, rfl, by simp [e1], ?_, id, Or.inl rfl⟩⟩
            intro u q hq
            exact ⟨q, hq, c_Perceptron.Rewired.unit_refl q, fun _ => ⟨rfl, rfl⟩⟩
  refine ⟨⟨?_, ?_, h.pos, h.bound, ?_, ?_, fun i L' hL' => (hall i L' hL').1⟩,
    by rw [hfr.2.2.2.2.2.1, hfs.2.2.2.2.2.1], by rw [hfr.2.2.2.2.1, hfs.2.2.2.2.1], hheap,
    by rw [hfr.2.2.1, hfs.2.2.1], by rw [hfr.2.2.2.1, hfs.2.2.2.1],
    by rw [hfr.2.2.2.2.2.2.2.1, hfs.2.2.2.2.2.2.2.1],
    by rw [hfr.2.2.2.2.2.2.2.2, hfs.2.2.2.2.2.2.2.2],
    fun i L' hL' => (hall i L' hL').2, ?_⟩
  · rw [hfr.1, hfs.1]; exact h.length
  · rw [hfr.2.2.2.2.2.2.1, hfs.2.2.2.2.2.2.1]; exact h.size
  · rw [hfr.2.2.1, hfs.2.2.1]; exact h.inputs
  · rw [hfr.2.2.2.1, hfs.2.2.2.1]; exact h.targets
  · intro L' hL'
    have e := hch k
    simp only [if_true] at e
    rw [e] at hL'
    cases hL'
    obtain ⟨s1, s2, s3, s4, s5, s6⟩ := hself
    intro r hr q hq
    obtain ⟨u, hu⟩ := List.getElem?_of_mem hq
    obtain ⟨q1, q2, _⟩ := s6 u q hu
    rw [s1.inputs] at hr
    by_cases hk0 : 0 < k
    · have h0 : ¬ k = 0 := by omega
      have h1 : k < max c (k + 1) := by omega
      simp only [h0, if_false, h1, if_true, Option.some.injEq] at hr
      subst hr
      have e1 := hch (k - 1)
      have n1 : ¬ k - 1 = k := by omega
      simp only [n1, if_false, hk0, and_self, if_true] at e1
      rw [c_NeuralNetwork.memory_outputs _ _ _ e1, q1 hk0]
      exact congrArg List.length (c_PerceptronLayer.builtPrev_spec sizes c k b w h
        hcn hkc hk0 L Lj hL (hj hk0) w).2.2.2.2.1.symm
    · have h0 : k = 0 := by omega
      simp only [h0, if_true, Option.some.injEq] at hr
      subst hr
      rw [c_NeuralNetwork.memory_localInputs, hfr.2.2.2.2.1, hfs.2.2.2.2.1]
      exact q2 h0

end build_step

/-! ## `c_NeuralNetwork::_build`: the layers pushed, before they are connected -/

section push

variable {α : Type} [CommRing α] [Div α]

theorem c_Perceptron.copy_eq (p : c_Perceptron α) : c_Perceptron._copy p = p := rfl

theorem c_PerceptronLayer.fresh_fields (n : Nat) :
    (c_PerceptronLayer.fresh n : c_PerceptronLayer α).m_Inputs = none ∧
    (c_PerceptronLayer.fresh n : c_PerceptronLayer α).m_Targets = none ∧
    (c_PerceptronLayer.fresh n : c_PerceptronLayer α).m_WeightedDeltaSumsIn = none ∧
    (c_PerceptronLayer.fresh n : c_PerceptronLayer α).m_Input = none ∧
    (c_PerceptronLayer.fresh n : c_PerceptronLayer α).m_Output = none ∧
    (c_PerceptronLayer.fresh n : c_PerceptronLayer α).m_Outputs = List.replicate n 0 ++ [1] ∧
    (c_PerceptronLayer.fresh n : c_PerceptronLayer α).m_WeightedDeltaSumsOut = [] ∧
    (c_PerceptronLayer.fresh n : c_PerceptronLayer α).m_Perceptrons
      = List.replicate n c_Perceptron.construct ∧
    (c_PerceptronLayer.fresh n : c_PerceptronLayer α).m_Bias = true ∧
    (c_PerceptronLayer.fresh n : c_PerceptronLayer α).m_Size = n ∧
    (c_PerceptronLayer.fresh n : c_PerceptronLayer α).m_TrainRate = 0 ∧
    (c_PerceptronLayer.fresh n : c_PerceptronLayer α).m_ActType = e_Activation.ACT_TANH := by
  refine ⟨?_, ?_, ?_, ?_, ?_, ?_, ?_, ?_, ?_, ?_, ?_, ?_⟩ <;>
    simp [c_PerceptronLayer.fresh, c_PerceptronLayer.init, c_PerceptronLayer.outputs_build_resize]
  simp [c_PerceptronLayer._build_resize, vector_resize]

theorem c_PerceptronLayer.connect_unbound (mem : Memory α) (L : c_PerceptronLayer α)
    (h1 : L.m_Inputs = none) (h2 : L.m_Targets = none) (h3 : L.m_WeightedDeltaSumsIn = none) :
    c_PerceptronLayer._connect mem L = L := by
  simp [c_PerceptronLayer._connect, c_PerceptronLayer._connectInputs,
    c_PerceptronLayer._connectTargets, c_PerceptronLayer._connectWeightedDeltaSums, h1, h2, h3]

theorem c_NeuralNetwork.onLayer_append (w : c_NeuralNetwork α) (x : c_PerceptronLayer α)
    (f : c_PerceptronLayer α → c_PerceptronLayer α) :
    c_NeuralNetwork.onLayer w.m_Layers.length f { w with m_Layers := w.m_Layers ++ [x] }
      = { w with m_Layers := w.m_Layers ++ [f x] } := by
  simp only [c_NeuralNetwork.onLayer]
  congr 1
  apply List.ext_getElem?
  intro i
  rw [List.getElem?_modify]
  by_cases h : i < w.m_Layers.length
  · have : ¬ w.m_Layers.length = i := by omega
    simp [List.getElem?_append_left h, this]
  · by_cases h2 : i = w.m_Layers.length
    · subst h2
      simp [List.getElem?_append_right]
    · have : ¬ w.m_Layers.length = i := fun e => h2 e.symm
      have h3 : w.m_Layers.length ≤ i := by omega
      have h4 : i - w.m_Layers.length = (i - w.m_Layers.length - 1) + 1 := by omega
      simp only [List.getElem?_append_right h3, this, if_false]
      rw [h4]
      rfl

/-- `m_Layers.push_back(n)` appends a fresh layer of `n` units and changes nothing else. -/
theorem c_NeuralNetwork.push_back_eq (n : Nat) (w : c_NeuralNetwork α) :
    c_NeuralNetwork.push_back n w = { w with m_Layers := w.m_Layers ++ [c_PerceptronLayer.fresh n] } := by
  have hf := @c_PerceptronLayer.fresh_fields α _ _ n
  unfold c_NeuralNetwork.push_back
  simp only []
  have e1 : c_PerceptronLayer._build w.m_Layers.length
      { w with m_Layers := w.m_Layers ++ [c_PerceptronLayer.init n] }
      = { w with m_Layers := w.m_Layers ++ [c_PerceptronLayer.fresh n] } := by
    unfold c_PerceptronLayer._build
    rw [c_NeuralNetwork.onLayer_append]
    have hk : ({ w with m_Layers := w.m_Layers ++ [c_PerceptronLayer._build_resize
        (c_PerceptronLayer.init n)] } : c_NeuralNetwork α).m_Layers[w.m_Layers.length]?
        = some (c_PerceptronLayer.fresh n) := by
      simp [List.getElem?_append_right, c_PerceptronLayer.fresh]
    rw [c_PerceptronLayer.build_input_none _ _ _ hk hf.2.2.2.1,
      c_PerceptronLayer.build_output_none _ _ _ hk hf.2.2.2.2.1]
    unfold c_PerceptronLayer._build_connect
    have := c_NeuralNetwork.onLayer_append w (c_PerceptronLayer._build_resize
      (c_PerceptronLayer.init n))
    have hc : ∀ mem : Memory α, c_PerceptronLayer._connect mem
        (c_PerceptronLayer._build_resize (c_PerceptronLayer.init n))
        = c_PerceptronLayer._build_resize (c_PerceptronLayer.init n) :=
      fun mem => c_PerceptronLayer.connect_unbound mem _ hf.1 hf.2.1 hf.2.2.1
    rw [this, hc]
    rfl
  rw [e1]
  have := c_NeuralNetwork.onLayer_append w (c_PerceptronLayer.fresh n)
  rw [this]
  congr 2
  simp only [List.cons.injEq, and_true]
  unfold c_PerceptronLayer._copy
  have hm : (c_PerceptronLayer.fresh n : c_PerceptronLayer α).m_Perceptrons.map
      c_Perceptron._copy = (c_PerceptronLayer.fresh n).m_Perceptrons := by
    have : (c_Perceptron._copy : c_Perceptron α → c_Perceptron α) = id := rfl
    rw [this, List.map_id]
  rw [hm]
  exact c_PerceptronLayer.connect_unbound _ _ hf.1 hf.2.1 hf.2.2.1

/-- The loop of `c_NeuralNetwork::_build`. -/
theorem c_NeuralNetwork.push_loop (sizes : List Nat) (lo n : Nat) (w : c_NeuralNetwork α)
    (h : lo + n ≤ sizes.length) :
    forLoop (fun i => c_NeuralNetwork.push_back (sizes.getD i 0)) lo n w =
      { w with m_Layers := w.m_Layers ++
          ((sizes.drop lo).take n).map c_PerceptronLayer.fresh } := by
  induction n generalizing lo w with
  | zero => simp [forLoop]
  | succ n ih =>
    rw [forLoop, ih (lo + 1) _ (by omega), c_NeuralNetwork.push_back_eq]
    have hlo : lo < sizes.length := by omega
    have e : sizes.drop lo = sizes[lo] :: sizes.drop (lo + 1) := by
      rw [List.drop_eq_getElem_cons hlo]
    have e2 : sizes.getD lo 0 = sizes[lo] := by
      simp [List.getD, List.getElem?_eq_getElem hlo]
    rw [e, List.take_succ_cons, List.map_cons, e2]
    simp only [List.append_assoc, List.singleton_append]

end push

/-! ## `c_NeuralNetwork::_connect` on the pushed layers -/

section connect_net

variable {α : Type} [CommRing α] [Div α]

theorem c_NeuralNetwork.onLayer_congr (w : c_NeuralNetwork α) (k : Nat)
    (f g : c_PerceptronLayer α → c_PerceptronLayer α)
    (h : ∀ L, w.m_Layers[k]? = some L → f L = g L) :
    w.onLayer k f = w.onLayer k g := by
  simp only [c_NeuralNetwork.onLayer]
  congr 1
  apply List.ext_getElem?
  intro i
  rw [List.getElem?_modify, List.getElem?_modify]
  by_cases e : k = i
  · subst e
    cases hL : w.m_Layers[k]? with
    | none => simp
    | some L => simp [h L hL]
  · simp [e]

theorem c_NeuralNetwork.atLayer_some (i : Nat)
    (f : Nat → c_NeuralNetwork α → c_NeuralNetwork α) (w : c_NeuralNetwork α)
    (h : i < w.m_Layers.length) : c_NeuralNetwork.atLayer i f w = some (f i w) := by
  simp [c_NeuralNetwork.atLayer, h]

/-- A fresh layer behind the first one, in a chain of which only the first layer is
connected. -/
theorem c_PerceptronLayer.fresh_linked (sizes : List Nat) (k s : Nat) (hk : 0 < k)
    (hs : sizes[k]? = some s) (v : c_NeuralNetwork α) :
    c_PerceptronLayer.Linked sizes 1 v k (c_PerceptronLayer.fresh s) := by
  obtain ⟨f1, f2, f3, f4, f5, f6, f7, f8, f9, f10, f11, f12⟩ :=
    @c_PerceptronLayer.fresh_fields α _ _ s
  have n1 : ¬ k < 1 := by omega
  have n2 : ¬ k + 1 < 1 := by omega
  have n3 : ¬ k = 0 := by omega
  constructor
  · rw [f10]; exact hs
  · rw [f8, f10]; simp
  · rw [f6, f9, f10]; simp
  · intro _; rw [f6, f10]; simp [List.getElem?_append_right]
  · rw [f4]; simp [n1]
  · rw [f1]; simp [n1, n3]
  · rw [f5]; simp [n2]
  · rw [f3]; simp [n2]
  · rw [f7]; simp [n1]
  · intro t ht; rw [f2] at ht; cases ht
  · intro i p hp
    rw [f8] at hp
    rw [f1, f2, f3]
    have hp' : p = c_Perceptron.construct := by
      have := List.getElem?_eq_some_iff.mp hp
      obtain ⟨h1, h2⟩ := this
      simpa using h2.symm
    subst hp'
    exact ⟨rfl, rfl, rfl, rfl⟩

/-- The first layer after `setInputs(m_LocalInputs)` while the local inputs are empty. -/
theorem c_PerceptronLayer.first_linked (sizes : List Nat) (s : Nat) (hs : sizes[0]? = some s)
    (mem : Memory α) (hm : mem Ref.localInputs = []) (v : c_NeuralNetwork α) :
    c_PerceptronLayer.Linked sizes 1 v 0
      (c_PerceptronLayer.setInputs mem Ref.localInputs (c_PerceptronLayer.fresh s)) ∧
    (c_PerceptronLayer.setInputs mem Ref.localInputs (c_PerceptronLayer.fresh s)).m_Bias = true ∧
    (c_PerceptronLayer.setInputs mem Ref.localInputs (c_PerceptronLayer.fresh s)).m_Outputs
      = List.replicate s 0 ++ [1] ∧
    ∀ p ∈ (c_PerceptronLayer.setInputs mem Ref.localInputs
      (c_PerceptronLayer.fresh s)).m_Perceptrons, c_Perceptron.Blank p := by
  obtain ⟨f1, f2, f3, f4, f5, f6, f7, f8, f9, f10, f11, f12⟩ :=
    @c_PerceptronLayer.fresh_fields α _ _ s
  have hu : ∀ (i : Nat) (p : c_Perceptron α),
      (c_PerceptronLayer.setInputs mem Ref.localInputs
        (c_PerceptronLayer.fresh s)).m_Perceptrons[i]? = some p →
      p = { (c_Perceptron.construct : c_Perceptron α) with m_Inputs := some Ref.localInputs } := by
    intro i p hp
    rw [c_PerceptronLayer.units_setInputs _ _ _ (by rw [f8, f10]; simp), f8] at hp
    simp only [Option.map_eq_some'] at hp
    obtain ⟨p0, hp0, e⟩ := hp
    have hp' : p0 = c_Perceptron.construct := by
      have := List.getElem?_eq_some_iff.mp hp0
      obtain ⟨h1, h2⟩ := this
      simpa using h2.symm
    subst hp'
    rw [← e]
    exact c_Perceptron.setInputs_same mem _ _ (by simp [hm, c_Perceptron.construct])
  refine ⟨?_, by simp [f9], by simp [f6], ?_⟩
  · constructor
    · simpa [f10] using hs
    · simp [f8, f10]
    · simp [f6, f9, f10]
    · intro _; simp [f6, f10, List.getElem?_append_right]
    · simp [f4]
    · simp
    · simp [f5]
    · simp [f3]
    · simp [f7]
    · intro t ht; simp [f2] at ht
    · intro i p hp
      have := hu i p hp
      subst this
      simp only [c_PerceptronLayer.frame_setInputs, c_PerceptronLayer.assigned, f2, f3]
      exact ⟨rfl, rfl, rfl, rfl⟩
  · intro p hp
    obtain ⟨i, hi⟩ := List.getElem?_of_mem hp
    have := hu i p hi
    subst this
    exact ⟨rfl, rfl, rfl, rfl⟩

/-- `setTargets` with an array of the right length binds it. -/
theorem c_PerceptronLayer.setTargets_bound (mem : Memory α) (r : Ref)
    (L : c_PerceptronLayer α) (h : (mem r).length = L.m_Size) :
    (c_PerceptronLayer.setTargets mem r L).m_Targets = some r := by
  simp [c_PerceptronLayer.setTargets, h]

/-- `setTargets` on the last layer of a chain keeps it linked and keeps everything of its
units but the error source. -/
theorem c_PerceptronLayer.setTargets_linked (sizes : List Nat) (c k : Nat)
    (w v : c_NeuralNetwork α) (L : c_PerceptronLayer α)
    (h : c_PerceptronLayer.Linked sizes c w k L) (hk : k + 1 = sizes.length)
    (hc : c ≤ sizes.length) (mem : Memory α) (a : Nat) (hm : mem (Ref.caller a) = v.heap a)
    (hv : v.heap = w.heap) :
    c_PerceptronLayer.Linked sizes c v k (c_PerceptronLayer.setTargets mem (Ref.caller a) L) ∧
    ∀ (i : Nat) (q : c_Perceptron α),
      (c_PerceptronLayer.setTargets mem (Ref.caller a) L).m_Perceptrons[i]? = some q →
      ∃ p, L.m_Perceptrons[i]? = some p ∧
        (q = p ∨ q = c_Perceptron.setTarget (Ref.caller a, i) p) := by
  have n1 : ¬ k + 1 < c := by omega
  have hsi : L.m_WeightedDeltaSumsIn = none := by rw [h.sumsIn]; simp [n1]
  unfold c_PerceptronLayer.setTargets
  by_cases hl : (mem (Ref.caller a)).length = L.m_Size
  · simp only [hl, if_true]
    have hu : ∀ (i : Nat) (q : c_Perceptron α),
        (c_PerceptronLayer._connectTargets mem
          { L with m_Targets := some (Ref.caller a), m_WeightedDeltaSumsIn := none }
          ).m_Perceptrons[i]? = some q →
        ∃ p, L.m_Perceptrons[i]? = some p ∧ q = c_Perceptron.setTarget (Ref.caller a, i) p := by
      intro i q hq
      simp only [c_PerceptronLayer.units_connectTargets, Option.map_eq_some'] at hq
      obtain ⟨p, hp, e⟩ := hq
      have hi : i < L.m_Size := by
        have := (List.getElem?_eq_some_iff.mp hp).1
        have := h.units
        omega
      simp only [hl, hi, and_self, if_true] at e
      exact ⟨p, hp, e.symm⟩
    refine ⟨?_, fun i q hq => ?_⟩
    · constructor
      · simpa using h.size
      · simpa using h.units
      · simpa using h.outputs
      · simpa using h.biasSlot
      · simpa using h.input
      · simpa using h.inputs
      · simpa using h.output
      · simp [n1]
      · simpa using h.sumsOut
      · intro t ht
        simp only [c_PerceptronLayer.frame_connectTargets, Option.some.injEq] at ht
        subst ht
        exact ⟨hk, a, rfl, by rw [← hm]; simpa using hl⟩
      · intro i q hq
        obtain ⟨p, hp, e⟩ := hu i q hq
        have hb := h.unit i p hp
        subst e
        simp only [c_PerceptronLayer.frame_connectTargets, Option.map_some', Option.map_none']
        exact ⟨hb.inputs, rfl, rfl, hb.deltas⟩
    · obtain ⟨p, hp, e⟩ := hu i q hq
      exact ⟨p, hp, Or.inr e⟩
  · simp only [hl, if_false]
    refine ⟨?_, fun i q hq => ⟨q, hq, Or.inl rfl⟩⟩
    constructor
    · exact h.size
    · exact h.units
    · exact h.outputs
    · exact h.biasSlot
    · exact h.input
    · exact h.inputs
    · exact h.output
    · exact h.sumsIn
    · exact h.sumsOut
    · intro t ht
      obtain ⟨e1, a', e2, e3⟩ := h.targets t ht
      exact ⟨e1, a', e2, by simpa [hv] using e3⟩
    · exact h.unit

end connect_net

/-! ## `c_NeuralNetwork::_build` -/

section build_net

variable {α : Type} [CommRing α] [Div α]

theorem c_Perceptron.Blank.of_unit_rewired {p q : c_Perceptron α} (h : c_Perceptron.Blank p)
    (r : c_Perceptron.Rewired p q) : c_Perceptron.Blank q := by
  refine ⟨?_, by rw [r.sumProducts, h.sumProducts], by rw [r.output, h.output],
    by rw [r.delta, h.delta]⟩
  rcases r.weights with e | e
  · rw [e]; exact h.weights
  · exact e

/-- A rebuild keeps every unit blank and every output slot zero. -/
theorem c_NeuralNetwork.Blank.rebuilt {w v : c_NeuralNetwork α} {k : Nat} {b : Bool}
    (h : c_NeuralNetwork.Blank w)
    (hs : ∀ (i : Nat) (L L' : c_PerceptronLayer α), w.m_Layers[i]? = some L →
      v.m_Layers[i]? = some L' → L'.m_Size = L.m_Size)
    (hr : ∀ (i : Nat) (L' : c_PerceptronLayer α), v.m_Layers[i]? = some L' →
      ∃ L, w.m_Layers[i]? = some L ∧ c_PerceptronLayer.Rebuilt k b i L L') :
    c_NeuralNetwork.Blank v := by
  intro i L' hL'
  obtain ⟨L, hL, r⟩ := hr i L' hL'
  obtain ⟨h1, h2⟩ := h i L hL
  have es := hs i L L' hL hL'
  refine ⟨?_, ?_⟩
  · rw [r.outputs, es]
    by_cases e : i = k
    · simp [e]
    · simp [e, h1]
  · intro q hq
    obtain ⟨u, hu⟩ := List.getElem?_of_mem hq
    obtain ⟨p, hp, rw_, _⟩ := r.unit u q hu
    exact (h2 p (List.getElem?_mem hp)).of_unit_rewired rw_

theorem c_NeuralNetwork.Linked.size_eq {sizes : List Nat} {c c' : Nat}
    {w v : c_NeuralNetwork α} (h : c_NeuralNetwork.Linked sizes c w)
    (h' : c_NeuralNetwork.Linked sizes c' v) (i : Nat) (L L' : c_PerceptronLayer α)
    (hL : w.m_Layers[i]? = some L) (hL' : v.m_Layers[i]? = some L') : L'.m_Size = L.m_Size := by
  have e1 := (h.layer i L hL).size
  have e2 := (h'.layer i L' hL').size
  rw [e1] at e2
  exact (Option.some.inj e2).symm

/-- `setInput` on layer `c` of a chain whose first `c` layers are linked is `_build` from
the start state of `build_step`. -/
theorem c_PerceptronLayer.setInput_eq (w : c_NeuralNetwork α) (i : Nat) (hi : 0 < i)
    (hb : ∀ L, w.m_Layers[i]? = some L → L.m_Bias = true) :
    c_PerceptronLayer.setInput i (i - 1) w
      = c_PerceptronLayer._build i (c_PerceptronLayer.buildStart i true w) := by
  unfold c_PerceptronLayer.setInput c_PerceptronLayer.buildStart
  congr 1
  apply c_NeuralNetwork.onLayer_congr
  intro L hL
  have := hb L hL
  simp only [c_PerceptronLayer.relink, hi, if_true, ← this]

/-- The loop of `_connectLayers` from layer `c` on. -/
theorem c_NeuralNetwork.connectLayers_loop (sizes : List Nat) (heap : Nat → List α)
    (a t : Nat) (m : Nat) :
    ∀ (c : Nat) (w : c_NeuralNetwork α), 1 ≤ c → c + m = sizes.length →
      c_NeuralNetwork.Chained sizes c heap a t w →
      ∃ w', forLoopM (fun i w =>
          if i - 1 < w.m_Layers.length then
            c_NeuralNetwork.atLayer i (fun k => c_PerceptronLayer.setInput k (i - 1)) w
          else none) c m w = some w' ∧
        c_NeuralNetwork.Chained sizes sizes.length heap a t w' := by
  induction m with
  | zero =>
    intro c w _ hcm hw
    have : c = sizes.length := by omega
    subst this
    exact ⟨w, rfl, hw⟩
  | succ m ih =>
    intro c w hc hcm hw
    have hlen := hw.linked.length
    have h1 : c - 1 < w.m_Layers.length := by omega
    have h2 : c < w.m_Layers.length := by omega
    have hstep := c_PerceptronLayer.build_step sizes c c true w hw.linked (by omega)
      (Nat.le_refl _) (by omega)
    have e := c_PerceptronLayer.setInput_eq w c (by omega) (hw.bias c)
    obtain ⟨s1, s2, s3, s4, s5, s6, s7, s8, s9, s10⟩ := hstep
    have hmax : max c (c + 1) = c + 1 := by omega
    rw [hmax] at s1
    have hw' : c_NeuralNetwork.Chained sizes (c + 1) heap a t
        (c_PerceptronLayer._build c (c_PerceptronLayer.buildStart c true w)) := by
      refine ⟨s1, ?_, ?_, ?_, ?_, by rw [s4, hw.heap], by rw [s3, hw.localInputs],
        by rw [s5, hw.inputs], by rw [s6, hw.targets]⟩
      · intro k L' hL'
        obtain ⟨L, hL, r⟩ := s9 k L' hL'
        rw [r.bias]
        split
        · rfl
        · exact hw.bias k L hL
      · exact hw.blank.rebuilt (hw.linked.size_eq s1) s9
      · intro L' hL' hlen'
        obtain ⟨L, hL, r⟩ := s9 _ L' hL'
        have hs := hw.linked.size_eq s1 _ L L' hL hL'
        rcases r.targets with e | e
        · rw [e]
          exact hw.target L hL (by rw [← hs]; exact hlen')
        · have := (s1.layer _ L' hL').sumsIn
          have hn : ¬ sizes.length - 1 + 1 < c + 1 := by omega
          simp only [hn, if_false] at this
          exact absurd this e
      · intro L' hL' hlen'
        obtain ⟨L, hL, r⟩ := s9 _ L' hL'
        have hs := hw.linked.size_eq s1 _ L L' hL hL'
        rcases r.targets with e | e
        · rw [e]
          exact hw.untarget L hL (by rw [← hs]; exact hlen')
        · have := (s1.layer _ L' hL').sumsIn
          have hn : ¬ sizes.length - 1 + 1 < c + 1 := by omega
          simp only [hn, if_false] at this
          exact absurd this e
    obtain ⟨w', e1, e2⟩ := ih (c + 1) _ (by omega) (by omega) hw'
    refine ⟨w', ?_, e2⟩
    simp only [forLoopM, h1, if_true, c_NeuralNetwork.atLayer_some _ _ _ h2, e,
      Option.some_bind, e1]

end build_net

section build_net2

variable {α : Type} [CommRing α] [Div α]

/-- `c_NeuralNetwork::_build` on the state the constructor's initialiser list leaves, for
a non-empty list of unit counts: it returns, with every layer linked, every unit blank
and every layer carrying a bias slot. -/
theorem c_NeuralNetwork.build_spec (sizes : List Nat) (heap : Nat → List α) (a t : Nat)
    (w0 : c_NeuralNetwork α) (hpos : sizes ≠ []) (hbound : sizes.length < 2 ^ 64)
    (h1 : w0.m_Layers = []) (h2 : w0.m_Size = sizes.length)
    (h3 : w0.m_Inputs = some (Ref.caller a)) (h4 : w0.m_Targets = some (Ref.caller t))
    (h5 : w0.m_LocalInputs = []) (h6 : w0.heap = heap) :
    ∃ w, c_NeuralNetwork._build sizes w0 = some w ∧
      c_NeuralNetwork.Chained sizes sizes.length heap a t w := by
  have hn : 0 < sizes.length := List.length_pos.mpr hpos
  -- the layers pushed
  have e1 : forLoop (fun i => c_NeuralNetwork.push_back (sizes.getD i 0)) 0 w0.m_Size w0
      = { w0 with m_Layers := sizes.map c_PerceptronLayer.fresh } := by
    rw [c_NeuralNetwork.push_loop sizes 0 w0.m_Size w0 (by omega), h1, h2]
    simp
  -- the first layer gets the local inputs, the last one the targets
  have hst : ∃ w3 : c_NeuralNetwork α,
      (c_NeuralNetwork._connectInputs
        ({ w0 with m_Layers := sizes.map c_PerceptronLayer.fresh } : c_NeuralNetwork α)).bind
        c_NeuralNetwork._connectTargets = some w3 ∧
      c_NeuralNetwork.Chained sizes 1 heap a t w3 := by
    have hlen : (sizes.map (c_PerceptronLayer.fresh : Nat → c_PerceptronLayer α)).length
        = sizes.length := by simp
    refine ⟨c_NeuralNetwork.onLayer (sizes.length - 1)
        (c_PerceptronLayer.setTargets
          (c_NeuralNetwork.onLayer 0
            (c_PerceptronLayer.setInputs
              ({ w0 with m_Layers := sizes.map c_PerceptronLayer.fresh } :
                c_NeuralNetwork α).memory Ref.localInputs)
            ({ w0 with m_Layers := sizes.map c_PerceptronLayer.fresh } :
              c_NeuralNetwork α)).memory (Ref.caller t))
        (c_NeuralNetwork.onLayer 0
          (c_PerceptronLayer.setInputs
            ({ w0 with m_Layers := sizes.map c_PerceptronLayer.fresh } :
              c_NeuralNetwork α).memory Ref.localInputs)
          ({ w0 with m_Layers := sizes.map c_PerceptronLayer.fresh } :
            c_NeuralNetwork α)), ?_, ?_⟩
    rotate_left
    · -- every layer of that state
      have hlayer : ∀ (k : Nat) (L : c_PerceptronLayer α),
          (c_NeuralNetwork.onLayer (sizes.length - 1)
            (c_PerceptronLayer.setTargets
              (c_NeuralNetwork.onLayer 0
                (c_PerceptronLayer.setInputs
                  ({ w0 with m_Layers := sizes.map c_PerceptronLayer.fresh } :
                    c_NeuralNetwork α).memory Ref.localInputs)
                ({ w0 with m_Layers := sizes.map c_PerceptronLayer.fresh } :
                  c_NeuralNetwork α)).memory (Ref.caller t))
            (c_NeuralNetwork.onLayer 0
              (c_PerceptronLayer.setInputs
                ({ w0 with m_Layers := sizes.map c_PerceptronLayer.fresh } :
                  c_NeuralNetwork α).memory Ref.localInputs)
              ({ w0 with m_Layers := sizes.map c_PerceptronLayer.fresh } :
                c_NeuralNetwork α))).m_Layers[k]? = some L →
          c_PerceptronLayer.Linked sizes 1
            (c_NeuralNetwork.onLayer (sizes.length - 1)
              (c_PerceptronLayer.setTargets
                (c_NeuralNetwork.onLayer 0
                  (c_PerceptronLayer.setInputs
                    ({ w0 with m_Layers := sizes.map c_PerceptronLayer.fresh } :
                      c_NeuralNetwork α).memory Ref.localInputs)
                  ({ w0 with m_Layers := sizes.map c_PerceptronLayer.fresh } :
                    c_NeuralNetwork α)).memory (Ref.caller t))
              (c_NeuralNetwork.onLayer 0
                (c_PerceptronLayer.setInputs
                  ({ w0 with m_Layers := sizes.map c_PerceptronLayer.fresh } :
                    c_NeuralNetwork α).memory Ref.localInputs)
                ({ w0 with m_Layers := sizes.map c_PerceptronLayer.fresh } :
                  c_NeuralNetwork α))) k L ∧
          L.m_Bias = true ∧ L.m_Outputs.take L.m_Size = List.replicate L.m_Size 0 ∧
          ∀ p ∈ L.m_Perceptrons, c_Perceptron.Blank p := by
        intro k L hL
        simp only [c_NeuralNetwork.onLayer_getElem?, List.getElem?_map] at hL
        have hk : k < sizes.length := by
          by_contra hk
          have : sizes[k]? = none := List.getElem?_eq_none (by omega)
          simp [this] at hL
        have hsk : sizes[k]? = some sizes[k] := List.getElem?_eq_getElem hk
        rw [hsk] at hL
        have hm0 : ({ w0 with m_Layers := sizes.map c_PerceptronLayer.fresh } :
            c_NeuralNetwork α).memory Ref.localInputs = [] := by
          simp [c_NeuralNetwork.memory, h5]
        obtain ⟨f1, f2, f3, f4, f5, f6, f7, f8, f9, f10, f11, f12⟩ :=
          @c_PerceptronLayer.fresh_fields α _ _ sizes[k]
        -- the layer before `setTargets`
        have hpre : ∃ Lb : c_PerceptronLayer α,
            (if 0 = k then Option.map (c_PerceptronLayer.setInputs
              ({ w0 with m_Layers := sizes.map c_PerceptronLayer.fresh } :
                c_NeuralNetwork α).memory Ref.localInputs)
              (Option.map c_PerceptronLayer.fresh (some sizes[k]))
            else Option.map c_PerceptronLayer.fresh (some sizes[k])) = some Lb ∧
            c_PerceptronLayer.Linked sizes 1
              (c_NeuralNetwork.onLayer 0
                (c_PerceptronLayer.setInputs
                  ({ w0 with m_Layers := sizes.map c_PerceptronLayer.fresh } :
                    c_NeuralNetwork α).memory Ref.localInputs)
                ({ w0 with m_Layers := sizes.map c_PerceptronLayer.fresh } :
                  c_NeuralNetwork α)) k Lb ∧
            Lb.m_Bias = true ∧ Lb.m_Outputs.take Lb.m_Size = List.replicate Lb.m_Size 0 ∧
            ∀ p ∈ Lb.m_Perceptrons, c_Perceptron.Blank p := by
          by_cases hk0 : 0 = k
          · subst hk0
            obtain ⟨g1, g2, g3, g4⟩ := c_PerceptronLayer.first_linked sizes _ hsk _ hm0
              (c_NeuralNetwork.onLayer 0
                (c_PerceptronLayer.setInputs
                  ({ w0 with m_Layers := sizes.map c_PerceptronLayer.fresh } :
                    c_NeuralNetwork α).memory Ref.localInputs)
                ({ w0 with m_Layers := sizes.map c_PerceptronLayer.fresh } :
                  c_NeuralNetwork α))
            exact ⟨_, by simp, g1, g2, by simp [f6, f10], g4⟩
          · refine ⟨_, by simp [hk0], c_PerceptronLayer.fresh_linked sizes k _ (by omega) hsk _,
              f9, by simp [f6, f10], ?_⟩
            intro p hp
            rw [f8] at hp
            have := List.eq_of_mem_replicate hp
            subst this
            exact ⟨rfl, rfl, rfl, rfl⟩
        obtain ⟨Lb, eb, g1, g2, g3, g4⟩ := hpre
        rw [eb] at hL
        by_cases hk1 : sizes.length - 1 = k
        · have hk2 : k + 1 = sizes.length := by omega
          simp only [hk1, if_true, Option.map_some', Option.some.injEq] at hL
          subst hL
          have hst := c_PerceptronLayer.setTargets_linked sizes 1 k _
            (c_NeuralNetwork.onLayer (sizes.length - 1)
              (c_PerceptronLayer.setTargets
                (c_NeuralNetwork.onLayer 0
                  (c_PerceptronLayer.setInputs
                    ({ w0 with m_Layers := sizes.map c_PerceptronLayer.fresh } :
                      c_NeuralNetwork α).memory Ref.localInputs)
                  ({ w0 with m_Layers := sizes.map c_PerceptronLayer.fresh } :
                    c_NeuralNetwork α)).memory (Ref.caller t))
              (c_NeuralNetwork.onLayer 0
                (c_PerceptronLayer.setInputs
                  ({ w0 with m_Layers := sizes.map c_PerceptronLayer.fresh } :
                    c_NeuralNetwork α).memory Ref.localInputs)
                ({ w0 with m_Layers := sizes.map c_PerceptronLayer.fresh } :
                  c_NeuralNetwork α))) Lb g1 hk2 (by omega)
            (c_NeuralNetwork.onLayer 0
              (c_PerceptronLayer.setInputs
                ({ w0 with m_Layers := sizes.map c_PerceptronLayer.fresh } :
                  c_NeuralNetwork α).memory Ref.localInputs)
              ({ w0 with m_Layers := sizes.map c_PerceptronLayer.fresh } :
                c_NeuralNetwork α)).memory t rfl rfl
          refine ⟨hst.1, by simpa using g2, by simpa using g3, ?_⟩
          intro q hq
          obtain ⟨i, hi⟩ := List.getElem?_of_mem hq
          obtain ⟨p, hp, hor⟩ := hst.2 i q hi
          have hbp := g4 p (List.getElem?_mem hp)
          rcases hor with e | e
          · rw [e]; exact hbp
          · rw [e]; exact ⟨hbp.weights, hbp.sumProducts, hbp.output, hbp.delta⟩
        · simp only [hk1, if_false, Option.some.injEq] at hL
          subst hL
          exact ⟨⟨g1.size, g1.units, g1.outputs, g1.biasSlot, g1.input, g1.inputs,
            g1.output, g1.sumsIn, g1.sumsOut, g1.targets, g1.unit⟩, g2, g3, g4⟩
      refine ⟨⟨by simp, by simp [h2], hn, hbound, ⟨a, by simp [h3]⟩, ⟨t, by simp [h4]⟩,
          fun k L hL => (hlayer k L hL).1⟩,
        fun k L hL => (hlayer k L hL).2.1,
        fun k L hL => (hlayer k L hL).2.2, ?_, ?_, by simp [h6], by simp [h5], by simp [h3],
        by simp [h4]⟩
      · intro L hL hlen
        rw [c_NeuralNetwork.onLayer_getElem?] at hL
        simp only [if_true, Option.map_eq_some'] at hL
        obtain ⟨Lb, _, e⟩ := hL
        subst e
        apply c_PerceptronLayer.setTargets_bound
        rw [c_NeuralNetwork.memory_caller]
        simp only [c_NeuralNetwork.frame_onLayer, h6]
        simpa using hlen
      · intro L hL hlen
        rw [c_NeuralNetwork.onLayer_getElem?] at hL
        simp only [if_true, Option.map_eq_some'] at hL
        obtain ⟨Lb, hLb, e⟩ := hL
        subst e
        have hne : ¬ ((c_NeuralNetwork.onLayer 0
            (c_PerceptronLayer.setInputs
              ({ w0 with m_Layers := sizes.map c_PerceptronLayer.fresh } :
                c_NeuralNetwork α).memory Ref.localInputs)
            ({ w0 with m_Layers := sizes.map c_PerceptronLayer.fresh } :
              c_NeuralNetwork α)).memory (Ref.caller t)).length = Lb.m_Size := by
          rw [c_NeuralNetwork.memory_caller]
          simp only [c_NeuralNetwork.frame_onLayer, h6]
          simpa using hlen
        simp only [c_PerceptronLayer.setTargets, hne, if_false]
        rw [c_NeuralNetwork.onLayer_getElem?] at hLb
        simp only [List.getElem?_map] at hLb
        have hk : sizes.length - 1 < sizes.length := by omega
        rw [List.getElem?_eq_getElem hk] at hLb
        have hf := (@c_PerceptronLayer.fresh_fields α _ _ sizes[sizes.length - 1]).2.1
        split at hLb
        · simp only [Option.map_some', Option.some.injEq] at hLb
          rw [← hLb]
          simp [hf]
        · simp only [Option.map_some', Option.some.injEq] at hLb
          rw [← hLb]
          exact hf
    · simp only [c_NeuralNetwork._connectInputs, hlen, hn, gt_iff_lt, if_true, h3,
        c_NeuralNetwork.atLayer, Option.some_bind, c_NeuralNetwork._connectTargets,
        c_NeuralNetwork.frame_onLayer, h4, h2, size_t_sub_one _ hn hbound]
      have : sizes.length - 1 < sizes.length := by omega
      simp only [this, if_true]
  obtain ⟨w3, e3, hw3⟩ := hst
  have hlen3 := hw3.linked.length
  have hsize3 := hw3.linked.size
  have e4 : c_NeuralNetwork._build sizes w0 = c_NeuralNetwork._connectLayers w3 := by
    unfold c_NeuralNetwork._build c_NeuralNetwork._connect
    rw [e1, ← Option.bind_assoc, e3]
    rfl
  rw [e4]
  unfold c_NeuralNetwork._connectLayers
  by_cases h1n : w3.m_Layers.length > 1
  · simp only [h1n, if_true]
    obtain ⟨w', e5, hw'⟩ := c_NeuralNetwork.connectLayers_loop sizes heap a t (w3.m_Size - 1)
      1 w3 (Nat.le_refl _) (by omega) hw3
    exact ⟨w', e5, hw'⟩
  · simp only [h1n, if_false]
    have : sizes.length = 1 := by omega
    refine ⟨w3, rfl, ?_⟩
    rw [this]
    exact hw3

end build_net2

/-! ## `setBias` -/

section set_bias

variable {α : Type} [CommRing α] [Div α]

theorem c_PerceptronLayer.Sync.transfer {w v : c_NeuralNetwork α} {L L' : c_PerceptronLayer α}
    (h : c_PerceptronLayer.Sync w L) (hi : L'.m_Inputs = L.m_Inputs)
    (hm : ∀ r, L.m_Inputs = some r → (v.memory r).length = (w.memory r).length)
    (hu : ∀ (u : Nat) (q : c_Perceptron α), L'.m_Perceptrons[u]? = some q →
      ∃ p, L.m_Perceptrons[u]? = some p ∧ q.m_Weights.length = p.m_Weights.length) :
    c_PerceptronLayer.Sync v L' := by
  intro r hr q hq
  rw [hi] at hr
  obtain ⟨u, hu'⟩ := List.getElem?_of_mem hq
  obtain ⟨p, hp, e⟩ := hu u q hu'
  rw [e, hm r hr]
  exact h r hr p (List.getElem?_mem hp)

/-- `c_PerceptronLayer::setBias` on a layer of a linked chain is `_build` from the start
state of `build_step`. -/
theorem c_PerceptronLayer.setBias_eq (sizes : List Nat) (w : c_NeuralNetwork α) (k : Nat)
    (b : Bool) (h : c_NeuralNetwork.Linked sizes sizes.length w) (hk : k < sizes.length) :
    c_PerceptronLayer.setBias k b w
      = c_PerceptronLayer._build k (c_PerceptronLayer.buildStart k b w) := by
  unfold c_PerceptronLayer.setBias c_PerceptronLayer.buildStart
  congr 1
  apply c_NeuralNetwork.onLayer_congr
  intro L hL
  have := (h.layer k L hL).input
  simp only [hk, and_true] at this
  simp only [c_PerceptronLayer.relink, ← this]

/-- `c_PerceptronLayer::setBias` on layer `k` of a fully linked chain. -/
theorem c_PerceptronLayer.setBias_step (sizes : List Nat) (k : Nat) (b : Bool)
    (w : c_NeuralNetwork α) (h : c_NeuralNetwork.Linked sizes sizes.length w)
    (hk : k < sizes.length) :
    c_PerceptronLayer.BiasStep sizes k b w (c_PerceptronLayer.setBias k b w) := by
  rw [c_PerceptronLayer.setBias_eq sizes w k b h hk]
  obtain ⟨s1, s2, s3, s4, s5, s6, s7, s8, s9, s10⟩ :=
    c_PerceptronLayer.build_step sizes sizes.length k b w h (Nat.le_refl _) (by omega) hk
  have hmax : max sizes.length (k + 1) = sizes.length := by omega
  rw [hmax] at s1
  refine ⟨s1, s2, s3, s4, s5, s6, s7, s8, s9, s10, ?_⟩
  intro i L L' h1 h2 hL hL' hsync
  obtain ⟨L0, hL0, r⟩ := s9 i L' hL'
  rw [hL] at hL0
  cases hL0
  have hli := (h.layer i L hL).inputs
  have hli' := (s1.layer i L' hL').inputs
  apply hsync.transfer (by rw [hli, hli'])
  · intro r hr
    rw [hli] at hr
    by_cases hi0 : i = 0
    · simp only [hi0, if_true, Option.some.injEq] at hr
      subst hr
      rw [c_NeuralNetwork.memory_localInputs, c_NeuralNetwork.memory_localInputs, s3]
    · have hil : i < sizes.length := by
        have h3 := (List.getElem?_eq_some_iff.mp hL).1
        have h4 := h.length
        omega
      simp only [hi0, if_false, hil, if_true, Option.some.injEq] at hr
      subst hr
      obtain ⟨Lp, hp, _⟩ := h.get (i - 1) (by omega)
      obtain ⟨Lp', hp', _⟩ := s1.get (i - 1) (by omega)
      obtain ⟨Lp0, hp0, rp⟩ := s9 (i - 1) Lp' hp'
      rw [hp] at hp0
      cases hp0
      rw [c_NeuralNetwork.memory_outputs _ _ _ hp, c_NeuralNetwork.memory_outputs _ _ _ hp',
        rp.outputs]
      have : ¬ i - 1 = k := by omega
      simp [this]
  · intro u q hq
    obtain ⟨p, hp, _, e⟩ := r.unit u q hq
    exact ⟨p, hp, by rw [(e h1).1]⟩

end set_bias

section set_bias_net

variable {α : Type} [CommRing α] [Div α]

theorem c_PerceptronLayer.Linked.heap_congr {sizes : List Nat} {c k : Nat}
    {w v : c_NeuralNetwork α} {L : c_PerceptronLayer α}
    (h : c_PerceptronLayer.Linked sizes c w k L) (hv : v.heap = w.heap) :
    c_PerceptronLayer.Linked sizes c v k L :=
  ⟨h.size, h.units, h.outputs, h.biasSlot, h.input, h.inputs, h.output, h.sumsIn, h.sumsOut,
    fun t ht => by
      obtain ⟨e1, a, e2, e3⟩ := h.targets t ht
      exact ⟨e1, a, e2, by simpa [hv] using e3⟩,
    h.unit⟩

/-- A state with the same layers and caller arrays is linked as well. -/
theorem c_NeuralNetwork.Linked.congr {sizes : List Nat} {c : Nat} {w v : c_NeuralNetwork α}
    (h : c_NeuralNetwork.Linked sizes c w) (hl : v.m_Layers = w.m_Layers)
    (hs : v.m_Size = w.m_Size) (hh : v.heap = w.heap)
    (hi : ∃ a, v.m_Inputs = some (Ref.caller a)) (ht : ∃ a, v.m_Targets = some (Ref.caller a)) :
    c_NeuralNetwork.Linked sizes c v :=
  ⟨by rw [hl]; exact h.length, by rw [hs]; exact h.size, h.pos, h.bound, hi, ht,
    fun k L hL => (h.layer k L (by rw [← hl]; exact hL)).heap_congr hh⟩

/-- `setInputs(m_LocalInputs)` on the first layer of a linked chain: the layer stays
linked, its units get as many weights as there are local inputs. -/
theorem c_PerceptronLayer.reconnect_first (sizes : List Nat) (c : Nat)
    (w v : c_NeuralNetwork α) (L : c_PerceptronLayer α)
    (h : c_PerceptronLayer.Linked sizes c w 0 L) (hv : v.heap = w.heap) (mem : Memory α) :
    c_PerceptronLayer.Linked sizes c v 0
      (c_PerceptronLayer.setInputs mem Ref.localInputs L) ∧
    ∀ (u : Nat) (q : c_Perceptron α),
      (c_PerceptronLayer.setInputs mem Ref.localInputs L).m_Perceptrons[u]? = some q →
      q.m_Weights.length = (mem Ref.localInputs).length ∧
      ∃ p, L.m_Perceptrons[u]? = some p ∧ c_Perceptron.Rewired p q ∧
        (p.m_Weights.length = (mem Ref.localInputs).length → q = p) := by
  have hu : ∀ (u : Nat) (q : c_Perceptron α),
      (c_PerceptronLayer.setInputs mem Ref.localInputs L).m_Perceptrons[u]? = some q →
      ∃ p, L.m_Perceptrons[u]? = some p ∧ q = c_Perceptron.setInputs mem Ref.localInputs p := by
    intro u q hq
    rw [c_PerceptronLayer.units_setInputs _ _ _ h.units] at hq
    simp only [Option.map_eq_some'] at hq
    obtain ⟨p, hp, e⟩ := hq
    exact ⟨p, hp, e.symm⟩
  have hin : L.m_Inputs = some Ref.localInputs := by simpa using h.inputs
  refine ⟨?_, ?_⟩
  · constructor
    · simpa using h.size
    · simpa using h.units
    · simpa using h.outputs
    · simpa using h.biasSlot
    · simpa using h.input
    · simp
    · simpa using h.output
    · simpa using h.sumsIn
    · simpa using h.sumsOut
    · intro t ht
      obtain ⟨e1, a, e2, e3⟩ := h.targets t (by simpa using ht)
      exact ⟨e1, a, e2, by simpa [hv] using e3⟩
    · intro u q hq
      obtain ⟨p, hp, e⟩ := hu u q hq
      have hb := h.unit u p hp
      have hs := c_Perceptron.setInputs_fields mem Ref.localInputs p
      subst e
      simp only [c_PerceptronLayer.frame_setInputs, c_PerceptronLayer.assigned]
      refine ⟨hs.1, by rw [hs.2.2.1]; exact hb.target, by rw [hs.2.2.2.1]; exact hb.deltaSum, ?_⟩
      rw [hs.2.2.2.2.2.2.2.2.2 hb.deltas, hs.2.1]
  · intro u q hq
    obtain ⟨p, hp, e⟩ := hu u q hq
    have hb := h.unit u p hp
    have hs := c_Perceptron.setInputs_fields mem Ref.localInputs p
    subst e
    refine ⟨hs.2.1, p, hp, ⟨hs.2.2.2.2.1, hs.2.2.2.2.2.1, hs.2.2.2.2.2.2.1,
      hs.2.2.2.2.2.2.2.1, hs.2.2.2.2.2.2.2.2.1, ?_⟩, ?_⟩
    · unfold c_Perceptron.setInputs
      by_cases hh : p.m_Weights.length = (mem Ref.localInputs).length
      · left; simp [hh]
      · right; simp [hh, valarray.resize]
    · intro hh
      rw [c_Perceptron.setInputs_same mem _ p hh]
      have := hb.inputs
      rw [hin] at this
      cases p
      simp_all

end set_bias_net

/-! ## Rewiring keeps scalars -/

section rewired

variable {α : Type} [CommRing α] [Div α]

theorem c_Perceptron.Rewired.unit_trans {p q r : c_Perceptron α} (h1 : c_Perceptron.Rewired p q)
    (h2 : c_Perceptron.Rewired q r) : c_Perceptron.Rewired p r := by
  refine ⟨by rw [h2.sumProducts, h1.sumProducts], by rw [h2.output, h1.output],
    by rw [h2.delta, h1.delta], by rw [h2.trainRate, h1.trainRate],
    by rw [h2.actType, h1.actType], ?_⟩
  rcases h2.weights with e | e
  · rcases h1.weights with e1 | e1
    · left; rw [e, e1]
    · right; rw [e]; exact e1
  · exact Or.inr e

theorem c_PerceptronLayer.Rewired.layer_refl (L : c_PerceptronLayer α) :
    c_PerceptronLayer.Rewired L L :=
  ⟨rfl, rfl, rfl, Or.inl rfl, fun u q hq => ⟨q, hq, c_Perceptron.Rewired.unit_refl q⟩, id,
    Or.inl rfl⟩

theorem c_PerceptronLayer.Rewired.layer_trans {L1 L2 L3 : c_PerceptronLayer α}
    (h1 : c_PerceptronLayer.Rewired L1 L2) (h2 : c_PerceptronLayer.Rewired L2 L3) :
    c_PerceptronLayer.Rewired L1 L3 := by
  refine ⟨by rw [h2.size, h1.size], by rw [h2.trainRate, h1.trainRate],
    by rw [h2.actType, h1.actType], ?_, ?_, fun h => h2.sumsIn (h1.sumsIn h), ?_⟩
  · rcases h2.outputs with e | e
    · rcases h1.outputs with e1 | e1
      · left; rw [e, e1]
      · right; rw [e, e1, h2.size]
    · exact Or.inr e
  · intro u r hr
    obtain ⟨q, hq, r2⟩ := h2.unit u r hr
    obtain ⟨p, hp, r1⟩ := h1.unit u q hq
    exact ⟨p, hp, r1.unit_trans r2⟩
  · rcases h2.targets with e | e
    · rcases h1.targets with e1 | e1
      · left; rw [e, e1]
      · exact Or.inr (h2.sumsIn e1)
    · exact Or.inr e

theorem c_NeuralNetwork.Rewired.net_refl (w : c_NeuralNetwork α) : c_NeuralNetwork.Rewired w w :=
  ⟨rfl, rfl, rfl, fun i L hL => ⟨L, hL, c_PerceptronLayer.Rewired.layer_refl L⟩⟩

theorem c_NeuralNetwork.Rewired.net_trans {w1 w2 w3 : c_NeuralNetwork α}
    (h1 : c_NeuralNetwork.Rewired w1 w2) (h2 : c_NeuralNetwork.Rewired w2 w3) :
    c_NeuralNetwork.Rewired w1 w3 := by
  refine ⟨by rw [h2.heap, h1.heap], by rw [h2.trainRate, h1.trainRate],
    by rw [h2.actType, h1.actType], ?_⟩
  intro i L3 hL3
  obtain ⟨L2, hL2, r2⟩ := h2.layer i L3 hL3
  obtain ⟨L1, hL1, r1⟩ := h1.layer i L2 hL2
  exact ⟨L1, hL1, r1.layer_trans r2⟩

/-- A rewiring keeps a blank network blank. -/
theorem c_NeuralNetwork.Blank.of_rewired {w v : c_NeuralNetwork α}
    (h : c_NeuralNetwork.Blank w) (r : c_NeuralNetwork.Rewired w v) :
    c_NeuralNetwork.Blank v := by
  intro i L' hL'
  obtain ⟨L, hL, rl⟩ := r.layer i L' hL'
  obtain ⟨h1, h2⟩ := h i L hL
  refine ⟨?_, ?_⟩
  · rcases rl.outputs with e | e
    · rw [e, h1, rl.size]
    · exact e
  · intro q hq
    obtain ⟨u, hu⟩ := List.getElem?_of_mem hq
    obtain ⟨p, hp, rp⟩ := rl.unit u q hu
    exact (h2 p (List.getElem?_mem hp)).of_unit_rewired rp

/-- One `c_PerceptronLayer::setBias` is a rewiring. -/
theorem c_PerceptronLayer.BiasStep.to_rewired {sizes : List Nat} {k : Nat} {b : Bool}
    {w v : c_NeuralNetwork α} (hw : c_NeuralNetwork.Linked sizes sizes.length w)
    (h : c_PerceptronLayer.BiasStep sizes k b w v) : c_NeuralNetwork.Rewired w v := by
  refine ⟨h.heap, h.trainRate, h.actType, ?_⟩
  intro i L' hL'
  obtain ⟨L, hL, r⟩ := h.rebuilt i L' hL'
  have es := hw.size_eq h.linked i L L' hL hL'
  refine ⟨L, hL, es, r.trainRate, r.actType, ?_, fun u q hq => ?_, r.sumsIn, r.targets⟩
  · rw [r.outputs, es]
    by_cases e : i = k
    · right; simp [e]
    · left; simp [e]
  · obtain ⟨p, hp, rp, _⟩ := r.unit u q hq
    exact ⟨p, hp, rp⟩

end rewired

/-! ## `c_NeuralNetwork::setBias` and `setInputs` -/

section set_bias_spec

variable {α : Type} [CommRing α] [Div α]

/-- `_resizeLocalInputs(); _connectInputs();` at the end of `setBias` and `setInputs`. -/
theorem c_NeuralNetwork.refeed_spec (sizes : List Nat) (b : Bool) (w v : c_NeuralNetwork α)
    (h : c_NeuralNetwork.BiasLoop sizes b w sizes.length v) :
    ∃ v', c_NeuralNetwork._connectInputs (c_NeuralNetwork._resizeLocalInputs v) = some v' ∧
      c_NeuralNetwork.Wired sizes v' ∧ v'.m_Bias = b ∧ c_NeuralNetwork.Rewired w v' ∧
      v'.m_Inputs = v.m_Inputs ∧ v'.m_Targets = v.m_Targets ∧
      (∀ (i : Nat) (L' : c_PerceptronLayer α), v'.m_Layers[i]? = some L' →
        ∃ L, v.m_Layers[i]? = some L ∧ L'.m_Outputs = L.m_Outputs ∧
          ∀ (u : Nat) (q : c_Perceptron α), L'.m_Perceptrons[u]? = some q →
            ∃ p, L.m_Perceptrons[u]? = some p ∧
              (q = p ∨ (i = 0 ∧ p.m_Weights.length ≠ v'.m_LocalInputs.length))) := by
  obtain ⟨a, ha⟩ := h.linked.inputs
  have hlen := h.linked.length
  have hpos := h.linked.pos
  -- the resized local inputs
  have e1 : c_NeuralNetwork._resizeLocalInputs v =
      { v with m_LocalInputs := valarray.resize ((v.heap a).length + (if b then 1 else 0)) } := by
    unfold c_NeuralNetwork._resizeLocalInputs
    rw [ha, h.m_Bias]
    cases b <;> simp [c_NeuralNetwork.memory_caller]
  have e2 : c_NeuralNetwork._connectInputs (c_NeuralNetwork._resizeLocalInputs v) =
      some (c_NeuralNetwork.onLayer 0
        (c_PerceptronLayer.setInputs (c_NeuralNetwork._resizeLocalInputs v).memory
          Ref.localInputs) (c_NeuralNetwork._resizeLocalInputs v)) := by
    unfold c_NeuralNetwork._connectInputs
    have hl : (c_NeuralNetwork._resizeLocalInputs v).m_Layers.length > 0 := by
      rw [e1]; simp only []; omega
    have hi : (c_NeuralNetwork._resizeLocalInputs v).m_Inputs = some (Ref.caller a) := by
      rw [e1]; exact ha
    simp only [hl, if_true, hi, c_NeuralNetwork.atLayer_some _ _ _ hl]
  have hml : (c_NeuralNetwork._resizeLocalInputs v).memory Ref.localInputs
      = valarray.resize ((v.heap a).length + (if b then 1 else 0)) := by
    rw [e1]; rfl
  have hlay : (c_NeuralNetwork._resizeLocalInputs v).m_Layers = v.m_Layers := by rw [e1]
  have hheap : (c_NeuralNetwork._resizeLocalInputs v).heap = v.heap := by rw [e1]
  have hloc : (c_NeuralNetwork._resizeLocalInputs v).m_LocalInputs
      = valarray.resize ((v.heap a).length + (if b then 1 else 0)) := by rw [e1]
  have hbias : (c_NeuralNetwork._resizeLocalInputs v).m_Bias = v.m_Bias := by rw [e1]
  have hsz : (c_NeuralNetwork._resizeLocalInputs v).m_Size = v.m_Size := by rw [e1]
  have hin : (c_NeuralNetwork._resizeLocalInputs v).m_Inputs = v.m_Inputs := by rw [e1]
  have htg : (c_NeuralNetwork._resizeLocalInputs v).m_Targets = v.m_Targets := by rw [e1]
  have hrt : (c_NeuralNetwork._resizeLocalInputs v).m_TrainRate = v.m_TrainRate := by rw [e1]
  have hat : (c_NeuralNetwork._resizeLocalInputs v).m_ActType = v.m_ActType := by rw [e1]
  refine ⟨_, e2, ?_, by simp [hbias, h.m_Bias], ?_, by simp [hin], by simp [htg], ?_⟩
  · -- wired
    have hlayer : ∀ (k : Nat) (L' : c_PerceptronLayer α),
        (c_NeuralNetwork.onLayer 0
          (c_PerceptronLayer.setInputs (c_NeuralNetwork._resizeLocalInputs v).memory
            Ref.localInputs) (c_NeuralNetwork._resizeLocalInputs v)).m_Layers[k]? = some L' →
        ∃ L, v.m_Layers[k]? = some L ∧
          L' = (if k = 0 then c_PerceptronLayer.setInputs
            (c_NeuralNetwork._resizeLocalInputs v).memory Ref.localInputs L else L) := by
      intro k L' hL'
      rw [c_NeuralNetwork.onLayer_getElem?, hlay] at hL'
      by_cases hk : 0 = k
      · subst hk
        simp only [if_true, Option.map_eq_some'] at hL'
        obtain ⟨L, hL, e⟩ := hL'
        exact ⟨L, hL, by simp [e]⟩
      · simp only [hk, if_false] at hL'
        have : ¬ k = 0 := fun e => hk e.symm
        exact ⟨L', hL', by simp [this]⟩
    refine ⟨⟨by simp [hlay, hlen], by simp [hsz, h.linked.size], hpos, h.linked.bound,
      ⟨a, by simp [hin, ha]⟩, by simpa [htg] using h.linked.targets, ?_⟩, ?_, ?_, ?_⟩
    · intro k L' hL'
      obtain ⟨L, hL, e⟩ := hlayer k L' hL'
      have hLk := h.linked.layer k L hL
      by_cases hk : k = 0
      · subst hk
        simp only [if_true] at e
        subst e
        exact (c_PerceptronLayer.reconnect_first sizes _ v _ L hLk (by simp [hheap]) _).1
      · simp only [hk, if_false] at e
        subst e
        exact hLk.heap_congr (by simp [hheap])
    · intro k L' hL'
      obtain ⟨L, hL, e⟩ := hlayer k L' hL'
      have hk : k < sizes.length := by
        have h3 := (List.getElem?_eq_some_iff.mp hL).1
        omega
      have := h.bias k L hk hL
      by_cases hk0 : k = 0
      · simp only [hk0, if_true] at e
        subst e
        simpa [hbias, h.m_Bias] using this
      · simp only [hk0, if_false] at e
        subst e
        simpa [hbias, h.m_Bias] using this
    · intro k L' hL'
      obtain ⟨L, hL, e⟩ := hlayer k L' hL'
      have hk : k < sizes.length := by
        have h3 := (List.getElem?_eq_some_iff.mp hL).1
        omega
      have hLk := h.linked.layer k L hL
      by_cases hk0 : k = 0
      · subst hk0
        simp only [if_true] at e
        subst e
        intro r hr q hq
        simp only [c_PerceptronLayer.assigned, Option.some.injEq] at hr
        subst hr
        obtain ⟨u, hu⟩ := List.getElem?_of_mem hq
        rw [(c_PerceptronLayer.reconnect_first sizes _ v v L hLk rfl _).2 u q hu |>.1]
        rw [hml, c_NeuralNetwork.memory_localInputs]
        simp [hloc]
      · simp only [hk0, if_false] at e
        subst e
        have hs := h.sync k L' (by omega) hk hL
        apply hs.transfer rfl
        · intro r hr
          rw [hLk.inputs] at hr
          simp only [hk0, if_false, hk, if_true, Option.some.injEq] at hr
          subst hr
          obtain ⟨Lp, hp, _⟩ := h.linked.get (k - 1) (by omega)
          have hp' : (c_NeuralNetwork.onLayer 0
              (c_PerceptronLayer.setInputs (c_NeuralNetwork._resizeLocalInputs v).memory
                Ref.localInputs) (c_NeuralNetwork._resizeLocalInputs v)).m_Layers[k - 1]?
              = some (if 0 = k - 1 then c_PerceptronLayer.setInputs
                (c_NeuralNetwork._resizeLocalInputs v).memory Ref.localInputs Lp else Lp) := by
            rw [c_NeuralNetwork.onLayer_getElem?, hlay, hp]
            split <;> simp
          rw [c_NeuralNetwork.memory_outputs _ _ _ hp', c_NeuralNetwork.memory_outputs _ _ _ hp]
          split <;> simp
        · intro u q hq
          exact ⟨q, hq, rfl⟩
    · intro a' ha'
      simp only [c_NeuralNetwork.frame_onLayer, hin, ha, Option.some.injEq,
        Ref.caller.injEq] at ha'
      subst ha'
      simp [hloc, hheap, hbias, h.m_Bias, valarray.resize]
  · -- rewired
    apply h.rewired.net_trans
    refine ⟨by simp [hheap], by simp [hrt], by simp [hat], ?_⟩
    intro i L' hL'
    rw [c_NeuralNetwork.onLayer_getElem?, hlay] at hL'
    by_cases hk : 0 = i
    · subst hk
      simp only [if_true, Option.map_eq_some'] at hL'
      obtain ⟨L, hL, e⟩ := hL'
      subst e
      have hLk := h.linked.layer 0 L hL
      refine ⟨L, hL, by simp, by simp, by simp, Or.inl (by simp), ?_, by simp,
        Or.inl (by simp)⟩
      intro u q hq
      obtain ⟨_, p, hp, r, _⟩ :=
        (c_PerceptronLayer.reconnect_first sizes _ v v L hLk rfl _).2 u q hq
      exact ⟨p, hp, r⟩
    · simp only [hk, if_false] at hL'
      exact ⟨L', hL', c_PerceptronLayer.Rewired.layer_refl L'⟩
  · intro i L' hL'
    rw [c_NeuralNetwork.onLayer_getElem?, hlay] at hL'
    by_cases hk : 0 = i
    · subst hk
      simp only [if_true, Option.map_eq_some'] at hL'
      obtain ⟨L, hL, e⟩ := hL'
      subst e
      have hLk := h.linked.layer 0 L hL
      refine ⟨L, hL, by simp, ?_⟩
      intro u q hq
      obtain ⟨_, p, hp, _, hsame⟩ :=
        (c_PerceptronLayer.reconnect_first sizes _ v v L hLk rfl _).2 u q hq
      refine ⟨p, hp, ?_⟩
      by_cases hh : p.m_Weights.length =
          ((c_NeuralNetwork._resizeLocalInputs v).memory Ref.localInputs).length
      · exact Or.inl (hsame hh)
      · right
        refine ⟨rfl, ?_⟩
        simpa [c_NeuralNetwork.memory_localInputs] using hh
    · simp only [hk, if_false] at hL'
      exact ⟨L', hL', rfl, fun u q hq => ⟨q, hq, Or.inl rfl⟩⟩

end set_bias_spec

section set_bias_spec2

variable {α : Type} [CommRing α] [Div α]

/-- One round of the loop of `c_NeuralNetwork::setBias`, and the call on the last layer. -/
theorem c_NeuralNetwork.BiasLoop.step {sizes : List Nat} {b : Bool} {w v : c_NeuralNetwork α}
    {d : Nat} (h : c_NeuralNetwork.BiasLoop sizes b w d v) (hd : d < sizes.length) (b' : Bool)
    (hb' : b' = (b && decide (d + 1 < sizes.length))) :
    c_NeuralNetwork.BiasLoop sizes b w (d + 1) (c_PerceptronLayer.setBias d b' v) := by
  have st := c_PerceptronLayer.setBias_step sizes d b' v h.linked hd
  refine ⟨st.linked, by rw [st.m_Bias, h.m_Bias], by rw [st.localInputs, h.localInputs],
    by rw [st.inputs, h.inputs], by rw [st.targets, h.targets],
    h.rewired.net_trans (st.to_rewired h.linked), ?_, ?_⟩
  · intro k L' hk hL'
    obtain ⟨L, hL, r⟩ := st.rebuilt k L' hL'
    rw [r.bias]
    by_cases e : k = d
    · simp [e, hb']
    · simp only [e, if_false]
      exact h.bias k L (by omega) hL
  · intro k L' hk1 hk hL'
    by_cases e : k = d
    · subst e
      exact st.sync L' hL'
    · obtain ⟨L, hL, r⟩ := st.rebuilt k L' hL'
      exact st.syncOther k L L' e (by omega) hL hL' (h.sync k L hk1 (by omega) hL)

/-- `c_NeuralNetwork::setBias` on a network whose layers are all linked: it returns, and
leaves the network wired with the new flag; the caller's arrays, the two pointers to
them, the rate and the activation are kept and every layer is rewired. -/
theorem c_NeuralNetwork.setBias_spec (sizes : List Nat) (b : Bool) (w : c_NeuralNetwork α)
    (h : c_NeuralNetwork.Linked sizes sizes.length w) :
    ∃ v, c_NeuralNetwork.setBias b w = some v ∧ c_NeuralNetwork.Wired sizes v ∧
      v.m_Bias = b ∧ c_NeuralNetwork.Rewired w v ∧ v.m_Inputs = w.m_Inputs ∧
      v.m_Targets = w.m_Targets := by
  have hpos := h.pos
  have h0 : c_NeuralNetwork.BiasLoop sizes b w 0 { w with m_Bias := b } := by
    refine ⟨h.congr rfl rfl rfl h.inputs h.targets, rfl, rfl, rfl, rfl,
      ⟨rfl, rfl, rfl, fun i L hL => ⟨L, hL, c_PerceptronLayer.Rewired.layer_refl L⟩⟩, ?_, ?_⟩
    · intro k L hk; omega
    · intro k L _ hk; omega
  -- the loop over all layers but the last
  have hloop := forLoopM_some
    (fun i => c_NeuralNetwork.atLayer i (fun k => c_PerceptronLayer.setBias k b))
    (fun d v => c_NeuralNetwork.BiasLoop sizes b w d v) (sizes.length - 1) 0
    { w with m_Bias := b } h0 (by
      intro i v _ hi hv
      have hl : i < v.m_Layers.length := by rw [hv.linked.length]; omega
      exact ⟨_, c_NeuralNetwork.atLayer_some _ _ _ hl,
        hv.step (by omega) b (by
          have : i + 1 < sizes.length := by omega
          simp [this])⟩)
  obtain ⟨v1, e1, hv1⟩ := hloop
  simp only [Nat.zero_add] at hv1
  -- the last layer
  have hl1 : sizes.length - 1 < v1.m_Layers.length := by rw [hv1.linked.length]; omega
  have hv2 := hv1.step (by omega) false (by
    have : ¬ sizes.length - 1 + 1 < sizes.length := by omega
    simp [this])
  have hn : sizes.length - 1 + 1 = sizes.length := by omega
  rw [hn] at hv2
  obtain ⟨v3, e3, hw3, hb3, hr3, hi3, ht3, _⟩ := c_NeuralNetwork.refeed_spec sizes b w _ hv2
  refine ⟨v3, ?_, hw3, hb3, hr3, by rw [hi3, hv2.inputs], by rw [ht3, hv2.targets]⟩
  unfold c_NeuralNetwork.setBias
  have es : size_t_sub w.m_Size 1 = sizes.length - 1 := by
    rw [h.size]; exact size_t_sub_one _ hpos h.bound
  have es1 : size_t_sub v1.m_Size 1 = sizes.length - 1 := by
    rw [hv1.linked.size]; exact size_t_sub_one _ hpos h.bound
  rw [es, e1]
  simp only [Option.some_bind, es1, c_NeuralNetwork.atLayer_some _ _ _ hl1, e3]

end set_bias_spec2

/-! ## States wired alike -/

section same_shape

variable {α : Type} [CommRing α] [Div α]

theorem c_Perceptron.SameShape.shape_refl (p : c_Perceptron α)
    (h : p.m_WeightedDeltas.length = p.m_Weights.length) : c_Perceptron.SameShape p p :=
  ⟨rfl, rfl, rfl, rfl, h⟩

theorem c_Perceptron.SameShape.unit_shape_trans {p q r : c_Perceptron α}
    (h1 : c_Perceptron.SameShape p q) (h2 : c_Perceptron.SameShape q r) :
    c_Perceptron.SameShape p r :=
  ⟨by rw [h2.inputs, h1.inputs], by rw [h2.target, h1.target],
    by rw [h2.deltaSum, h1.deltaSum], by rw [h2.weights, h1.weights], h2.deltas⟩

theorem c_PerceptronLayer.SameShape.layer_shape_trans {L1 L2 L3 : c_PerceptronLayer α}
    (h1 : c_PerceptronLayer.SameShape L1 L2) (h2 : c_PerceptronLayer.SameShape L2 L3) :
    c_PerceptronLayer.SameShape L1 L3 := by
  refine ⟨by rw [h2.inputs, h1.inputs], by rw [h2.targets, h1.targets],
    by rw [h2.sumsIn, h1.sumsIn], by rw [h2.input, h1.input], by rw [h2.output, h1.output],
    by rw [h2.bias, h1.bias], by rw [h2.size, h1.size], by rw [h2.outputs, h1.outputs],
    ?_, by rw [h2.sumsOut, h1.sumsOut], by rw [h2.units, h1.units], ?_⟩
  · have := h2.biasSlot
    rw [h1.size] at this
    rw [this, h1.biasSlot]
  · intro u r hr
    obtain ⟨q, hq, s2⟩ := h2.unit u r hr
    obtain ⟨p, hp, s1⟩ := h1.unit u q hq
    exact ⟨p, hp, s1.unit_shape_trans s2⟩

theorem c_NeuralNetwork.SameShape.net_shape_trans {w1 w2 w3 : c_NeuralNetwork α}
    (h1 : c_NeuralNetwork.SameShape w1 w2) (h2 : c_NeuralNetwork.SameShape w2 w3) :
    c_NeuralNetwork.SameShape w1 w3 := by
  refine ⟨fun a => by rw [h2.heap, h1.heap], by rw [h2.inputs, h1.inputs],
    by rw [h2.targets, h1.targets], by rw [h2.localInputs, h1.localInputs],
    by rw [h2.bias, h1.bias], by rw [h2.size, h1.size], by rw [h2.layers, h1.layers], ?_⟩
  intro i L3 hL3
  obtain ⟨L2, hL2, s2⟩ := h2.layer i L3 hL3
  obtain ⟨L1, hL1, s1⟩ := h1.layer i L2 hL2
  exact ⟨L1, hL1, s1.layer_shape_trans s2⟩

/-- A linked layer wired as itself. -/
theorem c_PerceptronLayer.Linked.sameShape {sizes : List Nat} {c k : Nat}
    {w : c_NeuralNetwork α} {L : c_PerceptronLayer α}
    (h : c_PerceptronLayer.Linked sizes c w k L) : c_PerceptronLayer.SameShape L L :=
  ⟨rfl, rfl, rfl, rfl, rfl, rfl, rfl, rfl, rfl, rfl, rfl,
    fun u q hq => ⟨q, hq, c_Perceptron.SameShape.shape_refl q (h.unit u q hq).deltas⟩⟩

theorem c_NeuralNetwork.Wired.sameShape_refl {sizes : List Nat} {w : c_NeuralNetwork α}
    (h : c_NeuralNetwork.Wired sizes w) : c_NeuralNetwork.SameShape w w :=
  ⟨fun _ => rfl, rfl, rfl, rfl, rfl, rfl, rfl,
    fun i L hL => ⟨L, hL, (h.linked.layer i L hL).sameShape⟩⟩

/-- The memory of a state wired like another has arrays of the same lengths. -/
theorem c_NeuralNetwork.SameShape.memory_length {w v : c_NeuralNetwork α}
    (h : c_NeuralNetwork.SameShape w v) (r : Ref) :
    (v.memory r).length = (w.memory r).length := by
  cases r with
  | caller a => exact h.heap a
  | localInputs => exact h.localInputs
  | outputs k =>
    simp only [c_NeuralNetwork.memory]
    cases hv : v.m_Layers[k]? with
    | none =>
      have : w.m_Layers[k]? = none := by
        rw [List.getElem?_eq_none_iff] at hv ⊢
        rw [← h.layers]; exact hv
      simp [this]
    | some L' =>
      obtain ⟨L, hL, s⟩ := h.layer k L' hv
      simp [hL, s.outputs]
  | deltaSums k =>
    simp only [c_NeuralNetwork.memory]
    cases hv : v.m_Layers[k]? with
    | none =>
      have : w.m_Layers[k]? = none := by
        rw [List.getElem?_eq_none_iff] at hv ⊢
        rw [← h.layers]; exact hv
      simp [this]
    | some L' =>
      obtain ⟨L, hL, s⟩ := h.layer k L' hv
      simp [hL, s.sumsOut]

/-- A state wired like a wired state is wired. -/
theorem c_NeuralNetwork.Wired.of_sameShape {sizes : List Nat} {w v : c_NeuralNetwork α}
    (h : c_NeuralNetwork.Wired sizes w) (s : c_NeuralNetwork.SameShape w v) :
    c_NeuralNetwork.Wired sizes v := by
  have hm := s.memory_length
  refine ⟨⟨by rw [s.layers]; exact h.linked.length, by rw [s.size]; exact h.linked.size,
    h.linked.pos, h.linked.bound, by rw [s.inputs]; exact h.linked.inputs,
    by rw [s.targets]; exact h.linked.targets, ?_⟩, ?_, ?_, ?_⟩
  · intro k L' hL'
    obtain ⟨L, hL, sl⟩ := s.layer k L' hL'
    have hLk := h.linked.layer k L hL
    constructor
    · rw [sl.size]; exact hLk.size
    · rw [sl.units, sl.size]; exact hLk.units
    · rw [sl.outputs, sl.size, sl.bias]; exact hLk.outputs
    · intro hb
      rw [sl.bias] at hb
      rw [sl.size, sl.biasSlot]
      exact hLk.biasSlot hb
    · rw [sl.input]; exact hLk.input
    · rw [sl.inputs]; exact hLk.inputs
    · rw [sl.output]; exact hLk.output
    · rw [sl.sumsIn]; exact hLk.sumsIn
    · rw [sl.sumsOut]; exact hLk.sumsOut
    · intro t ht
      rw [sl.targets] at ht
      obtain ⟨e1, a, e2, e3⟩ := hLk.targets t ht
      exact ⟨e1, a, e2, by rw [s.heap, sl.size]; exact e3⟩
    · intro u q hq
      obtain ⟨p, hp, sp⟩ := sl.unit u q hq
      have hb := hLk.unit u p hp
      rw [sl.inputs, sl.targets, sl.sumsIn]
      exact ⟨by rw [sp.inputs]; exact hb.inputs, by rw [sp.target]; exact hb.target,
        by rw [sp.deltaSum]; exact hb.deltaSum, sp.deltas⟩
  · intro k L' hL'
    obtain ⟨L, hL, sl⟩ := s.layer k L' hL'
    rw [sl.bias, s.bias]
    exact h.bias k L hL
  · intro k L' hL'
    obtain ⟨L, hL, sl⟩ := s.layer k L' hL'
    apply (h.sync k L hL).transfer sl.inputs (fun r _ => hm r)
    intro u q hq
    obtain ⟨p, hp, sp⟩ := sl.unit u q hq
    exact ⟨p, hp, sp.weights⟩
  · intro a ha
    rw [s.inputs] at ha
    rw [s.localInputs, s.heap, s.bias]
    exact h.localInputs a ha

end same_shape

/-! ## `c_NeuralNetwork::setTrainRate` and `setActivation` -/

section setters

variable {α : Type} [CommRing α] [Div α]

theorem List.modify_take_map {β : Type} (f : β → β) :
    ∀ (i : Nat) (l : List β), i < l.length →
      List.modify f i ((l.take i).map f ++ l.drop i) = (l.take (i + 1)).map f ++ l.drop (i + 1)
  | 0, [], h => by simp at h
  | 0, x :: xs, _ => by simp
  | i + 1, [], h => by simp at h
  | i + 1, x :: xs, h => by
    have := List.modify_take_map f i xs (by simpa using h)
    simpa using this

/-- The loop `for (i = 0; i < m_Size; ++i) m_Layers[i].f()` for a member function `f`
that touches its own layer only. -/
theorem c_NeuralNetwork.forLayers_spec (f : c_PerceptronLayer α → c_PerceptronLayer α)
    (w : c_NeuralNetwork α) (n : Nat) (hn : n = w.m_Layers.length) :
    forLoopM (fun i => c_NeuralNetwork.atLayer i (fun k w => w.onLayer k f)) 0 n w
      = some { w with m_Layers := w.m_Layers.map f } := by
  obtain ⟨u, e, hu⟩ := forLoopM_some
    (fun i => c_NeuralNetwork.atLayer i (fun k w => w.onLayer k f))
    (fun i v => i ≤ w.m_Layers.length ∧
      v = { w with m_Layers := (w.m_Layers.take i).map f ++ w.m_Layers.drop i })
    n 0 w ⟨Nat.zero_le _, by simp⟩ (by
      intro i v _ hi hv
      obtain ⟨_, hv⟩ := hv
      have hl : i < v.m_Layers.length := by
        rw [hv]; simp; omega
      refine ⟨_, c_NeuralNetwork.atLayer_some _ _ _ hl, by omega, ?_⟩
      subst hv
      simp only [c_NeuralNetwork.onLayer]
      rw [List.modify_take_map f i w.m_Layers (by omega)])
  rw [e, hu.2]
  simp [hn]

/-- The units of a layer after `setTrainRate`. -/
theorem c_PerceptronLayer.units_setTrainRate (x : α) (L : c_PerceptronLayer α)
    (h : L.m_Perceptrons.length = L.m_Size) :
    (c_PerceptronLayer.setTrainRate x L).m_Perceptrons
      = L.m_Perceptrons.map (c_Perceptron.setTrainRate x) := by
  apply List.ext_getElem?
  intro i
  simp only [c_PerceptronLayer.setTrainRate, forEach_getElem?, List.getElem?_map]
  split
  · rfl
  · rw [List.getElem?_eq_none (by omega)]; rfl

/-- The units of a layer after `setActivation`. -/
theorem c_PerceptronLayer.units_setActivation (x : e_Activation) (L : c_PerceptronLayer α)
    (h : L.m_Perceptrons.length = L.m_Size) :
    (c_PerceptronLayer.setActivation x L).m_Perceptrons
      = L.m_Perceptrons.map (c_Perceptron.setActivation x) := by
  apply List.ext_getElem?
  intro i
  simp only [c_PerceptronLayer.setActivation, forEach_getElem?, List.getElem?_map]
  split
  · rfl
  · rw [List.getElem?_eq_none (by omega)]; rfl

/-- A layer of a wired network keeps its wiring under a change of its units that keeps
theirs, of its output slots that keeps the bias slot, and of its error sums. -/
theorem c_PerceptronLayer.SameShape.of_units {L : c_PerceptronLayer α}
    (g : c_Perceptron α → c_Perceptron α) (outs sums : List α) (x : α) (t : e_Activation)
    (hg : ∀ p ∈ L.m_Perceptrons, p.m_WeightedDeltas.length = p.m_Weights.length →
      c_Perceptron.SameShape p (g p))
    (hd : ∀ p ∈ L.m_Perceptrons, p.m_WeightedDeltas.length = p.m_Weights.length)
    (ho : outs.length = L.m_Outputs.length) (hb : outs[L.m_Size]? = L.m_Outputs[L.m_Size]?)
    (hs : sums.length = L.m_WeightedDeltaSumsOut.length) :
    c_PerceptronLayer.SameShape L
      { L with m_Perceptrons := L.m_Perceptrons.map g, m_Outputs := outs,
               m_WeightedDeltaSumsOut := sums, m_TrainRate := x, m_ActType := t } := by
  refine ⟨rfl, rfl, rfl, rfl, rfl, rfl, rfl, ho, hb, hs, by simp, ?_⟩
  intro u q hq
  simp only [List.getElem?_map, Option.map_eq_some'] at hq
  obtain ⟨p, hp, e⟩ := hq
  subst e
  exact ⟨p, hp, hg p (List.getElem?_mem hp) (hd p (List.getElem?_mem hp))⟩

/-- `c_NeuralNetwork::setTrainRate` on a wired network: it returns, the rate is assigned
to the network, to every layer and to every unit, nothing else changes. -/
theorem c_NeuralNetwork.setTrainRate_spec (sizes : List Nat) (x : α) (w : c_NeuralNetwork α)
    (h : c_NeuralNetwork.Wired sizes w) :
    c_NeuralNetwork.setTrainRate x w = some
      { w with
        m_TrainRate := x
        m_Layers := w.m_Layers.map (fun L =>
          { L with m_TrainRate := x
                   m_Perceptrons := L.m_Perceptrons.map (c_Perceptron.setTrainRate x) }) } := by
  unfold c_NeuralNetwork.setTrainRate
  rw [c_NeuralNetwork.forLayers_spec _ _ _ (by simp [h.linked.size, h.linked.length])]
  simp only [Option.some.injEq]
  congr 1
  apply List.map_congr_left
  intro L hL
  obtain ⟨k, hk⟩ := List.getElem?_of_mem hL
  have hu := c_PerceptronLayer.units_setTrainRate x L (h.linked.layer k L hk).units
  rw [← hu]
  rfl

/-- `c_NeuralNetwork::setActivation` on a wired network: it returns, the kind is assigned
to the network, to every layer and to every unit, nothing else changes. -/
theorem c_NeuralNetwork.setActivation_spec (sizes : List Nat) (x : e_Activation)
    (w : c_NeuralNetwork α) (h : c_NeuralNetwork.Wired sizes w) :
    c_NeuralNetwork.setActivation x w = some
      { w with
        m_ActType := x
        m_Layers := w.m_Layers.map (fun L =>
          { L with m_ActType := x
                   m_Perceptrons := L.m_Perceptrons.map (c_Perceptron.setActivation x) }) } := by
  unfold c_NeuralNetwork.setActivation
  rw [c_NeuralNetwork.forLayers_spec _ _ _ (by simp [h.linked.size, h.linked.length])]
  simp only [Option.some.injEq]
  congr 1
  apply List.map_congr_left
  intro L hL
  obtain ⟨k, hk⟩ := List.getElem?_of_mem hL
  have hu := c_PerceptronLayer.units_setActivation x L (h.linked.layer k L hk).units
  rw [← hu]
  rfl

end setters

/-! ## The constructor -/

section construct

variable {α : Type} [CommRing α] [Div α]

/-- A network whose layers are replaced one by one by layers wired alike is wired alike. -/
theorem c_NeuralNetwork.SameShape.of_layers (w : c_NeuralNetwork α)
    (F : c_PerceptronLayer α → c_PerceptronLayer α) (x : α) (t : e_Activation)
    (hF : ∀ (k : Nat) (L : c_PerceptronLayer α), w.m_Layers[k]? = some L →
      c_PerceptronLayer.SameShape L (F L)) :
    c_NeuralNetwork.SameShape w
      { w with m_Layers := w.m_Layers.map F, m_TrainRate := x, m_ActType := t } := by
  refine ⟨fun _ => rfl, rfl, rfl, rfl, rfl, rfl, by simp, ?_⟩
  intro i L' hL'
  simp only [List.getElem?_map, Option.map_eq_some'] at hL'
  obtain ⟨L, hL, e⟩ := hL'
  subst e
  exact ⟨L, hL, hF i L hL⟩

theorem c_NeuralNetwork.setTrainRate_shape (sizes : List Nat) (x : α) (w : c_NeuralNetwork α)
    (h : c_NeuralNetwork.Wired sizes w) :
    c_NeuralNetwork.SameShape w
      { w with
        m_TrainRate := x
        m_Layers := w.m_Layers.map (fun L =>
          { L with m_TrainRate := x
                   m_Perceptrons := L.m_Perceptrons.map (c_Perceptron.setTrainRate x) }) } := by
  apply c_NeuralNetwork.SameShape.of_layers w _ x w.m_ActType
  intro k L hL
  have hLk := h.linked.layer k L hL
  exact c_PerceptronLayer.SameShape.of_units (c_Perceptron.setTrainRate x) L.m_Outputs
    L.m_WeightedDeltaSumsOut x L.m_ActType (fun p _ hd => ⟨rfl, rfl, rfl, rfl, hd⟩)
    (fun p hp => by
      obtain ⟨u, hu⟩ := List.getElem?_of_mem hp
      exact (hLk.unit u p hu).deltas) rfl rfl rfl

theorem c_NeuralNetwork.setActivation_shape (sizes : List Nat) (x : e_Activation)
    (w : c_NeuralNetwork α) (h : c_NeuralNetwork.Wired sizes w) :
    c_NeuralNetwork.SameShape w
      { w with
        m_ActType := x
        m_Layers := w.m_Layers.map (fun L =>
          { L with m_ActType := x
                   m_Perceptrons := L.m_Perceptrons.map (c_Perceptron.setActivation x) }) } := by
  apply c_NeuralNetwork.SameShape.of_layers w _ w.m_TrainRate x
  intro k L hL
  have hLk := h.linked.layer k L hL
  exact c_PerceptronLayer.SameShape.of_units (c_Perceptron.setActivation x) L.m_Outputs
    L.m_WeightedDeltaSumsOut L.m_TrainRate x (fun p _ hd => ⟨rfl, rfl, rfl, rfl, hd⟩)
    (fun p hp => by
      obtain ⟨u, hu⟩ := List.getElem?_of_mem hp
      exact (hLk.unit u p hu).deltas) rfl rfl rfl

/-- The constructor on a non-empty list of unit counts: it returns, and leaves a wired
network of blank units. -/
theorem c_NeuralNetwork.construct_spec (sizes : List Nat) (heap : Nat → List α) (a t : Nat)
    (actType : e_Activation) (trainRate : α) (bias : Bool)
    (hpos : sizes ≠ []) (hbound : sizes.length < 2 ^ 64) :
    ∃ w, c_NeuralNetwork.construct heap (Ref.caller a) (Ref.caller t) sizes actType trainRate
        bias = some w ∧
      c_NeuralNetwork.Constructed sizes heap a t actType trainRate bias w := by
  obtain ⟨w1, e1, c1⟩ := c_NeuralNetwork.build_spec sizes heap a t
    { heap := heap, m_Inputs := some (Ref.caller a), m_Targets := some (Ref.caller t),
      m_LocalInputs := [], m_Layers := [], m_Bias := false, m_Size := sizes.length,
      m_TrainRate := 0, m_ActType := e_Activation.ACT_TANH }
    hpos hbound rfl rfl rfl rfl rfl rfl
  obtain ⟨w2, e2, hw2, hb2, hr2, hi2, ht2⟩ := c_NeuralNetwork.setBias_spec sizes bias w1 c1.linked
  have e3 := c_NeuralNetwork.setTrainRate_spec sizes trainRate w2 hw2
  have s3 := c_NeuralNetwork.setTrainRate_shape sizes trainRate w2 hw2
  have hw3 := hw2.of_sameShape s3
  have e4 := c_NeuralNetwork.setActivation_spec sizes actType _ hw3
  have s4 := c_NeuralNetwork.setActivation_shape sizes actType _ hw3
  have hw4 := hw3.of_sameShape s4
  have hbl := c1.blank.of_rewired hr2
  refine ⟨_, ?_, hw4, ?_, hb2, by simp [hr2.heap, c1.heap], by simp [hi2, c1.inputs],
    by simp [ht2, c1.targets], ?_, ?_, ?_⟩
  · unfold c_NeuralNetwork.construct
    dsimp only
    rw [e1, Option.some_bind, e2, Option.some_bind, e3, Option.some_bind, e4]
  · intro k L hL
    simp only [List.getElem?_map, Option.map_eq_some', exists_exists_and_eq_and] at hL
    obtain ⟨L2, hL2, e⟩ := hL
    subst e
    obtain ⟨b1, b2⟩ := hbl k L2 hL2
    refine ⟨b1, ?_⟩
    intro p hp
    simp only [List.map_map, List.mem_map, Function.comp] at hp
    obtain ⟨p2, hp2, e⟩ := hp
    subst e
    have := b2 p2 hp2
    exact ⟨this.weights, this.sumProducts, this.output, this.delta⟩
  · intro k L hL
    simp only [List.getElem?_map, Option.map_eq_some', exists_exists_and_eq_and] at hL
    obtain ⟨L2, hL2, e⟩ := hL
    subst e
    intro p hp
    simp only [List.map_map, List.mem_map, Function.comp] at hp
    obtain ⟨p2, hp2, e⟩ := hp
    subst e
    exact ⟨rfl, rfl⟩
  · intro L hL hlen
    simp only [List.getElem?_map, Option.map_eq_some', exists_exists_and_eq_and] at hL
    obtain ⟨L2, hL2, e⟩ := hL
    subst e
    obtain ⟨L1, hL1, r⟩ := hr2.layer _ L2 hL2
    have hs := (hw2.linked.layer _ L2 hL2).sumsIn
    have hn : ¬ sizes.length - 1 + 1 < sizes.length := by omega
    simp only [hn, if_false] at hs
    rcases r.targets with e | e
    · show L2.m_Targets = _
      rw [e]
      apply c1.target L1 hL1
      rw [← r.size]
      exact hlen
    · exact absurd hs e
  · intro L hL hlen
    simp only [List.getElem?_map, Option.map_eq_some', exists_exists_and_eq_and] at hL
    obtain ⟨L2, hL2, e⟩ := hL
    subst e
    obtain ⟨L1, hL1, r⟩ := hr2.layer _ L2 hL2
    have hs := (hw2.linked.layer _ L2 hL2).sumsIn
    have hn : ¬ sizes.length - 1 + 1 < sizes.length := by omega
    simp only [hn, if_false] at hs
    rcases r.targets with e | e
    · show L2.m_Targets = _
      rw [e]
      apply c1.untarget L1 hL1
      rw [← r.size]
      exact hlen
    · exact absurd hs e

end construct

/-! ## The two passes over a layer -/

section layer_pass

variable {α : Type} [CommRing α] [Div α]

theorem List.set_take_map {β γ : Type} (f : β → γ) :
    ∀ (i : Nat) (xs : List β) (ys : List γ) (x : β), xs[i]? = some x → i < ys.length →
      ((xs.take i).map f ++ ys.drop i).set i (f x) = (xs.take (i + 1)).map f ++ ys.drop (i + 1)
  | _, [], _, _, h, _ => by simp at h
  | _, _ :: _, [], _, _, h => by simp at h
  | 0, x :: xs, y :: ys, z, h, _ => by
    simp only [List.getElem?_cons_zero, Option.some.injEq] at h
    simp [h]
  | i + 1, x :: xs, y :: ys, z, h, h' => by
    have := List.set_take_map f i xs ys z (by simpa using h) (by simpa using h')
    simpa using this

theorem List.getElem?_take_map_drop {β : Type} (f : β → β) (i : Nat) (xs : List β)
    (h : i ≤ xs.length) : ((xs.take i).map f ++ xs.drop i)[i]? = xs[i]? := by
  rw [List.getElem?_append_right (by simp [h])]
  simp [h]

/-- A unit reads memory through its input pointer only when it is evaluated. -/
theorem c_Perceptron.evaluate_congr (M : Libm α) (mem mem' : Memory α) (p : c_Perceptron α)
    (h : ∀ r, p.m_Inputs = some r → mem' r = mem r) :
    c_Perceptron.evaluate M mem' p = c_Perceptron.evaluate M mem p := by
  unfold c_Perceptron.evaluate c_Perceptron._calcSumProducts
  cases hp : p.m_Inputs with
  | none => rfl
  | some r => simp [h r hp]

/-- A unit reads memory through its three pointers only when it is trained. -/
theorem c_Perceptron.train_congr (M : Libm α) (mem mem' : Memory α) (p : c_Perceptron α)
    (h1 : ∀ r, p.m_Inputs = some r → mem' r = mem r)
    (h2 : ∀ t, p.m_Target = some t → mem' t.1 = mem t.1)
    (h3 : ∀ d, p.m_WeightedDeltaSum = some d → mem' d.1 = mem d.1) :
    c_Perceptron.train M mem' p = c_Perceptron.train M mem p := by
  have e1 : c_Perceptron._calcDelta M mem' p = c_Perceptron._calcDelta M mem p := by
    unfold c_Perceptron._calcDelta
    cases ht : p.m_Target with
    | some t => simp [Memory.deref, h2 t ht]
    | none =>
      cases hd : p.m_WeightedDeltaSum with
      | some d => simp [Memory.deref, h3 d hd]
      | none => rfl
  have e2 : (c_Perceptron._calcDelta M mem p).m_Inputs = p.m_Inputs := by
    unfold c_Perceptron._calcDelta
    cases p.m_Target with
    | some t => rfl
    | none =>
      cases p.m_WeightedDeltaSum with
      | some d => rfl
      | none => rfl
  unfold c_Perceptron.train
  simp only [e1]
  unfold c_Perceptron._calcNewWeights
  rw [e2]
  cases hp : p.m_Inputs with
  | none => rfl
  | some r => simp [h1 r hp]

theorem c_NeuralNetwork.onLayer_const (w : c_NeuralNetwork α) (k : Nat)
    (f : c_PerceptronLayer α → c_PerceptronLayer α) (L : c_PerceptronLayer α)
    (hL : w.m_Layers[k]? = some L) : w.onLayer k f = w.onLayer k (fun _ => f L) := by
  apply c_NeuralNetwork.onLayer_congr
  intro L' hL'
  rw [hL] at hL'
  cases hL'
  rfl

theorem c_NeuralNetwork.onLayer_onLayer (w : c_NeuralNetwork α) (k : Nat)
    (f g : c_PerceptronLayer α → c_PerceptronLayer α) :
    (w.onLayer k f).onLayer k g = w.onLayer k (fun L => g (f L)) := by
  simp only [c_NeuralNetwork.onLayer]
  congr 1
  apply List.ext_getElem?
  intro i
  simp only [List.getElem?_modify]
  by_cases e : k = i
  · subst e
    cases w.m_Layers[k]? <;> simp
  · cases w.m_Layers[i]? <;> simp [e]

/-- The memory after a change of layer `k`: only the two arrays of that layer differ. -/
theorem c_NeuralNetwork.memory_onLayer_ne (w : c_NeuralNetwork α) (k : Nat)
    (f : c_PerceptronLayer α → c_PerceptronLayer α) (r : Ref)
    (h1 : r ≠ Ref.outputs k) (h2 : r ≠ Ref.deltaSums k) :
    (w.onLayer k f).memory r = w.memory r := by
  cases r with
  | caller a => rfl
  | localInputs => rfl
  | outputs j =>
    have : k ≠ j := fun e => h1 (by rw [e])
    simp [c_NeuralNetwork.memory, this]
  | deltaSums j =>
    have : k ≠ j := fun e => h2 (by rw [e])
    simp [c_NeuralNetwork.memory, this]

end layer_pass

/-! ## `c_PerceptronLayer::evaluate` -/

section layer_evaluate

variable {α : Type} [CommRing α] [Div α]

theorem c_NeuralNetwork.onLayer_id (w : c_NeuralNetwork α) (k : Nat) :
    w.onLayer k (fun L => L) = w := by
  have : List.modify (fun L : c_PerceptronLayer α => L) k w.m_Layers = w.m_Layers := by
    apply List.ext_getElem?
    intro i
    rw [List.getElem?_modify]
    cases w.m_Layers[i]? <;> simp
  simp only [c_NeuralNetwork.onLayer, this]

/-- `c_PerceptronLayer::evaluate` on layer `k`, whose units read other arrays than the
output array of the layer: the loop computes the closed form. -/
theorem c_PerceptronLayer.evaluate_eq (M : Libm α) (k : Nat) (w : c_NeuralNetwork α)
    (L : c_PerceptronLayer α) (hL : w.m_Layers[k]? = some L)
    (hu : L.m_Perceptrons.length = L.m_Size) (ho : L.m_Size ≤ L.m_Outputs.length)
    (hin : ∀ p ∈ L.m_Perceptrons, ∃ r, p.m_Inputs = some r ∧ r ≠ Ref.outputs k ∧
      r ≠ Ref.deltaSums k) :
    c_PerceptronLayer.evaluate M k w
      = w.onLayer k (fun _ => c_PerceptronLayer.evaluated M w.memory L) := by
  unfold c_PerceptronLayer.evaluate
  rw [c_PerceptronLayer.getSize_eq w k L hL]
  have hinv := forLoop_inv (c_PerceptronLayer.evaluateStep M k)
    (fun i v => i ≤ L.m_Size ∧ v = w.onLayer k (fun _ =>
      { L with
        m_Perceptrons :=
          (L.m_Perceptrons.take i).map (fun p => (c_Perceptron.evaluate M w.memory p).2)
            ++ L.m_Perceptrons.drop i
        m_Outputs :=
          (L.m_Perceptrons.take i).map
            (fun p => (c_Perceptron.evaluate M w.memory p).2.m_Output)
            ++ L.m_Outputs.drop i }))
    L.m_Size 0 w ⟨Nat.zero_le _, by
      simp only [List.take_zero, List.map_nil, List.nil_append, List.drop_zero]
      rw [← c_NeuralNetwork.onLayer_const w k (fun L => L) L hL,
        c_NeuralNetwork.onLayer_id]⟩ (by
      intro i v _ hi hv
      obtain ⟨_, hv⟩ := hv
      simp only [Nat.zero_add] at hi
      refine ⟨by omega, ?_⟩
      have hi' : i < L.m_Perceptrons.length := by omega
      have hp : L.m_Perceptrons[i]? = some L.m_Perceptrons[i] := List.getElem?_eq_getElem hi'
      obtain ⟨r, hr, hr1, hr2⟩ := hin _ (List.getElem?_mem hp)
      have hvk : v.m_Layers[k]? = some
          { L with
            m_Perceptrons :=
              (L.m_Perceptrons.take i).map (fun p => (c_Perceptron.evaluate M w.memory p).2)
                ++ L.m_Perceptrons.drop i
            m_Outputs :=
              (L.m_Perceptrons.take i).map
                (fun p => (c_Perceptron.evaluate M w.memory p).2.m_Output)
                ++ L.m_Outputs.drop i } := by
        rw [hv, c_NeuralNetwork.onLayer_getElem?, hL]
        simp
      have hmem : c_Perceptron.evaluate M v.memory L.m_Perceptrons[i]
          = c_Perceptron.evaluate M w.memory L.m_Perceptrons[i] := by
        apply c_Perceptron.evaluate_congr
        intro r' hr'
        rw [hr] at hr'
        cases hr'
        rw [hv]
        exact c_NeuralNetwork.memory_onLayer_ne w k _ r hr1 hr2
      have htrue : (c_Perceptron.evaluate M w.memory L.m_Perceptrons[i]).1 = true := by
        simp [c_Perceptron.evaluate, c_Perceptron._calcSumProducts, hr]
      unfold c_PerceptronLayer.evaluateStep
      rw [hvk]
      simp only [Option.some_bind]
      rw [List.getElem?_take_map_drop _ i _ (by omega), hp]
      simp only [hmem, htrue, if_true]
      rw [c_NeuralNetwork.onLayer_onLayer, hv, c_NeuralNetwork.onLayer_onLayer]
      apply c_NeuralNetwork.onLayer_congr
      intro _ _
      simp only [valarray.store, c_Perceptron.getOutput]
      rw [List.set_take_map _ i _ _ _ hp hi',
        List.set_take_map (fun p => (c_Perceptron.evaluate M w.memory p).2.m_Output) i _ _ _ hp
          (by omega)])
  simp only [Nat.zero_add] at hinv
  rw [hinv.2]
  apply c_NeuralNetwork.onLayer_congr
  intro _ _
  simp only [c_PerceptronLayer.evaluated]
  rw [List.take_of_length_le (by omega), List.drop_of_length_le (by omega : L.m_Perceptrons.length ≤ L.m_Size)]
  simp

end layer_evaluate

/-! ## `c_PerceptronLayer::train` -/

section layer_train

variable {α : Type} [CommRing α] [Div α]

/-- `c_PerceptronLayer::train` on layer `k`, whose units read other arrays than the two
of the layer: the loop computes the closed form. -/
theorem c_PerceptronLayer.train_eq (M : Libm α) (k : Nat) (w : c_NeuralNetwork α)
    (L : c_PerceptronLayer α) (hL : w.m_Layers[k]? = some L)
    (hu : L.m_Perceptrons.length = L.m_Size)
    (hin : ∀ p ∈ L.m_Perceptrons, ∀ r, (p.m_Inputs = some r ∨
      (∃ i, p.m_Target = some (r, i)) ∨ ∃ i, p.m_WeightedDeltaSum = some (r, i)) →
      r ≠ Ref.outputs k ∧ r ≠ Ref.deltaSums k) :
    c_PerceptronLayer.train M k w
      = w.onLayer k (fun _ => c_PerceptronLayer.trained M w.memory L) := by
  unfold c_PerceptronLayer.train
  have hL1 : (w.onLayer k (fun L =>
      { L with m_WeightedDeltaSumsOut := valarray.fill L.m_WeightedDeltaSumsOut (0 : α) })).m_Layers[k]?
      = some { L with m_WeightedDeltaSumsOut := valarray.fill L.m_WeightedDeltaSumsOut (0 : α) } := by
    rw [c_NeuralNetwork.onLayer_getElem?, hL]
    simp
  simp only []
  rw [c_PerceptronLayer.getSize_eq _ k _ hL1]
  have hinv := forLoop_inv (c_PerceptronLayer.trainStep M k)
    (fun i v => i ≤ L.m_Size ∧ v = w.onLayer k (fun _ =>
      { L with
        m_Perceptrons :=
          (L.m_Perceptrons.take i).map (fun p => (c_Perceptron.train M w.memory p).2)
            ++ L.m_Perceptrons.drop i
        m_WeightedDeltaSumsOut :=
          ((L.m_Perceptrons.take i).map
            (fun p => (c_Perceptron.train M w.memory p).2.m_WeightedDeltas)).foldl
            valarray.addAssign (valarray.fill L.m_WeightedDeltaSumsOut 0) }))
    L.m_Size 0
    (w.onLayer k (fun L =>
      { L with m_WeightedDeltaSumsOut := valarray.fill L.m_WeightedDeltaSumsOut (0 : α) }))
    ⟨Nat.zero_le _, by
      simp only [List.take_zero, List.map_nil, List.nil_append, List.drop_zero, List.foldl_nil]
      exact c_NeuralNetwork.onLayer_const w k _ L hL⟩ (by
      intro i v _ hi hv
      obtain ⟨_, hv⟩ := hv
      simp only [Nat.zero_add] at hi
      refine ⟨by omega, ?_⟩
      have hi' : i < L.m_Perceptrons.length := by omega
      have hp : L.m_Perceptrons[i]? = some L.m_Perceptrons[i] := List.getElem?_eq_getElem hi'
      have hr := hin _ (List.getElem?_mem hp)
      have hvk : v.m_Layers[k]? = some
          { L with
            m_Perceptrons :=
              (L.m_Perceptrons.take i).map (fun p => (c_Perceptron.train M w.memory p).2)
                ++ L.m_Perceptrons.drop i
            m_WeightedDeltaSumsOut :=
              ((L.m_Perceptrons.take i).map
                (fun p => (c_Perceptron.train M w.memory p).2.m_WeightedDeltas)).foldl
                valarray.addAssign (valarray.fill L.m_WeightedDeltaSumsOut 0) } := by
        rw [hv, c_NeuralNetwork.onLayer_getElem?, hL]
        simp
      have hmem : c_Perceptron.train M v.memory L.m_Perceptrons[i]
          = c_Perceptron.train M w.memory L.m_Perceptrons[i] := by
        apply c_Perceptron.train_congr
        · intro r hr'
          have := hr r (Or.inl hr')
          rw [hv]
          exact c_NeuralNetwork.memory_onLayer_ne w k _ r this.1 this.2
        · intro t ht
          have := hr t.1 (Or.inr (Or.inl ⟨t.2, ht⟩))
          rw [hv]
          exact c_NeuralNetwork.memory_onLayer_ne w k _ t.1 this.1 this.2
        · intro d hd
          have := hr d.1 (Or.inr (Or.inr ⟨d.2, hd⟩))
          rw [hv]
          exact c_NeuralNetwork.memory_onLayer_ne w k _ d.1 this.1 this.2
      have htrue : (c_Perceptron.train M w.memory L.m_Perceptrons[i]).1 = true := rfl
      unfold c_PerceptronLayer.trainStep
      rw [hvk]
      simp only [Option.some_bind]
      rw [List.getElem?_take_map_drop _ i _ (by omega), hp]
      simp only [hmem, htrue, if_true]
      rw [c_NeuralNetwork.onLayer_onLayer, hv, c_NeuralNetwork.onLayer_onLayer]
      apply c_NeuralNetwork.onLayer_congr
      intro _ _
      simp only [c_Perceptron.getWeightedDeltas]
      have hts : (L.m_Perceptrons.take (i + 1)).map
            (fun p => (c_Perceptron.train M w.memory p).2.m_WeightedDeltas)
          = (L.m_Perceptrons.take i).map
              (fun p => (c_Perceptron.train M w.memory p).2.m_WeightedDeltas)
            ++ [(c_Perceptron.train M w.memory L.m_Perceptrons[i]).2.m_WeightedDeltas] := by
        rw [List.take_succ, hp, List.map_append]
        rfl
      rw [List.set_take_map _ i _ _ _ hp hi', hts, List.foldl_append]
      rfl)
  simp only [Nat.zero_add] at hinv
  rw [hinv.2]
  apply c_NeuralNetwork.onLayer_congr
  intro _ _
  simp only [c_PerceptronLayer.trained]
  rw [List.take_of_length_le (by omega), List.drop_of_length_le (by omega : L.m_Perceptrons.length ≤ L.m_Size)]
  simp

end layer_train

/-! ## `c_NeuralNetwork::evaluate` -/

section net_evaluate

variable {α : Type} [CommRing α] [Div α]

/-- `_updateLocalInputs` on a wired network: the local inputs become the caller's input
array, followed by `1` when the bias is on. -/
theorem c_NeuralNetwork.updateLocalInputs_spec (sizes : List Nat) (w : c_NeuralNetwork α)
    (h : c_NeuralNetwork.Wired sizes w) (a : Nat) (ha : w.m_Inputs = some (Ref.caller a)) :
    c_NeuralNetwork._updateLocalInputs w
      = some { w with m_LocalInputs := w.heap a ++ (if w.m_Bias then [1] else []) } := by
  have hl := h.localInputs a ha
  unfold c_NeuralNetwork._updateLocalInputs
  rw [ha]
  simp only [c_NeuralNetwork.memory_caller]
  cases hb : w.m_Bias with
  | false => simp
  | true =>
    simp only [hb, if_true] at hl
    have h1 : valarray.sliceAssign w.m_LocalInputs (w.heap a)
        = some (w.heap a ++ w.m_LocalInputs.drop (w.heap a).length) := by
      unfold valarray.sliceAssign
      rw [if_pos (by omega)]
    obtain ⟨x, hx⟩ : ∃ x, w.m_LocalInputs.drop (w.heap a).length = [x] := by
      have : (w.m_LocalInputs.drop (w.heap a).length).length = 1 := by
        rw [List.length_drop]; omega
      match hd : w.m_LocalInputs.drop (w.heap a).length, this with
      | [x], _ => exact ⟨x, rfl⟩
    rw [h1, hx]
    simp [valarray.store]

theorem c_PerceptronLayer.evaluated_congr (M : Libm α) (mem mem' : Memory α)
    (L : c_PerceptronLayer α)
    (h : ∀ p ∈ L.m_Perceptrons, ∀ r, p.m_Inputs = some r → mem' r = mem r) :
    c_PerceptronLayer.evaluated M mem' L = c_PerceptronLayer.evaluated M mem L := by
  have e : ∀ p ∈ L.m_Perceptrons,
      c_Perceptron.evaluate M mem' p = c_Perceptron.evaluate M mem p :=
    fun p hp => c_Perceptron.evaluate_congr M mem mem' p (h p hp)
  unfold c_PerceptronLayer.evaluated
  have e1 : L.m_Perceptrons.map (fun p => (c_Perceptron.evaluate M mem' p).2)
      = L.m_Perceptrons.map (fun p => (c_Perceptron.evaluate M mem p).2) :=
    List.map_congr_left (fun p hp => by rw [e p hp])
  have e2 : L.m_Perceptrons.map (fun p => (c_Perceptron.evaluate M mem' p).2.m_Output)
      = L.m_Perceptrons.map (fun p => (c_Perceptron.evaluate M mem p).2.m_Output) :=
    List.map_congr_left (fun p hp => by rw [e p hp])
  rw [e1, e2]

/-- What `c_Perceptron::evaluate` leaves alone. -/
theorem c_Perceptron.frame_evaluate (M : Libm α) (mem : Memory α) (p : c_Perceptron α) :
    (c_Perceptron.evaluate M mem p).2.m_Inputs = p.m_Inputs ∧
    (c_Perceptron.evaluate M mem p).2.m_Weights = p.m_Weights ∧
    (c_Perceptron.evaluate M mem p).2.m_WeightedDeltas = p.m_WeightedDeltas ∧
    (c_Perceptron.evaluate M mem p).2.m_Target = p.m_Target ∧
    (c_Perceptron.evaluate M mem p).2.m_WeightedDeltaSum = p.m_WeightedDeltaSum ∧
    (c_Perceptron.evaluate M mem p).2.m_Delta = p.m_Delta ∧
    (c_Perceptron.evaluate M mem p).2.m_TrainRate = p.m_TrainRate ∧
    (c_Perceptron.evaluate M mem p).2.m_ActType = p.m_ActType := by
  unfold c_Perceptron.evaluate c_Perceptron._calcSumProducts c_Perceptron._calcActivation
  cases hi : p.m_Inputs with
  | none => simp [hi]
  | some r =>
    cases hact : p.m_ActType <;> simp [hact, hi]

/-- An evaluated layer is wired as before. -/
theorem c_PerceptronLayer.evaluated_shape (M : Libm α) (mem : Memory α) {sizes : List Nat}
    {c k : Nat} {w : c_NeuralNetwork α} {L : c_PerceptronLayer α}
    (h : c_PerceptronLayer.Linked sizes c w k L) :
    c_PerceptronLayer.SameShape L (c_PerceptronLayer.evaluated M mem L) := by
  have hu := h.units
  have ho := h.outputs
  refine ⟨rfl, rfl, rfl, rfl, rfl, rfl, rfl, ?_, ?_, rfl, ?_, ?_⟩
  · simp only [c_PerceptronLayer.evaluated, List.length_append, List.length_map,
      List.length_drop]
    omega
  · simp only [c_PerceptronLayer.evaluated]
    rw [List.getElem?_append_right (by simp [hu])]
    simp [hu]
  · simp [c_PerceptronLayer.evaluated]
  · intro u q hq
    simp only [c_PerceptronLayer.evaluated, List.getElem?_map, Option.map_eq_some'] at hq
    obtain ⟨p, hp, e⟩ := hq
    subst e
    obtain ⟨f1, f2, f3, f4, f5, _⟩ := c_Perceptron.frame_evaluate M mem p
    exact ⟨p, hp, f1, f4, f5, by rw [f2], by rw [f3, f2]; exact (h.unit u p hp).deltas⟩

end net_evaluate

section net_evaluate2

variable {α : Type} [CommRing α] [Div α]

/-- The array that the units of a linked layer read. -/
theorem c_PerceptronLayer.Linked.reads {sizes : List Nat} {c k : Nat} {w : c_NeuralNetwork α}
    {L : c_PerceptronLayer α} (h : c_PerceptronLayer.Linked sizes c w k L) (hk : k < c)
    (p : c_Perceptron α) (hp : p ∈ L.m_Perceptrons) :
    p.m_Inputs = some (if k = 0 then Ref.localInputs else Ref.outputs (k - 1)) := by
  obtain ⟨u, hu⟩ := List.getElem?_of_mem hp
  rw [(h.unit u p hu).inputs, h.inputs]
  by_cases e : k = 0
  · simp [e]
  · simp [e, hk]

theorem c_NeuralNetwork.Frame.onLayer (w v : c_NeuralNetwork α) (k : Nat)
    (f : c_PerceptronLayer α → c_PerceptronLayer α) (h : c_NeuralNetwork.Frame w v) :
    c_NeuralNetwork.Frame w (v.onLayer k f) :=
  ⟨by simp [h.heap], by simp [h.inputs], by simp [h.targets], by simp [h.bias],
    by simp [h.size], by simp [h.trainRate], by simp [h.actType], by simp [h.layers]⟩

/-- `c_NeuralNetwork::evaluate` on a wired network: it returns; the local inputs are the
caller's input array, followed by `1` when the bias is on; every layer is the closed
form of the old one on the memory of the final state. -/
theorem c_NeuralNetwork.evaluate_spec (sizes : List Nat) (M : Libm α) (w : c_NeuralNetwork α)
    (h : c_NeuralNetwork.Wired sizes w) (a : Nat) (ha : w.m_Inputs = some (Ref.caller a)) :
    ∃ v, c_NeuralNetwork.evaluate M w = some v ∧ c_NeuralNetwork.Frame w v ∧
      v.m_LocalInputs = w.heap a ++ (if w.m_Bias then [1] else []) ∧
      ∀ (k : Nat) (L : c_PerceptronLayer α), w.m_Layers[k]? = some L →
        v.m_Layers[k]? = some (c_PerceptronLayer.evaluated M v.memory L) := by
  have hlen := h.linked.length
  have hloop := forLoopM_some
    (fun i => c_NeuralNetwork.atLayer i (c_PerceptronLayer.evaluate M))
    (fun d v => d ≤ sizes.length ∧ c_NeuralNetwork.Frame w v ∧
      v.m_LocalInputs = w.heap a ++ (if w.m_Bias then [1] else []) ∧
      ∀ (k : Nat) (L : c_PerceptronLayer α), w.m_Layers[k]? = some L →
        v.m_Layers[k]? = some (if k < d then c_PerceptronLayer.evaluated M v.memory L else L))
    sizes.length 0
    { w with m_LocalInputs := w.heap a ++ (if w.m_Bias then [1] else []) }
    ⟨Nat.zero_le _, ⟨rfl, rfl, rfl, rfl, rfl, rfl, rfl, rfl⟩, rfl, fun k L hL => by simpa using hL⟩
    (by
      intro d v _ hd hv
      obtain ⟨_, hf, hloc, hlay⟩ := hv
      simp only [Nat.zero_add] at hd
      obtain ⟨L, hL, hLd⟩ := h.linked.get d hd
      have hvd : v.m_Layers[d]? = some L := by
        have := hlay d L hL
        simpa using this
      have hreads : ∀ p ∈ L.m_Perceptrons, ∃ r, p.m_Inputs = some r ∧ r ≠ Ref.outputs d ∧
          r ≠ Ref.deltaSums d := by
        intro p hp
        refine ⟨_, hLd.reads hd p hp, ?_, ?_⟩
        · split
          · simp
          · simp only [ne_eq, Ref.outputs.injEq]; omega
        · split <;> simp
      have hev := c_PerceptronLayer.evaluate_eq M d v L hvd hLd.units
        (by have := hLd.outputs; omega) hreads
      refine ⟨_, c_NeuralNetwork.atLayer_some _ _ _ (by rw [hf.layers, hlen]; exact hd),
        by omega, ?_, ?_, ?_⟩
      · rw [hev]; exact hf.onLayer w v d _
      · rw [hev]; simpa using hloc
      · intro k Lk hLk
        have hk : k < sizes.length := by
          rw [← hlen]
          exact (List.getElem?_eq_some_iff.mp hLk).1
        have hLkk := h.linked.layer k Lk hLk
        rw [hev, c_NeuralNetwork.onLayer_getElem?, hlay k Lk hLk]
        have hcongr : k ≤ d → c_PerceptronLayer.evaluated M
            (v.onLayer d (fun _ => c_PerceptronLayer.evaluated M v.memory L)).memory Lk
            = c_PerceptronLayer.evaluated M v.memory Lk := by
          intro hkd
          apply c_PerceptronLayer.evaluated_congr
          intro p hp r hr
          rw [hLkk.reads hk p hp] at hr
          cases hr
          apply c_NeuralNetwork.memory_onLayer_ne
          · split
            · simp
            · simp only [ne_eq, Ref.outputs.injEq]; omega
          · split <;> simp
        by_cases e : d = k
        · subst e
          rw [hL] at hLk
          cases hLk
          simp only [if_true, Nat.lt_irrefl, if_false, Option.map_some', Nat.lt_succ_self]
          rw [hcongr (Nat.le_refl _)]
        · simp only [e, if_false]
          by_cases e2 : k < d
          · have e3 : k < d + 1 := by omega
            simp only [e2, e3, if_true]
            rw [hcongr (by omega)]
          · have e3 : ¬ k < d + 1 := by omega
            simp only [e2, e3, if_false])
  obtain ⟨v, e, _, hf, hloc, hlay⟩ := hloop
  refine ⟨v, ?_, hf, hloc, ?_⟩
  · unfold c_NeuralNetwork.evaluate
    rw [ha]
    simp only []
    rw [c_NeuralNetwork.updateLocalInputs_spec sizes w h a ha, Option.some_bind]
    rw [← h.linked.size] at e
    exact e
  · intro k L hL
    have hk : k < sizes.length := by
      rw [← hlen]
      exact (List.getElem?_eq_some_iff.mp hL).1
    have := hlay k L hL
    simpa [hk] using this

end net_evaluate2

/-! ## Arrays: elementwise facts -/

section arrays

theorem valarray.getD_addAssign {α : Type} [AddZeroClass α] (a b : List α) (i : Nat)
    (h : i < a.length) :
    (valarray.addAssign a b).getD i 0 = a.getD i 0 + b.getD i 0 := by
  induction a generalizing b i with
  | nil => simp at h
  | cons x xs ih =>
    cases b with
    | nil => simp [valarray.addAssign]
    | cons y ys =>
      cases i with
      | zero => simp [valarray.addAssign]
      | succ i =>
        have h1 : i < xs.length := by simpa using h
        have := ih ys i h1
        simpa [valarray.addAssign] using this

theorem valarray.length_addAssign {α : Type} [Add α] (a b : List α) :
    (valarray.addAssign a b).length = a.length := by
  simp [valarray.addAssign, List.length_zipWith]
  omega

theorem valarray.getD_smul {α : Type} [MulZeroClass α] (c : α) (v : List α) (i : Nat) :
    (valarray.smul c v).getD i 0 = c * v.getD i 0 := by
  induction v generalizing i with
  | nil => simp [valarray.smul]
  | cons x xs ih =>
    cases i with
    | zero => simp [valarray.smul]
    | succ i => simpa [valarray.smul] using ih i

theorem valarray.length_smul {α : Type} [Mul α] (c : α) (v : List α) :
    (valarray.smul c v).length = v.length := by
  simp [valarray.smul]

theorem valarray.length_foldl_addAssign {α : Type} [Add α] (l : List (List α)) :
    ∀ init : List α, (l.foldl valarray.addAssign init).length = init.length := by
  induction l with
  | nil => intro init; rfl
  | cons x xs ih =>
    intro init
    rw [List.foldl_cons, ih, valarray.length_addAssign]

end arrays

/-! ## `c_NeuralNetwork::train` -/

section net_train

variable {α : Type} [CommRing α] [Div α]

/-- What `c_Perceptron::train` leaves alone. -/
theorem c_Perceptron.frame_train (M : Libm α) (mem : Memory α) (p : c_Perceptron α) :
    (c_Perceptron.train M mem p).2.m_Inputs = p.m_Inputs ∧
    (c_Perceptron.train M mem p).2.m_Target = p.m_Target ∧
    (c_Perceptron.train M mem p).2.m_WeightedDeltaSum = p.m_WeightedDeltaSum ∧
    (c_Perceptron.train M mem p).2.m_SumProducts = p.m_SumProducts ∧
    (c_Perceptron.train M mem p).2.m_Output = p.m_Output ∧
    (c_Perceptron.train M mem p).2.m_TrainRate = p.m_TrainRate ∧
    (c_Perceptron.train M mem p).2.m_ActType = p.m_ActType ∧
    (c_Perceptron.train M mem p).2.m_Weights.length = p.m_Weights.length ∧
    (p.m_WeightedDeltas.length = p.m_Weights.length →
      (c_Perceptron.train M mem p).2.m_WeightedDeltas.length = p.m_Weights.length) := by
  have e : ∀ q : c_Perceptron α,
      (c_Perceptron._calcDelta M mem q).m_Inputs = q.m_Inputs ∧
      (c_Perceptron._calcDelta M mem q).m_Target = q.m_Target ∧
      (c_Perceptron._calcDelta M mem q).m_WeightedDeltaSum = q.m_WeightedDeltaSum ∧
      (c_Perceptron._calcDelta M mem q).m_SumProducts = q.m_SumProducts ∧
      (c_Perceptron._calcDelta M mem q).m_Output = q.m_Output ∧
      (c_Perceptron._calcDelta M mem q).m_TrainRate = q.m_TrainRate ∧
      (c_Perceptron._calcDelta M mem q).m_ActType = q.m_ActType ∧
      (c_Perceptron._calcDelta M mem q).m_Weights = q.m_Weights ∧
      (c_Perceptron._calcDelta M mem q).m_WeightedDeltas = q.m_WeightedDeltas := by
    intro q
    unfold c_Perceptron._calcDelta
    cases ht : q.m_Target with
    | some t => simp [ht]
    | none =>
      cases hd : q.m_WeightedDeltaSum with
      | some d => simp [ht, hd]
      | none => simp [ht, hd]
  obtain ⟨e1, e2, e3, e4, e5, e6, e7, e8, e9⟩ := e p
  cases hi : p.m_Inputs with
  | none =>
    have hx : (c_Perceptron.train M mem p).2 = c_Perceptron._calcDelta M mem p := by
      simp [c_Perceptron.train, c_Perceptron._calcNewWeights, e1, hi]
    rw [hx]
    exact ⟨by rw [e1, hi], e2, e3, e4, e5, e6, e7, by rw [e8], fun h => by rw [e9, h]⟩
  | some r =>
    have hx : (c_Perceptron.train M mem p).2 =
        { c_Perceptron._calcDelta M mem p with
          m_WeightedDeltas := valarray.smul (c_Perceptron._calcDelta M mem p).m_Delta
            (c_Perceptron._calcDelta M mem p).m_Weights
          m_Weights := valarray.addAssign (c_Perceptron._calcDelta M mem p).m_Weights
            (valarray.smul ((c_Perceptron._calcDelta M mem p).m_TrainRate
              * (c_Perceptron._calcDelta M mem p).m_Delta) (mem r)) } := by
      simp [c_Perceptron.train, c_Perceptron._calcNewWeights, e1, hi]
    rw [hx]
    exact ⟨by rw [← hi]; exact e1, e2, e3, e4, e5, e6, e7,
      by simp only [valarray.length_addAssign, e8],
      fun _ => by simp only [valarray.length_smul, e8]⟩

theorem c_PerceptronLayer.trained_congr (M : Libm α) (mem mem' : Memory α)
    (L : c_PerceptronLayer α)
    (h : ∀ p ∈ L.m_Perceptrons, ∀ r, (p.m_Inputs = some r ∨
      (∃ i, p.m_Target = some (r, i)) ∨ ∃ i, p.m_WeightedDeltaSum = some (r, i)) →
      mem' r = mem r) :
    c_PerceptronLayer.trained M mem' L = c_PerceptronLayer.trained M mem L := by
  have e : ∀ p ∈ L.m_Perceptrons,
      c_Perceptron.train M mem' p = c_Perceptron.train M mem p :=
    fun p hp => c_Perceptron.train_congr M mem mem' p
      (fun r hr => h p hp r (Or.inl hr))
      (fun t ht => h p hp t.1 (Or.inr (Or.inl ⟨t.2, ht⟩)))
      (fun d hd => h p hp d.1 (Or.inr (Or.inr ⟨d.2, hd⟩)))
  unfold c_PerceptronLayer.trained
  have e1 : L.m_Perceptrons.map (fun p => (c_Perceptron.train M mem' p).2)
      = L.m_Perceptrons.map (fun p => (c_Perceptron.train M mem p).2) :=
    List.map_congr_left (fun p hp => by rw [e p hp])
  have e2 : L.m_Perceptrons.map (fun p => (c_Perceptron.train M mem' p).2.m_WeightedDeltas)
      = L.m_Perceptrons.map (fun p => (c_Perceptron.train M mem p).2.m_WeightedDeltas) :=
    List.map_congr_left (fun p hp => by rw [e p hp])
  rw [e1, e2]

/-- A trained layer is wired as before. -/
theorem c_PerceptronLayer.trained_shape (M : Libm α) (mem : Memory α) {sizes : List Nat}
    {c k : Nat} {w : c_NeuralNetwork α} {L : c_PerceptronLayer α}
    (h : c_PerceptronLayer.Linked sizes c w k L) :
    c_PerceptronLayer.SameShape L (c_PerceptronLayer.trained M mem L) := by
  refine ⟨rfl, rfl, rfl, rfl, rfl, rfl, rfl, rfl, rfl, ?_, ?_, ?_⟩
  · simp [c_PerceptronLayer.trained, valarray.length_foldl_addAssign, valarray.fill]
  · simp [c_PerceptronLayer.trained]
  · intro u q hq
    simp only [c_PerceptronLayer.trained, List.getElem?_map, Option.map_eq_some'] at hq
    obtain ⟨p, hp, e⟩ := hq
    subst e
    obtain ⟨f1, f2, f3, _, _, _, _, f8, f9⟩ := c_Perceptron.frame_train M mem p
    exact ⟨p, hp, f1, f2, f3, f8, by rw [f9 (h.unit u p hp).deltas, f8]⟩

/-- The memory after a change of layer `k` that keeps its output array. -/
theorem c_NeuralNetwork.memory_onLayer_sums (w : c_NeuralNetwork α) (k : Nat)
    (f : c_PerceptronLayer α → c_PerceptronLayer α) (L : c_PerceptronLayer α)
    (hL : w.m_Layers[k]? = some L) (hf : (f L).m_Outputs = L.m_Outputs) (r : Ref)
    (h : r ≠ Ref.deltaSums k) : (w.onLayer k f).memory r = w.memory r := by
  cases r with
  | caller a => rfl
  | localInputs => rfl
  | outputs j =>
    by_cases e : k = j
    · subst e
      simp [c_NeuralNetwork.memory, hL, hf]
    · simp [c_NeuralNetwork.memory, e]
  | deltaSums j =>
    have : k ≠ j := fun e => h (by rw [e])
    simp [c_NeuralNetwork.memory, this]

/-- The arrays that the units of a layer of a wired network read when trained. -/
theorem c_PerceptronLayer.Linked.reads_all {sizes : List Nat} {k : Nat}
    {w : c_NeuralNetwork α} {L : c_PerceptronLayer α}
    (h : c_PerceptronLayer.Linked sizes sizes.length w k L) (hk : k < sizes.length)
    (p : c_Perceptron α) (hp : p ∈ L.m_Perceptrons) (r : Ref)
    (hr : p.m_Inputs = some r ∨ (∃ i, p.m_Target = some (r, i)) ∨
      ∃ i, p.m_WeightedDeltaSum = some (r, i)) :
    r = Ref.localInputs ∨ (0 < k ∧ r = Ref.outputs (k - 1)) ∨ (∃ a, r = Ref.caller a) ∨
      r = Ref.deltaSums (k + 1) := by
  obtain ⟨u, hu⟩ := List.getElem?_of_mem hp
  have hb := h.unit u p hu
  rcases hr with hr | ⟨i, hr⟩ | ⟨i, hr⟩
  · rw [h.reads hk p hp] at hr
    by_cases e : k = 0
    · simp only [e, if_true, Option.some.injEq] at hr
      exact Or.inl hr.symm
    · simp only [e, if_false, Option.some.injEq] at hr
      exact Or.inr (Or.inl ⟨by omega, hr.symm⟩)
  · rw [hb.target] at hr
    cases ht : L.m_Targets with
    | none => simp [ht] at hr
    | some t =>
      simp only [ht, Option.map_some', Option.some.injEq, Prod.mk.injEq] at hr
      obtain ⟨_, a, e, _⟩ := h.targets t ht
      exact Or.inr (Or.inr (Or.inl ⟨a, by rw [← hr.1, e]⟩))
  · rw [hb.deltaSum, h.sumsIn] at hr
    by_cases e : k + 1 < sizes.length
    · simp only [e, if_true, Option.map_some', Option.some.injEq, Prod.mk.injEq] at hr
      exact Or.inr (Or.inr (Or.inr hr.1.symm))
    · simp [e] at hr

end net_train

section net_train2

variable {α : Type} [CommRing α] [Div α]

/-- `c_NeuralNetwork::train` on a wired network: it returns; the local inputs are the
caller's input array, followed by `1` when the bias is on; every layer is the closed
form of the old one on the memory of the final state. -/
theorem c_NeuralNetwork.train_spec (sizes : List Nat) (M : Libm α) (w : c_NeuralNetwork α)
    (h : c_NeuralNetwork.Wired sizes w) (a : Nat) (ha : w.m_Inputs = some (Ref.caller a)) :
    ∃ v, c_NeuralNetwork.train M w = some v ∧ c_NeuralNetwork.Frame w v ∧
      v.m_LocalInputs = w.heap a ++ (if w.m_Bias then [1] else []) ∧
      ∀ (k : Nat) (L : c_PerceptronLayer α), w.m_Layers[k]? = some L →
        v.m_Layers[k]? = some (c_PerceptronLayer.trained M v.memory L) := by
  have hlen := h.linked.length
  obtain ⟨t, ht⟩ := h.linked.targets
  have hloop := forLoopDownM_some
    (fun i => c_NeuralNetwork.atLayer i (c_PerceptronLayer.train M))
    (fun d v => c_NeuralNetwork.Frame w v ∧
      v.m_LocalInputs = w.heap a ++ (if w.m_Bias then [1] else []) ∧
      ∀ (k : Nat) (L : c_PerceptronLayer α), w.m_Layers[k]? = some L →
        v.m_Layers[k]? = some (if d ≤ k then c_PerceptronLayer.trained M v.memory L else L))
    sizes.length
    { w with m_LocalInputs := w.heap a ++ (if w.m_Bias then [1] else []) }
    ⟨⟨rfl, rfl, rfl, rfl, rfl, rfl, rfl, rfl⟩, rfl, fun k L hL => by
      have hk : k < sizes.length := by
        rw [← hlen]
        exact (List.getElem?_eq_some_iff.mp hL).1
      have : ¬ sizes.length ≤ k := by omega
      simpa [this] using hL⟩
    (by
      intro d v hd hv
      obtain ⟨hf, hloc, hlay⟩ := hv
      obtain ⟨L, hL, hLd⟩ := h.linked.get d hd
      have hvd : v.m_Layers[d]? = some L := by
        have := hlay d L hL
        simpa using this
      have hreads : ∀ p ∈ L.m_Perceptrons, ∀ r, (p.m_Inputs = some r ∨
          (∃ i, p.m_Target = some (r, i)) ∨ ∃ i, p.m_WeightedDeltaSum = some (r, i)) →
          r ≠ Ref.outputs d ∧ r ≠ Ref.deltaSums d := by
        intro p hp r hr
        rcases hLd.reads_all hd p hp r hr with e | ⟨h0, e⟩ | ⟨a', e⟩ | e
        · subst e; simp
        · subst e
          simp only [ne_eq, Ref.outputs.injEq, not_false_eq_true, and_true, reduceCtorEq]
          omega
        · subst e; simp
        · subst e; simp
      have hev := c_PerceptronLayer.train_eq M d v L hvd hLd.units hreads
      refine ⟨_, c_NeuralNetwork.atLayer_some _ _ _ (by rw [hf.layers, hlen]; exact hd),
        ?_, ?_, ?_⟩
      · rw [hev]; exact hf.onLayer w v d _
      · rw [hev]; simpa using hloc
      · intro k Lk hLk
        have hk : k < sizes.length := by
          rw [← hlen]
          exact (List.getElem?_eq_some_iff.mp hLk).1
        have hLkk := h.linked.layer k Lk hLk
        rw [hev, c_NeuralNetwork.onLayer_getElem?, hlay k Lk hLk]
        have hcongr : d ≤ k → c_PerceptronLayer.trained M
            (v.onLayer d (fun _ => c_PerceptronLayer.trained M v.memory L)).memory Lk
            = c_PerceptronLayer.trained M v.memory Lk := by
          intro hkd
          apply c_PerceptronLayer.trained_congr
          intro p hp r hr
          apply c_NeuralNetwork.memory_onLayer_sums v d _ L hvd rfl
          rcases hLkk.reads_all hk p hp r hr with e | ⟨h0, e⟩ | ⟨a', e⟩ | e
          · subst e; simp
          · subst e; simp
          · subst e; simp
          · subst e
            simp only [ne_eq, Ref.deltaSums.injEq]
            omega
        by_cases e : d = k
        · subst e
          rw [hL] at hLk
          cases hLk
          simp only [if_true, Nat.le_refl, Option.map_some']
          rw [hcongr (Nat.le_refl _)]
        · simp only [e, if_false]
          by_cases e2 : d + 1 ≤ k
          · have e3 : d ≤ k := by omega
            simp only [e2, e3, if_true]
            rw [hcongr (by omega)]
          · have e3 : ¬ d ≤ k := by omega
            simp only [e2, e3, if_false])
  obtain ⟨v, e, hf, hloc, hlay⟩ := hloop
  refine ⟨v, ?_, hf, hloc, ?_⟩
  · unfold c_NeuralNetwork.train
    rw [ha, ht]
    simp only []
    rw [c_NeuralNetwork.updateLocalInputs_spec sizes w h a ha, Option.some_bind]
    rw [← h.linked.size] at e
    exact e
  · intro k L hL
    have := hlay k L hL
    simpa using this

end net_train2

/-! ## Every call keeps the network wired -/

section calls

variable {α : Type} [CommRing α] [Div α]

/-- A pass that keeps the wiring of every layer keeps the wiring of the network. -/
theorem c_NeuralNetwork.SameShape.of_frame {w v : c_NeuralNetwork α}
    (hf : c_NeuralNetwork.Frame w v)
    (hloc : v.m_LocalInputs.length = w.m_LocalInputs.length)
    (hlay : ∀ (k : Nat) (L : c_PerceptronLayer α), w.m_Layers[k]? = some L →
      ∃ L', v.m_Layers[k]? = some L' ∧ c_PerceptronLayer.SameShape L L') :
    c_NeuralNetwork.SameShape w v := by
  refine ⟨fun a => by rw [hf.heap], hf.inputs, hf.targets, hloc, hf.bias, hf.size,
    hf.layers, ?_⟩
  intro i L' hL'
  have hi : i < w.m_Layers.length := by
    rw [← hf.layers]
    exact (List.getElem?_eq_some_iff.mp hL').1
  have hL : w.m_Layers[i]? = some w.m_Layers[i] := List.getElem?_eq_getElem hi
  obtain ⟨L'', e, s⟩ := hlay i _ hL
  rw [hL'] at e
  cases e
  exact ⟨_, hL, s⟩

/-- `c_NeuralNetwork::evaluate` keeps a wired network wired. -/
theorem c_NeuralNetwork.evaluate_shape (sizes : List Nat) (M : Libm α)
    (w : c_NeuralNetwork α) (h : c_NeuralNetwork.Wired sizes w) :
    ∃ v, c_NeuralNetwork.evaluate M w = some v ∧ c_NeuralNetwork.SameShape w v := by
  obtain ⟨a, ha⟩ := h.linked.inputs
  obtain ⟨v, e, hf, hloc, hlay⟩ := c_NeuralNetwork.evaluate_spec sizes M w h a ha
  refine ⟨v, e, c_NeuralNetwork.SameShape.of_frame hf ?_ ?_⟩
  · rw [hloc, h.localInputs a ha]
    cases w.m_Bias <;> simp
  · intro k L hL
    exact ⟨_, hlay k L hL, c_PerceptronLayer.evaluated_shape M _ (h.linked.layer k L hL)⟩

/-- `c_NeuralNetwork::train` keeps a wired network wired. -/
theorem c_NeuralNetwork.train_shape (sizes : List Nat) (M : Libm α)
    (w : c_NeuralNetwork α) (h : c_NeuralNetwork.Wired sizes w) :
    ∃ v, c_NeuralNetwork.train M w = some v ∧ c_NeuralNetwork.SameShape w v := by
  obtain ⟨a, ha⟩ := h.linked.inputs
  obtain ⟨v, e, hf, hloc, hlay⟩ := c_NeuralNetwork.train_spec sizes M w h a ha
  refine ⟨v, e, c_NeuralNetwork.SameShape.of_frame hf ?_ ?_⟩
  · rw [hloc, h.localInputs a ha]
    cases w.m_Bias <;> simp
  · intro k L hL
    exact ⟨_, hlay k L hL, c_PerceptronLayer.trained_shape M _ (h.linked.layer k L hL)⟩

/-- `c_NeuralNetwork::setInputs` on a wired network returns a wired network. -/
theorem c_NeuralNetwork.setInputs_spec (sizes : List Nat) (a : Nat) (w : c_NeuralNetwork α)
    (h : c_NeuralNetwork.Wired sizes w) :
    ∃ v, c_NeuralNetwork.setInputs (Ref.caller a) w = some v ∧
      c_NeuralNetwork.Wired sizes v ∧ v.m_Bias = w.m_Bias ∧
      v.m_Inputs = some (Ref.caller a) ∧ c_NeuralNetwork.Rewired w v ∧
      v.m_Targets = w.m_Targets := by
  have hb : c_NeuralNetwork.BiasLoop sizes w.m_Bias { w with m_Inputs := some (Ref.caller a) }
      sizes.length { w with m_Inputs := some (Ref.caller a) } := by
    refine ⟨h.linked.congr rfl rfl rfl ⟨a, rfl⟩ h.linked.targets, rfl, rfl, rfl, rfl,
      c_NeuralNetwork.Rewired.net_refl _, ?_, ?_⟩
    · intro k L _ hL
      exact h.bias k L hL
    · intro k L _ _ hL
      exact h.sync k L hL
  obtain ⟨v, e, hw, hbias, hr, hi, ht, _⟩ := c_NeuralNetwork.refeed_spec sizes w.m_Bias _ _ hb
  refine ⟨v, e, hw, hbias, hi, ?_, ht⟩
  have hr0 : c_NeuralNetwork.Rewired w { w with m_Inputs := some (Ref.caller a) } :=
    ⟨rfl, rfl, rfl, fun i L hL => ⟨L, hL, c_PerceptronLayer.Rewired.layer_refl L⟩⟩
  exact hr0.net_trans hr

/-- `c_NeuralNetwork::setTargets` on a wired network: the pointer is stored, and
`setTargets` of the last layer is called with it. -/
theorem c_NeuralNetwork.setTargets_eq (sizes : List Nat) (a : Nat) (w : c_NeuralNetwork α)
    (h : c_NeuralNetwork.Wired sizes w) :
    c_NeuralNetwork.setTargets (Ref.caller a) w = some
      (c_NeuralNetwork.onLayer (sizes.length - 1)
        (c_PerceptronLayer.setTargets w.memory (Ref.caller a))
        { w with m_Targets := some (Ref.caller a) }) := by
  have hpos := h.linked.pos
  have hlen := h.linked.length
  unfold c_NeuralNetwork.setTargets c_NeuralNetwork._connectTargets
  have h1 : ({ w with m_Targets := some (Ref.caller a) } : c_NeuralNetwork α).m_Layers.length
      > 0 := by
    show w.m_Layers.length > 0
    omega
  simp only [h1, if_true]
  rw [c_NeuralNetwork.atLayer_some]
  · simp only [h.linked.size, size_t_sub_one _ hpos h.linked.bound]
    rfl
  · show size_t_sub w.m_Size 1 < w.m_Layers.length
    rw [h.linked.size, size_t_sub_one _ hpos h.linked.bound]
    omega

/-- `c_NeuralNetwork::setTargets` on a wired network returns a wired network. -/
theorem c_NeuralNetwork.setTargets_spec (sizes : List Nat) (a : Nat) (w : c_NeuralNetwork α)
    (h : c_NeuralNetwork.Wired sizes w) :
    ∃ v, c_NeuralNetwork.setTargets (Ref.caller a) w = some v ∧
      c_NeuralNetwork.Wired sizes v ∧ v.m_Bias = w.m_Bias := by
  have hpos := h.linked.pos
  have hlen := h.linked.length
  have e := c_NeuralNetwork.setTargets_eq sizes a w h
  refine ⟨_, e, ?_, by simp⟩
  have hlayer : ∀ (k : Nat) (L' : c_PerceptronLayer α),
      (c_NeuralNetwork.onLayer (sizes.length - 1)
        (c_PerceptronLayer.setTargets w.memory (Ref.caller a))
        { w with m_Targets := some (Ref.caller a) }).m_Layers[k]? = some L' →
      ∃ L, w.m_Layers[k]? = some L ∧
        L' = if sizes.length - 1 = k then
          c_PerceptronLayer.setTargets w.memory (Ref.caller a) L else L := by
    intro k L' hL'
    rw [c_NeuralNetwork.onLayer_getElem?] at hL'
    by_cases e : sizes.length - 1 = k
    · simp only [e, if_true, Option.map_eq_some'] at hL'
      obtain ⟨L, hL, e'⟩ := hL'
      exact ⟨L, hL, by simp [e, e']⟩
    · simp only [e, if_false] at hL'
      exact ⟨L', hL', by simp [e]⟩
  refine ⟨⟨by simp [hlen], by simp [h.linked.size], hpos, h.linked.bound,
    by simpa using h.linked.inputs, ⟨a, by simp⟩, ?_⟩, ?_, ?_, ?_⟩
  · intro k L' hL'
    obtain ⟨L, hL, e'⟩ := hlayer k L' hL'
    subst e'
    have hLk := h.linked.layer k L hL
    split
    · rename_i hk
      exact (c_PerceptronLayer.setTargets_linked sizes sizes.length k w w L hLk (by omega)
        (Nat.le_refl _) w.memory a rfl rfl).1.heap_congr rfl
    · exact hLk.heap_congr rfl
  · intro k L' hL'
    obtain ⟨L, hL, e'⟩ := hlayer k L' hL'
    subst e'
    simp only [c_NeuralNetwork.frame_onLayer]
    rw [← h.bias k L hL]
    split <;> simp
  · intro k L' hL'
    obtain ⟨L, hL, e'⟩ := hlayer k L' hL'
    subst e'
    have hLk := h.linked.layer k L hL
    apply (h.sync k L hL).transfer (by split <;> simp)
    · intro r _
      rw [c_NeuralNetwork.memory_onLayer _ _ _ (fun L => by simp) (fun L => by simp)]
      rfl
    · intro u q hq
      split at hq
      · rename_i hk
        obtain ⟨p, hp, hor⟩ := (c_PerceptronLayer.setTargets_linked sizes sizes.length k w w L
          hLk (by omega) (Nat.le_refl _) w.memory a rfl rfl).2 u q hq
        refine ⟨p, hp, ?_⟩
        rcases hor with e | e
        · rw [e]
        · rw [e]; rfl
      · exact ⟨q, hq, rfl⟩
  · intro a' ha'
    simpa using h.localInputs a' (by simpa using ha')

end calls

section calls2

variable {α : Type} [CommRing α] [Div α]

/-- A store into one of the caller's arrays keeps the network wired as it is. -/
theorem c_NeuralNetwork.write_shape (sizes : List Nat) (w : c_NeuralNetwork α)
    (h : c_NeuralNetwork.Wired sizes w) (a i : Nat) (x : α) :
    c_NeuralNetwork.SameShape w
      { w with heap := fun b => if b = a then valarray.store (w.heap a) i x else w.heap b } := by
  refine ⟨?_, rfl, rfl, rfl, rfl, rfl, rfl,
    fun k L hL => ⟨L, hL, (h.linked.layer k L hL).sameShape⟩⟩
  intro b
  by_cases e : b = a
  · simp [e, valarray.store]
  · simp [e]

/-- `c_Perceptron::setWeights(values)` on a unit of a wired network keeps the number of
weights. -/
theorem c_Perceptron.setWeights_shape (mem : Memory α) (weights : List α)
    (p q : c_Perceptron α) (r : Ref) (hr : p.m_Inputs = some r)
    (hs : p.m_Weights.length = (mem r).length)
    (hd : p.m_WeightedDeltas.length = p.m_Weights.length)
    (h : c_Perceptron.setWeights mem weights p = some q) : c_Perceptron.SameShape p q := by
  unfold c_Perceptron.setWeights at h
  rw [hr] at h
  simp only [] at h
  by_cases e : weights.length ≠ (mem r).length
  · rw [if_pos e] at h
    simp only [valarray.sliceAssign, Option.map_eq_some'] at h
    obtain ⟨ws, hws, e'⟩ := h
    subst e'
    split at hws
    · rename_i hle
      cases hws
      refine ⟨hr.symm, rfl, rfl, ?_, ?_⟩
      · simp only [List.length_append, List.length_drop]; omega
      · simp only [List.length_append, List.length_drop]; omega
    · cases hws
  · rw [if_neg e] at h
    cases h
    have e' : weights.length = (mem r).length := by
      by_contra hne
      exact e hne
    exact ⟨hr.symm, rfl, rfl, by simp only []; omega, by simp only []; omega⟩

/-- `net[k][i].setWeights(values)` keeps a wired network wired as it is. -/
theorem c_NeuralNetwork.setWeights_call_shape (sizes : List Nat) (M : Libm α)
    (w v : c_NeuralNetwork α) (h : c_NeuralNetwork.Wired sizes w) (k i : Nat)
    (weights : List α) (hr : Call.run M (Call.setWeights k i weights) w = some v) :
    c_NeuralNetwork.SameShape w v := by
  simp only [Call.run, Option.bind_eq_some, Option.map_eq_some'] at hr
  obtain ⟨p, ⟨L, hL, hp⟩, q, hq, e⟩ := hr
  subst e
  have hLk := h.linked.layer k L hL
  have hk : k < sizes.length := by
    rw [← h.linked.length]
    exact (List.getElem?_eq_some_iff.mp hL).1
  have hin := hLk.reads hk p (List.getElem?_mem hp)
  have hsq := c_Perceptron.setWeights_shape w.memory weights p q _ hin
    (h.sync k L hL _ (by rw [← (hLk.unit i p hp).inputs]; exact hin) p (List.getElem?_mem hp))
    (hLk.unit i p hp).deltas hq
  apply c_NeuralNetwork.SameShape.of_frame
    ⟨by simp, by simp, by simp, by simp, by simp, by simp, by simp, by simp⟩ (by simp)
  intro j Lj hLj
  rw [c_NeuralNetwork.onLayer_getElem?, hLj]
  by_cases e : k = j
  · subst e
    rw [hL] at hLj
    cases hLj
    refine ⟨{ L with m_Perceptrons := L.m_Perceptrons.set i q }, by simp,
      rfl, rfl, rfl, rfl, rfl, rfl, rfl, rfl, rfl, rfl, by simp, ?_⟩
    intro u q' hq'
    by_cases hiu : i = u
    · subst hiu
      have hi : i < L.m_Perceptrons.length := (List.getElem?_eq_some_iff.mp hp).1
      have : (L.m_Perceptrons.set i q)[i]? = some q := by
        rw [List.getElem?_set_self hi]
      simp only [] at hq'
      rw [this] at hq'
      cases hq'
      exact ⟨p, hp, hsq⟩
    · simp only [] at hq'
      rw [List.getElem?_set_ne hiu] at hq'
      exact ⟨q', hq', c_Perceptron.SameShape.shape_refl q' (hLk.unit u q' hq').deltas⟩
  · exact ⟨Lj, by simp [e], (h.linked.layer j Lj hLj).sameShape⟩

end calls2

section calls3

variable {α : Type} [CommRing α] [Div α]

/-- A step that leaves the wiring alone returns a network wired as before. -/
theorem Call.run_shape (sizes : List Nat) (M : Libm α) (c : Call α) (w v : c_NeuralNetwork α)
    (h : c_NeuralNetwork.Wired sizes w) (hc : c.keepsWiring = true)
    (hr : Call.run M c w = some v) : c_NeuralNetwork.SameShape w v := by
  cases c with
  | setInputs a => simp [Call.keepsWiring] at hc
  | setTargets a => simp [Call.keepsWiring] at hc
  | setBias b => simp [Call.keepsWiring] at hc
  | setTrainRate x =>
    simp only [Call.run] at hr
    rw [c_NeuralNetwork.setTrainRate_spec sizes x w h] at hr
    cases hr
    exact c_NeuralNetwork.setTrainRate_shape sizes x w h
  | setActivation x =>
    simp only [Call.run] at hr
    rw [c_NeuralNetwork.setActivation_spec sizes x w h] at hr
    cases hr
    exact c_NeuralNetwork.setActivation_shape sizes x w h
  | evaluate =>
    simp only [Call.run] at hr
    obtain ⟨v', e, s⟩ := c_NeuralNetwork.evaluate_shape sizes M w h
    rw [e] at hr
    cases hr
    exact s
  | train =>
    simp only [Call.run] at hr
    obtain ⟨v', e, s⟩ := c_NeuralNetwork.train_shape sizes M w h
    rw [e] at hr
    cases hr
    exact s
  | write a i x =>
    simp only [Call.run] at hr
    split at hr
    · cases hr
      exact c_NeuralNetwork.write_shape sizes w h a i x
    · cases hr
  | setWeights k i weights => exact c_NeuralNetwork.setWeights_call_shape sizes M w v h k i weights hr

/-- Every step that returns leaves a wired network wired. -/
theorem Call.run_wired (sizes : List Nat) (M : Libm α) (c : Call α) (w v : c_NeuralNetwork α)
    (h : c_NeuralNetwork.Wired sizes w) (hr : Call.run M c w = some v) :
    c_NeuralNetwork.Wired sizes v := by
  by_cases hc : c.keepsWiring = true
  · exact h.of_sameShape (Call.run_shape sizes M c w v h hc hr)
  · cases c with
    | setInputs a =>
      obtain ⟨v', e, hw, _⟩ := c_NeuralNetwork.setInputs_spec sizes a w h
      simp only [Call.run] at hr
      rw [e] at hr
      cases hr
      exact hw
    | setTargets a =>
      obtain ⟨v', e, hw, _⟩ := c_NeuralNetwork.setTargets_spec sizes a w h
      simp only [Call.run] at hr
      rw [e] at hr
      cases hr
      exact hw
    | setBias b =>
      obtain ⟨v', e, hw, _⟩ := c_NeuralNetwork.setBias_spec sizes b w h.linked
      simp only [Call.run] at hr
      rw [e] at hr
      cases hr
      exact hw
    | setTrainRate x => simp [Call.keepsWiring] at hc
    | setActivation x => simp [Call.keepsWiring] at hc
    | evaluate => simp [Call.keepsWiring] at hc
    | train => simp [Call.keepsWiring] at hc
    | write a i x => simp [Call.keepsWiring] at hc
    | setWeights k i weights => simp [Call.keepsWiring] at hc

/-- Every member function of the network returns on a wired network. -/
theorem Call.run_member (sizes : List Nat) (M : Libm α) (c : Call α) (w : c_NeuralNetwork α)
    (h : c_NeuralNetwork.Wired sizes w) (hc : c.isMember = true) :
    ∃ v, Call.run M c w = some v := by
  cases c with
  | setInputs a =>
    obtain ⟨v', e, _⟩ := c_NeuralNetwork.setInputs_spec sizes a w h
    exact ⟨v', e⟩
  | setTargets a =>
    obtain ⟨v', e, _⟩ := c_NeuralNetwork.setTargets_spec sizes a w h
    exact ⟨v', e⟩
  | setBias b =>
    obtain ⟨v', e, _⟩ := c_NeuralNetwork.setBias_spec sizes b w h.linked
    exact ⟨v', e⟩
  | setTrainRate x => exact ⟨_, c_NeuralNetwork.setTrainRate_spec sizes x w h⟩
  | setActivation x => exact ⟨_, c_NeuralNetwork.setActivation_spec sizes x w h⟩
  | evaluate =>
    obtain ⟨v', e, _⟩ := c_NeuralNetwork.evaluate_shape sizes M w h
    exact ⟨v', e⟩
  | train =>
    obtain ⟨v', e, _⟩ := c_NeuralNetwork.train_shape sizes M w h
    exact ⟨v', e⟩
  | write a i x => simp [Call.isMember] at hc
  | setWeights k i weights => simp [Call.isMember] at hc

/-- What every step keeps, holds after a sequence of steps. -/
theorem Call.runAll_inv (M : Libm α) (P : c_NeuralNetwork α → Prop)
    (hstep : ∀ (c : Call α) (w v : c_NeuralNetwork α), P w → Call.run M c w = some v → P v) :
    ∀ (cs : List (Call α)) (w v : c_NeuralNetwork α), P w → Call.runAll M cs w = some v → P v
  | [], w, v, hw, hr => by
    simp only [Call.runAll, Option.some.injEq] at hr
    rw [← hr]
    exact hw
  | c :: cs, w, v, hw, hr => by
    simp only [Call.runAll, Option.bind_eq_some] at hr
    obtain ⟨u, hu, hr⟩ := hr
    exact Call.runAll_inv M P hstep cs u v (hstep c w u hw hu) hr

/-- A sequence of member-function calls returns on a wired network. -/
theorem Call.runAll_member (sizes : List Nat) (M : Libm α) :
    ∀ (cs : List (Call α)) (w : c_NeuralNetwork α), c_NeuralNetwork.Wired sizes w →
      (∀ c ∈ cs, c.isMember = true) → ∃ v, Call.runAll M cs w = some v
  | [], w, _, _ => ⟨w, rfl⟩
  | c :: cs, w, hw, hc => by
    obtain ⟨u, hu⟩ := Call.run_member sizes M c w hw (hc c (List.mem_cons_self _ _))
    obtain ⟨v, hv⟩ := Call.runAll_member sizes M cs u (Call.run_wired sizes M c w u hw hu)
      (fun c' hc' => hc c' (List.mem_cons_of_mem _ hc'))
    exact ⟨v, by simp [Call.runAll, hu, hv]⟩

/-- The state after the constructor and any sequence of steps is wired. -/
theorem Call.reach_wired (sizes : List Nat) (heap : Nat → List α) (a t : Nat)
    (actType : e_Activation) (trainRate : α) (bias : Bool) (M : Libm α) (cs : List (Call α))
    (w : c_NeuralNetwork α) (hpos : sizes ≠ []) (hbound : sizes.length < 2 ^ 64)
    (hr : (c_NeuralNetwork.construct heap (Ref.caller a) (Ref.caller t) sizes actType trainRate
      bias).bind (Call.runAll M cs) = some w) : c_NeuralNetwork.Wired sizes w := by
  obtain ⟨w0, e0, c0⟩ := c_NeuralNetwork.construct_spec sizes heap a t actType trainRate bias
    hpos hbound
  rw [e0, Option.some_bind] at hr
  exact Call.runAll_inv M (c_NeuralNetwork.Wired sizes)
    (fun c w v hw hr => Call.run_wired sizes M c w v hw hr) cs w0 w c0.wired hr

end calls3

section calls4

variable {α : Type} [CommRing α] [Div α]

/-- What every step of a sequence keeps, holds after the sequence. -/
theorem Call.runAll_inv_of (M : Libm α) (P : c_NeuralNetwork α → Prop) :
    ∀ (cs : List (Call α)) (w v : c_NeuralNetwork α),
      (∀ c ∈ cs, ∀ (w v : c_NeuralNetwork α), P w → Call.run M c w = some v → P v) →
      P w → Call.runAll M cs w = some v → P v
  | [], w, v, _, hw, hr => by
    simp only [Call.runAll, Option.some.injEq] at hr
    rw [← hr]
    exact hw
  | c :: cs, w, v, hstep, hw, hr => by
    simp only [Call.runAll, Option.bind_eq_some] at hr
    obtain ⟨u, hu, hr⟩ := hr
    exact Call.runAll_inv_of M P cs u v
      (fun c' hc' => hstep c' (List.mem_cons_of_mem _ hc'))
      (hstep c (List.mem_cons_self _ _) w u hw hu) hr

/-- A pass is a member function that leaves the wiring alone. -/
theorem Call.isPass_member (c : Call α) (h : c.isPass = true) :
    c.isMember = true ∧ c.keepsWiring = true := by
  cases c <;> simp [Call.isPass] at h <;> exact ⟨rfl, rfl⟩

/-- The output buffers of a wired network. -/
theorem c_NeuralNetwork.Wired.output_shape {sizes : List Nat} {w : c_NeuralNetwork α}
    (h : c_NeuralNetwork.Wired sizes w) (k : Nat) (L : c_PerceptronLayer α)
    (hL : w.m_Layers[k]? = some L) :
    sizes[k]? = some L.m_Size ∧
    (w.m_Bias = true → k + 1 < sizes.length →
      L.m_Outputs.length = L.m_Size + 1 ∧ L.m_Outputs[L.m_Size]? = some 1) ∧
    (w.m_Bias = false ∨ k + 1 = sizes.length → L.m_Outputs.length = L.m_Size) := by
  have hLk := h.linked.layer k L hL
  have hb := h.bias k L hL
  have ho := hLk.outputs
  have hk : k < sizes.length := by
    rw [← h.linked.length]
    exact (List.getElem?_eq_some_iff.mp hL).1
  refine ⟨hLk.size, ?_, ?_⟩
  · intro hbias hk1
    have hb' : L.m_Bias = true := by simp [hb, hbias, hk1]
    rw [hb'] at ho
    exact ⟨by simpa using ho, hLk.biasSlot hb'⟩
  · intro hor
    have hb' : L.m_Bias = false := by
      rcases hor with e | e
      · simp [hb, e]
      · have : ¬ k + 1 < sizes.length := by omega
        simp [hb, this]
    rw [hb'] at ho
    simpa using ho

end calls4

/-! ## What `c_Perceptron::train` computes -/

section unit_train

variable {α : Type} [CommRing α] [Div α]

/-- The three cases of `_calcDelta`; only `m_Delta` is assigned. -/
theorem c_Perceptron.calcDelta_eq (M : Libm α) (mem : Memory α) (p : c_Perceptron α) :
    c_Perceptron._calcDelta M mem p
      = { p with m_Delta := (c_Perceptron._calcDelta M mem p).m_Delta } ∧
    (∀ t, p.m_Target = some t → (c_Perceptron._calcDelta M mem p).m_Delta
      = c_Perceptron._calcActivDeriv M p * (mem.deref t - p.m_Output)) ∧
    (∀ d, p.m_Target = none → p.m_WeightedDeltaSum = some d →
      (c_Perceptron._calcDelta M mem p).m_Delta
        = c_Perceptron._calcActivDeriv M p * mem.deref d) ∧
    (p.m_Target = none → p.m_WeightedDeltaSum = none →
      (c_Perceptron._calcDelta M mem p).m_Delta = 0) := by
  unfold c_Perceptron._calcDelta
  cases ht : p.m_Target with
  | some t =>
    refine ⟨rfl, ?_, ?_, ?_⟩
    · intro t' e; cases e; rfl
    · intro d e; cases e
    · intro e; cases e
  | none =>
    cases hd : p.m_WeightedDeltaSum with
    | some d =>
      refine ⟨rfl, ?_, ?_, ?_⟩
      · intro t' e; cases e
      · intro d' _ e; cases e; rfl
      · intro _ e; cases e
    | none =>
      refine ⟨rfl, ?_, ?_, ?_⟩
      · intro t' e; cases e
      · intro d' _ e; cases e
      · intro _ _; rfl

/-- `c_Perceptron::train` on a unit with a bound input. -/
theorem c_Perceptron.train_bound (M : Libm α) (mem : Memory α) (p : c_Perceptron α) (r : Ref)
    (hin : p.m_Inputs = some r) :
    (c_Perceptron.train M mem p).2 =
      { p with
        m_Delta := (c_Perceptron._calcDelta M mem p).m_Delta
        m_WeightedDeltas := valarray.smul (c_Perceptron._calcDelta M mem p).m_Delta p.m_Weights
        m_Weights := valarray.addAssign p.m_Weights
          (valarray.smul (p.m_TrainRate * (c_Perceptron._calcDelta M mem p).m_Delta)
            (mem r)) } := by
  have e := (c_Perceptron.calcDelta_eq M mem p).1
  unfold c_Perceptron.train c_Perceptron._calcNewWeights
  simp only []
  rw [e]
  simp only [hin]

/-- Slot `j` of a sum of arrays, added up one after the other by `+=`. -/
theorem valarray.getD_foldl_addAssign {β : Type} [AddCommMonoid β] (l : List (List β)) :
    ∀ (init : List β) (j : Nat), j < init.length →
      (l.foldl valarray.addAssign init).getD j 0
        = init.getD j 0 + (l.map (fun v => v.getD j 0)).sum := by
  induction l with
  | nil => intro init j _; simp
  | cons x xs ih =>
    intro init j hj
    rw [List.foldl_cons, ih _ j (by rw [valarray.length_addAssign]; exact hj),
      valarray.getD_addAssign _ _ _ hj]
    simp [add_assoc]

/-- The error sums that `c_PerceptronLayer::train` leaves, slot by slot, when every unit
of the layer has a bound input. -/
theorem c_PerceptronLayer.trained_sums (M : Libm α) (mem : Memory α)
    (L : c_PerceptronLayer α) (hb : ∀ p ∈ L.m_Perceptrons, ∃ r, p.m_Inputs = some r) :
    (c_PerceptronLayer.trained M mem L).m_WeightedDeltaSumsOut.length
      = L.m_WeightedDeltaSumsOut.length ∧
    ∀ j, j < L.m_WeightedDeltaSumsOut.length →
      (c_PerceptronLayer.trained M mem L).m_WeightedDeltaSumsOut.getD j 0
        = (L.m_Perceptrons.map (fun p =>
            (c_Perceptron._calcDelta M mem p).m_Delta * p.m_Weights.getD j 0)).sum := by
  constructor
  · simp [c_PerceptronLayer.trained, valarray.length_foldl_addAssign, valarray.fill]
  · intro j hj
    simp only [c_PerceptronLayer.trained]
    rw [valarray.getD_foldl_addAssign _ _ j (by simpa [valarray.fill] using hj)]
    have h0 : (valarray.fill L.m_WeightedDeltaSumsOut (0 : α)).getD j 0 = 0 := by
      simp [valarray.fill, List.getD_eq_getElem?_getD, List.getElem?_replicate, hj]
    rw [h0, zero_add, List.map_map]
    congr 1
    apply List.map_congr_left
    intro p hp
    obtain ⟨r, hr⟩ := hb p hp
    simp only [Function.comp, c_Perceptron.train_bound M mem p r hr, valarray.getD_smul]

end unit_train

/-! ## What `c_NeuralNetwork::evaluate` computes -/

section forward

variable {α : Type} [CommRing α] [Div α]

/-- `_calcActivation` computes the activation function of the specification. -/
theorem c_Perceptron.calcActivation_eq (M : Libm α) (p : c_Perceptron α) :
    c_Perceptron._calcActivation M p
      = { p with m_Output := spec_activation M p.m_ActType p.m_SumProducts } := by
  unfold c_Perceptron._calcActivation spec_activation
  cases h : p.m_ActType <;> simp [h]

/-- `c_Perceptron::evaluate` on a unit with a bound input. -/
theorem c_Perceptron.evaluate_bound (M : Libm α) (mem : Memory α) (p : c_Perceptron α)
    (r : Ref) (hin : p.m_Inputs = some r) :
    c_Perceptron.evaluate M mem p = (true,
      { p with
        m_SumProducts := valarray.sum (valarray.mul p.m_Weights (mem r))
        m_Output := spec_activation M p.m_ActType
          (valarray.sum (valarray.mul p.m_Weights (mem r))) }) := by
  unfold c_Perceptron.evaluate c_Perceptron._calcSumProducts
  simp only [hin, if_true]
  rw [c_Perceptron.calcActivation_eq]

/-- Evaluating a unit twice on the same memory is evaluating it once. -/
theorem c_Perceptron.evaluate_twice (M : Libm α) (mem : Memory α) (p : c_Perceptron α) :
    (c_Perceptron.evaluate M mem (c_Perceptron.evaluate M mem p).2).2
      = (c_Perceptron.evaluate M mem p).2 := by
  cases hin : p.m_Inputs with
  | none =>
    have e : c_Perceptron.evaluate M mem p = (false, p) := by
      simp [c_Perceptron.evaluate, c_Perceptron._calcSumProducts, hin]
    rw [e]
    simp only []
    rw [e]
  | some r =>
    rw [c_Perceptron.evaluate_bound M mem p r hin]
    simp only []
    have e := c_Perceptron.evaluate_bound M mem
      { p with
        m_SumProducts := valarray.sum (valarray.mul p.m_Weights (mem r))
        m_Output := spec_activation M p.m_ActType
          (valarray.sum (valarray.mul p.m_Weights (mem r))) } r hin
    rw [e]

/-- Evaluating a layer twice on the same memory is evaluating it once. -/
theorem c_PerceptronLayer.evaluated_twice (M : Libm α) (mem : Memory α)
    (L : c_PerceptronLayer α) (hu : L.m_Perceptrons.length = L.m_Size) :
    c_PerceptronLayer.evaluated M mem (c_PerceptronLayer.evaluated M mem L)
      = c_PerceptronLayer.evaluated M mem L := by
  have e1 : (L.m_Perceptrons.map (fun p => (c_Perceptron.evaluate M mem p).2)).map
      (fun p => (c_Perceptron.evaluate M mem p).2)
      = L.m_Perceptrons.map (fun p => (c_Perceptron.evaluate M mem p).2) := by
    rw [List.map_map]
    apply List.map_congr_left
    intro p _
    exact c_Perceptron.evaluate_twice M mem p
  have e2 : (L.m_Perceptrons.map (fun p => (c_Perceptron.evaluate M mem p).2)).map
      (fun p => (c_Perceptron.evaluate M mem p).2.m_Output)
      = L.m_Perceptrons.map (fun p => (c_Perceptron.evaluate M mem p).2.m_Output) := by
    rw [List.map_map]
    apply List.map_congr_left
    intro p _
    simp only [Function.comp, c_Perceptron.evaluate_twice M mem p]
  have e3 : (L.m_Perceptrons.map (fun p => (c_Perceptron.evaluate M mem p).2.m_Output)
      ++ L.m_Outputs.drop L.m_Size).drop L.m_Size = L.m_Outputs.drop L.m_Size := by
    rw [List.drop_append_of_le_length (by simp [hu])]
    rw [List.drop_of_length_le (by simp [hu])]
    rfl
  simp only [c_PerceptronLayer.evaluated, e1, e2, e3]

theorem c_NeuralNetwork.eq_of_frame {w v : c_NeuralNetwork α} (hf : c_NeuralNetwork.Frame w v)
    (hloc : v.m_LocalInputs = w.m_LocalInputs) (hlay : v.m_Layers = w.m_Layers) : v = w := by
  obtain ⟨h1, h2, h3, h4, h5, h6, h7, _⟩ := hf
  cases w
  cases v
  simp only [] at h1 h2 h3 h4 h5 h6 h7 hloc hlay
  subst h1 h2 h3 h4 h5 h6 h7 hloc hlay
  rfl

/-- The units of an evaluated layer read what the units of the layer read. -/
theorem c_PerceptronLayer.evaluated_reads (M : Libm α) (mem : Memory α)
    (L : c_PerceptronLayer α) (q : c_Perceptron α)
    (hq : q ∈ (c_PerceptronLayer.evaluated M mem L).m_Perceptrons) :
    ∃ p ∈ L.m_Perceptrons, q.m_Inputs = p.m_Inputs := by
  simp only [c_PerceptronLayer.evaluated, List.mem_map] at hq
  obtain ⟨p, hp, e⟩ := hq
  exact ⟨p, hp, by rw [← e]; exact (c_Perceptron.frame_evaluate M mem p).1⟩

end forward

section forward2

variable {α : Type} [CommRing α] [Div α]

/-- `c_NeuralNetwork::evaluate` twice in a row on a wired network: the second call
returns the state that the first one returned. -/
theorem c_NeuralNetwork.evaluate_again (sizes : List Nat) (M : Libm α)
    (w : c_NeuralNetwork α) (h : c_NeuralNetwork.Wired sizes w) :
    ∃ v, c_NeuralNetwork.evaluate M w = some v ∧ c_NeuralNetwork.evaluate M v = some v := by
  obtain ⟨a, ha⟩ := h.linked.inputs
  obtain ⟨v, e, hf, hloc, hlay⟩ := c_NeuralNetwork.evaluate_spec sizes M w h a ha
  have hwv : c_NeuralNetwork.Wired sizes v := by
    obtain ⟨v', e', s⟩ := c_NeuralNetwork.evaluate_shape sizes M w h
    rw [e] at e'
    cases e'
    exact h.of_sameShape s
  have hav : v.m_Inputs = some (Ref.caller a) := by rw [hf.inputs, ha]
  obtain ⟨v2, e2, hf2, hloc2, hlay2⟩ := c_NeuralNetwork.evaluate_spec sizes M v hwv a hav
  have hl : v2.m_LocalInputs = v.m_LocalInputs := by
    rw [hloc2, hloc, hf.heap, hf.bias]
  have hlayers : ∀ k : Nat, v2.m_Layers[k]? = v.m_Layers[k]? := by
    intro k
    induction k using Nat.strong_induction_on with
    | _ k ih =>
      by_cases hk : k < sizes.length
      · obtain ⟨L0, hL0, hLk⟩ := h.linked.get k hk
        have hv := hlay k L0 hL0
        rw [hlay2 k _ hv, hv]
        congr 1
        have hc : c_PerceptronLayer.evaluated M v2.memory
            (c_PerceptronLayer.evaluated M v.memory L0)
            = c_PerceptronLayer.evaluated M v.memory
              (c_PerceptronLayer.evaluated M v.memory L0) := by
          apply c_PerceptronLayer.evaluated_congr
          intro q hq r hr
          obtain ⟨p, hp, e'⟩ := c_PerceptronLayer.evaluated_reads M v.memory L0 q hq
          rw [e', hLk.reads hk p hp] at hr
          by_cases hk0 : k = 0
          · simp only [hk0, if_true, Option.some.injEq] at hr
            subst hr
            exact hl
          · simp only [hk0, if_false, Option.some.injEq] at hr
            subst hr
            simp only [c_NeuralNetwork.memory, ih (k - 1) (by omega)]
        rw [hc, c_PerceptronLayer.evaluated_twice M v.memory L0 hLk.units]
      · have h1 : v.m_Layers.length ≤ k := by rw [hf.layers, h.linked.length]; omega
        have h2 : v2.m_Layers.length ≤ k := by rw [hf2.layers]; exact h1
        rw [List.getElem?_eq_none h1, List.getElem?_eq_none h2]
  have hvv : v2 = v :=
    c_NeuralNetwork.eq_of_frame hf2 hl (List.ext_getElem? hlayers)
  rw [hvv] at e2
  exact ⟨v, e, e2⟩

/-- The forward pass on a wired network, slot by slot. -/
theorem c_NeuralNetwork.evaluate_forward (sizes : List Nat) (M : Libm α)
    (w : c_NeuralNetwork α) (h : c_NeuralNetwork.Wired sizes w) :
    ∃ v a, c_NeuralNetwork.evaluate M w = some v ∧ v.m_Inputs = some (Ref.caller a) ∧
      w.m_Inputs = some (Ref.caller a) ∧ v.heap = w.heap ∧ v.m_Bias = w.m_Bias ∧
      v.m_Layers.length = w.m_Layers.length ∧
      v.m_LocalInputs = spec_effective_input v 0 ∧
      ∀ (k : Nat) (L : c_PerceptronLayer α), w.m_Layers[k]? = some L →
        ∃ L', v.m_Layers[k]? = some L' ∧ L'.m_Perceptrons.length = L.m_Perceptrons.length ∧
          ∀ (j : Nat) (p : c_Perceptron α), L.m_Perceptrons[j]? = some p →
            ∃ p', L'.m_Perceptrons[j]? = some p' ∧ p'.m_Weights = p.m_Weights ∧
              p'.m_ActType = p.m_ActType ∧
              p'.m_SumProducts
                = valarray.sum (valarray.mul p.m_Weights (spec_effective_input v k)) ∧
              p'.m_Output = spec_activation M p.m_ActType
                (valarray.sum (valarray.mul p.m_Weights (spec_effective_input v k))) ∧
              L'.m_Outputs[j]? = some p'.m_Output := by
  obtain ⟨a, ha⟩ := h.linked.inputs
  obtain ⟨v, e, hf, hloc, hlay⟩ := c_NeuralNetwork.evaluate_spec sizes M w h a ha
  have hav : v.m_Inputs = some (Ref.caller a) := by rw [hf.inputs, ha]
  have h0 : v.m_LocalInputs = spec_effective_input v 0 := by
    simp only [spec_effective_input, hav, c_NeuralNetwork.memory_caller, hf.heap, hf.bias]
    exact hloc
  refine ⟨v, a, e, hav, ha, hf.heap, hf.bias, hf.layers, h0, ?_⟩
  intro k L hL
  have hk : k < sizes.length := by
    rw [← h.linked.length]
    exact (List.getElem?_eq_some_iff.mp hL).1
  have hLk := h.linked.layer k L hL
  refine ⟨_, hlay k L hL, by simp [c_PerceptronLayer.evaluated], ?_⟩
  intro j p hp
  have hin := hLk.reads hk p (List.getElem?_mem hp)
  have hmem : v.memory (if k = 0 then Ref.localInputs else Ref.outputs (k - 1))
      = spec_effective_input v k := by
    cases k with
    | zero => exact h0
    | succ k => rfl
  have hev := c_Perceptron.evaluate_bound M v.memory p _ hin
  rw [hmem] at hev
  have hj : j < L.m_Perceptrons.length := (List.getElem?_eq_some_iff.mp hp).1
  refine ⟨(c_Perceptron.evaluate M v.memory p).2, by
    simp [c_PerceptronLayer.evaluated, hp], by rw [hev], by rw [hev], by rw [hev], by rw [hev],
    ?_⟩
  simp only [c_PerceptronLayer.evaluated]
  rw [List.getElem?_append_left (by simpa using hj)]
  simp [hp]

end forward2

/-! ## The rate and the kind of activation, call by call -/

section uniform

variable {α : Type} [CommRing α] [Div α]

/-- A network whose layers and units keep their rate and kind is as uniform as before. -/
theorem c_NeuralNetwork.Uniform.of_kept_layers {r : α} {k : e_Activation}
    {w v : c_NeuralNetwork α} (h : c_NeuralNetwork.Uniform r k w)
    (hr : v.m_TrainRate = w.m_TrainRate) (ha : v.m_ActType = w.m_ActType)
    (hl : ∀ (i : Nat) (L' : c_PerceptronLayer α), v.m_Layers[i]? = some L' →
      ∃ L, w.m_Layers[i]? = some L ∧ L'.m_TrainRate = L.m_TrainRate ∧
        L'.m_ActType = L.m_ActType ∧
        ∀ (u : Nat) (q : c_Perceptron α), L'.m_Perceptrons[u]? = some q →
          ∃ p, L.m_Perceptrons[u]? = some p ∧ q.m_TrainRate = p.m_TrainRate ∧
            q.m_ActType = p.m_ActType) :
    c_NeuralNetwork.Uniform r k v := by
  refine ⟨by rw [hr, h.trainRate], by rw [ha, h.actType], ?_⟩
  intro i L' hL'
  obtain ⟨L, hL, e1, e2, hu⟩ := hl i L' hL'
  obtain ⟨u1, u2, u3⟩ := h.layer i L hL
  refine ⟨by rw [e1, u1], by rw [e2, u2], ?_⟩
  intro u q hq
  obtain ⟨p, hp, e3, e4⟩ := hu u q hq
  obtain ⟨u4, u5⟩ := u3 u p hp
  exact ⟨by rw [e3, u4], by rw [e4, u5]⟩

/-- A rewiring keeps the rate and the kind of everything. -/
theorem c_NeuralNetwork.Uniform.of_net_rewired {r : α} {k : e_Activation}
    {w v : c_NeuralNetwork α} (h : c_NeuralNetwork.Uniform r k w)
    (hr : c_NeuralNetwork.Rewired w v) : c_NeuralNetwork.Uniform r k v := by
  apply h.of_kept_layers hr.trainRate hr.actType
  intro i L' hL'
  obtain ⟨L, hL, r1⟩ := hr.layer i L' hL'
  refine ⟨L, hL, r1.trainRate, r1.actType, ?_⟩
  intro u q hq
  obtain ⟨p, hp, r2⟩ := r1.unit u q hq
  exact ⟨p, hp, r2.trainRate, r2.actType⟩

/-- A pass whose layers are a map over the units that keeps rate and kind. -/
theorem c_NeuralNetwork.Uniform.of_pass {r : α} {k : e_Activation}
    {w v : c_NeuralNetwork α} (h : c_NeuralNetwork.Uniform r k w)
    (hf : c_NeuralNetwork.Frame w v)
    (F : c_PerceptronLayer α → c_PerceptronLayer α) (f : c_Perceptron α → c_Perceptron α)
    (hF : ∀ L, (F L).m_TrainRate = L.m_TrainRate ∧ (F L).m_ActType = L.m_ActType ∧
      (F L).m_Perceptrons = L.m_Perceptrons.map f)
    (hfu : ∀ p, (f p).m_TrainRate = p.m_TrainRate ∧ (f p).m_ActType = p.m_ActType)
    (hlay : ∀ (i : Nat) (L : c_PerceptronLayer α), w.m_Layers[i]? = some L →
      v.m_Layers[i]? = some (F L)) :
    c_NeuralNetwork.Uniform r k v := by
  apply h.of_kept_layers hf.trainRate hf.actType
  intro i L' hL'
  have hi : i < w.m_Layers.length := by
    rw [← hf.layers]
    exact (List.getElem?_eq_some_iff.mp hL').1
  have hL : w.m_Layers[i]? = some w.m_Layers[i] := List.getElem?_eq_getElem hi
  have e := hlay i _ hL
  rw [hL'] at e
  cases e
  refine ⟨_, hL, (hF _).1, (hF _).2.1, ?_⟩
  intro u q hq
  rw [(hF _).2.2, List.getElem?_map, Option.map_eq_some'] at hq
  obtain ⟨p, hp, e⟩ := hq
  subst e
  exact ⟨p, hp, (hfu p).1, (hfu p).2⟩

/-- What the constructor leaves holds the rate and the kind it was given. -/
theorem c_NeuralNetwork.construct_uniform (sizes : List Nat) (heap : Nat → List α) (a t : Nat)
    (actType : e_Activation) (trainRate : α) (bias : Bool)
    (hpos : sizes ≠ []) (hbound : sizes.length < 2 ^ 64) (w0 : c_NeuralNetwork α)
    (e0 : c_NeuralNetwork.construct heap (Ref.caller a) (Ref.caller t) sizes actType trainRate
        bias = some w0) :
    c_NeuralNetwork.Uniform trainRate actType w0 := by
  obtain ⟨w1, e1, c1⟩ := c_NeuralNetwork.build_spec sizes heap a t
    { heap := heap, m_Inputs := some (Ref.caller a), m_Targets := some (Ref.caller t),
      m_LocalInputs := [], m_Layers := [], m_Bias := false, m_Size := sizes.length,
      m_TrainRate := 0, m_ActType := e_Activation.ACT_TANH }
    hpos hbound rfl rfl rfl rfl rfl rfl
  obtain ⟨w2, e2, hw2, _⟩ := c_NeuralNetwork.setBias_spec sizes bias w1 c1.linked
  have e3 := c_NeuralNetwork.setTrainRate_spec sizes trainRate w2 hw2
  have s3 := c_NeuralNetwork.setTrainRate_shape sizes trainRate w2 hw2
  have hw3 := hw2.of_sameShape s3
  have e4 := c_NeuralNetwork.setActivation_spec sizes actType _ hw3
  unfold c_NeuralNetwork.construct at e0
  dsimp only at e0
  rw [e1, Option.some_bind, e2, Option.some_bind, e3, Option.some_bind, e4] at e0
  cases e0
  refine ⟨rfl, rfl, ?_⟩
  intro k L hL
  simp only [List.getElem?_map, Option.map_eq_some', exists_exists_and_eq_and] at hL
  obtain ⟨L2, hL2, e⟩ := hL
  subst e
  refine ⟨rfl, rfl, ?_⟩
  intro u p hp
  simp only [List.map_map, List.getElem?_map, Option.map_eq_some', Function.comp] at hp
  obtain ⟨p2, hp2, e⟩ := hp
  subst e
  exact ⟨rfl, rfl⟩

/-- One step on a wired network: the rate and the kind of everything are those set most
recently. -/
theorem Call.run_uniform (sizes : List Nat) (M : Libm α) (c : Call α)
    (w v : c_NeuralNetwork α) (r : α) (k : e_Activation)
    (h : c_NeuralNetwork.Wired sizes w) (hu : c_NeuralNetwork.Uniform r k w)
    (hr : Call.run M c w = some v) :
    c_NeuralNetwork.Uniform (spec_rate_after r c) (spec_kind_after k c) v := by
  cases c with
  | setInputs a =>
    obtain ⟨v', e, _, _, _, hrw, _⟩ := c_NeuralNetwork.setInputs_spec sizes a w h
    simp only [Call.run] at hr
    rw [e] at hr
    cases hr
    exact hu.of_net_rewired hrw
  | setBias b =>
    obtain ⟨v', e, _, _, hrw, _⟩ := c_NeuralNetwork.setBias_spec sizes b w h.linked
    simp only [Call.run] at hr
    rw [e] at hr
    cases hr
    exact hu.of_net_rewired hrw
  | setTargets a =>
    simp only [Call.run] at hr
    rw [c_NeuralNetwork.setTargets_eq sizes a w h] at hr
    cases hr
    apply hu.of_kept_layers (by simp) (by simp)
    intro i L' hL'
    rw [c_NeuralNetwork.onLayer_getElem?] at hL'
    by_cases e : sizes.length - 1 = i
    · simp only [e, if_true, Option.map_eq_some'] at hL'
      obtain ⟨L, hL, e'⟩ := hL'
      subst e'
      have hLk := h.linked.layer i L hL
      have hpos := h.linked.pos
      refine ⟨L, hL, (c_PerceptronLayer.frame_setTargets _ _ L).2.2.2.2.2.2.2.1,
        (c_PerceptronLayer.frame_setTargets _ _ L).2.2.2.2.2.2.2.2, ?_⟩
      intro u q hq
      obtain ⟨p, hp, hor⟩ := (c_PerceptronLayer.setTargets_linked sizes sizes.length i w w L
          hLk (by omega) (Nat.le_refl _) w.memory a rfl rfl).2 u q hq
      refine ⟨p, hp, ?_⟩
      rcases hor with e' | e'
      · rw [e']; exact ⟨rfl, rfl⟩
      · rw [e']; exact ⟨rfl, rfl⟩
    · simp only [e, if_false] at hL'
      exact ⟨L', hL', rfl, rfl, fun u q hq => ⟨q, hq, rfl, rfl⟩⟩
  | setTrainRate x =>
    simp only [Call.run] at hr
    rw [c_NeuralNetwork.setTrainRate_spec sizes x w h] at hr
    cases hr
    refine ⟨rfl, hu.actType, ?_⟩
    intro i L hL
    simp only [List.getElem?_map, Option.map_eq_some'] at hL
    obtain ⟨L2, hL2, e⟩ := hL
    subst e
    obtain ⟨_, u2, u3⟩ := hu.layer i L2 hL2
    refine ⟨rfl, u2, ?_⟩
    intro u p hp
    simp only [List.getElem?_map, Option.map_eq_some'] at hp
    obtain ⟨p2, hp2, e⟩ := hp
    subst e
    exact ⟨rfl, (u3 u p2 hp2).2⟩
  | setActivation x =>
    simp only [Call.run] at hr
    rw [c_NeuralNetwork.setActivation_spec sizes x w h] at hr
    cases hr
    refine ⟨hu.trainRate, rfl, ?_⟩
    intro i L hL
    simp only [List.getElem?_map, Option.map_eq_some'] at hL
    obtain ⟨L2, hL2, e⟩ := hL
    subst e
    obtain ⟨u1, _, u3⟩ := hu.layer i L2 hL2
    refine ⟨u1, rfl, ?_⟩
    intro u p hp
    simp only [List.getElem?_map, Option.map_eq_some'] at hp
    obtain ⟨p2, hp2, e⟩ := hp
    subst e
    exact ⟨(u3 u p2 hp2).1, rfl⟩
  | evaluate =>
    obtain ⟨a, ha⟩ := h.linked.inputs
    obtain ⟨v', e, hf, _, hlay⟩ := c_NeuralNetwork.evaluate_spec sizes M w h a ha
    simp only [Call.run] at hr
    rw [e] at hr
    cases hr
    exact hu.of_pass hf (c_PerceptronLayer.evaluated M v.memory)
      (fun p => (c_Perceptron.evaluate M v.memory p).2)
      (fun L => ⟨rfl, rfl, rfl⟩)
      (fun p => ⟨(c_Perceptron.frame_evaluate M v.memory p).2.2.2.2.2.2.1,
        (c_Perceptron.frame_evaluate M v.memory p).2.2.2.2.2.2.2⟩) hlay
  | train =>
    obtain ⟨a, ha⟩ := h.linked.inputs
    obtain ⟨v', e, hf, _, hlay⟩ := c_NeuralNetwork.train_spec sizes M w h a ha
    simp only [Call.run] at hr
    rw [e] at hr
    cases hr
    exact hu.of_pass hf (c_PerceptronLayer.trained M v.memory)
      (fun p => (c_Perceptron.train M v.memory p).2)
      (fun L => ⟨rfl, rfl, rfl⟩)
      (fun p => ⟨(c_Perceptron.frame_train M v.memory p).2.2.2.2.2.1,
        (c_Perceptron.frame_train M v.memory p).2.2.2.2.2.2.1⟩) hlay
  | write a i x =>
    simp only [Call.run] at hr
    split at hr
    · cases hr
      exact ⟨hu.trainRate, hu.actType, hu.layer⟩
    · cases hr
  | setWeights j i weights =>
    simp only [Call.run, Option.bind_eq_some, Option.map_eq_some'] at hr
    obtain ⟨p, ⟨L, hL, hp⟩, q, hq, e⟩ := hr
    subst e
    have hq' : q.m_TrainRate = p.m_TrainRate ∧ q.m_ActType = p.m_ActType := by
      unfold c_Perceptron.setWeights at hq
      split at hq
      · split at hq
        · simp only [Option.map_eq_some'] at hq
          obtain ⟨ws, _, e⟩ := hq
          subst e
          exact ⟨rfl, rfl⟩
        · cases hq
          exact ⟨rfl, rfl⟩
      · cases hq
        exact ⟨rfl, rfl⟩
    apply hu.of_kept_layers (by simp) (by simp)
    intro i' L' hL'
    rw [c_NeuralNetwork.onLayer_getElem?] at hL'
    by_cases e : j = i'
    · subst e
      simp only [if_true, hL, Option.map_some', Option.some.injEq] at hL'
      subst hL'
      refine ⟨L, hL, rfl, rfl, ?_⟩
      intro u q' hq2
      simp only [] at hq2
      by_cases hiu : i = u
      · subst hiu
        have hi : i < L.m_Perceptrons.length := (List.getElem?_eq_some_iff.mp hp).1
        rw [List.getElem?_set_self hi] at hq2
        cases hq2
        exact ⟨p, hp, hq'⟩
      · rw [List.getElem?_set_ne hiu] at hq2
        exact ⟨q', hq2, rfl, rfl⟩
    · simp only [e, if_false] at hL'
      exact ⟨L', hL', rfl, rfl, fun u q hq => ⟨q, hq, rfl, rfl⟩⟩

/-- A sequence of steps on a wired network: the rate and the kind of everything are
those set most recently. -/
theorem Call.runAll_uniform (sizes : List Nat) (M : Libm α) :
    ∀ (cs : List (Call α)) (w v : c_NeuralNetwork α) (r : α) (k : e_Activation),
      c_NeuralNetwork.Wired sizes w → c_NeuralNetwork.Uniform r k w →
      Call.runAll M cs w = some v →
      c_NeuralNetwork.Uniform (spec_last_rate r cs) (spec_last_kind k cs) v
  | [], w, v, r, k, _, hu, hr => by
    simp only [Call.runAll, Option.some.injEq] at hr
    rw [← hr]
    exact hu
  | c :: cs, w, v, r, k, hw, hu, hr => by
    simp only [Call.runAll, Option.bind_eq_some] at hr
    obtain ⟨u, hu', hr⟩ := hr
    exact Call.runAll_uniform sizes M cs u v _ _ (Call.run_wired sizes M c w u hw hu')
      (Call.run_uniform sizes M c w u r k hw hu hu') hr

end uniform

/-! ## Two wired networks over the same arrays -/

section toggle

variable {α : Type} [CommRing α] [Div α]

/-- The last layer of a rewired wired network keeps its target array. -/
theorem c_NeuralNetwork.Rewired.last_targets {sizes : List Nat} {w v : c_NeuralNetwork α}
    (hv : c_NeuralNetwork.Wired sizes v) (hr : c_NeuralNetwork.Rewired w v)
    (k : Nat) (hk : k + 1 = sizes.length) (L L' : c_PerceptronLayer α)
    (hL : w.m_Layers[k]? = some L) (hL' : v.m_Layers[k]? = some L') :
    L'.m_Targets = L.m_Targets := by
  obtain ⟨L0, hL0, r⟩ := hr.layer k L' hL'
  rw [hL] at hL0
  cases hL0
  have hs := (hv.linked.layer k L' hL').sumsIn
  have hn : ¬ k + 1 < sizes.length := by omega
  simp only [hn, if_false] at hs
  rcases r.targets with e | e
  · exact e
  · exact absurd hs e

/-- Two wired networks with the same unit counts, the same flag, the same input array,
arrays of the caller of the same lengths, and the same target array in the last layer
are wired alike. -/
theorem c_NeuralNetwork.Wired.sameShape_of {sizes : List Nat} {w v : c_NeuralNetwork α}
    (hw : c_NeuralNetwork.Wired sizes w) (hv : c_NeuralNetwork.Wired sizes v)
    (hb : v.m_Bias = w.m_Bias) (hi : v.m_Inputs = w.m_Inputs)
    (ht : v.m_Targets = w.m_Targets)
    (hh : ∀ a, (v.heap a).length = (w.heap a).length)
    (hlast : ∀ (k : Nat) (L L' : c_PerceptronLayer α), k + 1 = sizes.length →
      w.m_Layers[k]? = some L → v.m_Layers[k]? = some L' → L'.m_Targets = L.m_Targets) :
    c_NeuralNetwork.SameShape w v := by
  obtain ⟨a, ha⟩ := hw.linked.inputs
  have hloc : v.m_LocalInputs.length = w.m_LocalInputs.length := by
    rw [hv.localInputs a (by rw [hi, ha]), hw.localInputs a ha, hh a, hb]
  have hsize : ∀ (k : Nat) (L L' : c_PerceptronLayer α), w.m_Layers[k]? = some L →
      v.m_Layers[k]? = some L' → L'.m_Size = L.m_Size := by
    intro k L L' hL hL'
    have h1 := (hw.linked.layer k L hL).size
    have h2 := (hv.linked.layer k L' hL').size
    rw [h1] at h2
    exact (Option.some.inj h2).symm
  have hbias : ∀ (k : Nat) (L L' : c_PerceptronLayer α), w.m_Layers[k]? = some L →
      v.m_Layers[k]? = some L' → L'.m_Bias = L.m_Bias := by
    intro k L L' hL hL'
    rw [hw.bias k L hL, hv.bias k L' hL', hb]
  have hout : ∀ (k : Nat) (L L' : c_PerceptronLayer α), w.m_Layers[k]? = some L →
      v.m_Layers[k]? = some L' → L'.m_Outputs.length = L.m_Outputs.length := by
    intro k L L' hL hL'
    rw [(hw.linked.layer k L hL).outputs, (hv.linked.layer k L' hL').outputs,
      hsize k L L' hL hL', hbias k L L' hL hL']
  refine ⟨hh, hi, ht, hloc, hb, by rw [hv.linked.size, hw.linked.size],
    by rw [hv.linked.length, hw.linked.length], ?_⟩
  intro k L' hL'
  have hk : k < sizes.length := by
    rw [← hv.linked.length]
    exact (List.getElem?_eq_some_iff.mp hL').1
  obtain ⟨L, hL, hLk⟩ := hw.linked.get k hk
  have hLk' := hv.linked.layer k L' hL'
  have hs := hsize k L L' hL hL'
  have hbs := hbias k L L' hL hL'
  have htar : L'.m_Targets = L.m_Targets := by
    by_cases hk1 : k + 1 = sizes.length
    · exact hlast k L L' hk1 hL hL'
    · have e1 : L.m_Targets = none := by
        cases e : L.m_Targets with
        | none => rfl
        | some t => exact absurd (hLk.targets t e).1 hk1
      have e2 : L'.m_Targets = none := by
        cases e : L'.m_Targets with
        | none => rfl
        | some t => exact absurd (hLk'.targets t e).1 hk1
      rw [e1, e2]
  have hin : L'.m_Inputs = L.m_Inputs := by rw [hLk'.inputs, hLk.inputs]
  have hsum : L'.m_WeightedDeltaSumsIn = L.m_WeightedDeltaSumsIn := by
    rw [hLk'.sumsIn, hLk.sumsIn]
  refine ⟨L, hL, hin, htar, hsum, by rw [hLk'.input, hLk.input],
    by rw [hLk'.output, hLk.output], hbs, hs, hout k L L' hL hL', ?_,
    by rw [hLk'.sumsOut, hLk.sumsOut], by rw [hLk'.units, hLk.units, hs], ?_⟩
  · cases hbL : L.m_Bias with
    | true =>
      rw [← hs, hLk'.biasSlot (by rw [hbs, hbL]), hs, hLk.biasSlot hbL]
    | false =>
      have h1 := hLk.outputs
      have h2 := hLk'.outputs
      rw [hbs, hs] at h2
      simp only [hbL, Bool.false_eq_true, if_false, Nat.add_zero] at h1 h2
      rw [List.getElem?_eq_none (by omega), List.getElem?_eq_none (by omega)]
  · intro u q hq
    have hu : u < L.m_Perceptrons.length := by
      rw [hLk.units, ← hs, ← hLk'.units]
      exact (List.getElem?_eq_some_iff.mp hq).1
    have hp : L.m_Perceptrons[u]? = some L.m_Perceptrons[u] := List.getElem?_eq_getElem hu
    have bq := hLk'.unit u q hq
    have bp := hLk.unit u _ hp
    refine ⟨_, hp, by rw [bq.inputs, bp.inputs, hin], by rw [bq.target, bp.target, htar],
      by rw [bq.deltaSum, bp.deltaSum, hsum], ?_, bq.deltas⟩
    have hr := hLk.inputs
    have hmem : (v.memory (if k = 0 then Ref.localInputs else Ref.outputs (k - 1))).length
        = (w.memory (if k = 0 then Ref.localInputs else Ref.outputs (k - 1))).length := by
      by_cases hk0 : k = 0
      · simp only [hk0, if_true]
        exact hloc
      · simp only [hk0, if_false]
        obtain ⟨Lp, hLp, _⟩ := hw.linked.get (k - 1) (by omega)
        obtain ⟨Lp', hLp', _⟩ := hv.linked.get (k - 1) (by omega)
        simp only [c_NeuralNetwork.memory, hLp, hLp']
        exact hout (k - 1) Lp Lp' hLp hLp'
    have hr1 : L.m_Inputs = some (if k = 0 then Ref.localInputs else Ref.outputs (k - 1)) := by
      rw [hLk.inputs]
      by_cases hk0 : k = 0
      · simp [hk0]
      · simp [hk0, hk]
    rw [hv.sync k L' hL' _ (by rw [hin, hr1]) q (List.getElem?_mem hq),
      hw.sync k L hL _ hr1 _ (List.getElem?_mem hp), hmem]

/-- The bias switched off and on again on a wired network with the bias on: both calls
return, and the network is wired as before. -/
theorem c_NeuralNetwork.setBias_toggle (sizes : List Nat) (w : c_NeuralNetwork α)
    (hw : c_NeuralNetwork.Wired sizes w) (hb : w.m_Bias = true) :
    ∃ v1 v2, c_NeuralNetwork.setBias false w = some v1 ∧
      c_NeuralNetwork.setBias true v1 = some v2 ∧ c_NeuralNetwork.Wired sizes v2 ∧
      c_NeuralNetwork.SameShape w v2 := by
  obtain ⟨v1, e1, hw1, hb1, hr1, hi1, ht1⟩ := c_NeuralNetwork.setBias_spec sizes false w hw.linked
  obtain ⟨v2, e2, hw2, hb2, hr2, hi2, ht2⟩ := c_NeuralNetwork.setBias_spec sizes true v1 hw1.linked
  refine ⟨v1, v2, e1, e2, hw2, ?_⟩
  apply hw.sameShape_of hw2 (by rw [hb2, hb]) (by rw [hi2, hi1]) (by rw [ht2, ht1])
    (fun a => by rw [hr2.heap, hr1.heap])
  intro k L L2 hk hL hL2
  obtain ⟨L1, hL1, _⟩ := hr2.layer k L2 hL2
  rw [hr2.last_targets hw2 k hk L1 L2 hL1 hL2, hr1.last_targets hw1 k hk L L1 hL hL1]

end toggle

/-! ## The target array of the last layer, call by call -/

section targeted

variable {α : Type} [CommRing α] [Div α]

/-- A step that keeps the target pointers, the sizes and the lengths of the caller's
arrays keeps the last layer bound to its target array. -/
theorem c_NeuralNetwork.Targeted.of_kept {sizes : List Nat} {w v : c_NeuralNetwork α}
    (h : c_NeuralNetwork.Targeted sizes w) (ht : v.m_Targets = w.m_Targets)
    (hh : ∀ a, (v.heap a).length = (w.heap a).length)
    (hl : ∀ L' : c_PerceptronLayer α, v.m_Layers[sizes.length - 1]? = some L' →
      ∃ L, w.m_Layers[sizes.length - 1]? = some L ∧ L'.m_Targets = L.m_Targets ∧
        L'.m_Size = L.m_Size) :
    c_NeuralNetwork.Targeted sizes v := by
  refine ⟨?_, ?_⟩
  · intro L' hL'
    obtain ⟨L, hL, e1, _⟩ := hl L' hL'
    rw [e1]
    exact h.bound L hL
  · intro L' t hL' htv hlen
    obtain ⟨L, hL, e1, e2⟩ := hl L' hL'
    rw [e1]
    exact h.current L t hL (by rw [← ht]; exact htv) (by rw [← hh, ← e2]; exact hlen)

/-- A rewiring that returns a wired network keeps the last layer bound to its target
array. -/
theorem c_NeuralNetwork.Targeted.of_wired_rewired {sizes : List Nat}
    {w v : c_NeuralNetwork α} (h : c_NeuralNetwork.Targeted sizes w)
    (hv : c_NeuralNetwork.Wired sizes v) (hr : c_NeuralNetwork.Rewired w v)
    (ht : v.m_Targets = w.m_Targets) : c_NeuralNetwork.Targeted sizes v := by
  apply h.of_kept ht (fun a => by rw [hr.heap])
  intro L' hL'
  obtain ⟨L, hL, r⟩ := hr.layer _ L' hL'
  have hpos := hv.linked.pos
  exact ⟨L, hL, hr.last_targets hv (sizes.length - 1) (by omega) L L' hL hL', r.size⟩

/-- Every step that returns keeps the last layer bound to a target array. -/
theorem Call.run_targeted (sizes : List Nat) (M : Libm α) (c : Call α)
    (w v : c_NeuralNetwork α) (h : c_NeuralNetwork.Wired sizes w)
    (ht : c_NeuralNetwork.Targeted sizes w) (hr : Call.run M c w = some v) :
    c_NeuralNetwork.Targeted sizes v := by
  by_cases hc : c.keepsWiring = true
  · have s := Call.run_shape sizes M c w v h hc hr
    apply ht.of_kept s.targets s.heap
    intro L' hL'
    obtain ⟨L, hL, sl⟩ := s.layer _ L' hL'
    exact ⟨L, hL, sl.targets, sl.size⟩
  · cases c with
    | setInputs a =>
      obtain ⟨v', e, hw, _, _, hrw, htv⟩ := c_NeuralNetwork.setInputs_spec sizes a w h
      simp only [Call.run] at hr
      rw [e] at hr
      cases hr
      exact ht.of_wired_rewired hw hrw htv
    | setBias b =>
      obtain ⟨v', e, hw, _, hrw, _, htv⟩ := c_NeuralNetwork.setBias_spec sizes b w h.linked
      simp only [Call.run] at hr
      rw [e] at hr
      cases hr
      exact ht.of_wired_rewired hw hrw htv
    | setTargets a =>
      simp only [Call.run] at hr
      rw [c_NeuralNetwork.setTargets_eq sizes a w h] at hr
      cases hr
      have hget : ∀ L' : c_PerceptronLayer α,
          (c_NeuralNetwork.onLayer (sizes.length - 1)
            (c_PerceptronLayer.setTargets w.memory (Ref.caller a))
            { w with m_Targets := some (Ref.caller a) }).m_Layers[sizes.length - 1]? = some L' →
          ∃ L, w.m_Layers[sizes.length - 1]? = some L ∧
            L' = c_PerceptronLayer.setTargets w.memory (Ref.caller a) L := by
        intro L' hL'
        rw [c_NeuralNetwork.onLayer_getElem?] at hL'
        simp only [if_true, Option.map_eq_some'] at hL'
        obtain ⟨L, hL, e⟩ := hL'
        exact ⟨L, hL, e.symm⟩
      refine ⟨?_, ?_⟩
      · intro L' hL'
        obtain ⟨L, hL, e⟩ := hget L' hL'
        subst e
        by_cases hlen : (w.memory (Ref.caller a)).length = L.m_Size
        · exact ⟨a, c_PerceptronLayer.setTargets_bound _ _ L hlen⟩
        · simp only [c_PerceptronLayer.setTargets, hlen, if_false]
          exact ht.bound L hL
      · intro L' t hL' htv hlen
        obtain ⟨L, hL, e⟩ := hget L' hL'
        subst e
        have hta : t = a := by
          have e' : (some (Ref.caller a) : Option Ref) = some (Ref.caller t) := htv
          cases e'
          rfl
        subst hta
        rw [(c_PerceptronLayer.frame_setTargets _ _ L).2.2.2.2.2.2.1] at hlen
        exact c_PerceptronLayer.setTargets_bound _ _ L hlen
    | setTrainRate x => simp [Call.keepsWiring] at hc
    | setActivation x => simp [Call.keepsWiring] at hc
    | evaluate => simp [Call.keepsWiring] at hc
    | train => simp [Call.keepsWiring] at hc
    | write a i x => simp [Call.keepsWiring] at hc
    | setWeights k i weights => simp [Call.keepsWiring] at hc

/-- The state reached from the constructor, given a target array with as many elements
as the last layer has units: wired, and the last layer bound to a target array. -/
theorem Call.reach_targeted (sizes : List Nat) (heap : Nat → List α) (a t : Nat)
    (actType : e_Activation) (trainRate : α) (bias : Bool) (M : Libm α) (cs : List (Call α))
    (w : c_NeuralNetwork α) (hpos : sizes ≠ []) (hbound : sizes.length < 2 ^ 64)
    (hlen : (heap t).length = sizes.getLast hpos)
    (hr : (c_NeuralNetwork.construct heap (Ref.caller a) (Ref.caller t) sizes actType trainRate
      bias).bind (Call.runAll M cs) = some w) :
    c_NeuralNetwork.Wired sizes w ∧ c_NeuralNetwork.Targeted sizes w := by
  obtain ⟨w0, e0, c0⟩ := c_NeuralNetwork.construct_spec sizes heap a t actType trainRate bias
    hpos hbound
  rw [e0, Option.some_bind] at hr
  have hn : 0 < sizes.length := List.length_pos.mpr hpos
  have h0 : c_NeuralNetwork.Targeted sizes w0 := by
    have hb : ∀ L : c_PerceptronLayer α, w0.m_Layers[sizes.length - 1]? = some L →
        L.m_Targets = some (Ref.caller t) := by
      intro L hL
      apply c0.target L hL
      have hs := (c0.wired.linked.layer _ L hL).size
      rw [List.getElem?_eq_getElem (by omega)] at hs
      rw [hlen, List.getLast_eq_getElem]
      exact Option.some.inj hs
    refine ⟨fun L hL => ⟨t, hb L hL⟩, ?_⟩
    intro L t' hL ht' _
    rw [c0.targets] at ht'
    rw [← ht']
    exact hb L hL
  exact Call.runAll_inv M
    (fun w => c_NeuralNetwork.Wired sizes w ∧ c_NeuralNetwork.Targeted sizes w)
    (fun c w v hw hr => ⟨Call.run_wired sizes M c w v hw.1 hr,
      Call.run_targeted sizes M c w v hw.1 hw.2 hr⟩) cs w0 w ⟨c0.wired, h0⟩ hr

end targeted

/-! ## `train()` on the network the constructor leaves -/

section fresh

variable {α : Type} [CommRing α] [Div α]

/-- `a += 0 * b` leaves `a` as it is. -/
theorem valarray.addAssign_smul_zero (a b : List α) :
    valarray.addAssign a (valarray.smul 0 b) = a := by
  induction a generalizing b with
  | nil => simp [valarray.addAssign]
  | cons x xs ih =>
    cases b with
    | nil => simp [valarray.addAssign, valarray.smul]
    | cons y ys =>
      have := ih ys
      simp only [valarray.addAssign, valarray.smul, List.map_cons, List.zipWith_cons_cons,
        List.length_cons, List.drop_succ_cons, List.cons_append, zero_mul, add_zero,
        List.cons.injEq, true_and] at this ⊢
      exact this

/-- A unit with a bound input whose delta comes out as zero keeps its weights. -/
theorem c_Perceptron.train_zero_delta (M : Libm α) (mem : Memory α) (p : c_Perceptron α)
    (r : Ref) (hin : p.m_Inputs = some r)
    (hd : (c_Perceptron._calcDelta M mem p).m_Delta = 0) :
    (c_Perceptron.train M mem p).2.m_Delta = 0 ∧
    (c_Perceptron.train M mem p).2.m_Weights = p.m_Weights := by
  rw [c_Perceptron.train_bound M mem p r hin, hd]
  exact ⟨rfl, by simp only [mul_zero]; exact valarray.addAssign_smul_zero _ _⟩

/-- The error sums that a layer of units with zero weights passes on are zero. -/
theorem c_PerceptronLayer.trained_sums_blank (M : Libm α) (mem : Memory α)
    (L : c_PerceptronLayer α) (hb : ∀ p ∈ L.m_Perceptrons, ∃ r, p.m_Inputs = some r)
    (hz : ∀ p ∈ L.m_Perceptrons, p.m_Weights = valarray.resize p.m_Weights.length)
    (j : Nat) :
    (c_PerceptronLayer.trained M mem L).m_WeightedDeltaSumsOut.getD j 0 = 0 := by
  obtain ⟨h1, h2⟩ := c_PerceptronLayer.trained_sums M mem L hb
  by_cases hj : j < L.m_WeightedDeltaSumsOut.length
  · rw [h2 j hj]
    apply List.sum_eq_zero
    intro x hx
    simp only [List.mem_map] at hx
    obtain ⟨p, hp, e⟩ := hx
    have hg : p.m_Weights.getD j 0 = 0 := by
      rw [hz p hp]
      simp only [valarray.resize, List.getD_eq_getElem?_getD, List.getElem?_replicate]
      split <;> rfl
    rw [← e, hg, mul_zero]
  · rw [List.getD_eq_default _ _ (by rw [h1]; omega)]

/-- `train()` right after the constructor: it returns; the units of every layer but the
last get the delta 0 and keep their weights; a unit of the last layer gets the delta
`_calcActivDeriv() * target[j]` if the target array has as many elements as the layer has
units, and the delta 0 if it has no target. -/
theorem c_NeuralNetwork.train_fresh (sizes : List Nat) (heap : Nat → List α) (a t : Nat)
    (actType : e_Activation) (trainRate : α) (bias : Bool) (M : Libm α)
    (hpos : sizes ≠ []) (hbound : sizes.length < 2 ^ 64) :
    ∃ w v, c_NeuralNetwork.construct heap (Ref.caller a) (Ref.caller t) sizes actType trainRate
        bias = some w ∧
      c_NeuralNetwork.train M w = some v ∧ v.m_Layers.length = sizes.length ∧
      ∀ (k n : Nat), sizes[k]? = some n →
        ∃ L L', w.m_Layers[k]? = some L ∧ v.m_Layers[k]? = some L' ∧
          L'.m_Perceptrons.length = n ∧
          ∀ j : Nat, j < n →
            ∃ p q, L.m_Perceptrons[j]? = some p ∧ L'.m_Perceptrons[j]? = some q ∧
              p.m_SumProducts = 0 ∧ p.m_Output = 0 ∧ p.m_ActType = actType ∧
              p.m_Weights = valarray.resize p.m_Weights.length ∧
              (k + 1 < sizes.length → q.m_Delta = 0 ∧ q.m_Weights = p.m_Weights) ∧
              (k + 1 = sizes.length → p.m_Target = none →
                q.m_Delta = 0 ∧ q.m_Weights = p.m_Weights) ∧
              (k + 1 = sizes.length → (heap t).length = n →
                p.m_Target = some (Ref.caller t, j) ∧
                q.m_Delta = c_Perceptron._calcActivDeriv M p * (heap t).getD j 0) := by
  obtain ⟨w, e0, c0⟩ := c_NeuralNetwork.construct_spec sizes heap a t actType trainRate bias
    hpos hbound
  have hw := c0.wired
  obtain ⟨v, e, hf, hloc, hlay⟩ := c_NeuralNetwork.train_spec sizes M w hw a c0.inputs
  refine ⟨w, v, e0, e, by rw [hf.layers, hw.linked.length], ?_⟩
  intro k n hk
  have hk' : k < sizes.length := (List.getElem?_eq_some_iff.mp hk).1
  obtain ⟨L, hL, hLk⟩ := hw.linked.get k hk'
  have hnL : n = L.m_Size := by
    have hs := hLk.size
    rw [hk] at hs
    exact Option.some.inj hs
  refine ⟨L, _, hL, hlay k L hL, by simp [c_PerceptronLayer.trained, hLk.units, hnL], ?_⟩
  intro j hj
  have hj' : j < L.m_Perceptrons.length := by rw [hLk.units, ← hnL]; exact hj
  have hp : L.m_Perceptrons[j]? = some L.m_Perceptrons[j] := List.getElem?_eq_getElem hj'
  have hmem := List.getElem?_mem hp
  have hbl := (c0.blank k L hL).2 _ hmem
  have hin := hLk.reads hk' _ hmem
  have bp := hLk.unit j _ hp
  have cd := c_Perceptron.calcDelta_eq M v.memory L.m_Perceptrons[j]
  refine ⟨_, (c_Perceptron.train M v.memory L.m_Perceptrons[j]).2, hp,
    by simp [c_PerceptronLayer.trained, hp], hbl.sumProducts, hbl.output,
    (c0.unit k L hL _ hmem).1, hbl.weights, ?_, ?_, ?_⟩
  · intro hk1
    have e1 : L.m_Targets = none := by
      cases e : L.m_Targets with
      | none => rfl
      | some r => exact absurd (hLk.targets r e).1 (by omega)
    have hs := hLk.sumsIn
    simp only [hk1, if_true] at hs
    have ht : (L.m_Perceptrons[j]).m_Target = none := by rw [bp.target, e1]; rfl
    have hd : (L.m_Perceptrons[j]).m_WeightedDeltaSum = some (Ref.deltaSums (k + 1), j) := by
      rw [bp.deltaSum, hs]; rfl
    apply c_Perceptron.train_zero_delta M v.memory _ _ hin
    rw [cd.2.2.1 _ ht hd]
    obtain ⟨L1, hL1, hL1k⟩ := hw.linked.get (k + 1) hk1
    have hv1 := hlay (k + 1) L1 hL1
    have hz : v.memory.deref (Ref.deltaSums (k + 1), j) = 0 := by
      simp only [Memory.deref, c_NeuralNetwork.memory, hv1]
      apply c_PerceptronLayer.trained_sums_blank
      · intro p' hp'
        exact ⟨_, hL1k.reads hk1 p' hp'⟩
      · intro p' hp'
        exact ((c0.blank (k + 1) L1 hL1).2 p' hp').weights
    rw [hz, mul_zero]
  · intro hk1 ht
    have hs := hLk.sumsIn
    have hnl : ¬ k + 1 < sizes.length := by omega
    simp only [hnl, if_false] at hs
    have hd : (L.m_Perceptrons[j]).m_WeightedDeltaSum = none := by
      rw [bp.deltaSum, hs]; rfl
    exact c_Perceptron.train_zero_delta M v.memory _ _ hin (cd.2.2.2 ht hd)
  · intro hk1 hlen
    have ek : k = sizes.length - 1 := by omega
    have hLt : L.m_Targets = some (Ref.caller t) := by
      apply c0.target L (by rw [← ek]; exact hL)
      rw [hlen, hnL]
    have ht : (L.m_Perceptrons[j]).m_Target = some (Ref.caller t, j) := by
      rw [bp.target, hLt]; rfl
    refine ⟨ht, ?_⟩
    rw [c_Perceptron.train_bound M v.memory _ _ hin]
    simp only []
    rw [cd.2.1 _ ht, hbl.output, sub_zero]
    simp only [Memory.deref, c_NeuralNetwork.memory, hf.heap, c0.heap]

end fresh

/-! ## The backward pass of the network, unit by unit -/

section backward

variable {α : Type} [CommRing α] [Div α]

/-- A list of two elements, from its length and its elements. -/
theorem List.eq_pair_of_getElem? {β : Type} (l : List β) (x y : β) (h : l.length = 2)
    (h0 : l[0]? = some x) (h1 : l[1]? = some y) : l = [x, y] := by
  match l, h with
  | [a, b], _ =>
    simp only [List.getElem?_cons_zero, List.getElem?_cons_succ, Option.some.injEq] at h0 h1
    rw [h0, h1]

/-- A list of one element, from its length and its element. -/
theorem List.eq_single_of_getElem? {β : Type} (l : List β) (x : β) (h : l.length = 1)
    (h0 : l[0]? = some x) : l = [x] := by
  match l, h with
  | [a], _ =>
    simp only [List.getElem?_cons_zero, Option.some.injEq] at h0
    rw [h0]

/-- `c_NeuralNetwork::train` on a wired network, unit by unit: the delta of a unit, the
change of its weights, and the error sums a layer passes on. -/
theorem c_NeuralNetwork.train_units (sizes : List Nat) (M : Libm α) (w : c_NeuralNetwork α)
    (h : c_NeuralNetwork.Wired sizes w) (a : Nat) (ha : w.m_Inputs = some (Ref.caller a)) :
    ∃ u, c_NeuralNetwork.train M w = some u ∧ c_NeuralNetwork.Frame w u ∧
      u.m_LocalInputs = w.heap a ++ (if w.m_Bias then [1] else []) ∧
      ∀ (k : Nat) (L : c_PerceptronLayer α), w.m_Layers[k]? = some L →
        ∃ L', u.m_Layers[k]? = some L' ∧ L'.m_Outputs = L.m_Outputs ∧
          L'.m_Perceptrons.length = L.m_Perceptrons.length ∧
          L'.m_WeightedDeltaSumsOut.length = L.m_WeightedDeltaSumsOut.length ∧
          (∀ j, j < L.m_WeightedDeltaSumsOut.length →
            L'.m_WeightedDeltaSumsOut.getD j 0 = (L.m_Perceptrons.map (fun p =>
              (c_Perceptron._calcDelta M u.memory p).m_Delta * p.m_Weights.getD j 0)).sum) ∧
          ∀ (j : Nat) (p : c_Perceptron α), L.m_Perceptrons[j]? = some p →
            ∃ q, L'.m_Perceptrons[j]? = some q ∧
              q.m_Delta = (c_Perceptron._calcDelta M u.memory p).m_Delta ∧
              q.m_Weights.length = p.m_Weights.length ∧
              (∀ i, i < p.m_Weights.length →
                q.m_Weights.getD i 0 = p.m_Weights.getD i 0 + p.m_TrainRate * q.m_Delta *
                  (u.memory (if k = 0 then Ref.localInputs else Ref.outputs (k - 1))).getD i
                    0) := by
  obtain ⟨u, e, hf, hloc, hlay⟩ := c_NeuralNetwork.train_spec sizes M w h a ha
  refine ⟨u, e, hf, hloc, ?_⟩
  intro k L hL
  have hk : k < sizes.length := by
    rw [← h.linked.length]
    exact (List.getElem?_eq_some_iff.mp hL).1
  have hLk := h.linked.layer k L hL
  have hs := c_PerceptronLayer.trained_sums M u.memory L
    (fun p hp => ⟨_, hLk.reads hk p hp⟩)
  refine ⟨_, hlay k L hL, rfl, by simp [c_PerceptronLayer.trained], hs.1, hs.2, ?_⟩
  intro j p hp
  have hin := hLk.reads hk p (List.getElem?_mem hp)
  have tb := c_Perceptron.train_bound M u.memory p _ hin
  refine ⟨(c_Perceptron.train M u.memory p).2, by simp [c_PerceptronLayer.trained, hp],
    by rw [tb], by rw [tb]; exact valarray.length_addAssign _ _, ?_⟩
  intro i hi
  rw [tb]
  simp only []
  rw [valarray.getD_addAssign _ _ _ hi, valarray.getD_smul]

end backward

section backward2

variable {α : Type} [CommRing α] [Div α]

/-- A list of three elements, from its length and its elements. -/
theorem List.eq_triple_of_getElem? {β : Type} (l : List β) (x y z : β) (h : l.length = 3)
    (h0 : l[0]? = some x) (h1 : l[1]? = some y) (h2 : l[2]? = some z) : l = [x, y, z] := by
  match l, h with
  | [a, b, c], _ =>
    simp only [List.getElem?_cons_zero, List.getElem?_cons_succ, Option.some.injEq]
      at h0 h1 h2
    rw [h0, h1, h2]

/-- The forward and the backward pass on a wired network of two and one units with the
bias on, whose last layer is bound to a target array. -/
theorem c_NeuralNetwork.two_layer_passes (M : Libm α) (w : c_NeuralNetwork α)
    (hw : c_NeuralNetwork.Wired [2, 1] w) (htg : c_NeuralNetwork.Targeted [2, 1] w)
    (hb : w.m_Bias = true) :
    ∃ v u x b H O H' O' p0 p1 q q',
      c_NeuralNetwork.evaluate M w = some v ∧ c_NeuralNetwork.train M v = some u ∧
      v.m_Inputs = some (Ref.caller x) ∧ (v.heap b).length = 1 ∧
      v.heap = w.heap ∧ u.heap = v.heap ∧
      v.m_Layers = [H, O] ∧ u.m_Layers = [H', O'] ∧
      H.m_Perceptrons = [p0, p1] ∧ O.m_Perceptrons = [q] ∧
      H'.m_Perceptrons.length = 2 ∧ O'.m_Perceptrons = [q'] ∧
      H.m_Outputs = [p0.m_Output, p1.m_Output, 1] ∧
      q.m_SumProducts = valarray.sum (valarray.mul q.m_Weights H.m_Outputs) ∧
      q.m_Output = spec_activation M q.m_ActType q.m_SumProducts ∧
      q.m_Weights.length = 3 ∧ q'.m_Weights.length = 3 ∧
      q.m_Target = some (Ref.caller b, 0) ∧
      q'.m_Delta
        = c_Perceptron._calcActivDeriv M q * ((v.heap b).getD 0 0 - q.m_Output) ∧
      (∀ i, i < 3 → q'.m_Weights.getD i 0 - q.m_Weights.getD i 0
        = q.m_TrainRate * c_Perceptron._calcActivDeriv M q
          * ((v.heap b).getD 0 0 - q.m_Output) * H.m_Outputs.getD i 0) ∧
      O'.m_WeightedDeltaSumsOut.length = 2 ∧
      (∀ j, j < 2 →
        O'.m_WeightedDeltaSumsOut.getD j 0 = q'.m_Delta * q.m_Weights.getD j 0) ∧
      ∀ (j : Nat) (p p' : c_Perceptron α), H.m_Perceptrons[j]? = some p →
        H'.m_Perceptrons[j]? = some p' →
        p.m_SumProducts = valarray.sum (valarray.mul p.m_Weights (v.heap x ++ [1])) ∧
        p.m_Output = spec_activation M p.m_ActType p.m_SumProducts ∧
        p.m_Target = none ∧ p.m_Weights.length = (v.heap x).length + 1 ∧
        p'.m_Weights.length = p.m_Weights.length ∧
        p'.m_Delta
          = c_Perceptron._calcActivDeriv M p * (q'.m_Delta * q.m_Weights.getD j 0) ∧
        ∀ i, i < p.m_Weights.length → p'.m_Weights.getD i 0 - p.m_Weights.getD i 0
          = p.m_TrainRate * c_Perceptron._calcActivDeriv M p
            * (q'.m_Delta * q.m_Weights.getD j 0) * (v.heap x ++ [1]).getD i 0 := by
  -- the forward pass
  obtain ⟨v, x, e, hav, haw, hheap, hbias, hlen, h0, hl⟩ :=
    c_NeuralNetwork.evaluate_forward [2, 1] M w hw
  have erun : Call.run M Call.evaluate w = some v := e
  have hwv := Call.run_wired [2, 1] M Call.evaluate w v hw erun
  have htv := Call.run_targeted [2, 1] M Call.evaluate w v hw htg erun
  have hbv : v.m_Bias = true := by rw [hbias, hb]
  obtain ⟨Lw0, hLw0, hLw0k⟩ := hw.linked.get 0 (by decide)
  obtain ⟨Lw1, hLw1, hLw1k⟩ := hw.linked.get 1 (by decide)
  obtain ⟨H, hH, hHlen, hHu⟩ := hl 0 Lw0 hLw0
  obtain ⟨O, hO, hOlen, hOu⟩ := hl 1 Lw1 hLw1
  have hHk := hwv.linked.layer 0 H hH
  have hOk := hwv.linked.layer 1 O hO
  have hHs : H.m_Size = 2 := by
    have := hHk.size
    simp only [List.getElem?_cons_zero, Option.some.injEq] at this
    exact this.symm
  have hOs : O.m_Size = 1 := by
    have := hOk.size
    simp only [List.getElem?_cons_succ, List.getElem?_cons_zero, Option.some.injEq] at this
    exact this.symm
  have hHn : H.m_Perceptrons.length = 2 := by rw [hHk.units, hHs]
  have hOn : O.m_Perceptrons.length = 1 := by rw [hOk.units, hOs]
  have hLw0n : Lw0.m_Perceptrons.length = 2 := by rw [← hHlen, hHn]
  have hLw1n : Lw1.m_Perceptrons.length = 1 := by rw [← hOlen, hOn]
  obtain ⟨p0, hp0, w0, a0, s0, o0, out0⟩ := hHu 0 _ (List.getElem?_eq_getElem (by omega))
  obtain ⟨p1, hp1, w1, a1, s1, o1, out1⟩ := hHu 1 _ (List.getElem?_eq_getElem (by omega))
  obtain ⟨q, hq, wq, aq, sq, oq, outq⟩ := hOu 0 _ (List.getElem?_eq_getElem (by omega))
  have hin0 : spec_effective_input v 0 = v.heap x ++ [1] := by
    simp only [spec_effective_input, hav, c_NeuralNetwork.memory_caller, hbv, if_true]
  have hin1 : spec_effective_input v 1 = H.m_Outputs := by
    simp only [spec_effective_input, c_NeuralNetwork.memory, hH]
  have hshape := hwv.output_shape 0 H hH
  have hHout : H.m_Outputs = [p0.m_Output, p1.m_Output, 1] := by
    obtain ⟨hl3, hslot⟩ := hshape.2.1 hbv (by decide)
    rw [hHs] at hl3 hslot
    exact List.eq_triple_of_getElem? _ _ _ _ hl3 out0 out1 hslot
  have hvl : v.m_Layers = [H, O] :=
    List.eq_pair_of_getElem? _ _ _ hwv.linked.length hH hO
  have hHp : H.m_Perceptrons = [p0, p1] := List.eq_pair_of_getElem? _ _ _ hHn hp0 hp1
  have hOp : O.m_Perceptrons = [q] := List.eq_single_of_getElem? _ _ hOn hq
  -- the target of the output unit
  obtain ⟨b, hOt⟩ := htv.bound O hO
  have hqt : q.m_Target = some (Ref.caller b, 0) := by
    rw [(hOk.unit 0 q hq).target, hOt]
    rfl
  have hbl : (v.heap b).length = 1 := by
    obtain ⟨_, b', eb, hl'⟩ := hOk.targets _ hOt
    cases eb
    rw [hl', hOs]
  -- the backward pass
  obtain ⟨u, e', hf, hloc, hlay⟩ := c_NeuralNetwork.train_units [2, 1] M v hwv x hav
  obtain ⟨H', hH', hHo', hHlen', _, _, hHu'⟩ := hlay 0 H hH
  obtain ⟨O', hO', hOo', hOlen', hOsl, hOsum, hOu'⟩ := hlay 1 O hO
  obtain ⟨q', hq', dq, lq, uq⟩ := hOu' 0 q hq
  have hul : u.m_Layers = [H', O'] :=
    List.eq_pair_of_getElem? _ _ _ (by rw [hf.layers, hwv.linked.length]; rfl) hH' hO'
  have hOp' : O'.m_Perceptrons = [q'] :=
    List.eq_single_of_getElem? _ _ (by rw [hOlen', hOn]) hq'
  have hqin := hOk.reads (by decide) q (List.getElem?_mem hq)
  have hmo : u.memory (Ref.outputs 0) = H.m_Outputs := by
    simp only [c_NeuralNetwork.memory, hH', hHo']
  have hml : u.memory Ref.localInputs = v.heap x ++ [1] := by
    simp only [c_NeuralNetwork.memory, hloc, hbv, if_true]
  have hqw : q.m_Weights.length = 3 := by
    have hs := hwv.sync 1 O hO (Ref.outputs 0)
      (by rw [hOk.inputs]; rfl) q (List.getElem?_mem hq)
    rw [hs]
    simp only [c_NeuralNetwork.memory, hH, hHout, List.length_cons, List.length_nil]
  have hdq : q'.m_Delta
      = c_Perceptron._calcActivDeriv M q * ((v.heap b).getD 0 0 - q.m_Output) := by
    rw [dq, (c_Perceptron.calcDelta_eq M u.memory q).2.1 _ hqt]
    simp only [Memory.deref, c_NeuralNetwork.memory, hf.heap]
  have hOsn : O.m_WeightedDeltaSumsOut.length = 2 := by
    rw [hOk.sumsOut]
    rfl
  have hsums : ∀ j, j < 2 →
      O'.m_WeightedDeltaSumsOut.getD j 0 = q'.m_Delta * q.m_Weights.getD j 0 := by
    intro j hj
    rw [hOsum j (by rw [hOsn]; exact hj), hOp, dq]
    simp
  refine ⟨v, u, x, b, H, O, H', O', p0, p1, q, q', e, e', hav, hbl, hheap, hf.heap, hvl,
    hul, hHp, hOp, by rw [hHlen', hHn], hOp', hHout, ?_, ?_, hqw, by rw [lq, hqw], hqt,
    hdq, ?_, by rw [hOsl, hOsn], hsums, ?_⟩
  · rw [sq, wq, hin1]
  · rw [oq, aq, sq]
  · intro i hi
    rw [uq i (by rw [hqw]; exact hi), hdq]
    simp only [Nat.succ_ne_zero, if_false, Nat.add_sub_cancel, hmo]
    ring
  · intro j p p' hp hp'
    have hj : j < 2 := by
      rw [← hHn]
      exact (List.getElem?_eq_some_iff.mp hp).1
    have hjw : j < Lw0.m_Perceptrons.length := by rw [hLw0n]; exact hj
    obtain ⟨p2, hp2, w2, a2, s2, o2, _⟩ := hHu j _ (List.getElem?_eq_getElem hjw)
    rw [hp] at hp2
    cases hp2
    obtain ⟨p3, hp3, dp, lp, up⟩ := hHu' j p hp
    rw [hp'] at hp3
    cases hp3
    have bp := hHk.unit j p hp
    have hHt : H.m_Targets = none := by
      cases et : H.m_Targets with
      | none => rfl
      | some r => exact absurd (hHk.targets r et).1 (by decide)
    have hpt : p.m_Target = none := by rw [bp.target, hHt]; rfl
    have hpd : p.m_WeightedDeltaSum = some (Ref.deltaSums 1, j) := by
      rw [bp.deltaSum, hHk.sumsIn]
      rfl
    have hpw : p.m_Weights.length = (v.heap x).length + 1 := by
      have hs := hwv.sync 0 H hH Ref.localInputs (by rw [hHk.inputs]; rfl) p
        (List.getElem?_mem hp)
      rw [hs]
      simp only [c_NeuralNetwork.memory, hwv.localInputs x hav, hbv, if_true]
    have hdp : p'.m_Delta
        = c_Perceptron._calcActivDeriv M p * (q'.m_Delta * q.m_Weights.getD j 0) := by
      rw [dp, (c_Perceptron.calcDelta_eq M u.memory p).2.2.1 _ hpt hpd]
      simp only [Memory.deref, c_NeuralNetwork.memory, hO']
      rw [hsums j hj]
    refine ⟨by rw [s2, w2, hin0], by rw [o2, a2, s2], hpt, hpw, lp, hdp, ?_⟩
    intro i hi
    rw [up i hi, hdp]
    simp only [if_true, hml]
    ring

end backward2

/-! ## The weights through `setBias` -/

section bias_weights

variable {α : Type} [CommRing α] [Div α]

/-- The weights of a unit after `_connect` on its layer: those `setInputs` leaves. -/
theorem c_PerceptronLayer.connect_weights (mem : Memory α) (X : c_PerceptronLayer α)
    (i : Nat) (q : c_Perceptron α)
    (hq : (c_PerceptronLayer._connect mem X).m_Perceptrons[i]? = some q) :
    ∃ p, X.m_Perceptrons[i]? = some p ∧
      ∀ r, X.m_Inputs = some r → p.m_Weights.length = (mem r).length →
        q.m_Weights = p.m_Weights := by
  simp only [c_PerceptronLayer._connect, c_PerceptronLayer.units_connectWeightedDeltaSums,
    c_PerceptronLayer.units_connectTargets, c_PerceptronLayer.units_connectInputs,
    c_PerceptronLayer.frame_connectTargets, c_PerceptronLayer.frame_connectInputs,
    Option.map_map, Option.map_eq_some'] at hq
  obtain ⟨p, hp, hq⟩ := hq
  refine ⟨p, hp, ?_⟩
  intro r hr hlen
  subst hq
  simp only [Function.comp, hr]
  have e := c_Perceptron.setInputs_same mem r p hlen
  have h1 : (if i < X.m_Size then c_Perceptron.setInputs mem r p else p).m_Weights
      = p.m_Weights := by
    split
    · rw [e]
    · rfl
  cases hT : X.m_Targets with
  | none =>
    cases hD : X.m_WeightedDeltaSumsIn with
    | none => exact h1
    | some d =>
      simp only []
      split
      · exact h1
      · exact h1
  | some t =>
    cases hD : X.m_WeightedDeltaSumsIn with
    | none =>
      simp only []
      split
      · exact h1
      · exact h1
    | some d =>
      simp only []
      split <;> split <;> exact h1

/-- The weights of a unit of layer `k` after `_build` on it: kept, when they are as many
as the array the unit reads has elements. -/
theorem c_PerceptronLayer.builtSelf_weights (sizes : List Nat) (c k : Nat) (b : Bool)
    (w : c_NeuralNetwork α) (h : c_NeuralNetwork.Linked sizes c w) (hcn : c ≤ sizes.length)
    (L Lj : c_PerceptronLayer α) (hL : w.m_Layers[k]? = some L)
    (hj : 0 < k → w.m_Layers[k - 1]? = some Lj) (u : Nat) (q : c_Perceptron α)
    (hq : (c_PerceptronLayer.builtSelf k b w L Lj).m_Perceptrons[u]? = some q) :
    ∃ p, L.m_Perceptrons[u]? = some p ∧
      ((0 < k → p.m_Weights.length = Lj.m_Outputs.length) →
        (k = 0 → p.m_Weights.length = w.m_LocalInputs.length) →
        q.m_Weights = p.m_Weights) := by
  have hLk := h.layer k L hL
  obtain ⟨m1, m2, m3, m4, m5, m6⟩ :=
    c_PerceptronLayer.beforeConnect_memory sizes c k b w h hcn L Lj hL hj
  unfold c_PerceptronLayer.builtSelf at hq
  by_cases hk0 : 0 < k
  · simp only [hk0, if_true] at hq
    obtain ⟨p1, hp1, hw1⟩ := c_PerceptronLayer.connect_weights _ _ u q hq
    simp only [c_PerceptronLayer.frame_resizeDeltaSumsOut] at hp1
    rw [c_PerceptronLayer.units_setInputs _ _ _ (by simp)] at hp1
    rw [c_PerceptronLayer.units_build_resize _ (by simpa using hLk.units)] at hp1
    simp only [c_PerceptronLayer.frame_relink, Option.map_eq_some'] at hp1
    obtain ⟨p0, hp0, e⟩ := hp1
    refine ⟨p0, hp0, ?_⟩
    intro h1 _
    have e1 := c_Perceptron.setInputs_same
      ((c_PerceptronLayer.buildStart k b w).onLayer k c_PerceptronLayer._build_resize).memory
      (Ref.outputs (k - 1)) p0 (by rw [m5 hk0]; exact h1 hk0)
    rw [e1] at e
    have hw2 := hw1 (Ref.outputs (k - 1)) (by simp) (by
      rw [← e, m3 hk0]
      exact h1 hk0)
    rw [hw2, ← e]
  · have hk00 : k = 0 := by omega
    simp only [hk0, if_false] at hq
    obtain ⟨p1, hp1, hw1⟩ := c_PerceptronLayer.connect_weights _ _ u q hq
    rw [c_PerceptronLayer.units_build_resize _ (by simpa using hLk.units)] at hp1
    simp only [c_PerceptronLayer.frame_relink] at hp1
    refine ⟨p1, hp1, ?_⟩
    intro _ h2
    apply hw1 Ref.localInputs
    · simp only [c_PerceptronLayer.frame_build_resize, c_PerceptronLayer.frame_relink,
        hLk.inputs, hk00, if_true]
    · rw [m2]
      exact h2 hk00

/-- The weights after `c_PerceptronLayer::setBias` on layer `k` of a fully linked chain:
those of the other layers are kept, and those of a unit of layer `k` are kept when they
are as many as the array the unit reads has elements. -/
theorem c_PerceptronLayer.setBias_step_weights (sizes : List Nat) (k : Nat) (b : Bool)
    (w : c_NeuralNetwork α) (h : c_NeuralNetwork.Linked sizes sizes.length w)
    (hk : k < sizes.length) (i : Nat) (L' : c_PerceptronLayer α)
    (hL' : (c_PerceptronLayer.setBias k b w).m_Layers[i]? = some L') :
    ∃ L, w.m_Layers[i]? = some L ∧
      ∀ (u : Nat) (q : c_Perceptron α), L'.m_Perceptrons[u]? = some q →
        ∃ p, L.m_Perceptrons[u]? = some p ∧
          ((i = k → p.m_Weights.length
            = (w.memory (if k = 0 then Ref.localInputs else Ref.outputs (k - 1))).length) →
            q.m_Weights = p.m_Weights) := by
  rw [c_PerceptronLayer.setBias_eq sizes w k b h hk] at hL'
  obtain ⟨s1, s2, s3, s4, s5, s6, s7, s8, s9, s10⟩ :=
    c_PerceptronLayer.build_step sizes sizes.length k b w h (Nat.le_refl _) (by omega) hk
  obtain ⟨L0, hL0, r⟩ := s9 i L' hL'
  refine ⟨L0, hL0, ?_⟩
  intro u q hq
  by_cases e : i = k
  · subst e
    obtain ⟨Lj, hj⟩ : ∃ Lj, 0 < i → w.m_Layers[i - 1]? = some Lj := by
      by_cases hk0 : 0 < i
      · obtain ⟨Lj, hj, _⟩ := h.get (i - 1) (by omega)
        exact ⟨Lj, fun _ => hj⟩
      · exact ⟨L0, fun h => absurd h hk0⟩
    have hch := c_PerceptronLayer.build_chain sizes sizes.length i b w h L0 Lj hL0 hj i
    simp only [if_true] at hch
    rw [hL'] at hch
    cases hch
    obtain ⟨p, hp, hw⟩ := c_PerceptronLayer.builtSelf_weights sizes sizes.length i b w h
      (Nat.le_refl _) L0 Lj hL0 hj u q hq
    refine ⟨p, hp, ?_⟩
    intro hlen
    have hlen' := hlen rfl
    apply hw
    · intro hk0
      have hne : ¬ i = 0 := by omega
      simp only [hne, if_false, c_NeuralNetwork.memory, hj hk0] at hlen'
      exact hlen'
    · intro hk0
      simp only [hk0, if_true, c_NeuralNetwork.memory] at hlen'
      exact hlen'
  · obtain ⟨p, hp, _, hw⟩ := r.unit u q hq
    exact ⟨p, hp, fun _ => (hw e).1⟩

end bias_weights

section bias_same

variable {α : Type} [CommRing α] [Div α]

/-- `c_NeuralNetwork::setBias` with the flag the network has: it returns, and every unit
keeps its weights. -/
theorem c_NeuralNetwork.setBias_same (sizes : List Nat) (w : c_NeuralNetwork α)
    (hw : c_NeuralNetwork.Wired sizes w) :
    ∃ v, c_NeuralNetwork.setBias w.m_Bias w = some v ∧ c_NeuralNetwork.Wired sizes v ∧
      v.m_Bias = w.m_Bias ∧
      ∀ (i : Nat) (L' : c_PerceptronLayer α), v.m_Layers[i]? = some L' →
        ∃ L, w.m_Layers[i]? = some L ∧
          ∀ (u : Nat) (q : c_Perceptron α), L'.m_Perceptrons[u]? = some q →
            ∃ p, L.m_Perceptrons[u]? = some p ∧ q.m_Weights = p.m_Weights := by
  have h := hw.linked
  have hpos := h.pos
  obtain ⟨a, ha⟩ := h.inputs
  -- what the loop keeps
  have hstep : ∀ (d : Nat) (v : c_NeuralNetwork α), d < sizes.length →
      (c_NeuralNetwork.BiasLoop sizes w.m_Bias w d v ∧
        (∀ (i : Nat) (L' : c_PerceptronLayer α), v.m_Layers[i]? = some L' →
          ∃ L, w.m_Layers[i]? = some L ∧ L'.m_Outputs.length = L.m_Outputs.length ∧
            ∀ (u : Nat) (q : c_Perceptron α), L'.m_Perceptrons[u]? = some q →
              ∃ p, L.m_Perceptrons[u]? = some p ∧ q.m_Weights = p.m_Weights)) →
      (c_NeuralNetwork.BiasLoop sizes w.m_Bias w (d + 1)
          (c_PerceptronLayer.setBias d (w.m_Bias && decide (d + 1 < sizes.length)) v) ∧
        (∀ (i : Nat) (L' : c_PerceptronLayer α),
          (c_PerceptronLayer.setBias d (w.m_Bias && decide (d + 1 < sizes.length))
            v).m_Layers[i]? = some L' →
          ∃ L, w.m_Layers[i]? = some L ∧ L'.m_Outputs.length = L.m_Outputs.length ∧
            ∀ (u : Nat) (q : c_Perceptron α), L'.m_Perceptrons[u]? = some q →
              ∃ p, L.m_Perceptrons[u]? = some p ∧ q.m_Weights = p.m_Weights)) := by
    intro d v hd ⟨hv, hkeep⟩
    refine ⟨hv.step hd _ rfl, ?_⟩
    have st := c_PerceptronLayer.setBias_step sizes d
      (w.m_Bias && decide (d + 1 < sizes.length)) v hv.linked hd
    intro i L' hL'
    obtain ⟨L1, hL1, hu1⟩ := c_PerceptronLayer.setBias_step_weights sizes d
      (w.m_Bias && decide (d + 1 < sizes.length)) v hv.linked hd i L' hL'
    obtain ⟨L0, hL0, ho, hu0⟩ := hkeep i L1 hL1
    have hL0k := h.layer i L0 hL0
    have hL1k := hv.linked.layer i L1 hL1
    have hi : i < sizes.length := by
      rw [← h.length]
      exact (List.getElem?_eq_some_iff.mp hL0).1
    refine ⟨L0, hL0, ?_, ?_⟩
    · obtain ⟨L1', hL1', r⟩ := st.rebuilt i L' hL'
      rw [hL1] at hL1'
      cases hL1'
      rw [r.outputs]
      by_cases e : i = d
      · subst e
        have hs : L1.m_Size = L0.m_Size := by
          have e1 := hL0k.size
          have e2 := hL1k.size
          rw [e1] at e2
          exact (Option.some.inj e2).symm
        rw [hL0k.outputs, hw.bias i L0 hL0, hs]
        simp only [if_true, List.length_append, List.length_replicate]
        congr 1
        cases (w.m_Bias && decide (i + 1 < sizes.length)) <;> rfl
      · simp only [e, if_false]
        exact ho
    · intro u q hq
      obtain ⟨p1, hp1, hw1⟩ := hu1 u q hq
      obtain ⟨p0, hp0, e0⟩ := hu0 u p1 hp1
      refine ⟨p0, hp0, ?_⟩
      rw [hw1 ?_, e0]
      intro e
      subst e
      rw [e0]
      have hr0 : L0.m_Inputs
          = some (if i = 0 then Ref.localInputs else Ref.outputs (i - 1)) := by
        rw [hL0k.inputs]
        by_cases hi0 : i = 0
        · simp [hi0]
        · simp [hi0, hi]
      rw [hw.sync i L0 hL0 _ hr0 p0 (List.getElem?_mem hp0)]
      by_cases hi0 : i = 0
      · simp only [hi0, if_true, c_NeuralNetwork.memory, hv.localInputs]
      · simp only [hi0, if_false]
        obtain ⟨Lp, hLp, _⟩ := hv.linked.get (i - 1) (by omega)
        obtain ⟨Lp0, hLp0, hop, _⟩ := hkeep (i - 1) Lp hLp
        simp only [c_NeuralNetwork.memory, hLp, hLp0, hop]
  have h0 : c_NeuralNetwork.BiasLoop sizes w.m_Bias w 0 { w with m_Bias := w.m_Bias } := by
    refine ⟨h.congr rfl rfl rfl h.inputs h.targets, rfl, rfl, rfl, rfl,
      ⟨rfl, rfl, rfl, fun i L hL => ⟨L, hL, c_PerceptronLayer.Rewired.layer_refl L⟩⟩, ?_, ?_⟩
    · intro k L hk; omega
    · intro k L _ hk; omega
  -- the loop over all layers but the last
  have hloop := forLoopM_some
    (fun i => c_NeuralNetwork.atLayer i (fun k => c_PerceptronLayer.setBias k w.m_Bias))
    (fun d v => c_NeuralNetwork.BiasLoop sizes w.m_Bias w d v ∧
      (∀ (i : Nat) (L' : c_PerceptronLayer α), v.m_Layers[i]? = some L' →
        ∃ L, w.m_Layers[i]? = some L ∧ L'.m_Outputs.length = L.m_Outputs.length ∧
          ∀ (u : Nat) (q : c_Perceptron α), L'.m_Perceptrons[u]? = some q →
            ∃ p, L.m_Perceptrons[u]? = some p ∧ q.m_Weights = p.m_Weights))
    (sizes.length - 1) 0 { w with m_Bias := w.m_Bias }
    ⟨h0, fun i L' hL' => ⟨L', hL', rfl, fun u q hq => ⟨q, hq, rfl⟩⟩⟩ (by
      intro i v _ hi hv
      have hl : i < v.m_Layers.length := by rw [hv.1.linked.length]; omega
      have hs := hstep i v (by omega) hv
      have hb : (w.m_Bias && decide (i + 1 < sizes.length)) = w.m_Bias := by
        have : i + 1 < sizes.length := by omega
        simp [this]
      rw [hb] at hs
      exact ⟨_, c_NeuralNetwork.atLayer_some _ _ _ hl, hs⟩)
  obtain ⟨v1, e1, hv1⟩ := hloop
  simp only [Nat.zero_add] at hv1
  -- the last layer
  have hl1 : sizes.length - 1 < v1.m_Layers.length := by rw [hv1.1.linked.length]; omega
  have hv2 := hstep (sizes.length - 1) v1 (by omega) hv1
  have hb2 : (w.m_Bias && decide (sizes.length - 1 + 1 < sizes.length)) = false := by
    have : ¬ sizes.length - 1 + 1 < sizes.length := by omega
    simp [this]
  have hn : sizes.length - 1 + 1 = sizes.length := by omega
  rw [hb2, hn] at hv2
  obtain ⟨v3, e3, hw3, hb3, hr3, hi3, ht3, hlast⟩ :=
    c_NeuralNetwork.refeed_spec sizes w.m_Bias w _ hv2.1
  refine ⟨v3, ?_, hw3, hb3, ?_⟩
  · unfold c_NeuralNetwork.setBias
    have es : size_t_sub w.m_Size 1 = sizes.length - 1 := by
      rw [h.size]; exact size_t_sub_one _ hpos h.bound
    have es1 : size_t_sub v1.m_Size 1 = sizes.length - 1 := by
      rw [hv1.1.linked.size]; exact size_t_sub_one _ hpos h.bound
    rw [es, e1]
    simp only [Option.some_bind, es1, c_NeuralNetwork.atLayer_some _ _ _ hl1, e3]
  · intro i L' hL'
    obtain ⟨L2, hL2, _, hu2⟩ := hlast i L' hL'
    obtain ⟨L0, hL0, _, hu0⟩ := hv2.2 i L2 hL2
    refine ⟨L0, hL0, ?_⟩
    intro u q hq
    obtain ⟨p2, hp2, hor⟩ := hu2 u q hq
    obtain ⟨p0, hp0, e0⟩ := hu0 u p2 hp2
    refine ⟨p0, hp0, ?_⟩
    rcases hor with e | ⟨ei, hne⟩
    · rw [e, e0]
    · exfalso
      apply hne
      subst ei
      have hL0k := h.layer 0 L0 hL0
      rw [e0, hw.sync 0 L0 hL0 Ref.localInputs (by rw [hL0k.inputs]; rfl) p0
        (List.getElem?_mem hp0)]
      have ha3 : v3.m_Inputs = some (Ref.caller a) := by rw [hi3, hv2.1.inputs, ha]
      rw [hw3.localInputs a ha3, hb3, hr3.heap]
      exact hw.localInputs a ha

end bias_same

section bias_flip

variable {α : Type} [CommRing α] [Div α]

/-- The number of weights of a unit of a wired network. -/
theorem c_NeuralNetwork.Wired.weights_length {sizes : List Nat} {w : c_NeuralNetwork α}
    (hw : c_NeuralNetwork.Wired sizes w) (x : Nat) (hx : w.m_Inputs = some (Ref.caller x))
    (k : Nat) (L : c_PerceptronLayer α) (hL : w.m_Layers[k]? = some L)
    (p : c_Perceptron α) (hp : p ∈ L.m_Perceptrons) :
    p.m_Weights.length = (if k = 0 then (w.heap x).length else sizes.getD (k - 1) 0)
      + (if w.m_Bias then 1 else 0) := by
  have hk : k < sizes.length := by
    rw [← hw.linked.length]
    exact (List.getElem?_eq_some_iff.mp hL).1
  have hLk := hw.linked.layer k L hL
  have hin := hLk.reads hk p hp
  obtain ⟨u, hu⟩ := List.getElem?_of_mem hp
  have hsync := hw.sync k L hL _ (by rw [← (hLk.unit u p hu).inputs]; exact hin) p hp
  rw [hsync]
  by_cases hk0 : k = 0
  · simp only [hk0, if_true]
    exact hw.localInputs x hx
  · simp only [hk0, if_false]
    obtain ⟨Lp, hLp, hLpk⟩ := hw.linked.get (k - 1) (by omega)
    have hb := hw.bias (k - 1) Lp hLp
    have hlt : k - 1 + 1 < sizes.length := by omega
    simp only [hlt, decide_True, Bool.and_true] at hb
    have hs := hLpk.size
    simp only [c_NeuralNetwork.memory, hLp, hLpk.outputs, hb, List.getD_eq_getElem?_getD, hs,
      Option.getD_some]

/-- `c_NeuralNetwork::setBias` with the other flag than the network has: it returns, and
every weight of every unit is zero. -/
theorem c_NeuralNetwork.setBias_flip (sizes : List Nat) (w : c_NeuralNetwork α)
    (hw : c_NeuralNetwork.Wired sizes w) (b : Bool) (hb : b ≠ w.m_Bias) :
    ∃ v, c_NeuralNetwork.setBias b w = some v ∧ c_NeuralNetwork.Wired sizes v ∧
      v.m_Bias = b ∧
      ∀ (i : Nat) (L' : c_PerceptronLayer α), v.m_Layers[i]? = some L' →
        ∀ q ∈ L'.m_Perceptrons, q.m_Weights = List.replicate q.m_Weights.length 0 := by
  obtain ⟨v, e, hv, hbv, hr, hi, _⟩ := c_NeuralNetwork.setBias_spec sizes b w hw.linked
  refine ⟨v, e, hv, hbv, ?_⟩
  intro i L' hL' q hq
  obtain ⟨x, hx⟩ := hw.linked.inputs
  obtain ⟨L, hL, r⟩ := hr.layer i L' hL'
  obtain ⟨u, hu⟩ := List.getElem?_of_mem hq
  obtain ⟨p, hp, rp⟩ := r.unit u q hu
  rcases rp.weights with e' | e'
  · exfalso
    have h1 := hv.weights_length x (by rw [hi, hx]) i L' hL' q hq
    have h2 := hw.weights_length x hx i L hL p (List.getElem?_mem hp)
    rw [e', h2, hr.heap, hbv] at h1
    have h3 : (if w.m_Bias = true then 1 else 0) = (if b = true then 1 else 0) :=
      Nat.add_left_cancel h1
    cases hb1 : b <;> cases hb2 : w.m_Bias <;> simp [hb1, hb2] at h3 hb
  · exact e'

end bias_flip

/-! # The claims

## Units -/

section unit_claims

/-- C2. Weight-update law: for a unit with a bound input `x = mem r` and a bound target
`t = *tgt`, one `train()` returns true, keeps the number of weights and changes every
weight `i` by exactly `m_TrainRate * f'(m_SumProducts) * (t - m_Output) * x[i]`, where
`f'` is what `_calcActivDeriv` returns for the activation kind of the unit, and
`m_SumProducts`, `m_Output` are what the last `evaluate()` left. -/
theorem c_Perceptron.train_weight_update {α : Type} [CommRing α] [Div α] (M : Libm α)
    (mem : Memory α) (p : c_Perceptron α) (r : Ref) (tgt : Ref × Nat)
    (hin : p.m_Inputs = some r) (htg : p.m_Target = some tgt) :
    (c_Perceptron.train M mem p).1 = true ∧
    (c_Perceptron.train M mem p).2.m_Weights.length = p.m_Weights.length ∧
    ∀ i, i < p.m_Weights.length →
      (c_Perceptron.train M mem p).2.m_Weights.getD i 0 - p.m_Weights.getD i 0 =
        p.m_TrainRate * c_Perceptron._calcActivDeriv M p * (mem.deref tgt - p.m_Output)
          * (mem r).getD i 0 := by
  refine ⟨rfl, ?_, ?_⟩
  · simp [c_Perceptron.train, c_Perceptron._calcNewWeights, c_Perceptron._calcDelta, hin, htg,
      valarray.length_addAssign]
  · intro i hi
    simp only [c_Perceptron.train, c_Perceptron._calcNewWeights, c_Perceptron._calcDelta, hin,
      htg]
    rw [valarray.getD_addAssign _ _ _ hi, valarray.getD_smul]
    ring

/-- Witness of C2: the identity kind, weights `[1, 1]`, input `[2, 3]`, target `7`, after
an `evaluate()` that left the sum and the output `5`. -/
theorem c_Perceptron.train_weight_update_witness :
    (c_Perceptron.train (⟨id, id, id⟩ : Libm ℤ)
        (fun r => match r with | Ref.caller _ => [7] | _ => [2, 3])
        { m_Inputs := some Ref.localInputs, m_Weights := [1, 1], m_WeightedDeltas := [0, 0],
          m_Target := some (Ref.caller 0, 0), m_WeightedDeltaSum := none, m_SumProducts := 5,
          m_Output := 5, m_Delta := 0, m_TrainRate := 1,
          m_ActType := e_Activation.ACT_OTHER }).2.m_Weights.length = 2 ∧
    (c_Perceptron.train (⟨id, id, id⟩ : Libm ℤ)
        (fun r => match r with | Ref.caller _ => [7] | _ => [2, 3])
        { m_Inputs := some Ref.localInputs, m_Weights := [1, 1], m_WeightedDeltas := [0, 0],
          m_Target := some (Ref.caller 0, 0), m_WeightedDeltaSum := none, m_SumProducts := 5,
          m_Output := 5, m_Delta := 0, m_TrainRate := 1,
          m_ActType := e_Activation.ACT_OTHER }).2.m_Weights.getD 1 0 - 1
      = 1 * 5 * (7 - 5) * 3 :=
  ⟨(c_Perceptron.train_weight_update (⟨id, id, id⟩ : Libm ℤ)
      (fun r => match r with | Ref.caller _ => [7] | _ => [2, 3]) _
      Ref.localInputs (Ref.caller 0, 0) rfl rfl).2.1,
    (c_Perceptron.train_weight_update (⟨id, id, id⟩ : Libm ℤ)
      (fun r => match r with | Ref.caller _ => [7] | _ => [2, 3]) _
      Ref.localInputs (Ref.caller 0, 0) rfl rfl).2.2 1 (by decide)⟩

end unit_claims

section unit_claims2

/-- C12. Mutual exclusivity of the error sources.  `setTarget` binds the target and
unbinds the upstream error; `setWeightedDeltaSum` binds the upstream error and unbinds
the target; after any sequence of the two on a new unit, or on any unit that has not
both, the unit has not both.  On a layer: an accepted `setTargets` binds the targets and
unbinds the upstream errors, `_setWeightedDeltaSumsIn` does the converse, and after any
sequence of the two on a layer that has not both, the layer has not both. -/
theorem c_Perceptron.error_sources_exclusive {α : Type} [CommRing α] [Div α]
    (p : c_Perceptron α) (t d : Ref × Nat) (calls : List c_Perceptron.Bind)
    (mem : Memory α) (L : c_PerceptronLayer α) (r : Ref)
    (layerCalls : List c_PerceptronLayer.Bind) :
    ((c_Perceptron.setTarget t p).m_Target = some t ∧
      (c_Perceptron.setTarget t p).m_WeightedDeltaSum = none) ∧
    ((c_Perceptron.setWeightedDeltaSum d p).m_WeightedDeltaSum = some d ∧
      (c_Perceptron.setWeightedDeltaSum d p).m_Target = none) ∧
    ((c_Perceptron.Bind.runAll calls (c_Perceptron.construct : c_Perceptron α)).m_Target = none ∨
      (c_Perceptron.Bind.runAll calls
        (c_Perceptron.construct : c_Perceptron α)).m_WeightedDeltaSum = none) ∧
    ((p.m_Target = none ∨ p.m_WeightedDeltaSum = none) →
      ((c_Perceptron.Bind.runAll calls p).m_Target = none ∨
        (c_Perceptron.Bind.runAll calls p).m_WeightedDeltaSum = none)) ∧
    ((mem r).length = L.m_Size →
      (c_PerceptronLayer.setTargets mem r L).m_Targets = some r ∧
      (c_PerceptronLayer.setTargets mem r L).m_WeightedDeltaSumsIn = none) ∧
    ((c_PerceptronLayer._setWeightedDeltaSumsIn mem r L).m_WeightedDeltaSumsIn = some r ∧
      (c_PerceptronLayer._setWeightedDeltaSumsIn mem r L).m_Targets = none) ∧
    ((L.m_Targets = none ∨ L.m_WeightedDeltaSumsIn = none) →
      ((c_PerceptronLayer.Bind.runAll mem layerCalls L).m_Targets = none ∨
        (c_PerceptronLayer.Bind.runAll mem layerCalls L).m_WeightedDeltaSumsIn = none)) := by
  have hunit : ∀ (cs : List c_Perceptron.Bind) (q : c_Perceptron α),
      (q.m_Target = none ∨ q.m_WeightedDeltaSum = none) →
      ((c_Perceptron.Bind.runAll cs q).m_Target = none ∨
        (c_Perceptron.Bind.runAll cs q).m_WeightedDeltaSum = none) := by
    intro cs
    induction cs with
    | nil => intro q hq; exact hq
    | cons c cs ih =>
      intro q _
      simp only [c_Perceptron.Bind.runAll, List.foldl_cons]
      apply ih
      cases c with
      | setTarget t => exact Or.inr rfl
      | setWeightedDeltaSum d => exact Or.inl rfl
  have hst : ∀ (K : c_PerceptronLayer α) (x : Ref),
      (K.m_Targets = none ∨ K.m_WeightedDeltaSumsIn = none) →
      ((c_PerceptronLayer.setTargets mem x K).m_Targets = none ∨
        (c_PerceptronLayer.setTargets mem x K).m_WeightedDeltaSumsIn = none) := by
    intro K x hK
    unfold c_PerceptronLayer.setTargets
    split
    · right; simp
    · exact hK
  have hlayer : ∀ (cs : List c_PerceptronLayer.Bind) (K : c_PerceptronLayer α),
      (K.m_Targets = none ∨ K.m_WeightedDeltaSumsIn = none) →
      ((c_PerceptronLayer.Bind.runAll mem cs K).m_Targets = none ∨
        (c_PerceptronLayer.Bind.runAll mem cs K).m_WeightedDeltaSumsIn = none) := by
    intro cs
    induction cs with
    | nil => intro K hK; exact hK
    | cons c cs ih =>
      intro K hK
      simp only [c_PerceptronLayer.Bind.runAll, List.foldl_cons]
      apply ih
      cases c with
      | setTargets x => exact hst K x hK
      | _setWeightedDeltaSumsIn x =>
        left
        simp [c_PerceptronLayer.Bind.run]
  refine ⟨⟨rfl, rfl⟩, ⟨rfl, rfl⟩, hunit calls _ (Or.inl rfl), hunit calls p, ?_, ?_,
    hlayer layerCalls L⟩
  · intro h
    simp [c_PerceptronLayer.setTargets, h]
  · simp

/-- C13. `c_PerceptronLayer::setTargets` with an array whose length is not the unit count
returns the layer as it was; with an array of that length it records the array, clears
the upstream-error source, and binds unit `i` to element `i` of the array for every
`i` below the unit count, leaving everything else of the unit alone. -/
theorem c_PerceptronLayer.setTargets_rejects {α : Type} [CommRing α] [Div α]
    (mem : Memory α) (targets : Ref) (L : c_PerceptronLayer α) :
    ((mem targets).length ≠ L.m_Size → c_PerceptronLayer.setTargets mem targets L = L) ∧
    ((mem targets).length = L.m_Size →
      (c_PerceptronLayer.setTargets mem targets L).m_Targets = some targets ∧
      (c_PerceptronLayer.setTargets mem targets L).m_WeightedDeltaSumsIn = none ∧
      ∀ i, (c_PerceptronLayer.setTargets mem targets L).m_Perceptrons[i]? =
        if i < L.m_Size then
          (L.m_Perceptrons[i]?).map (fun p =>
            { p with m_Target := some (targets, i), m_WeightedDeltaSum := none })
        else L.m_Perceptrons[i]?) := by
  constructor
  · intro h
    simp [c_PerceptronLayer.setTargets, h]
  · intro h
    refine ⟨by simp [c_PerceptronLayer.setTargets, h],
      by simp [c_PerceptronLayer.setTargets, h], ?_⟩
    intro i
    simp only [c_PerceptronLayer.setTargets, h, if_true, c_PerceptronLayer._connectTargets,
      forEach_getElem?]
    rfl

/-- C14. `c_Perceptron::setWeights(values)` on a unit with a bound input.  With as many
values as the input has elements, the weights become the values.  With another number
of values that is at most the number of weights, the first `values.length` weights are
overwritten, the other weights and the number of weights are kept.  With more values
than weights (and another number than the input has elements) the slice assignment
writes past the end of the weights: a fault, not a truncation. -/
theorem c_Perceptron.setWeights_slice {α : Type} [CommRing α] [Div α] (mem : Memory α)
    (values : List α) (p : c_Perceptron α) (r : Ref) (hin : p.m_Inputs = some r) :
    (values.length = (mem r).length →
      c_Perceptron.setWeights mem values p = some { p with m_Weights := values }) ∧
    (values.length ≠ (mem r).length → values.length ≤ p.m_Weights.length →
      c_Perceptron.setWeights mem values p
        = some { p with m_Weights := values ++ p.m_Weights.drop values.length } ∧
      (values ++ p.m_Weights.drop values.length).length = p.m_Weights.length ∧
      (∀ i, i < values.length →
        (values ++ p.m_Weights.drop values.length)[i]? = values[i]?) ∧
      (∀ i, values.length ≤ i →
        (values ++ p.m_Weights.drop values.length)[i]? = p.m_Weights[i]?)) ∧
    (values.length ≠ (mem r).length → p.m_Weights.length < values.length →
      c_Perceptron.setWeights mem values p = none) := by
  refine ⟨?_, ?_, ?_⟩
  · intro h
    simp [c_Perceptron.setWeights, hin, h]
  · intro h hle
    refine ⟨by simp [c_Perceptron.setWeights, hin, h, valarray.sliceAssign, hle], ?_, ?_, ?_⟩
    · simp only [List.length_append, List.length_drop]; omega
    · intro i hi
      rw [List.getElem?_append_left hi]
    · intro i hi
      rw [List.getElem?_append_right hi, List.getElem?_drop]
      congr 1
      omega
  · intro h hlt
    have : ¬ values.length ≤ p.m_Weights.length := by omega
    simp [c_Perceptron.setWeights, hin, h, valarray.sliceAssign, this]

/-- Witness of C14: two weights, an input of two elements, one value and three values. -/
theorem c_Perceptron.setWeights_slice_witness :
    c_Perceptron.setWeights (fun _ => [2, 3]) [7]
        ({ m_Inputs := some Ref.localInputs, m_Weights := [1, 1], m_WeightedDeltas := [0, 0],
           m_Target := none, m_WeightedDeltaSum := none, m_SumProducts := 0,
           m_Output := 0, m_Delta := 0, m_TrainRate := 0,
           m_ActType := e_Activation.ACT_OTHER } : c_Perceptron ℤ)
      = some { m_Inputs := some Ref.localInputs, m_Weights := [7, 1],
               m_WeightedDeltas := [0, 0], m_Target := none, m_WeightedDeltaSum := none,
               m_SumProducts := 0, m_Output := 0, m_Delta := 0, m_TrainRate := 0,
               m_ActType := e_Activation.ACT_OTHER } ∧
    c_Perceptron.setWeights (fun _ => [2, 3]) [7, 8, 9]
        ({ m_Inputs := some Ref.localInputs, m_Weights := [1, 1], m_WeightedDeltas := [0, 0],
           m_Target := none, m_WeightedDeltaSum := none, m_SumProducts := 0,
           m_Output := 0, m_Delta := 0, m_TrainRate := 0,
           m_ActType := e_Activation.ACT_OTHER } : c_Perceptron ℤ) = none :=
  ⟨((c_Perceptron.setWeights_slice (fun _ => [2, 3]) [7] _ Ref.localInputs rfl).2.1
      (by decide) (by decide)).1,
    (c_Perceptron.setWeights_slice (fun _ => [2, 3]) [7, 8, 9] _ Ref.localInputs rfl).2.2
      (by decide) (by decide)⟩

/-- C15, as the code has it: when `rand()` returns values between 0 and `RAND_MAX`,
`c_Perceptron::setWeights()` keeps the number of weights and leaves every weight in the
closed interval from 0 to 1; weight `i` is below 1 exactly when call `i` of `rand()`
returned less than `RAND_MAX`. -/
theorem c_Perceptron.setWeightsRandom_range (RAND_MAX : Nat) (rand : Nat → Nat)
    (p : c_Perceptron ℝ) (hpos : 0 < RAND_MAX) (hr : ∀ i, rand i ≤ RAND_MAX) :
    (c_Perceptron.setWeightsRandom RAND_MAX rand p).m_Weights.length = p.m_Weights.length ∧
    ∀ i, i < p.m_Weights.length →
      (c_Perceptron.setWeightsRandom RAND_MAX rand p).m_Weights[i]?
        = some ((rand i : ℝ) / (RAND_MAX : ℝ)) ∧
      0 ≤ (rand i : ℝ) / (RAND_MAX : ℝ) ∧ (rand i : ℝ) / (RAND_MAX : ℝ) ≤ 1 ∧
      ((rand i : ℝ) / (RAND_MAX : ℝ) < 1 ↔ rand i < RAND_MAX) := by
  have hR : (0 : ℝ) < (RAND_MAX : ℝ) := by exact_mod_cast hpos
  refine ⟨by simp [c_Perceptron.setWeightsRandom], ?_⟩
  intro i hi
  refine ⟨by simp [c_Perceptron.setWeightsRandom, hi], by positivity, ?_, ?_⟩
  · rw [div_le_one hR]
    exact_mod_cast hr i
  · rw [div_lt_one hR]
    exact_mod_cast Iff.rfl

/-- Witness of C15: `RAND_MAX = 2`, every call of `rand()` returns 1, one weight. -/
theorem c_Perceptron.setWeightsRandom_range_witness :
    (c_Perceptron.setWeightsRandom 2 (fun _ => 1)
        ({ m_Inputs := none, m_Weights := [0], m_WeightedDeltas := [0],
           m_Target := none, m_WeightedDeltaSum := none, m_SumProducts := 0,
           m_Output := 0, m_Delta := 0, m_TrainRate := 0,
           m_ActType := e_Activation.ACT_TANH } : c_Perceptron ℝ)).m_Weights.length = 1 :=
  (c_Perceptron.setWeightsRandom_range 2 (fun _ => 1) _ (by decide) (fun _ => Nat.le_succ 1)).1

/-- Counterexample to C15 as stated: `rand()` may return `RAND_MAX`, and then the weight
written is 1, which is not below 1. -/
theorem c_Perceptron.setWeightsRandom_one :
    (c_Perceptron.setWeightsRandom 32767 (fun _ => 32767)
        ({ m_Inputs := none, m_Weights := [0], m_WeightedDeltas := [0],
           m_Target := none, m_WeightedDeltaSum := none, m_SumProducts := 0,
           m_Output := 0, m_Delta := 0, m_TrainRate := 0,
           m_ActType := e_Activation.ACT_TANH } : c_Perceptron ℝ)).m_Weights = [1] ∧
    ¬ ((c_Perceptron.setWeightsRandom 32767 (fun _ => 32767)
        ({ m_Inputs := none, m_Weights := [0], m_WeightedDeltas := [0],
           m_Target := none, m_WeightedDeltaSum := none, m_SumProducts := 0,
           m_Output := 0, m_Delta := 0, m_TrainRate := 0,
           m_ActType := e_Activation.ACT_TANH } : c_Perceptron ℝ)).m_Weights.getD 0 0 < 1) := by
  have h : (c_Perceptron.setWeightsRandom 32767 (fun _ => 32767)
        ({ m_Inputs := none, m_Weights := [0], m_WeightedDeltas := [0],
           m_Target := none, m_WeightedDeltaSum := none, m_SumProducts := 0,
           m_Output := 0, m_Delta := 0, m_TrainRate := 0,
           m_ActType := e_Activation.ACT_TANH } : c_Perceptron ℝ)).m_Weights = [1] := by
    simp [c_Perceptron.setWeightsRandom]
  rw [h]
  exact ⟨rfl, by simp⟩

end unit_claims2

section derivative_claims

/-- The derivative of the real hyperbolic tangent. -/
theorem real_hasDerivAt_tanh (x : ℝ) :
    HasDerivAt Real.tanh (1 / Real.cosh x ^ 2) x := by
  have hc : Real.cosh x ≠ 0 := ne_of_gt (Real.cosh_pos x)
  have h := (Real.hasDerivAt_sinh x).div (Real.hasDerivAt_cosh x) hc
  have e : (fun y => Real.sinh y / Real.cosh y) = Real.tanh := by
    funext y
    exact (Real.tanh_eq_sinh_div_cosh y).symm
  have e2 : (Real.cosh x * Real.cosh x - Real.sinh x * Real.sinh x) / Real.cosh x ^ 2
      = 1 / Real.cosh x ^ 2 := by
    have := Real.cosh_sq x
    congr 1
    nlinarith
  rw [← e, ← e2]
  exact h

/-- The factor of the tanh kind is `1 / cosh(s)^2`. -/
theorem c_Perceptron.calcActivDeriv_tanh (p : c_Perceptron ℝ)
    (h : p.m_ActType = e_Activation.ACT_TANH) :
    c_Perceptron._calcActivDeriv ⟨Real.tanh, Real.exp, Real.cosh⟩ p
      = 1 / Real.cosh p.m_SumProducts ^ 2 := by
  have hc : 0 < Real.cosh p.m_SumProducts := Real.cosh_pos _
  have e : Real.cosh (2 * p.m_SumProducts) + 1 = 2 * Real.cosh p.m_SumProducts ^ 2 := by
    rw [Real.cosh_two_mul, Real.cosh_sq p.m_SumProducts]
    have := Real.cosh_sq p.m_SumProducts
    nlinarith
  simp only [c_Perceptron._calcActivDeriv, h, e]
  field_simp
  ring

/-- C19, as the code has it.  For the tanh kind `evaluate()` applies `tanh(s / 2)`, whose
derivative at `s` is `1 / (2 cosh(s / 2)^2)`, while the factor that `train()` multiplies
the error by is `(2 cosh(s) / (cosh(2 s) + 1))^2 = 1 / cosh(s)^2`, the derivative of
`tanh` at `s`.  At `s = 0` the factor is `1` and the derivative of the activation is
`1 / 2`. -/
theorem c_Perceptron.tanh_factor_is_not_the_derivative (p : c_Perceptron ℝ) :
    (∀ s : ℝ, c_Perceptron._calcActivDeriv ⟨Real.tanh, Real.exp, Real.cosh⟩
        { p with m_ActType := e_Activation.ACT_TANH, m_SumProducts := s }
      = 1 / Real.cosh s ^ 2) ∧
    (∀ s : ℝ, HasDerivAt Real.tanh
      (c_Perceptron._calcActivDeriv ⟨Real.tanh, Real.exp, Real.cosh⟩
        { p with m_ActType := e_Activation.ACT_TANH, m_SumProducts := s }) s) ∧
    (∀ s : ℝ, HasDerivAt
      (fun x => (c_Perceptron._calcActivation ⟨Real.tanh, Real.exp, Real.cosh⟩
        { p with m_ActType := e_Activation.ACT_TANH, m_SumProducts := x }).m_Output)
      (1 / (2 * Real.cosh (s / 2) ^ 2)) s) ∧
    c_Perceptron._calcActivDeriv ⟨Real.tanh, Real.exp, Real.cosh⟩
        { p with m_ActType := e_Activation.ACT_TANH, m_SumProducts := 0 } = 1 ∧
    HasDerivAt
      (fun x => (c_Perceptron._calcActivation ⟨Real.tanh, Real.exp, Real.cosh⟩
        { p with m_ActType := e_Activation.ACT_TANH, m_SumProducts := x }).m_Output)
      (1 / 2) 0 ∧
    ¬ HasDerivAt
      (fun x => (c_Perceptron._calcActivation ⟨Real.tanh, Real.exp, Real.cosh⟩
        { p with m_ActType := e_Activation.ACT_TANH, m_SumProducts := x }).m_Output)
      (c_Perceptron._calcActivDeriv ⟨Real.tanh, Real.exp, Real.cosh⟩
        { p with m_ActType := e_Activation.ACT_TANH, m_SumProducts := 0 }) 0 := by
  have h1 : ∀ s : ℝ, c_Perceptron._calcActivDeriv ⟨Real.tanh, Real.exp, Real.cosh⟩
        { p with m_ActType := e_Activation.ACT_TANH, m_SumProducts := s }
      = 1 / Real.cosh s ^ 2 :=
    fun s => c_Perceptron.calcActivDeriv_tanh _ rfl
  have h3 : ∀ s : ℝ, HasDerivAt
      (fun x => (c_Perceptron._calcActivation ⟨Real.tanh, Real.exp, Real.cosh⟩
        { p with m_ActType := e_Activation.ACT_TANH, m_SumProducts := x }).m_Output)
      (1 / (2 * Real.cosh (s / 2) ^ 2)) s := by
    intro s
    have hd : HasDerivAt (fun x : ℝ => x / 2) (1 / 2) s := by
      simpa using (hasDerivAt_id s).div_const 2
    have := (real_hasDerivAt_tanh (s / 2)).comp s hd
    have e : 1 / Real.cosh (s / 2) ^ 2 * (1 / 2) = 1 / (2 * Real.cosh (s / 2) ^ 2) := by
      have hc : Real.cosh (s / 2) ≠ 0 := ne_of_gt (Real.cosh_pos _)
      field_simp
      ring
    rw [e] at this
    exact this
  have h4 : c_Perceptron._calcActivDeriv ⟨Real.tanh, Real.exp, Real.cosh⟩
        { p with m_ActType := e_Activation.ACT_TANH, m_SumProducts := 0 } = 1 := by
    rw [h1 0]
    simp
  have h5 : HasDerivAt
      (fun x => (c_Perceptron._calcActivation ⟨Real.tanh, Real.exp, Real.cosh⟩
        { p with m_ActType := e_Activation.ACT_TANH, m_SumProducts := x }).m_Output)
      (1 / 2) 0 := by
    have := h3 0
    simpa using this
  refine ⟨h1, ?_, h3, h4, h5, ?_⟩
  · intro s
    rw [h1 s]
    exact real_hasDerivAt_tanh s
  · intro h
    rw [h4] at h
    have := h.unique h5
    norm_num at this

/-- C20. Sigmoid derivative consistency: for the sigmoid kind and every real weighted sum
`s`, the factor that `train()` multiplies the error by, `exp(s) / (exp(s) + 1)^2`, is the
derivative at `s` of the function that `evaluate()` applies, `1 / (1 + exp(-s))`, and
equals `output * (1 - output)`. -/
theorem c_Perceptron.sigmoid_factor_is_the_derivative (p : c_Perceptron ℝ) (s : ℝ) :
    c_Perceptron._calcActivDeriv ⟨Real.tanh, Real.exp, Real.cosh⟩
        { p with m_ActType := e_Activation.ACT_SIGMOID, m_SumProducts := s }
      = Real.exp s / (Real.exp s + 1) ^ 2 ∧
    (c_Perceptron._calcActivation ⟨Real.tanh, Real.exp, Real.cosh⟩
        { p with m_ActType := e_Activation.ACT_SIGMOID, m_SumProducts := s }).m_Output
      = 1 / (1 + Real.exp (-s)) ∧
    HasDerivAt
      (fun x => (c_Perceptron._calcActivation ⟨Real.tanh, Real.exp, Real.cosh⟩
        { p with m_ActType := e_Activation.ACT_SIGMOID, m_SumProducts := x }).m_Output)
      (c_Perceptron._calcActivDeriv ⟨Real.tanh, Real.exp, Real.cosh⟩
        { p with m_ActType := e_Activation.ACT_SIGMOID, m_SumProducts := s }) s ∧
    c_Perceptron._calcActivDeriv ⟨Real.tanh, Real.exp, Real.cosh⟩
        { p with m_ActType := e_Activation.ACT_SIGMOID, m_SumProducts := s }
      = (c_Perceptron._calcActivation ⟨Real.tanh, Real.exp, Real.cosh⟩
          { p with m_ActType := e_Activation.ACT_SIGMOID, m_SumProducts := s }).m_Output
        * (1 - (c_Perceptron._calcActivation ⟨Real.tanh, Real.exp, Real.cosh⟩
          { p with m_ActType := e_Activation.ACT_SIGMOID, m_SumProducts := s }).m_Output) := by
  have he : 0 < Real.exp s := Real.exp_pos s
  have hn : Real.exp (-s) = 1 / Real.exp s := by
    rw [Real.exp_neg]; simp
  refine ⟨rfl, rfl, ?_, ?_⟩
  · show HasDerivAt (fun x : ℝ => 1 / (1 + Real.exp (-x)))
      (Real.exp s / (Real.exp s + 1) ^ 2) s
    have h1 : HasDerivAt (fun x : ℝ => Real.exp (-x)) (Real.exp (-s) * (-1)) s :=
      (Real.hasDerivAt_exp (-s)).comp s (hasDerivAt_neg s)
    have h2 : HasDerivAt (fun x : ℝ => 1 + Real.exp (-x)) (Real.exp (-s) * (-1)) s := by
      simpa using h1.const_add 1
    have hpos : (1 + Real.exp (-s)) ≠ 0 := by positivity
    have h3 := (hasDerivAt_const s (1 : ℝ)).div h2 hpos
    have e : (0 * (1 + Real.exp (-s)) - 1 * (Real.exp (-s) * (-1))) / (1 + Real.exp (-s)) ^ 2
        = Real.exp s / (Real.exp s + 1) ^ 2 := by
      rw [hn]
      field_simp
      ring
    rw [← e]
    exact h3
  · show Real.exp s / (Real.exp s + 1) ^ 2
      = 1 / (1 + Real.exp (-s)) * (1 - 1 / (1 + Real.exp (-s)))
    rw [hn]
    field_simp
    ring

end derivative_claims

/-! ## The network -/

section net_claims

variable {α : Type} [CommRing α] [Div α]

/-- The size and the output length of a wired network. -/
theorem c_NeuralNetwork.Wired.chain_length {sizes : List Nat} {w : c_NeuralNetwork α}
    (h : c_NeuralNetwork.Wired sizes w) (hpos : sizes ≠ []) :
    c_NeuralNetwork.getSize w = sizes.length ∧
    (c_NeuralNetwork.getOutputs w).map List.length = some (sizes.getLast hpos) := by
  have hn := h.linked.pos
  refine ⟨h.linked.size, ?_⟩
  obtain ⟨L, hL, hLk⟩ := h.linked.get (sizes.length - 1) (by omega)
  unfold c_NeuralNetwork.getOutputs
  rw [h.linked.size, size_t_sub_one _ hn h.linked.bound, hL]
  have hb := h.bias _ L hL
  have hnl : ¬ sizes.length - 1 + 1 < sizes.length := by omega
  simp only [hnl, decide_False, Bool.and_false] at hb
  have ho := hLk.outputs
  simp only [hb, Bool.false_eq_true, if_false, Nat.add_zero] at ho
  have hs := hLk.size
  rw [List.getLast_eq_getElem]
  rw [List.getElem?_eq_getElem (by omega)] at hs
  simp only [Option.some.injEq] at hs
  simp only [Option.map_some', ho, Option.some.injEq]
  exact hs.symm

end net_claims

/-- C7. Chain-length invariant: for a non-empty list of unit counts and either bias flag,
after the constructor and any sequence of steps that returns, `getSize()` is the length
of the list and `getOutputs()` has as many elements as the last entry of the list says;
every member function of the network (the setters, `evaluate()`, `train()`) returns
from that state, and both hold again after it. -/
theorem c_NeuralNetwork.chain_length_invariant {α : Type} [CommRing α] [Div α]
    (sizes : List Nat) (heap : Nat → List α) (a t : Nat)
    (actType : e_Activation) (trainRate : α) (bias : Bool) (M : Libm α) (cs : List (Call α))
    (w : c_NeuralNetwork α) (hpos : sizes ≠ []) (hbound : sizes.length < 2 ^ 64)
    (hr : (c_NeuralNetwork.construct heap (Ref.caller a) (Ref.caller t) sizes actType trainRate
      bias).bind (Call.runAll M cs) = some w) :
    (∃ w0, c_NeuralNetwork.construct heap (Ref.caller a) (Ref.caller t) sizes actType trainRate
        bias = some w0 ∧ c_NeuralNetwork.getSize w0 = sizes.length ∧
      (c_NeuralNetwork.getOutputs w0).map List.length = some (sizes.getLast hpos)) ∧
    c_NeuralNetwork.getSize w = sizes.length ∧
    (c_NeuralNetwork.getOutputs w).map List.length = some (sizes.getLast hpos) ∧
    ∀ c : Call α, c.isMember = true →
      ∃ v, Call.run M c w = some v ∧ c_NeuralNetwork.getSize v = sizes.length ∧
        (c_NeuralNetwork.getOutputs v).map List.length = some (sizes.getLast hpos) := by
  have hw := Call.reach_wired sizes heap a t actType trainRate bias M cs w hpos hbound hr
  obtain ⟨w0, e0, c0⟩ := c_NeuralNetwork.construct_spec sizes heap a t actType trainRate bias
    hpos hbound
  refine ⟨⟨w0, e0, c0.wired.chain_length hpos⟩, (hw.chain_length hpos).1,
    (hw.chain_length hpos).2, ?_⟩
  intro c hc
  obtain ⟨v, hv⟩ := Call.run_member sizes M c w hw hc
  exact ⟨v, hv, (Call.run_wired sizes M c w v hw hv).chain_length hpos⟩

/-- Witness of C7: unit counts `[2, 1]`, bias on, then `setBias(false)`, `evaluate()`,
`train()`. -/
theorem c_NeuralNetwork.chain_length_invariant_witness :
    c_NeuralNetwork.getSize exampleChain = 2 ∧
    (c_NeuralNetwork.getOutputs exampleChain).map List.length = some 1 :=
  ⟨(c_NeuralNetwork.chain_length_invariant [2, 1] exampleHeap 0 1 e_Activation.ACT_OTHER 1 true
      exampleLibm [Call.setBias false, Call.evaluate, Call.train] exampleChain (by decide)
      (by decide) (Option.some_get _).symm).2.1,
    (c_NeuralNetwork.chain_length_invariant [2, 1] exampleHeap 0 1 e_Activation.ACT_OTHER 1 true
      exampleLibm [Call.setBias false, Call.evaluate, Call.train] exampleChain (by decide)
      (by decide) (Option.some_get _).symm).2.2.1⟩

/-- C6. Bias wiring: for a non-empty list of unit counts and the bias on, the constructor
followed by any sequence of `evaluate()` and `train()` calls returns; in the state
reached there are as many layers as unit counts, every layer but the last has an output
buffer of `unitCount + 1` elements whose last one is `1`, and the last layer has an
output buffer of `unitCount` elements. -/
theorem c_NeuralNetwork.bias_wiring {α : Type} [CommRing α] [Div α]
    (sizes : List Nat) (heap : Nat → List α) (a t : Nat)
    (actType : e_Activation) (trainRate : α) (M : Libm α) (cs : List (Call α))
    (hpos : sizes ≠ []) (hbound : sizes.length < 2 ^ 64)
    (hcs : ∀ c ∈ cs, c.isPass = true) :
    ∃ w, (c_NeuralNetwork.construct heap (Ref.caller a) (Ref.caller t) sizes actType trainRate
        true).bind (Call.runAll M cs) = some w ∧
      w.m_Layers.length = sizes.length ∧
      ∀ (k : Nat) (L : c_PerceptronLayer α), w.m_Layers[k]? = some L →
        sizes[k]? = some L.m_Size ∧
        (k + 1 < sizes.length →
          L.m_Outputs.length = L.m_Size + 1 ∧ L.m_Outputs[L.m_Size]? = some 1) ∧
        (k + 1 = sizes.length → L.m_Outputs.length = L.m_Size) := by
  obtain ⟨w0, e0, c0⟩ := c_NeuralNetwork.construct_spec sizes heap a t actType trainRate true
    hpos hbound
  obtain ⟨w, hw⟩ := Call.runAll_member sizes M cs w0 c0.wired
    (fun c hc => (Call.isPass_member c (hcs c hc)).1)
  have hinv := Call.runAll_inv_of M
    (fun v => c_NeuralNetwork.Wired sizes v ∧ v.m_Bias = true) cs w0 w
    (fun c hc u v hu hr =>
      ⟨Call.run_wired sizes M c u v hu.1 hr,
        by rw [(Call.run_shape sizes M c u v hu.1 (Call.isPass_member c (hcs c hc)).2 hr).bias]
           exact hu.2⟩)
    ⟨c0.wired, c0.m_Bias⟩ hw
  refine ⟨w, by rw [e0, Option.some_bind]; exact hw, hinv.1.linked.length, ?_⟩
  intro k L hL
  obtain ⟨h1, h2, h3⟩ := hinv.1.output_shape k L hL
  exact ⟨h1, h2 hinv.2, fun e => h3 (Or.inr e)⟩

/-- Witness of C6: unit counts `[2, 1]`, then `evaluate()`, `train()`, `evaluate()`; no
weight has been seeded, so the first layer ends with the outputs `[0, 0, 1]`, the last
one with `[0]`. -/
theorem c_NeuralNetwork.bias_wiring_witness :
    (∃ w, exampleBiasRun = some w ∧ w.m_Layers.length = 2 ∧
      ∀ (k : Nat) (L : c_PerceptronLayer ℤ), w.m_Layers[k]? = some L →
        [2, 1][k]? = some L.m_Size ∧
        (k + 1 < 2 → L.m_Outputs.length = L.m_Size + 1 ∧ L.m_Outputs[L.m_Size]? = some 1) ∧
        (k + 1 = 2 → L.m_Outputs.length = L.m_Size)) ∧
    exampleBiasRun.map (fun w => w.m_Layers.map (fun L => L.m_Outputs))
      = some [[0, 0, 1], [0]] :=
  ⟨c_NeuralNetwork.bias_wiring [2, 1] exampleHeap 0 1 e_Activation.ACT_OTHER 1 exampleLibm
      [Call.evaluate, Call.train, Call.evaluate] (by decide) (by decide) (by decide),
    by decide⟩

section empty_claims

variable {α : Type} [CommRing α] [Div α]

/-- `c_NeuralNetwork::setBias` on a network without layers: the bound `m_Size - 1` of the
loop wraps around to `2^64 - 1`, and the first round indexes the empty vector. -/
theorem c_NeuralNetwork.setBias_empty (bias : Bool) (w : c_NeuralNetwork α)
    (h1 : w.m_Layers = []) (h2 : w.m_Size = 0) : c_NeuralNetwork.setBias bias w = none := by
  unfold c_NeuralNetwork.setBias
  have e : size_t_sub w.m_Size 1 = (2 ^ 64 - 2) + 1 := by
    rw [h2]
    decide
  rw [e]
  have hs : ∀ (body : Nat → c_NeuralNetwork α → Option (c_NeuralNetwork α)) (lo n : Nat)
      (s : c_NeuralNetwork α),
      forLoopM body lo (n + 1) s = (body lo s).bind (forLoopM body (lo + 1) n) :=
    fun _ _ _ _ => rfl
  rw [hs]
  simp only [c_NeuralNetwork.atLayer, h1, List.length_nil, Nat.lt_irrefl, if_false,
    Option.none_bind]

end empty_claims

/-- C9, as the code has it.  On an empty list of unit counts `_build` returns without a
layer access (every `_connect*` is guarded by `m_Layers.size() > 0`), and the loops of
`evaluate()` and `train()` run zero rounds; but `setBias`, which the constructor calls,
has no such guard: its loop bound `m_Size - 1` wraps around, `m_Layers[0]` is accessed
on the empty vector, and so the constructor faults, and so does every later
`setBias()`. -/
theorem c_NeuralNetwork.zero_layers_fault {α : Type} [CommRing α] [Div α]
    (heap : Nat → List α) (inputs targets : Ref) (actType : e_Activation) (trainRate : α)
    (bias : Bool) (M : Libm α) (w : c_NeuralNetwork α) :
    c_NeuralNetwork._build []
        { heap := heap, m_Inputs := some inputs, m_Targets := some targets,
          m_LocalInputs := [], m_Layers := [], m_Bias := false, m_Size := 0,
          m_TrainRate := 0, m_ActType := e_Activation.ACT_TANH }
      = some { heap := heap, m_Inputs := some inputs, m_Targets := some targets,
               m_LocalInputs := [], m_Layers := [], m_Bias := false, m_Size := 0,
               m_TrainRate := 0, m_ActType := e_Activation.ACT_TANH } ∧
    c_NeuralNetwork.construct heap inputs targets [] actType trainRate bias = none ∧
    (w.m_Layers = [] → w.m_Size = 0 → c_NeuralNetwork.setBias bias w = none) ∧
    (w.m_Size = 0 →
      forLoopM (fun i => c_NeuralNetwork.atLayer i (c_PerceptronLayer.evaluate M)) 0 w.m_Size w
        = some w ∧
      forLoopDownM (fun i => c_NeuralNetwork.atLayer i (c_PerceptronLayer.train M)) w.m_Size w
        = some w) := by
  have hb : c_NeuralNetwork._build []
        { heap := heap, m_Inputs := some inputs, m_Targets := some targets,
          m_LocalInputs := [], m_Layers := [], m_Bias := false, m_Size := 0,
          m_TrainRate := 0, m_ActType := e_Activation.ACT_TANH }
      = some { heap := heap, m_Inputs := some inputs, m_Targets := some targets,
               m_LocalInputs := [], m_Layers := [], m_Bias := false, m_Size := 0,
               m_TrainRate := 0, m_ActType := e_Activation.ACT_TANH } := by
    simp [c_NeuralNetwork._build, forLoop, c_NeuralNetwork._connect,
      c_NeuralNetwork._connectInputs, c_NeuralNetwork._connectTargets,
      c_NeuralNetwork._connectLayers]
  refine ⟨hb, ?_, c_NeuralNetwork.setBias_empty bias w, ?_⟩
  · unfold c_NeuralNetwork.construct
    simp only [List.length_nil]
    rw [hb, Option.some_bind, c_NeuralNetwork.setBias_empty bias _ rfl rfl]
    rfl
  · intro h
    rw [h]
    exact ⟨rfl, rfl⟩

/-- The unit size invariant on the operations of a unit and of the network:
`c_Perceptron::setInputs` leaves as many weights as the new input has elements; on a unit
that has as many weights as its bound input, `setWeights(values)`, `evaluate()` and
`train()` keep it so; and after the constructor and any sequence of calls of the
network's member functions, of stores into the caller's arrays and of
`setWeights(values)` on a unit, every unit of every layer has a bound input and as many
weights as that input has elements. -/
theorem c_Perceptron.unit_size_invariant {α : Type} [CommRing α] [Div α]
    (sizes : List Nat) (heap : Nat → List α) (a t : Nat)
    (actType : e_Activation) (trainRate : α) (bias : Bool) (M : Libm α) (cs : List (Call α))
    (w : c_NeuralNetwork α) (hpos : sizes ≠ []) (hbound : sizes.length < 2 ^ 64)
    (hr : (c_NeuralNetwork.construct heap (Ref.caller a) (Ref.caller t) sizes actType trainRate
      bias).bind (Call.runAll M cs) = some w)
    (mem : Memory α) (r : Ref) (q : c_Perceptron α) (values : List α) :
    ((c_Perceptron.setInputs mem r q).m_Inputs = some r ∧
      (c_Perceptron.setInputs mem r q).m_Weights.length = (mem r).length) ∧
    (q.m_Inputs = some r → q.m_Weights.length = (mem r).length →
      (∀ q', c_Perceptron.setWeights mem values q = some q' →
        q'.m_Inputs = some r ∧ q'.m_Weights.length = (mem r).length) ∧
      (c_Perceptron.evaluate M mem q).2.m_Inputs = some r ∧
      (c_Perceptron.evaluate M mem q).2.m_Weights.length = (mem r).length ∧
      (c_Perceptron.train M mem q).2.m_Inputs = some r ∧
      (c_Perceptron.train M mem q).2.m_Weights.length = (mem r).length) ∧
    (∀ (k : Nat) (L : c_PerceptronLayer α), w.m_Layers[k]? = some L →
      ∀ p ∈ L.m_Perceptrons, ∃ r', p.m_Inputs = some r' ∧
        p.m_Weights.length = (w.memory r').length) := by
  have hw := Call.reach_wired sizes heap a t actType trainRate bias M cs w hpos hbound hr
  refine ⟨?_, ?_, ?_⟩
  · unfold c_Perceptron.setInputs
    simp only []
    split
    · exact ⟨rfl, by simp [valarray.resize]⟩
    · rename_i h
      exact ⟨rfl, by simpa using h⟩
  · intro hin hlen
    obtain ⟨e1, e2, _⟩ := c_Perceptron.frame_evaluate M mem q
    obtain ⟨t1, _, _, _, _, _, _, t8, _⟩ := c_Perceptron.frame_train M mem q
    refine ⟨?_, by rw [e1, hin], by rw [e2, hlen], by rw [t1, hin], by rw [t8, hlen]⟩
    intro q' hq'
    unfold c_Perceptron.setWeights at hq'
    rw [hin] at hq'
    simp only [] at hq'
    split at hq'
    · simp only [valarray.sliceAssign, Option.map_eq_some'] at hq'
      obtain ⟨ws, hws, e⟩ := hq'
      subst e
      split at hws
      · cases hws
        refine ⟨rfl, ?_⟩
        simp only [List.length_append, List.length_drop]
        omega
      · cases hws
    · rename_i h
      cases hq'
      exact ⟨rfl, by simpa using h⟩
  · intro k L hL p hp
    have hLk := hw.linked.layer k L hL
    have hk : k < sizes.length := by
      rw [← hw.linked.length]
      exact (List.getElem?_eq_some_iff.mp hL).1
    obtain ⟨u, hu⟩ := List.getElem?_of_mem hp
    refine ⟨_, hLk.reads hk p hp, ?_⟩
    exact hw.sync k L hL _ (by rw [← (hLk.unit u p hu).inputs]; exact hLk.reads hk p hp) p hp

/-- An instance of the invariant: the run with unit counts `[2, 1]` that calls
`setBias(false)`, `evaluate()` and `train()`; afterwards the units of the first layer
have the two weights of the input `[2, 3]`, the unit of the last layer the two of the
first layer's outputs. -/
theorem c_Perceptron.unit_size_invariant_witness :
    (∀ (k : Nat) (L : c_PerceptronLayer ℤ), exampleChain.m_Layers[k]? = some L →
      ∀ p ∈ L.m_Perceptrons, ∃ r', p.m_Inputs = some r' ∧
        p.m_Weights.length = (exampleChain.memory r').length) ∧
    exampleChain.m_Layers.map (fun L => L.m_Perceptrons.map (fun p => p.m_Weights.length))
      = [[2, 2], [2]] :=
  ⟨(c_Perceptron.unit_size_invariant [2, 1] exampleHeap 0 1 e_Activation.ACT_OTHER 1 true
      exampleLibm [Call.setBias false, Call.evaluate, Call.train] exampleChain (by decide)
      (by decide) (Option.some_get _).symm (fun _ => []) Ref.localInputs
      c_Perceptron.construct []).2.2,
    by decide⟩

/-- C10, where the code breaks it.  Unit size invariant: in every state reached from the
constructor by a sequence of steps every unit of every layer has a bound input and as
many weights as that input has elements; `net[k].setBias(b)`, the public operation of
layer `k`, keeps that for the units of every layer but the next one; the units of layer
`k + 1` stay bound to the output buffer of layer `k`, which now has `m_Size` elements
plus one if `b` is on, and keep the weights they had, `m_Size` plus one if the flag of
layer `k` was on: when `b` is not the flag the layer had, the buffer has been resized
and the weights of the units that read it have not, and the two lengths differ. -/
theorem c_PerceptronLayer.setBias_breaks_unit_size {α : Type} [CommRing α] [Div α]
    (sizes : List Nat) (heap : Nat → List α) (a t : Nat)
    (actType : e_Activation) (trainRate : α) (bias : Bool) (M : Libm α) (cs : List (Call α))
    (w : c_NeuralNetwork α) (hpos : sizes ≠ []) (hbound : sizes.length < 2 ^ 64)
    (hr : (c_NeuralNetwork.construct heap (Ref.caller a) (Ref.caller t) sizes actType trainRate
      bias).bind (Call.runAll M cs) = some w)
    (k : Nat) (b : Bool) (hk : k < sizes.length) :
    (∀ (i : Nat) (L : c_PerceptronLayer α), w.m_Layers[i]? = some L →
      ∀ p ∈ L.m_Perceptrons, ∃ r, p.m_Inputs = some r ∧
        p.m_Weights.length = (w.memory r).length) ∧
    (∀ (i : Nat) (L' : c_PerceptronLayer α), i ≠ k + 1 →
      (c_PerceptronLayer.setBias k b w).m_Layers[i]? = some L' →
      ∀ q ∈ L'.m_Perceptrons, ∃ r, q.m_Inputs = some r ∧
        q.m_Weights.length = ((c_PerceptronLayer.setBias k b w).memory r).length) ∧
    (∀ L L' : c_PerceptronLayer α, w.m_Layers[k]? = some L →
      (c_PerceptronLayer.setBias k b w).m_Layers[k + 1]? = some L' →
      ∀ q ∈ L'.m_Perceptrons,
        q.m_Inputs = some (Ref.outputs k) ∧
        ((c_PerceptronLayer.setBias k b w).memory (Ref.outputs k)).length
          = L.m_Size + (if b then 1 else 0) ∧
        q.m_Weights.length = L.m_Size + (if L.m_Bias then 1 else 0) ∧
        (b ≠ L.m_Bias →
          q.m_Weights.length
            ≠ ((c_PerceptronLayer.setBias k b w).memory (Ref.outputs k)).length)) := by
  have hw := Call.reach_wired sizes heap a t actType trainRate bias M cs w hpos hbound hr
  have hs := c_PerceptronLayer.setBias_step sizes k b w hw.linked hk
  have hinv : ∀ (v : c_NeuralNetwork α), c_NeuralNetwork.Linked sizes sizes.length v →
      ∀ (i : Nat) (L : c_PerceptronLayer α), v.m_Layers[i]? = some L →
        c_PerceptronLayer.Sync v L →
        ∀ p ∈ L.m_Perceptrons, ∃ r, p.m_Inputs = some r ∧
          p.m_Weights.length = (v.memory r).length := by
    intro v hv i L hL hsync p hp
    have hLi := hv.layer i L hL
    have hi : i < sizes.length := by
      rw [← hv.length]
      exact (List.getElem?_eq_some_iff.mp hL).1
    obtain ⟨u, hu⟩ := List.getElem?_of_mem hp
    refine ⟨_, hLi.reads hi p hp, ?_⟩
    exact hsync _ (by rw [← (hLi.unit u p hu).inputs]; exact hLi.reads hi p hp) p hp
  refine ⟨fun i L hL => hinv w hw.linked i L hL (hw.sync i L hL), ?_, ?_⟩
  · intro i L' hi hL'
    by_cases hik : i = k
    · subst hik
      exact hinv _ hs.linked i L' hL' (hs.sync L' hL')
    · obtain ⟨L, hL, _⟩ := hs.rebuilt i L' hL'
      exact hinv _ hs.linked i L' hL' (hs.syncOther i L L' hik hi hL hL' (hw.sync i L hL))
  · intro L L' hL hL' q hq
    have hk1 : k + 1 < sizes.length := by
      rw [← hs.linked.length]
      exact (List.getElem?_eq_some_iff.mp hL').1
    obtain ⟨L1, hL1, r1⟩ := hs.rebuilt (k + 1) L' hL'
    obtain ⟨Lk', hLk', _⟩ := hs.linked.get k hk
    obtain ⟨L0, hL0, r0⟩ := hs.rebuilt k Lk' hLk'
    rw [hL] at hL0
    cases hL0
    obtain ⟨u, hu⟩ := List.getElem?_of_mem hq
    obtain ⟨p, hp, _, hkeep⟩ := r1.unit u q hu
    obtain ⟨e1, e2⟩ := hkeep (by omega)
    have hpm := List.getElem?_mem hp
    have hreads := (hw.linked.layer (k + 1) L1 hL1).reads hk1 p hpm
    simp only [Nat.succ_ne_zero, if_false, Nat.add_sub_cancel] at hreads
    have hold : p.m_Weights.length = L.m_Size + (if L.m_Bias then 1 else 0) := by
      have h1 := hw.sync (k + 1) L1 hL1 (Ref.outputs k)
        (by rw [← (hw.linked.layer (k + 1) L1 hL1 |>.unit u p hp).inputs]; exact hreads) p hpm
      rw [h1, c_NeuralNetwork.memory_outputs _ _ _ hL]
      exact (hw.linked.layer k L hL).outputs
    have hnew : ((c_PerceptronLayer.setBias k b w).memory (Ref.outputs k)).length
        = L.m_Size + (if b then 1 else 0) := by
      rw [c_NeuralNetwork.memory_outputs _ _ _ hLk', r0.outputs]
      cases b <;> simp
    refine ⟨by rw [e2]; exact hreads, hnew, by rw [e1]; exact hold, ?_⟩
    intro hb
    rw [e1, hold, hnew]
    cases b <;> cases hL : L.m_Bias <;> simp_all

/-- Witness of C10: after the constructor with unit counts `[1, 1]` and the bias on,
`net[0].setBias(false)` shrinks the output buffer of the first layer to one element,
while the unit of the second layer, bound to that buffer, keeps two weights. -/
theorem c_PerceptronLayer.setBias_breaks_unit_size_witness :
    (∀ L L' : c_PerceptronLayer ℤ, examplePair.m_Layers[0]? = some L →
      (c_PerceptronLayer.setBias 0 false examplePair).m_Layers[0 + 1]? = some L' →
      ∀ q ∈ L'.m_Perceptrons,
        q.m_Inputs = some (Ref.outputs 0) ∧
        ((c_PerceptronLayer.setBias 0 false examplePair).memory (Ref.outputs 0)).length
          = L.m_Size + (if false then 1 else 0) ∧
        q.m_Weights.length = L.m_Size + (if L.m_Bias then 1 else 0) ∧
        (false ≠ L.m_Bias →
          q.m_Weights.length
            ≠ ((c_PerceptronLayer.setBias 0 false examplePair).memory
              (Ref.outputs 0)).length)) ∧
    examplePair.m_Layers.map
        (fun L => (L.m_Bias, L.m_Perceptrons.map (fun p => (p.m_Inputs, p.m_Weights.length))))
      = [(true, [(some Ref.localInputs, 3)]), (false, [(some (Ref.outputs 0), 2)])] ∧
    (examplePair.memory (Ref.outputs 0)).length = 2 ∧
    (c_PerceptronLayer.setBias 0 false examplePair).m_Layers.map
        (fun L => L.m_Perceptrons.map (fun p => (p.m_Inputs, p.m_Weights.length)))
      = [[(some Ref.localInputs, 3)], [(some (Ref.outputs 0), 2)]] ∧
    ((c_PerceptronLayer.setBias 0 false examplePair).memory (Ref.outputs 0)).length = 1 ∧
    exampleLayerBias = c_PerceptronLayer.setBias 0 false examplePair :=
  ⟨(c_PerceptronLayer.setBias_breaks_unit_size [1, 1] exampleHeap 0 1
      e_Activation.ACT_OTHER 1 true exampleLibm [] examplePair (by decide) (by decide)
      (Option.some_get _).symm 0 false (by decide)).2.2,
    by decide, by decide, by decide, by decide, rfl⟩


/-- C18. `c_PerceptronLayer::train` on a layer `k > 0` of a network after the constructor
and any sequence of steps: afterwards the upstream-error-out buffer of the layer has as
many elements `N` as the layer before it has units, and slot `j < N` is the sum over
the units `u` of the layer of `delta_u * w_u[j]`, `delta_u` being the delta computed in
this step and `w_u` the weights before the step; the buffer's former contents do not
matter. -/
theorem c_PerceptronLayer.train_accumulates {α : Type} [CommRing α] [Div α]
    (sizes : List Nat) (heap : Nat → List α) (a t : Nat)
    (actType : e_Activation) (trainRate : α) (bias : Bool) (M : Libm α) (cs : List (Call α))
    (w : c_NeuralNetwork α) (hpos : sizes ≠ []) (hbound : sizes.length < 2 ^ 64)
    (hr : (c_NeuralNetwork.construct heap (Ref.caller a) (Ref.caller t) sizes actType trainRate
      bias).bind (Call.runAll M cs) = some w)
    (k : Nat) (L : c_PerceptronLayer α) (hk : 0 < k) (hL : w.m_Layers[k]? = some L)
    (former : List α) (hformer : former.length = L.m_WeightedDeltaSumsOut.length) :
    ∃ L', (c_PerceptronLayer.train M k w).m_Layers[k]? = some L' ∧
      sizes[k - 1]? = some L'.m_WeightedDeltaSumsOut.length ∧
      (∀ j, j < L'.m_WeightedDeltaSumsOut.length →
        L'.m_WeightedDeltaSumsOut.getD j 0
          = (L.m_Perceptrons.map (fun p =>
              (c_Perceptron._calcDelta M w.memory p).m_Delta * p.m_Weights.getD j 0)).sum) ∧
      (c_PerceptronLayer.train M k
        (w.onLayer k (fun K => { K with m_WeightedDeltaSumsOut := former }))).m_Layers[k]?
          = some L' := by
  have hw := Call.reach_wired sizes heap a t actType trainRate bias M cs w hpos hbound hr
  have hLk := hw.linked.layer k L hL
  have hkn : k < sizes.length := by
    rw [← hw.linked.length]
    exact (List.getElem?_eq_some_iff.mp hL).1
  have hreads : ∀ p ∈ L.m_Perceptrons, ∀ r, (p.m_Inputs = some r ∨
      (∃ i, p.m_Target = some (r, i)) ∨ ∃ i, p.m_WeightedDeltaSum = some (r, i)) →
      r ≠ Ref.outputs k ∧ r ≠ Ref.deltaSums k := by
    intro p hp r hr
    rcases hLk.reads_all hkn p hp r hr with e | ⟨h0, e⟩ | ⟨a', e⟩ | e
    · subst e; simp
    · subst e
      simp only [ne_eq, Ref.outputs.injEq, not_false_eq_true, and_true, reduceCtorEq]
      omega
    · subst e; simp
    · subst e; simp
  have hb : ∀ p ∈ L.m_Perceptrons, ∃ r, p.m_Inputs = some r :=
    fun p hp => ⟨_, hLk.reads hkn p hp⟩
  have hev := c_PerceptronLayer.train_eq M k w L hL hLk.units hreads
  obtain ⟨s1, s2⟩ := c_PerceptronLayer.trained_sums M w.memory L hb
  have hso := hLk.sumsOut
  have hcond : 0 < k ∧ k < sizes.length := ⟨hk, hkn⟩
  simp only [hcond, and_self, if_true] at hso
  refine ⟨c_PerceptronLayer.trained M w.memory L, ?_, ?_, ?_, ?_⟩
  · rw [hev, c_NeuralNetwork.onLayer_getElem?, hL]
    simp
  · rw [s1, hso, List.getD_eq_getElem?_getD, List.getElem?_eq_getElem (by omega)]
    simp
  · intro j hj
    rw [s1] at hj
    exact s2 j hj
  · have hL2 : (w.onLayer k (fun K => { K with m_WeightedDeltaSumsOut := former })).m_Layers[k]?
        = some { L with m_WeightedDeltaSumsOut := former } := by
      rw [c_NeuralNetwork.onLayer_getElem?, hL]
      simp
    rw [c_PerceptronLayer.train_eq M k _ _ hL2 hLk.units hreads,
      c_NeuralNetwork.onLayer_getElem?, hL2]
    simp only [if_true, Option.map_some', Option.some.injEq]
    have hm : c_PerceptronLayer.trained M
        (w.onLayer k (fun K => { K with m_WeightedDeltaSumsOut := former })).memory
        { L with m_WeightedDeltaSumsOut := former }
        = c_PerceptronLayer.trained M w.memory { L with m_WeightedDeltaSumsOut := former } := by
      apply c_PerceptronLayer.trained_congr
      intro p hp r hr
      have := hreads p hp r hr
      exact c_NeuralNetwork.memory_onLayer_ne w k _ r this.1 this.2
    rw [hm]
    simp only [c_PerceptronLayer.trained, valarray.fill, hformer]

/-- Witness of C18: the last layer of the network with unit counts `[2, 1]` and seeded
weights, after `evaluate()`; its unit has the weights `[1, 2, 3]` and gets the delta
`17 * (1 - 17) = -272`, so the two slots become `-272` and `-544`, and the bias weight
`3` goes nowhere. -/
theorem c_PerceptronLayer.train_accumulates_witness :
    (∃ L', (c_PerceptronLayer.train exampleLibm 1 exampleSeeded).m_Layers[1]? = some L' ∧
      [2, 1][1 - 1]? = some L'.m_WeightedDeltaSumsOut.length ∧
      (∀ j, j < L'.m_WeightedDeltaSumsOut.length →
        L'.m_WeightedDeltaSumsOut.getD j 0
          = ((exampleSeeded.m_Layers.getD 1 (c_PerceptronLayer.init 0)).m_Perceptrons.map
              (fun p => (c_Perceptron._calcDelta exampleLibm exampleSeeded.memory p).m_Delta
                * p.m_Weights.getD j 0)).sum) ∧
      (c_PerceptronLayer.train exampleLibm 1
        (exampleSeeded.onLayer 1
          (fun K => { K with m_WeightedDeltaSumsOut := [5, 5] }))).m_Layers[1]? = some L') ∧
    (c_PerceptronLayer.train exampleLibm 1 exampleSeeded).m_Layers.map
        (fun L => L.m_WeightedDeltaSumsOut) = [[], [-272, -544]] :=
  ⟨c_PerceptronLayer.train_accumulates [2, 1] exampleHeap 0 1 e_Activation.ACT_OTHER 1 true
      exampleLibm
      [Call.setWeights 0 0 [1, 1, 1], Call.setWeights 0 1 [1, 0, 2],
        Call.setWeights 1 0 [1, 2, 3], Call.evaluate]
      exampleSeeded (by decide) (by decide) (Option.some_get _).symm 1
      (exampleSeeded.m_Layers.getD 1 (c_PerceptronLayer.init 0)) (by decide) rfl [5, 5] rfl,
    by decide⟩

/-! ## The forward pass of the network -/

/-- C1. Forward pass: for a non-empty list of unit counts, in any state reached from the
constructor by a sequence of steps (among them the `setWeights` calls on the units),
`evaluate()` returns, keeps the weights and the kind of activation of every unit, and
leaves in slot `j` of the output buffer of layer `k` the activation of the dot product of
the weights of unit `j` of layer `k` with the effective input of layer `k`: for layer 0
the external input followed by `1` when the bias is on, for a later layer the whole
output buffer of the layer before it. With one layer, the identity kind and the bias
off, the output of a unit is the dot product of its weights and the input. -/
theorem c_NeuralNetwork.forward_pass {α : Type} [CommRing α] [Div α]
    (sizes : List Nat) (heap : Nat → List α) (a t : Nat)
    (actType : e_Activation) (trainRate : α) (bias : Bool) (M : Libm α) (cs : List (Call α))
    (w : c_NeuralNetwork α) (hpos : sizes ≠ []) (hbound : sizes.length < 2 ^ 64)
    (hr : (c_NeuralNetwork.construct heap (Ref.caller a) (Ref.caller t) sizes actType trainRate
      bias).bind (Call.runAll M cs) = some w) :
    ∃ v b, c_NeuralNetwork.evaluate M w = some v ∧
      w.m_Inputs = some (Ref.caller b) ∧ v.m_Inputs = some (Ref.caller b) ∧
      v.heap = w.heap ∧ v.m_Bias = w.m_Bias ∧
      (∀ (k n : Nat), sizes[k]? = some n →
        ∃ L L', w.m_Layers[k]? = some L ∧ v.m_Layers[k]? = some L' ∧
          ∀ j : Nat, j < n →
            ∃ p p', L.m_Perceptrons[j]? = some p ∧ L'.m_Perceptrons[j]? = some p' ∧
              p'.m_Weights = p.m_Weights ∧ p'.m_ActType = p.m_ActType ∧
              L'.m_Outputs[j]? = some (spec_activation M p.m_ActType
                (valarray.sum (valarray.mul p.m_Weights (spec_effective_input v k))))) ∧
      (sizes.length = 1 → w.m_Bias = false →
        ∀ (L : c_PerceptronLayer α) (j : Nat) (p : c_Perceptron α),
          w.m_Layers[0]? = some L → L.m_Perceptrons[j]? = some p →
          p.m_ActType = e_Activation.ACT_OTHER →
          ∃ L', v.m_Layers[0]? = some L' ∧
            L'.m_Outputs[j]? = some (valarray.sum (valarray.mul p.m_Weights (w.heap b)))) := by
  have hw := Call.reach_wired sizes heap a t actType trainRate bias M cs w hpos hbound hr
  obtain ⟨v, b, e, haw, hav, hheap, hbias, hlen, h0, hl⟩ :=
    c_NeuralNetwork.evaluate_forward sizes M w hw
  refine ⟨v, b, e, hav, haw, hheap, hbias, ?_, ?_⟩
  · intro k n hk
    have hk' : k < sizes.length := (List.getElem?_eq_some_iff.mp hk).1
    obtain ⟨L, hL, hLk⟩ := hw.linked.get k hk'
    obtain ⟨L', hL', hlen', hu⟩ := hl k L hL
    refine ⟨L, L', hL, hL', ?_⟩
    intro j hj
    have hn : n = L.m_Size := by
      have hs := hLk.size
      rw [hk] at hs
      exact Option.some.inj hs
    have hj' : j < L.m_Perceptrons.length := by rw [hLk.units, ← hn]; exact hj
    obtain ⟨p', hp', hw', ha', hs, ho, hout⟩ := hu j _ (List.getElem?_eq_getElem hj')
    exact ⟨_, p', List.getElem?_eq_getElem hj', hp', hw', ha', by rw [hout, ho]⟩
  · intro h1 hb L j p hL hp hact
    obtain ⟨L', hL', hlen', hu⟩ := hl 0 L hL
    obtain ⟨p', hp', hw', ha', hs, ho, hout⟩ := hu j p hp
    refine ⟨L', hL', ?_⟩
    rw [hout, ho, hact]
    simp only [spec_activation, spec_effective_input, haw, c_NeuralNetwork.memory_caller,
      hbias, hb, Bool.false_eq_true, if_false, List.append_nil, hheap]

/-- Witness of C1: one layer of one unit, identity kind, bias off, weights `[1, 1]`, input
`[2, 3]`: `evaluate()` leaves the output 5. -/
theorem c_NeuralNetwork.forward_pass_witness :
    (∃ v b, c_NeuralNetwork.evaluate exampleLibm exampleSingle = some v ∧
      exampleSingle.m_Inputs = some (Ref.caller b) ∧ v.m_Inputs = some (Ref.caller b) ∧
      v.heap = exampleSingle.heap ∧ v.m_Bias = exampleSingle.m_Bias ∧
      (∀ (k n : Nat), [1][k]? = some n →
        ∃ L L', exampleSingle.m_Layers[k]? = some L ∧ v.m_Layers[k]? = some L' ∧
          ∀ j : Nat, j < n →
            ∃ p p', L.m_Perceptrons[j]? = some p ∧ L'.m_Perceptrons[j]? = some p' ∧
              p'.m_Weights = p.m_Weights ∧ p'.m_ActType = p.m_ActType ∧
              L'.m_Outputs[j]? = some (spec_activation exampleLibm p.m_ActType
                (valarray.sum (valarray.mul p.m_Weights (spec_effective_input v k))))) ∧
      ([1].length = 1 → exampleSingle.m_Bias = false →
        ∀ (L : c_PerceptronLayer ℤ) (j : Nat) (p : c_Perceptron ℤ),
          exampleSingle.m_Layers[0]? = some L → L.m_Perceptrons[j]? = some p →
          p.m_ActType = e_Activation.ACT_OTHER →
          ∃ L', v.m_Layers[0]? = some L' ∧
            L'.m_Outputs[j]? = some (valarray.sum (valarray.mul p.m_Weights
              (exampleSingle.heap b))))) ∧
    (c_NeuralNetwork.evaluate exampleLibm exampleSingle).map
      (fun v => v.m_Layers.map (fun L => L.m_Outputs)) = some [[5]] :=
  ⟨c_NeuralNetwork.forward_pass [1] exampleHeap 0 1 e_Activation.ACT_OTHER 0 false exampleLibm
      [Call.setWeights 0 0 [1, 1]] exampleSingle (by decide) (by decide)
      (Option.some_get _).symm,
    by decide⟩

/-- C5. Idempotence of the forward pass: for a non-empty list of unit counts, in any
state reached from the constructor by a sequence of steps, `evaluate()` returns, and a
second `evaluate()` right after it (no write to the inputs or the weights in between)
returns the very state the first one returned: every output buffer, and every other
member, is what it was after the first call. -/
theorem c_NeuralNetwork.evaluate_idempotent {α : Type} [CommRing α] [Div α]
    (sizes : List Nat) (heap : Nat → List α) (a t : Nat)
    (actType : e_Activation) (trainRate : α) (bias : Bool) (M : Libm α) (cs : List (Call α))
    (w : c_NeuralNetwork α) (hpos : sizes ≠ []) (hbound : sizes.length < 2 ^ 64)
    (hr : (c_NeuralNetwork.construct heap (Ref.caller a) (Ref.caller t) sizes actType trainRate
      bias).bind (Call.runAll M cs) = some w) :
    ∃ v, c_NeuralNetwork.evaluate M w = some v ∧ c_NeuralNetwork.evaluate M v = some v ∧
      Call.runAll M [Call.evaluate, Call.evaluate] w = Call.runAll M [Call.evaluate] w := by
  have hw := Call.reach_wired sizes heap a t actType trainRate bias M cs w hpos hbound hr
  obtain ⟨v, e1, e2⟩ := c_NeuralNetwork.evaluate_again sizes M w hw
  refine ⟨v, e1, e2, ?_⟩
  simp only [Call.runAll, Call.run, e1, Option.some_bind, e2]

/-- Witness of C5: unit counts `[2, 1]`, bias on, the weights set to `[1, 1, 1]`,
`[1, 0, 2]` and `[1, 2, 3]`, the input `[2, 3]`: one `evaluate()` and two of them both
leave the outputs `[6, 4, 1]` and `[17]`. -/
theorem c_NeuralNetwork.evaluate_idempotent_witness :
    (∃ v, c_NeuralNetwork.evaluate exampleLibm exampleWeighted = some v ∧
      c_NeuralNetwork.evaluate exampleLibm v = some v ∧
      Call.runAll exampleLibm [Call.evaluate, Call.evaluate] exampleWeighted
        = Call.runAll exampleLibm [Call.evaluate] exampleWeighted) ∧
    (Call.runAll exampleLibm [Call.evaluate, Call.evaluate] exampleWeighted).map
      (fun v => v.m_Layers.map (fun L => L.m_Outputs)) = some [[6, 4, 1], [17]] :=
  ⟨c_NeuralNetwork.evaluate_idempotent [2, 1] exampleHeap 0 1 e_Activation.ACT_OTHER 1 true
      exampleLibm [Call.setWeights 0 0 [1, 1, 1], Call.setWeights 0 1 [1, 0, 2],
        Call.setWeights 1 0 [1, 2, 3]] exampleWeighted (by decide) (by decide)
      (Option.some_get _).symm,
    by decide⟩

/-! ## The rate and the kind of activation -/

/-- C17. Configuration fan-out: for a non-empty list of unit counts, in the state reached
from the constructor (called with the kind `actType` and the rate `trainRate`) by any
sequence of steps, there are as many layers as unit counts, and the network, every layer
and every unit of every layer hold the rate and the kind set most recently (by the
constructor, or by the last `setTrainRate`, `setActivation` among the steps); a further
`setTrainRate(x)` or `setActivation(x)` returns, and leaves `x` in the network, in every
layer and in every unit, and the other of the two as it was. -/
theorem c_NeuralNetwork.configuration_fan_out {α : Type} [CommRing α] [Div α]
    (sizes : List Nat) (heap : Nat → List α) (a t : Nat)
    (actType : e_Activation) (trainRate : α) (bias : Bool) (M : Libm α) (cs : List (Call α))
    (w : c_NeuralNetwork α) (hpos : sizes ≠ []) (hbound : sizes.length < 2 ^ 64)
    (hr : (c_NeuralNetwork.construct heap (Ref.caller a) (Ref.caller t) sizes actType trainRate
      bias).bind (Call.runAll M cs) = some w) :
    w.m_Layers.length = sizes.length ∧
    (∀ (k : Nat) (L : c_PerceptronLayer α), w.m_Layers[k]? = some L →
      sizes[k]? = some L.m_Perceptrons.length) ∧
    c_NeuralNetwork.Uniform (spec_last_rate trainRate cs) (spec_last_kind actType cs) w ∧
    (∀ x : α, ∃ v, c_NeuralNetwork.setTrainRate x w = some v ∧
      v.m_Layers.length = sizes.length ∧
      c_NeuralNetwork.Uniform x (spec_last_kind actType cs) v) ∧
    (∀ x : e_Activation, ∃ v, c_NeuralNetwork.setActivation x w = some v ∧
      v.m_Layers.length = sizes.length ∧
      c_NeuralNetwork.Uniform (spec_last_rate trainRate cs) x v) := by
  obtain ⟨w0, e0, c0⟩ := c_NeuralNetwork.construct_spec sizes heap a t actType trainRate bias
    hpos hbound
  have hu0 := c_NeuralNetwork.construct_uniform sizes heap a t actType trainRate bias hpos
    hbound w0 e0
  rw [e0, Option.some_bind] at hr
  have hw := Call.runAll_inv M (c_NeuralNetwork.Wired sizes)
    (fun c w v hw hr => Call.run_wired sizes M c w v hw hr) cs w0 w c0.wired hr
  have hu := Call.runAll_uniform sizes M cs w0 w trainRate actType c0.wired hu0 hr
  refine ⟨hw.linked.length, ?_, hu, ?_, ?_⟩
  · intro k L hL
    rw [(hw.linked.layer k L hL).units]
    exact (hw.linked.layer k L hL).size
  · intro x
    have e : Call.run M (Call.setTrainRate x) w = c_NeuralNetwork.setTrainRate x w := rfl
    have e' := c_NeuralNetwork.setTrainRate_spec sizes x w hw
    rw [← e] at e'
    exact ⟨_, by rw [← e]; exact e',
      (Call.run_wired sizes M _ w _ hw e').linked.length,
      Call.run_uniform sizes M _ w _ _ _ hw hu e'⟩
  · intro x
    have e : Call.run M (Call.setActivation x) w = c_NeuralNetwork.setActivation x w := rfl
    have e' := c_NeuralNetwork.setActivation_spec sizes x w hw
    rw [← e] at e'
    exact ⟨_, by rw [← e]; exact e',
      (Call.run_wired sizes M _ w _ hw e').linked.length,
      Call.run_uniform sizes M _ w _ _ _ hw hu e'⟩

/-- Witness of C17: unit counts `[2, 1]`, the tanh kind and the rate 1, then
`setTrainRate(3)`, `evaluate()`, `setActivation` to the identity kind, `setBias(false)`,
`train()`, `setTrainRate(5)`: the rate is 5 and the kind the identity one in the network,
in both layers and in the three units. -/
theorem c_NeuralNetwork.configuration_fan_out_witness :
    c_NeuralNetwork.Uniform (5 : ℤ) e_Activation.ACT_OTHER exampleConfig ∧
    (exampleConfig.m_TrainRate, exampleConfig.m_ActType) = (5, e_Activation.ACT_OTHER) ∧
    exampleConfig.m_Layers.map (fun L => (L.m_TrainRate, L.m_ActType,
      L.m_Perceptrons.map (fun p => (p.m_TrainRate, p.m_ActType))))
      = [(5, e_Activation.ACT_OTHER,
          [(5, e_Activation.ACT_OTHER), (5, e_Activation.ACT_OTHER)]),
        (5, e_Activation.ACT_OTHER, [(5, e_Activation.ACT_OTHER)])] :=
  ⟨(c_NeuralNetwork.configuration_fan_out [2, 1] exampleHeap 0 1 e_Activation.ACT_TANH 1 true
      exampleLibm
      [Call.setTrainRate 3, Call.evaluate, Call.setActivation e_Activation.ACT_OTHER,
        Call.setBias false, Call.train, Call.setTrainRate 5] exampleConfig (by decide)
      (by decide) (Option.some_get _).symm).2.2.1,
    by decide, by decide⟩

/-! ## The bias switched off and on again -/

/-- C16. Bias toggle round trip: for a non-empty list of unit counts, in any state
reached from the constructor by a sequence of steps in which the bias is on,
`setBias(false)` and then `setBias(true)` both return; after them the bias is on, the
local input array, the output array and the error-sum array of every layer, and the
weights and the weighted deltas of every unit have the lengths they had before, the bias
slot of every layer but the last holds `1`, and every layer and every unit is bound to
the same input array and the same error source as before. -/
theorem c_NeuralNetwork.bias_toggle_round_trip {α : Type} [CommRing α] [Div α]
    (sizes : List Nat) (heap : Nat → List α) (a t : Nat)
    (actType : e_Activation) (trainRate : α) (bias : Bool) (M : Libm α) (cs : List (Call α))
    (w : c_NeuralNetwork α) (hpos : sizes ≠ []) (hbound : sizes.length < 2 ^ 64)
    (hr : (c_NeuralNetwork.construct heap (Ref.caller a) (Ref.caller t) sizes actType trainRate
      bias).bind (Call.runAll M cs) = some w)
    (hb : w.m_Bias = true) :
    ∃ v1 v2, c_NeuralNetwork.setBias false w = some v1 ∧
      c_NeuralNetwork.setBias true v1 = some v2 ∧
      v2.m_Bias = true ∧ v2.m_Inputs = w.m_Inputs ∧ v2.m_Targets = w.m_Targets ∧
      v2.m_LocalInputs.length = w.m_LocalInputs.length ∧
      v2.m_Layers.length = w.m_Layers.length ∧
      ∀ (k : Nat) (L : c_PerceptronLayer α), w.m_Layers[k]? = some L →
        ∃ L2, v2.m_Layers[k]? = some L2 ∧
          L2.m_Outputs.length = L.m_Outputs.length ∧
          L2.m_WeightedDeltaSumsOut.length = L.m_WeightedDeltaSumsOut.length ∧
          (k + 1 < sizes.length →
            L2.m_Outputs.length = L2.m_Size + 1 ∧ L2.m_Outputs[L2.m_Size]? = some 1) ∧
          L2.m_Inputs = L.m_Inputs ∧ L2.m_Targets = L.m_Targets ∧
          L2.m_WeightedDeltaSumsIn = L.m_WeightedDeltaSumsIn ∧
          L2.m_Input = L.m_Input ∧ L2.m_Output = L.m_Output ∧
          L2.m_Perceptrons.length = L.m_Perceptrons.length ∧
          ∀ (j : Nat) (p : c_Perceptron α), L.m_Perceptrons[j]? = some p →
            ∃ q, L2.m_Perceptrons[j]? = some q ∧
              q.m_Weights.length = p.m_Weights.length ∧
              q.m_WeightedDeltas.length = p.m_WeightedDeltas.length ∧
              q.m_Inputs = p.m_Inputs ∧ q.m_Target = p.m_Target ∧
              q.m_WeightedDeltaSum = p.m_WeightedDeltaSum := by
  have hw := Call.reach_wired sizes heap a t actType trainRate bias M cs w hpos hbound hr
  obtain ⟨v1, v2, e1, e2, hw2, s⟩ := c_NeuralNetwork.setBias_toggle sizes w hw hb
  refine ⟨v1, v2, e1, e2, by rw [s.bias, hb], s.inputs, s.targets, s.localInputs, s.layers, ?_⟩
  intro k L hL
  have hk : k < sizes.length := by
    rw [← hw.linked.length]
    exact (List.getElem?_eq_some_iff.mp hL).1
  obtain ⟨L2, hL2, hLk2⟩ := hw2.linked.get k hk
  obtain ⟨L0, hL0, sl⟩ := s.layer k L2 hL2
  rw [hL] at hL0
  cases hL0
  refine ⟨L2, hL2, sl.outputs, sl.sumsOut, ?_, sl.inputs, sl.targets, sl.sumsIn, sl.input,
    sl.output, sl.units, ?_⟩
  · intro hk1
    exact (hw2.output_shape k L2 hL2).2.1 (by rw [s.bias, hb]) hk1
  · intro j p hp
    have hj : j < L2.m_Perceptrons.length := by
      rw [sl.units]
      exact (List.getElem?_eq_some_iff.mp hp).1
    obtain ⟨p0, hp0, su⟩ := sl.unit j _ (List.getElem?_eq_getElem hj)
    rw [hp] at hp0
    cases hp0
    refine ⟨_, List.getElem?_eq_getElem hj, su.weights, ?_, su.inputs, su.target, su.deltaSum⟩
    rw [su.deltas, su.weights, ((hw.linked.layer k L hL).unit j p hp).deltas]

/-- Witness of C16: unit counts `[2, 1]`, bias on, input `[2, 3]`, the weights seeded;
after `setBias(false)` and `setBias(true)` the two layers have output arrays of 3 and 1
elements and units of 3 weights each, as before, and the bias slot holds 1. -/
theorem c_NeuralNetwork.bias_toggle_round_trip_witness :
    (∃ v1 v2, c_NeuralNetwork.setBias false exampleWeighted = some v1 ∧
      c_NeuralNetwork.setBias true v1 = some v2 ∧
      v2.m_Bias = true ∧ v2.m_Inputs = exampleWeighted.m_Inputs ∧
      v2.m_Targets = exampleWeighted.m_Targets ∧
      v2.m_LocalInputs.length = exampleWeighted.m_LocalInputs.length ∧
      v2.m_Layers.length = exampleWeighted.m_Layers.length ∧
      ∀ (k : Nat) (L : c_PerceptronLayer ℤ), exampleWeighted.m_Layers[k]? = some L →
        ∃ L2, v2.m_Layers[k]? = some L2 ∧
          L2.m_Outputs.length = L.m_Outputs.length ∧
          L2.m_WeightedDeltaSumsOut.length = L.m_WeightedDeltaSumsOut.length ∧
          (k + 1 < [2, 1].length →
            L2.m_Outputs.length = L2.m_Size + 1 ∧ L2.m_Outputs[L2.m_Size]? = some 1) ∧
          L2.m_Inputs = L.m_Inputs ∧ L2.m_Targets = L.m_Targets ∧
          L2.m_WeightedDeltaSumsIn = L.m_WeightedDeltaSumsIn ∧
          L2.m_Input = L.m_Input ∧ L2.m_Output = L.m_Output ∧
          L2.m_Perceptrons.length = L.m_Perceptrons.length ∧
          ∀ (j : Nat) (p : c_Perceptron ℤ), L.m_Perceptrons[j]? = some p →
            ∃ q, L2.m_Perceptrons[j]? = some q ∧
              q.m_Weights.length = p.m_Weights.length ∧
              q.m_WeightedDeltas.length = p.m_WeightedDeltas.length ∧
              q.m_Inputs = p.m_Inputs ∧ q.m_Target = p.m_Target ∧
              q.m_WeightedDeltaSum = p.m_WeightedDeltaSum) ∧
    exampleWeighted.m_Layers.map (fun L => (L.m_Outputs.length,
        L.m_Perceptrons.map (fun p => p.m_Weights.length))) = [(3, [3, 3]), (1, [3])] ∧
    ((c_NeuralNetwork.setBias false exampleWeighted).bind (c_NeuralNetwork.setBias true)).map
      (fun v => v.m_Layers.map (fun L => (L.m_Outputs,
        L.m_Perceptrons.map (fun p => p.m_Weights.length))))
      = some [([0, 0, 1], [3, 3]), ([0], [3])] :=
  ⟨c_NeuralNetwork.bias_toggle_round_trip [2, 1] exampleHeap 0 1 e_Activation.ACT_OTHER 1 true
      exampleLibm [Call.setWeights 0 0 [1, 1, 1], Call.setWeights 0 1 [1, 0, 2],
        Call.setWeights 1 0 [1, 2, 3]] exampleWeighted (by decide) (by decide)
      (Option.some_get _).symm (by decide),
    by decide, by decide⟩

/-! ## Where the error of a unit comes from -/

/-- C11. Error-source placement: for a non-empty list of unit counts and a target array
with as many elements as the last layer has units, in the state reached from the
constructor by any sequence of steps (`setBias`, `setInputs`, `setTargets` among them)
there is an array `b` of the caller, with as many elements as the last layer has units
(and it is the array the network points to, if that one has as many), such that unit
`j` of the last layer has its target bound to element `j` of `b` and no error sum, and
unit `j` of any other layer `k` has no target and its error sum bound to element `j` of
the error-sum array of layer `k + 1`. -/
theorem c_NeuralNetwork.error_source_placement {α : Type} [CommRing α] [Div α]
    (sizes : List Nat) (heap : Nat → List α) (a t : Nat)
    (actType : e_Activation) (trainRate : α) (bias : Bool) (M : Libm α) (cs : List (Call α))
    (w : c_NeuralNetwork α) (hpos : sizes ≠ []) (hbound : sizes.length < 2 ^ 64)
    (hlen : (heap t).length = sizes.getLast hpos)
    (hr : (c_NeuralNetwork.construct heap (Ref.caller a) (Ref.caller t) sizes actType trainRate
      bias).bind (Call.runAll M cs) = some w) :
    ∃ b, (w.heap b).length = sizes.getLast hpos ∧
      (∀ c, w.m_Targets = some (Ref.caller c) → (w.heap c).length = sizes.getLast hpos →
        b = c) ∧
      ∀ (k n : Nat), sizes[k]? = some n →
        ∃ L, w.m_Layers[k]? = some L ∧ L.m_Perceptrons.length = n ∧
          ∀ (j : Nat) (p : c_Perceptron α), L.m_Perceptrons[j]? = some p →
            (k + 1 = sizes.length →
              p.m_Target = some (Ref.caller b, j) ∧ p.m_WeightedDeltaSum = none) ∧
            (k + 1 < sizes.length →
              p.m_Target = none ∧ p.m_WeightedDeltaSum = some (Ref.deltaSums (k + 1), j)) := by
  obtain ⟨hw, ht⟩ := Call.reach_targeted sizes heap a t actType trainRate bias M cs w hpos
    hbound hlen hr
  have hn : 0 < sizes.length := List.length_pos.mpr hpos
  obtain ⟨Ll, hLl, hLlk⟩ := hw.linked.get (sizes.length - 1) (by omega)
  obtain ⟨b, hb⟩ := ht.bound Ll hLl
  have hsz : Ll.m_Size = sizes.getLast hpos := by
    have hs := hLlk.size
    rw [List.getElem?_eq_getElem (by omega)] at hs
    rw [List.getLast_eq_getElem]
    exact (Option.some.inj hs).symm
  refine ⟨b, ?_, ?_, ?_⟩
  · obtain ⟨_, b', e, hl⟩ := hLlk.targets _ hb
    cases e
    rw [hl, hsz]
  · intro c hc hl
    have e := ht.current Ll c hLl hc (by rw [hl, hsz])
    rw [hb] at e
    cases e
    rfl
  · intro k n hk
    have hk' : k < sizes.length := (List.getElem?_eq_some_iff.mp hk).1
    obtain ⟨L, hL, hLk⟩ := hw.linked.get k hk'
    have hnL : n = L.m_Size := by
      have hs := hLk.size
      rw [hk] at hs
      exact Option.some.inj hs
    refine ⟨L, hL, by rw [hLk.units, hnL], ?_⟩
    intro j p hp
    have bp := hLk.unit j p hp
    refine ⟨?_, ?_⟩
    · intro hk1
      have ek : k = sizes.length - 1 := by omega
      subst ek
      rw [hLl] at hL
      cases hL
      have hs := hLk.sumsIn
      have hnl : ¬ sizes.length - 1 + 1 < sizes.length := by omega
      simp only [hnl, if_false] at hs
      refine ⟨by rw [bp.target, hb]; rfl, by rw [bp.deltaSum, hs]; rfl⟩
    · intro hk1
      have e1 : L.m_Targets = none := by
        cases e : L.m_Targets with
        | none => rfl
        | some r => exact absurd (hLk.targets r e).1 (by omega)
      have hs := hLk.sumsIn
      simp only [hk1, if_true] at hs
      exact ⟨by rw [bp.target, e1]; rfl, by rw [bp.deltaSum, hs]; rfl⟩

/-- Witness of C11: unit counts `[2, 1]`, the target array `[1]` at address 1; after
`setBias(false)`, `setInputs`, `setTargets` with that array and `setBias(true)` the two
units of the first layer have no target and the error sums 0 and 1 of layer 1, the unit
of the last layer has element 0 of the target array and no error sum. -/
theorem c_NeuralNetwork.error_source_placement_witness :
    (∃ b, (exampleTarget.heap b).length = [2, 1].getLast (by decide) ∧
      (∀ c, exampleTarget.m_Targets = some (Ref.caller c) →
        (exampleTarget.heap c).length = [2, 1].getLast (by decide) → b = c) ∧
      ∀ (k n : Nat), [2, 1][k]? = some n →
        ∃ L, exampleTarget.m_Layers[k]? = some L ∧ L.m_Perceptrons.length = n ∧
          ∀ (j : Nat) (p : c_Perceptron ℤ), L.m_Perceptrons[j]? = some p →
            (k + 1 = [2, 1].length →
              p.m_Target = some (Ref.caller b, j) ∧ p.m_WeightedDeltaSum = none) ∧
            (k + 1 < [2, 1].length →
              p.m_Target = none ∧
              p.m_WeightedDeltaSum = some (Ref.deltaSums (k + 1), j))) ∧
    exampleTarget.m_Layers.map (fun L => L.m_Perceptrons.map (fun p =>
        (p.m_Target, p.m_WeightedDeltaSum)))
      = [[(none, some (Ref.deltaSums 1, 0)), (none, some (Ref.deltaSums 1, 1))],
        [(some (Ref.caller 1, 0), none)]] :=
  ⟨c_NeuralNetwork.error_source_placement [2, 1] exampleHeap 0 1 e_Activation.ACT_OTHER 1 true
      exampleLibm [Call.setBias false, Call.setInputs 0, Call.setTargets 1, Call.setBias true]
      exampleTarget (by decide) (by decide) (by decide) (Option.some_get _).symm,
    by decide⟩

/-! ## `train()` before any `evaluate()` -/

/-- C8, as the code has it. Train before evaluate: for a non-empty list of unit counts,
any kind of activation, input array and target array, the constructor returns and
`train()` right after it returns; every unit then has the sum and the output 0 and zero
weights; `train()` leaves the delta 0 and the weights as they are in every unit of every
layer but the last, and in a unit of the last layer that has no target; in unit `j` of
the last layer, when the target array has as many elements as that layer has units, it
leaves the delta `_calcActivDeriv() * target[j]`, taken at the sum 0. -/
theorem c_NeuralNetwork.train_before_evaluate {α : Type} [CommRing α] [Div α]
    (sizes : List Nat) (heap : Nat → List α) (a t : Nat)
    (actType : e_Activation) (trainRate : α) (bias : Bool) (M : Libm α)
    (hpos : sizes ≠ []) (hbound : sizes.length < 2 ^ 64) :
    ∃ w v, c_NeuralNetwork.construct heap (Ref.caller a) (Ref.caller t) sizes actType trainRate
        bias = some w ∧
      c_NeuralNetwork.train M w = some v ∧ v.m_Layers.length = sizes.length ∧
      ∀ (k n : Nat), sizes[k]? = some n →
        ∃ L L', w.m_Layers[k]? = some L ∧ v.m_Layers[k]? = some L' ∧
          L'.m_Perceptrons.length = n ∧
          ∀ j : Nat, j < n →
            ∃ p q, L.m_Perceptrons[j]? = some p ∧ L'.m_Perceptrons[j]? = some q ∧
              p.m_SumProducts = 0 ∧ p.m_Output = 0 ∧ p.m_ActType = actType ∧
              p.m_Weights = valarray.resize p.m_Weights.length ∧
              (k + 1 < sizes.length → q.m_Delta = 0 ∧ q.m_Weights = p.m_Weights) ∧
              (k + 1 = sizes.length → p.m_Target = none →
                q.m_Delta = 0 ∧ q.m_Weights = p.m_Weights) ∧
              (k + 1 = sizes.length → (heap t).length = n →
                p.m_Target = some (Ref.caller t, j) ∧
                q.m_Delta = c_Perceptron._calcActivDeriv M p * (heap t).getD j 0) :=
  c_NeuralNetwork.train_fresh sizes heap a t actType trainRate bias M hpos hbound

/-- Witness of C8: unit counts `[2, 1]`, the identity kind (whose derivative factor is
the sum, 0 here), input `[2, 3]`, target `[1]`: `train()` right after the constructor
leaves the delta 0 in the three units. -/
theorem c_NeuralNetwork.train_before_evaluate_witness :
    (∃ w v, c_NeuralNetwork.construct exampleHeap (Ref.caller 0) (Ref.caller 1) [2, 1]
        e_Activation.ACT_OTHER 1 true = some w ∧
      c_NeuralNetwork.train exampleLibm w = some v ∧ v.m_Layers.length = [2, 1].length ∧
      ∀ (k n : Nat), [2, 1][k]? = some n →
        ∃ L L', w.m_Layers[k]? = some L ∧ v.m_Layers[k]? = some L' ∧
          L'.m_Perceptrons.length = n ∧
          ∀ j : Nat, j < n →
            ∃ p q, L.m_Perceptrons[j]? = some p ∧ L'.m_Perceptrons[j]? = some q ∧
              p.m_SumProducts = 0 ∧ p.m_Output = 0 ∧
              p.m_ActType = e_Activation.ACT_OTHER ∧
              p.m_Weights = valarray.resize p.m_Weights.length ∧
              (k + 1 < [2, 1].length → q.m_Delta = 0 ∧ q.m_Weights = p.m_Weights) ∧
              (k + 1 = [2, 1].length → p.m_Target = none →
                q.m_Delta = 0 ∧ q.m_Weights = p.m_Weights) ∧
              (k + 1 = [2, 1].length → (exampleHeap 1).length = n →
                p.m_Target = some (Ref.caller 1, j) ∧
                q.m_Delta = c_Perceptron._calcActivDeriv exampleLibm p
                  * (exampleHeap 1).getD j 0)) ∧
    exampleFreshRun.map (fun v => v.m_Layers.map (fun L =>
        L.m_Perceptrons.map (fun p => (p.m_Delta, p.m_Weights))))
      = some [[(0, [0, 0, 0]), (0, [0, 0, 0])], [(0, [0, 0, 0])]] :=
  ⟨c_NeuralNetwork.train_before_evaluate [2, 1] exampleHeap 0 1 e_Activation.ACT_OTHER 1 true
      exampleLibm (by decide) (by decide),
    by decide⟩

/-- Counter-example to C8 as worded: one layer of one unit, the tanh kind, rate 1, bias
off, the input `[1]` and the target `[1]`, over the reals with the functions of `<cmath>`:
`train()` right after the constructor leaves the delta 1, not 0, in the unit (the
derivative factor at the sum 0 is 1, the output is 0, the target is 1). -/
theorem c_NeuralNetwork.fresh_train_nonzero_delta :
    ∃ w v L q,
      c_NeuralNetwork.construct (fun _ => [(1 : ℝ)]) (Ref.caller 0) (Ref.caller 1) [1]
        e_Activation.ACT_TANH 1 false = some w ∧
      c_NeuralNetwork.train (⟨Real.tanh, Real.exp, Real.cosh⟩ : Libm ℝ) w = some v ∧
      v.m_Layers[0]? = some L ∧ L.m_Perceptrons[0]? = some q ∧
      q.m_Delta = 1 ∧ q.m_Delta ≠ 0 := by
  obtain ⟨w, v, e0, e, _, h⟩ := c_NeuralNetwork.train_fresh [1] (fun _ => [(1 : ℝ)]) 0 1
    e_Activation.ACT_TANH 1 false (⟨Real.tanh, Real.exp, Real.cosh⟩ : Libm ℝ) (by decide)
    (by decide)
  obtain ⟨L, L', hL, hL', _, hj⟩ := h 0 1 rfl
  obtain ⟨p, q, hp, hq, hs, ho, ha, _, _, _, ht⟩ := hj 0 (by decide)
  obtain ⟨_, hd⟩ := ht rfl rfl
  have h1 : q.m_Delta = 1 := by
    rw [hd]
    simp only [c_Perceptron._calcActivDeriv, ha, hs, mul_zero, Real.cosh_zero,
      List.getD_cons_zero]
    norm_num
  exact ⟨w, v, L', q, e0, e, hL', hq, h1, by rw [h1]; exact one_ne_zero⟩

/-! ## Backpropagation through two layers -/

/-- C3. Backpropagation in a network of two layers: for the unit counts `[2, 1]`, the bias
on, a target array of one element and any kind of activation (the tanh kind among
them), in a state reached from the constructor in which the bias is on, `evaluate()` and
then `train()` return. With `h` the output array of the first layer (the two outputs and
the bias slot 1), `x` the input followed by 1, `eta` the rate of the network and `f'`
what `_calcActivDeriv` returns at the sum `evaluate()` left: weight `i` of the output
unit changes by `eta * f'(s_out) * (t - o_out) * h[i]`, the error sums passed on are
`delta_out * w_out[j]` for the two units `j` of the first layer only (the array has two
elements, the weight of the bias slot takes no part), and weight `i` of unit `j` of the
first layer, which has no target, changes by `eta * f'(s_j) * (delta_out * w_out[j]) * x[i]`,
with `w_out` the weights of the output unit before the update. -/
theorem c_NeuralNetwork.backpropagation_two_layers {α : Type} [CommRing α] [Div α]
    (heap : Nat → List α) (a t : Nat) (actType : e_Activation) (trainRate : α) (M : Libm α)
    (cs : List (Call α)) (w : c_NeuralNetwork α) (hlen : (heap t).length = 1)
    (hr : (c_NeuralNetwork.construct heap (Ref.caller a) (Ref.caller t) [2, 1] actType
      trainRate true).bind (Call.runAll M cs) = some w)
    (hb : w.m_Bias = true) :
    ∃ v u x b H O H' O' p0 p1 q q',
      c_NeuralNetwork.evaluate M w = some v ∧ c_NeuralNetwork.train M v = some u ∧
      v.m_Inputs = some (Ref.caller x) ∧ (v.heap b).length = 1 ∧
      v.heap = w.heap ∧ u.heap = v.heap ∧
      v.m_Layers = [H, O] ∧ u.m_Layers = [H', O'] ∧
      H.m_Perceptrons = [p0, p1] ∧ O.m_Perceptrons = [q] ∧
      H'.m_Perceptrons.length = 2 ∧ O'.m_Perceptrons = [q'] ∧
      H.m_Outputs = [p0.m_Output, p1.m_Output, 1] ∧
      q.m_SumProducts = valarray.sum (valarray.mul q.m_Weights H.m_Outputs) ∧
      q.m_Output = spec_activation M q.m_ActType q.m_SumProducts ∧
      q.m_ActType = v.m_ActType ∧
      q.m_Weights.length = 3 ∧ q'.m_Weights.length = 3 ∧
      q.m_Target = some (Ref.caller b, 0) ∧
      q'.m_Delta
        = c_Perceptron._calcActivDeriv M q * ((v.heap b).getD 0 0 - q.m_Output) ∧
      (∀ i, i < 3 → q'.m_Weights.getD i 0 - q.m_Weights.getD i 0
        = v.m_TrainRate * c_Perceptron._calcActivDeriv M q
          * ((v.heap b).getD 0 0 - q.m_Output) * H.m_Outputs.getD i 0) ∧
      O'.m_WeightedDeltaSumsOut.length = 2 ∧
      (∀ j, j < 2 →
        O'.m_WeightedDeltaSumsOut.getD j 0 = q'.m_Delta * q.m_Weights.getD j 0) ∧
      ∀ (j : Nat) (p p' : c_Perceptron α), H.m_Perceptrons[j]? = some p →
        H'.m_Perceptrons[j]? = some p' →
        p.m_SumProducts = valarray.sum (valarray.mul p.m_Weights (v.heap x ++ [1])) ∧
        p.m_Output = spec_activation M p.m_ActType p.m_SumProducts ∧
        p.m_ActType = v.m_ActType ∧
        p.m_Target = none ∧ p.m_Weights.length = (v.heap x).length + 1 ∧
        p'.m_Weights.length = p.m_Weights.length ∧
        p'.m_Delta
          = c_Perceptron._calcActivDeriv M p * (q'.m_Delta * q.m_Weights.getD j 0) ∧
        ∀ i, i < p.m_Weights.length → p'.m_Weights.getD i 0 - p.m_Weights.getD i 0
          = v.m_TrainRate * c_Perceptron._calcActivDeriv M p
            * (q'.m_Delta * q.m_Weights.getD j 0) * (v.heap x ++ [1]).getD i 0 := by
  have hpos : ([2, 1] : List Nat) ≠ [] := by decide
  have hbound : ([2, 1] : List Nat).length < 2 ^ 64 := by decide
  obtain ⟨hw, htg⟩ := Call.reach_targeted [2, 1] heap a t actType trainRate true M cs w hpos
    hbound hlen hr
  obtain ⟨w0, e0, c0⟩ := c_NeuralNetwork.construct_spec [2, 1] heap a t actType trainRate true
    hpos hbound
  have hu0 := c_NeuralNetwork.construct_uniform [2, 1] heap a t actType trainRate true hpos
    hbound w0 e0
  rw [e0, Option.some_bind] at hr
  have huw := Call.runAll_uniform [2, 1] M cs w0 w trainRate actType c0.wired hu0 hr
  obtain ⟨v, u, x, b, H, O, H', O', p0, p1, q, q', e, e', hav, hbl, hheap, huheap, hvl,
    hul, hHp, hOp, hHn, hOp', hHout, hqs, hqo, hqw, hqw', hqt, hdq, hqu, hsl, hsums, hhid⟩ :=
    c_NeuralNetwork.two_layer_passes M w hw htg hb
  have erun : Call.run M Call.evaluate w = some v := e
  have huv := Call.run_uniform [2, 1] M Call.evaluate w v _ _ hw huw erun
  have hH : v.m_Layers[0]? = some H := by rw [hvl]; rfl
  have hO : v.m_Layers[1]? = some O := by rw [hvl]; rfl
  have hq : O.m_Perceptrons[0]? = some q := by rw [hOp]; rfl
  have hqr := ((huv.layer 1 O hO).2.2 0 q hq)
  have hrate : ∀ (r : α) (k : e_Activation), c_NeuralNetwork.Uniform r k v →
      v.m_TrainRate = r ∧ v.m_ActType = k := fun r k h => ⟨h.trainRate, h.actType⟩
  obtain ⟨hvr, hvk⟩ := hrate _ _ huv
  refine ⟨v, u, x, b, H, O, H', O', p0, p1, q, q', e, e', hav, hbl, hheap, huheap, hvl,
    hul, hHp, hOp, hHn, hOp', hHout, hqs, hqo, by rw [hqr.2, hvk], hqw, hqw', hqt, hdq, ?_,
    hsl, hsums, ?_⟩
  · intro i hi
    rw [hqu i hi, hqr.1, hvr]
  · intro j p p' hp hp'
    obtain ⟨h1, h2, h3, h4, h5, h6, h7⟩ := hhid j p p' hp hp'
    have hpr := ((huv.layer 0 H hH).2.2 j p hp)
    refine ⟨h1, h2, by rw [hpr.2, hvk], h3, h4, h5, h6, ?_⟩
    intro i hi
    rw [h7 i hi, hpr.1, hvr]

/-- Witness of C3: unit counts `[2, 1]`, identity kind (for which `_calcActivDeriv`
returns the sum), rate 1, input `[2, 3]`, target `[1]`, weights `[1, 1, 1]`, `[1, 0, 2]`
and `[1, 2, 3]`: `evaluate()` leaves the sums 6, 4 and 17; `train()` leaves the deltas
`6 * -272`, `4 * -544` and `17 * (1 - 17) = -272`. -/
theorem c_NeuralNetwork.backpropagation_two_layers_witness :
    (∃ v u x b H O H' O' p0 p1 q q',
      c_NeuralNetwork.evaluate exampleLibm exampleWeighted = some v ∧
      c_NeuralNetwork.train exampleLibm v = some u ∧
      v.m_Inputs = some (Ref.caller x) ∧ (v.heap b).length = 1 ∧
      v.heap = exampleWeighted.heap ∧ u.heap = v.heap ∧
      v.m_Layers = [H, O] ∧ u.m_Layers = [H', O'] ∧
      H.m_Perceptrons = [p0, p1] ∧ O.m_Perceptrons = [q] ∧
      H'.m_Perceptrons.length = 2 ∧ O'.m_Perceptrons = [q'] ∧
      H.m_Outputs = [p0.m_Output, p1.m_Output, 1] ∧
      q.m_SumProducts = valarray.sum (valarray.mul q.m_Weights H.m_Outputs) ∧
      q.m_Output = spec_activation exampleLibm q.m_ActType q.m_SumProducts ∧
      q.m_ActType = v.m_ActType ∧
      q.m_Weights.length = 3 ∧ q'.m_Weights.length = 3 ∧
      q.m_Target = some (Ref.caller b, 0) ∧
      q'.m_Delta
        = c_Perceptron._calcActivDeriv exampleLibm q * ((v.heap b).getD 0 0 - q.m_Output) ∧
      (∀ i, i < 3 → q'.m_Weights.getD i 0 - q.m_Weights.getD i 0
        = v.m_TrainRate * c_Perceptron._calcActivDeriv exampleLibm q
          * ((v.heap b).getD 0 0 - q.m_Output) * H.m_Outputs.getD i 0) ∧
      O'.m_WeightedDeltaSumsOut.length = 2 ∧
      (∀ j, j < 2 →
        O'.m_WeightedDeltaSumsOut.getD j 0 = q'.m_Delta * q.m_Weights.getD j 0) ∧
      ∀ (j : Nat) (p p' : c_Perceptron ℤ), H.m_Perceptrons[j]? = some p →
        H'.m_Perceptrons[j]? = some p' →
        p.m_SumProducts = valarray.sum (valarray.mul p.m_Weights (v.heap x ++ [1])) ∧
        p.m_Output = spec_activation exampleLibm p.m_ActType p.m_SumProducts ∧
        p.m_ActType = v.m_ActType ∧
        p.m_Target = none ∧ p.m_Weights.length = (v.heap x).length + 1 ∧
        p'.m_Weights.length = p.m_Weights.length ∧
        p'.m_Delta
          = c_Perceptron._calcActivDeriv exampleLibm p
            * (q'.m_Delta * q.m_Weights.getD j 0) ∧
        ∀ i, i < p.m_Weights.length → p'.m_Weights.getD i 0 - p.m_Weights.getD i 0
          = v.m_TrainRate * c_Perceptron._calcActivDeriv exampleLibm p
            * (q'.m_Delta * q.m_Weights.getD j 0) * (v.heap x ++ [1]).getD i 0) ∧
    (Call.runAll exampleLibm [Call.evaluate] exampleWeighted).map
      (fun v => v.m_Layers.map (fun L => L.m_Perceptrons.map (fun p => p.m_SumProducts)))
      = some [[6, 4], [17]] ∧
    (Call.runAll exampleLibm [Call.evaluate, Call.train] exampleWeighted).map
      (fun u => u.m_Layers.map (fun L => (L.m_WeightedDeltaSumsOut,
        L.m_Perceptrons.map (fun p => (p.m_Delta, p.m_Weights)))))
      = some [([], [(-1632, [-3263, -4895, -1631]), (-2176, [-4351, -6528, -2174])]),
        ([-272, -544], [(-272, [-1631, -1086, -269])])] :=
  ⟨c_NeuralNetwork.backpropagation_two_layers exampleHeap 0 1 e_Activation.ACT_OTHER 1
      exampleLibm [Call.setWeights 0 0 [1, 1, 1], Call.setWeights 0 1 [1, 0, 2],
        Call.setWeights 1 0 [1, 2, 3]] exampleWeighted (by decide) (Option.some_get _).symm
      (by decide),
    by decide, by decide⟩

/-! ## The lengths of the arrays a weighted sum multiplies -/

/-- C21. Network-level shape consistency: for a non-empty list of unit counts, the
constructor followed by any sequence of calls of member functions of the network
(`setInputs`, `setTargets`, `setBias`, `setTrainRate`, `setActivation`, `evaluate`,
`train`) returns; in the state reached the local input array has one element for every
element of the input array, plus one if the bias is on; every unit of layer 0 reads that
array and has as many weights; every unit of a layer `k > 0` reads the output array of
layer `k - 1` and has as many weights as that layer has units, plus one if the bias is
on; so every unit has as many weights as the array it reads has elements. -/
theorem c_NeuralNetwork.shape_consistency {α : Type} [CommRing α] [Div α]
    (sizes : List Nat) (heap : Nat → List α) (a t : Nat)
    (actType : e_Activation) (trainRate : α) (bias : Bool) (M : Libm α) (cs : List (Call α))
    (hpos : sizes ≠ []) (hbound : sizes.length < 2 ^ 64)
    (hcs : ∀ c ∈ cs, c.isMember = true) :
    ∃ w x, (c_NeuralNetwork.construct heap (Ref.caller a) (Ref.caller t) sizes actType
        trainRate bias).bind (Call.runAll M cs) = some w ∧
      w.m_Inputs = some (Ref.caller x) ∧
      w.m_LocalInputs.length = (w.heap x).length + (if w.m_Bias then 1 else 0) ∧
      w.m_Layers.length = sizes.length ∧
      ∀ (k n : Nat), sizes[k]? = some n →
        ∃ L, w.m_Layers[k]? = some L ∧ L.m_Perceptrons.length = n ∧
          ∀ p ∈ L.m_Perceptrons,
            (k = 0 → p.m_Inputs = some Ref.localInputs ∧
              p.m_Weights.length = (w.heap x).length + (if w.m_Bias then 1 else 0)) ∧
            (0 < k → p.m_Inputs = some (Ref.outputs (k - 1)) ∧
              p.m_Weights.length = sizes.getD (k - 1) 0 + (if w.m_Bias then 1 else 0)) ∧
            ∀ r, p.m_Inputs = some r → p.m_Weights.length = (w.memory r).length := by
  obtain ⟨w0, e0, c0⟩ := c_NeuralNetwork.construct_spec sizes heap a t actType trainRate bias
    hpos hbound
  obtain ⟨w, hrun⟩ := Call.runAll_member sizes M cs w0 c0.wired hcs
  have hw := Call.runAll_inv M (c_NeuralNetwork.Wired sizes)
    (fun c w v hw hr => Call.run_wired sizes M c w v hw hr) cs w0 w c0.wired hrun
  obtain ⟨x, hx⟩ := hw.linked.inputs
  refine ⟨w, x, by rw [e0, Option.some_bind]; exact hrun, hx, hw.localInputs x hx,
    hw.linked.length, ?_⟩
  intro k n hk
  have hk' : k < sizes.length := (List.getElem?_eq_some_iff.mp hk).1
  obtain ⟨L, hL, hLk⟩ := hw.linked.get k hk'
  have hnL : n = L.m_Size := by
    have hs := hLk.size
    rw [hk] at hs
    exact Option.some.inj hs
  refine ⟨L, hL, by rw [hLk.units, hnL], ?_⟩
  intro p hp
  have hin := hLk.reads hk' p hp
  have hsync : ∀ r, p.m_Inputs = some r → p.m_Weights.length = (w.memory r).length := by
    intro r hr
    obtain ⟨u, hu⟩ := List.getElem?_of_mem hp
    exact hw.sync k L hL r (by rw [← (hLk.unit u p hu).inputs]; exact hr) p hp
  refine ⟨?_, ?_, hsync⟩
  · intro hk0
    rw [if_pos hk0] at hin
    refine ⟨hin, ?_⟩
    rw [hsync _ hin]
    exact hw.localInputs x hx
  · intro hk0
    have hne : ¬ k = 0 := by omega
    rw [if_neg hne] at hin
    refine ⟨hin, ?_⟩
    rw [hsync _ hin]
    obtain ⟨Lp, hLp, hLpk⟩ := hw.linked.get (k - 1) (by omega)
    have hb := hw.bias (k - 1) Lp hLp
    have hlt : k - 1 + 1 < sizes.length := by omega
    simp only [hlt, decide_True, Bool.and_true] at hb
    have hs := hLpk.size
    simp only [c_NeuralNetwork.memory, hLp, hLpk.outputs, hb, List.getD_eq_getElem?_getD, hs,
      Option.getD_some]

/-- Witness of C21: unit counts `[2, 1]`, input `[2, 3]`, then `setInputs`, `setTargets`,
`setBias(false)`, `setTrainRate(2)`, `setActivation`, `evaluate()`, `train()` and
`setBias(true)`: the local input array has 3 elements, and the three units have 3
weights each. -/
theorem c_NeuralNetwork.shape_consistency_witness :
    (∃ w x, exampleShapeRun = some w ∧
      w.m_Inputs = some (Ref.caller x) ∧
      w.m_LocalInputs.length = (w.heap x).length + (if w.m_Bias then 1 else 0) ∧
      w.m_Layers.length = [2, 1].length ∧
      ∀ (k n : Nat), [2, 1][k]? = some n →
        ∃ L, w.m_Layers[k]? = some L ∧ L.m_Perceptrons.length = n ∧
          ∀ p ∈ L.m_Perceptrons,
            (k = 0 → p.m_Inputs = some Ref.localInputs ∧
              p.m_Weights.length = (w.heap x).length + (if w.m_Bias then 1 else 0)) ∧
            (0 < k → p.m_Inputs = some (Ref.outputs (k - 1)) ∧
              p.m_Weights.length = [2, 1].getD (k - 1) 0 + (if w.m_Bias then 1 else 0)) ∧
            ∀ r, p.m_Inputs = some r → p.m_Weights.length = (w.memory r).length) ∧
    exampleShapeRun.map (fun w => (w.m_LocalInputs.length,
        w.m_Layers.map (fun L => L.m_Perceptrons.map (fun p => p.m_Weights.length))))
      = some (3, [[3, 3], [3]]) :=
  ⟨c_NeuralNetwork.shape_consistency [2, 1] exampleHeap 0 1 e_Activation.ACT_OTHER 1 true
      exampleLibm
      [Call.setInputs 0, Call.setTargets 1, Call.setBias false, Call.setTrainRate 2,
        Call.setActivation e_Activation.ACT_OTHER, Call.evaluate, Call.train,
        Call.setBias true] (by decide) (by decide) (by decide),
    by decide⟩

/-! ## What `setBias` does to the weights -/

/-- C23. Bias toggle discards training: for a non-empty list of unit counts, in any state
reached from the constructor by a sequence of steps, `setBias(b)` returns and leaves as
many layers and units as before; if `b` is not the flag the network has, every weight of
every unit of every layer is zero afterwards, whatever it was before; if `b` is the flag
the network has, every unit has the weights it had before. -/
theorem c_NeuralNetwork.bias_toggle_discards_training {α : Type} [CommRing α] [Div α]
    (sizes : List Nat) (heap : Nat → List α) (a t : Nat)
    (actType : e_Activation) (trainRate : α) (bias : Bool) (M : Libm α) (cs : List (Call α))
    (w : c_NeuralNetwork α) (hpos : sizes ≠ []) (hbound : sizes.length < 2 ^ 64)
    (hr : (c_NeuralNetwork.construct heap (Ref.caller a) (Ref.caller t) sizes actType trainRate
      bias).bind (Call.runAll M cs) = some w) :
    ∀ b : Bool, ∃ v, c_NeuralNetwork.setBias b w = some v ∧ v.m_Bias = b ∧
      v.m_Layers.length = sizes.length ∧
      (∀ (k : Nat) (L : c_PerceptronLayer α), v.m_Layers[k]? = some L →
        sizes[k]? = some L.m_Perceptrons.length) ∧
      (b ≠ w.m_Bias →
        ∀ (k : Nat) (L : c_PerceptronLayer α), v.m_Layers[k]? = some L →
          ∀ p ∈ L.m_Perceptrons, p.m_Weights = List.replicate p.m_Weights.length 0) ∧
      (b = w.m_Bias →
        ∀ (k : Nat) (L' : c_PerceptronLayer α), v.m_Layers[k]? = some L' →
          ∃ L, w.m_Layers[k]? = some L ∧
            L'.m_Perceptrons.map (fun p => p.m_Weights)
              = L.m_Perceptrons.map (fun p => p.m_Weights)) := by
  have hw := Call.reach_wired sizes heap a t actType trainRate bias M cs w hpos hbound hr
  intro b
  have hunits : ∀ v : c_NeuralNetwork α, c_NeuralNetwork.Wired sizes v →
      ∀ (k : Nat) (L : c_PerceptronLayer α), v.m_Layers[k]? = some L →
        sizes[k]? = some L.m_Perceptrons.length := by
    intro v hv k L hL
    rw [(hv.linked.layer k L hL).units]
    exact (hv.linked.layer k L hL).size
  by_cases hb : b = w.m_Bias
  · subst hb
    obtain ⟨v, e, hv, hbv, hkeep⟩ := c_NeuralNetwork.setBias_same sizes w hw
    refine ⟨v, e, hbv, hv.linked.length, hunits v hv, fun hne => absurd rfl hne, ?_⟩
    intro _ k L' hL'
    obtain ⟨L, hL, hu⟩ := hkeep k L' hL'
    refine ⟨L, hL, ?_⟩
    apply List.ext_getElem?
    intro u
    rw [List.getElem?_map, List.getElem?_map]
    cases hq : L'.m_Perceptrons[u]? with
    | none =>
      have h1 : L'.m_Perceptrons.length ≤ u := List.getElem?_eq_none_iff.mp hq
      have h2 : L.m_Perceptrons.length ≤ u := by
        have e1 := hunits v hv k L' hL'
        have e2 := hunits w hw k L hL
        rw [e1] at e2
        have := Option.some.inj e2
        omega
      rw [List.getElem?_eq_none h2]
    | some q =>
      obtain ⟨p, hp, e'⟩ := hu u q hq
      rw [hp]
      simp only [Option.map_some', e']
  · obtain ⟨v, e, hv, hbv, hzero⟩ := c_NeuralNetwork.setBias_flip sizes w hw b hb
    exact ⟨v, e, hbv, hv.linked.length, hunits v hv, fun _ => hzero, fun h => absurd h hb⟩

/-- Witness of C23: unit counts `[2, 1]`, bias on, the weights set to `[1, 1, 1]`,
`[1, 0, 2]` and `[1, 2, 3]`: after `setBias(false)` the three units have two weights
each, all zero; after `setBias(true)` they have the weights they had. -/
theorem c_NeuralNetwork.bias_toggle_discards_training_witness :
    (∀ b : Bool, ∃ v, c_NeuralNetwork.setBias b exampleWeighted = some v ∧ v.m_Bias = b ∧
      v.m_Layers.length = [2, 1].length ∧
      (∀ (k : Nat) (L : c_PerceptronLayer ℤ), v.m_Layers[k]? = some L →
        [2, 1][k]? = some L.m_Perceptrons.length) ∧
      (b ≠ exampleWeighted.m_Bias →
        ∀ (k : Nat) (L : c_PerceptronLayer ℤ), v.m_Layers[k]? = some L →
          ∀ p ∈ L.m_Perceptrons, p.m_Weights = List.replicate p.m_Weights.length 0) ∧
      (b = exampleWeighted.m_Bias →
        ∀ (k : Nat) (L' : c_PerceptronLayer ℤ), v.m_Layers[k]? = some L' →
          ∃ L, exampleWeighted.m_Layers[k]? = some L ∧
            L'.m_Perceptrons.map (fun p => p.m_Weights)
              = L.m_Perceptrons.map (fun p => p.m_Weights))) ∧
    exampleWeighted.m_Bias = true ∧
    (c_NeuralNetwork.setBias false exampleWeighted).map
      (fun v => v.m_Layers.map (fun L => L.m_Perceptrons.map (fun p => p.m_Weights)))
      = some [[[0, 0], [0, 0]], [[0, 0]]] ∧
    (c_NeuralNetwork.setBias true exampleWeighted).map
      (fun v => v.m_Layers.map (fun L => L.m_Perceptrons.map (fun p => p.m_Weights)))
      = some [[[1, 1, 1], [1, 0, 2]], [[1, 2, 3]]] :=
  ⟨c_NeuralNetwork.bias_toggle_discards_training [2, 1] exampleHeap 0 1
      e_Activation.ACT_OTHER 1 true exampleLibm
      [Call.setWeights 0 0 [1, 1, 1], Call.setWeights 0 1 [1, 0, 2],
        Call.setWeights 1 0 [1, 2, 3]] exampleWeighted (by decide) (by decide)
      (Option.some_get _).symm,
    by decide, by decide, by decide⟩

/-! ## A network whose last layer has no target array -/

section quiet

variable {α : Type} [CommRing α] [Div α]

/-- The error sums that a layer of units with zero deltas passes on are zero. -/
theorem c_PerceptronLayer.trained_sums_zero (M : Libm α) (mem : Memory α)
    (L : c_PerceptronLayer α) (hb : ∀ p ∈ L.m_Perceptrons, ∃ r, p.m_Inputs = some r)
    (hz : ∀ p ∈ L.m_Perceptrons, (c_Perceptron._calcDelta M mem p).m_Delta = 0)
    (j : Nat) :
    (c_PerceptronLayer.trained M mem L).m_WeightedDeltaSumsOut.getD j 0 = 0 := by
  obtain ⟨h1, h2⟩ := c_PerceptronLayer.trained_sums M mem L hb
  by_cases hj : j < L.m_WeightedDeltaSumsOut.length
  · rw [h2 j hj]
    apply List.sum_eq_zero
    intro x hx
    simp only [List.mem_map] at hx
    obtain ⟨p, hp, e⟩ := hx
    rw [← e, hz p hp, zero_mul]
  · rw [List.getD_eq_default _ _ (by rw [h1]; omega)]

/-- `train()` on a wired network whose last layer has no target array: it returns, every
delta it computes is zero, and every unit keeps its weights. -/
theorem c_NeuralNetwork.train_untargeted (sizes : List Nat) (M : Libm α)
    (w : c_NeuralNetwork α) (hw : c_NeuralNetwork.Wired sizes w)
    (hq : ∀ L : c_PerceptronLayer α, w.m_Layers[sizes.length - 1]? = some L →
      L.m_Targets = none) :
    ∃ v, c_NeuralNetwork.train M w = some v ∧
      ∀ (k : Nat) (L : c_PerceptronLayer α), w.m_Layers[k]? = some L →
        ∃ L', v.m_Layers[k]? = some L' ∧
          L'.m_Perceptrons.length = L.m_Perceptrons.length ∧
          ∀ (j : Nat) (p : c_Perceptron α), L.m_Perceptrons[j]? = some p →
            ∃ q, L'.m_Perceptrons[j]? = some q ∧ q.m_Delta = 0 ∧
              q.m_Weights = p.m_Weights := by
  obtain ⟨a, ha⟩ := hw.linked.inputs
  obtain ⟨v, e, hf, hloc, hlay⟩ := c_NeuralNetwork.train_spec sizes M w hw a ha
  have hn := hw.linked.pos
  -- every delta is zero, from the last layer down
  have hzero : ∀ (m k : Nat), k + m + 1 = sizes.length →
      ∀ L : c_PerceptronLayer α, w.m_Layers[k]? = some L →
        ∀ p ∈ L.m_Perceptrons, (c_Perceptron._calcDelta M v.memory p).m_Delta = 0 := by
    intro m
    induction m with
    | zero =>
      intro k hk L hL p hp
      have hLk := hw.linked.layer k L hL
      obtain ⟨u, hu⟩ := List.getElem?_of_mem hp
      have bp := hLk.unit u p hu
      have ek : k = sizes.length - 1 := by omega
      have ht : p.m_Target = none := by
        rw [bp.target, hq L (by rw [← ek]; exact hL)]
        rfl
      have hs := hLk.sumsIn
      have hnl : ¬ k + 1 < sizes.length := by omega
      simp only [hnl, if_false] at hs
      have hd : p.m_WeightedDeltaSum = none := by rw [bp.deltaSum, hs]; rfl
      exact (c_Perceptron.calcDelta_eq M v.memory p).2.2.2 ht hd
    | succ m ih =>
      intro k hk L hL p hp
      have hLk := hw.linked.layer k L hL
      obtain ⟨u, hu⟩ := List.getElem?_of_mem hp
      have bp := hLk.unit u p hu
      have hk1 : k + 1 < sizes.length := by omega
      have e1 : L.m_Targets = none := by
        cases e : L.m_Targets with
        | none => rfl
        | some r => exact absurd (hLk.targets r e).1 (by omega)
      have hs := hLk.sumsIn
      simp only [hk1, if_true] at hs
      have ht : p.m_Target = none := by rw [bp.target, e1]; rfl
      have hd : p.m_WeightedDeltaSum = some (Ref.deltaSums (k + 1), u) := by
        rw [bp.deltaSum, hs]; rfl
      rw [(c_Perceptron.calcDelta_eq M v.memory p).2.2.1 _ ht hd]
      obtain ⟨L1, hL1, hL1k⟩ := hw.linked.get (k + 1) hk1
      have hv1 := hlay (k + 1) L1 hL1
      have hz : v.memory.deref (Ref.deltaSums (k + 1), u) = 0 := by
        simp only [Memory.deref, c_NeuralNetwork.memory, hv1]
        apply c_PerceptronLayer.trained_sums_zero
        · intro p' hp'
          exact ⟨_, hL1k.reads hk1 p' hp'⟩
        · exact ih (k + 1) (by omega) L1 hL1
      rw [hz, mul_zero]
  refine ⟨v, e, ?_⟩
  intro k L hL
  have hk : k < sizes.length := by
    rw [← hw.linked.length]
    exact (List.getElem?_eq_some_iff.mp hL).1
  have hLk := hw.linked.layer k L hL
  refine ⟨_, hlay k L hL, by simp [c_PerceptronLayer.trained], ?_⟩
  intro j p hp
  have hmem := List.getElem?_mem hp
  have hin := hLk.reads hk p hmem
  have hz := hzero (sizes.length - 1 - k) k (by omega) L hL p hmem
  obtain ⟨h1, h2⟩ := c_Perceptron.train_zero_delta M v.memory p _ hin hz
  exact ⟨(c_Perceptron.train M v.memory p).2, by simp [c_PerceptronLayer.trained, hp], h1, h2⟩

end quiet

section quiet_calls

variable {α : Type} [CommRing α] [Div α]

/-- A step that keeps the target array of the last layer and the delta of every unit. -/
theorem c_NeuralNetwork.Quiet.of_kept_deltas {sizes : List Nat} {w v : c_NeuralNetwork α}
    (h : c_NeuralNetwork.Quiet sizes w)
    (hl : ∀ (i : Nat) (L' : c_PerceptronLayer α), v.m_Layers[i]? = some L' →
      ∃ L, w.m_Layers[i]? = some L ∧ (i + 1 = sizes.length → L'.m_Targets = L.m_Targets) ∧
        ∀ (u : Nat) (q : c_Perceptron α), L'.m_Perceptrons[u]? = some q →
          q.m_Delta = 0 ∨ ∃ p, L.m_Perceptrons[u]? = some p ∧ q.m_Delta = p.m_Delta)
    (hn : 0 < sizes.length) : c_NeuralNetwork.Quiet sizes v := by
  refine ⟨?_, ?_⟩
  · intro L' hL'
    obtain ⟨L, hL, e, _⟩ := hl _ L' hL'
    rw [e (by omega)]
    exact h.untargeted L hL
  · intro k L' hL' q hq
    obtain ⟨L, hL, _, hu⟩ := hl k L' hL'
    obtain ⟨u, hu'⟩ := List.getElem?_of_mem hq
    rcases hu u q hu' with e | ⟨p, hp, e⟩
    · exact e
    · rw [e]
      exact h.delta k L hL p (List.getElem?_mem hp)

/-- Every step that returns, but a `setTargets` with an array of as many elements as the
last layer has units, keeps the last layer without a target array and the deltas zero. -/
theorem Call.run_quiet (sizes : List Nat) (M : Libm α) (c : Call α)
    (w v : c_NeuralNetwork α) (hw : c_NeuralNetwork.Wired sizes w)
    (hq : c_NeuralNetwork.Quiet sizes w)
    (hc : ∀ b, c = Call.setTargets b → ∀ L : c_PerceptronLayer α,
      w.m_Layers[sizes.length - 1]? = some L → (w.heap b).length ≠ L.m_Size)
    (hr : Call.run M c w = some v) : c_NeuralNetwork.Quiet sizes v := by
  have hn := hw.linked.pos
  have hv := Call.run_wired sizes M c w v hw hr
  have hrew : c_NeuralNetwork.Rewired w v → c_NeuralNetwork.Quiet sizes v := by
    intro hrw
    apply hq.of_kept_deltas _ hn
    intro i L' hL'
    obtain ⟨L, hL, r⟩ := hrw.layer i L' hL'
    refine ⟨L, hL, fun hi => hrw.last_targets hv i hi L L' hL hL', ?_⟩
    intro u q hu
    obtain ⟨p, hp, rp⟩ := r.unit u q hu
    exact Or.inr ⟨p, hp, rp.delta⟩
  have hshape : c.keepsWiring = true →
      (∀ (i : Nat) (L L' : c_PerceptronLayer α), w.m_Layers[i]? = some L →
        v.m_Layers[i]? = some L' →
        ∀ (u : Nat) (q : c_Perceptron α), L'.m_Perceptrons[u]? = some q →
          q.m_Delta = 0 ∨ ∃ p, L.m_Perceptrons[u]? = some p ∧ q.m_Delta = p.m_Delta) →
      c_NeuralNetwork.Quiet sizes v := by
    intro hk hd
    have s := Call.run_shape sizes M c w v hw hk hr
    apply hq.of_kept_deltas _ hn
    intro i L' hL'
    obtain ⟨L, hL, sl⟩ := s.layer i L' hL'
    exact ⟨L, hL, fun _ => sl.targets, hd i L L' hL hL'⟩
  cases c with
  | setInputs a =>
    obtain ⟨v', e, _, _, _, hrw, _⟩ := c_NeuralNetwork.setInputs_spec sizes a w hw
    simp only [Call.run] at hr
    rw [e] at hr
    cases hr
    exact hrew hrw
  | setBias b =>
    obtain ⟨v', e, _, _, hrw, _⟩ := c_NeuralNetwork.setBias_spec sizes b w hw.linked
    simp only [Call.run] at hr
    rw [e] at hr
    cases hr
    exact hrew hrw
  | setTargets a =>
    simp only [Call.run] at hr
    rw [c_NeuralNetwork.setTargets_eq sizes a w hw] at hr
    cases hr
    apply hq.of_kept_deltas _ hn
    intro i L' hL'
    rw [c_NeuralNetwork.onLayer_getElem?] at hL'
    by_cases e : sizes.length - 1 = i
    · simp only [e, if_true, Option.map_eq_some'] at hL'
      obtain ⟨L, hL, e'⟩ := hL'
      have hne := hc a rfl L (by rw [e]; exact hL)
      have hid : c_PerceptronLayer.setTargets
          ({ w with m_Targets := some (Ref.caller a) } : c_NeuralNetwork α).memory
          (Ref.caller a) L = L := by
        unfold c_PerceptronLayer.setTargets
        rw [if_neg]
        exact hne
      have hid' : c_PerceptronLayer.setTargets w.memory (Ref.caller a) L = L := hid
      rw [hid'] at e'
      subst e'
      exact ⟨L, hL, fun _ => rfl, fun u q hu => Or.inr ⟨q, hu, rfl⟩⟩
    · simp only [e, if_false] at hL'
      exact ⟨L', hL', fun _ => rfl, fun u q hu => Or.inr ⟨q, hu, rfl⟩⟩
  | setTrainRate x =>
    apply hshape rfl
    intro i L L' hL hL' u q hu
    simp only [Call.run] at hr
    rw [c_NeuralNetwork.setTrainRate_spec sizes x w hw] at hr
    cases hr
    simp only [List.getElem?_map, hL, Option.map_some', Option.some.injEq] at hL'
    subst hL'
    simp only [List.getElem?_map, Option.map_eq_some'] at hu
    obtain ⟨p, hp, e⟩ := hu
    subst e
    exact Or.inr ⟨p, hp, rfl⟩
  | setActivation x =>
    apply hshape rfl
    intro i L L' hL hL' u q hu
    simp only [Call.run] at hr
    rw [c_NeuralNetwork.setActivation_spec sizes x w hw] at hr
    cases hr
    simp only [List.getElem?_map, hL, Option.map_some', Option.some.injEq] at hL'
    subst hL'
    simp only [List.getElem?_map, Option.map_eq_some'] at hu
    obtain ⟨p, hp, e⟩ := hu
    subst e
    exact Or.inr ⟨p, hp, rfl⟩
  | evaluate =>
    apply hshape rfl
    intro i L L' hL hL' u q hu
    obtain ⟨a, ha⟩ := hw.linked.inputs
    obtain ⟨v', e, hf, _, hlay⟩ := c_NeuralNetwork.evaluate_spec sizes M w hw a ha
    simp only [Call.run] at hr
    rw [e] at hr
    cases hr
    rw [hlay i L hL] at hL'
    cases hL'
    simp only [c_PerceptronLayer.evaluated, List.getElem?_map, Option.map_eq_some'] at hu
    obtain ⟨p, hp, e'⟩ := hu
    subst e'
    exact Or.inr ⟨p, hp, (c_Perceptron.frame_evaluate M v.memory p).2.2.2.2.2.1⟩
  | train =>
    apply hshape rfl
    intro i L L' hL hL' u q hu
    obtain ⟨v', e, hd⟩ := c_NeuralNetwork.train_untargeted sizes M w hw hq.untargeted
    simp only [Call.run] at hr
    rw [e] at hr
    cases hr
    obtain ⟨L2, hL2, hlen, hu2⟩ := hd i L hL
    rw [hL'] at hL2
    cases hL2
    have hul : u < L.m_Perceptrons.length := by
      rw [← hlen]
      exact (List.getElem?_eq_some_iff.mp hu).1
    obtain ⟨q', hq', e', _⟩ := hu2 u _ (List.getElem?_eq_getElem hul)
    rw [hu] at hq'
    cases hq'
    exact Or.inl e'
  | write a i x =>
    apply hshape rfl
    intro i' L L' hL hL' u q hu
    simp only [Call.run] at hr
    split at hr
    · cases hr
      have e : L' = L := by
        have : (some L' : Option (c_PerceptronLayer α)) = some L := by rw [← hL', ← hL]
        exact Option.some.inj this
      subst e
      exact Or.inr ⟨q, hu, rfl⟩
    · cases hr
  | setWeights j i weights =>
    apply hshape rfl
    intro i' L1 L' hL1 hL' u q' hu
    simp only [Call.run, Option.bind_eq_some, Option.map_eq_some'] at hr
    obtain ⟨p, ⟨L, hL, hp⟩, q, hq', e⟩ := hr
    subst e
    have hqd : q.m_Delta = p.m_Delta := by
      unfold c_Perceptron.setWeights at hq'
      split at hq'
      · split at hq'
        · simp only [Option.map_eq_some'] at hq'
          obtain ⟨ws, _, e⟩ := hq'
          subst e
          rfl
        · cases hq'
          rfl
      · cases hq'
        rfl
    rw [c_NeuralNetwork.onLayer_getElem?] at hL'
    by_cases e : j = i'
    · subst e
      rw [hL] at hL1
      have e1 := Option.some.inj hL1
      subst e1
      simp only [if_true, hL, Option.map_some', Option.some.injEq] at hL'
      subst hL'
      simp only [] at hu
      by_cases hiu : i = u
      · subst hiu
        have hi : i < L.m_Perceptrons.length := (List.getElem?_eq_some_iff.mp hp).1
        rw [List.getElem?_set_self hi] at hu
        cases hu
        exact Or.inr ⟨p, hp, hqd⟩
      · rw [List.getElem?_set_ne hiu] at hu
        exact Or.inr ⟨q', hu, rfl⟩
    · simp only [e, if_false] at hL'
      rw [hL1] at hL'
      cases hL'
      exact Or.inr ⟨q', hu, rfl⟩

end quiet_calls

section quiet_reach

variable {α : Type} [CommRing α] [Div α]

/-- No step changes the length of an array of the caller. -/
theorem Call.run_heap_length (sizes : List Nat) (M : Libm α) (c : Call α)
    (w v : c_NeuralNetwork α) (hw : c_NeuralNetwork.Wired sizes w)
    (hr : Call.run M c w = some v) (x : Nat) : (v.heap x).length = (w.heap x).length := by
  by_cases hk : c.keepsWiring = true
  · exact (Call.run_shape sizes M c w v hw hk hr).heap x
  · cases c with
    | setInputs a =>
      obtain ⟨v', e, _, _, _, hrw, _⟩ := c_NeuralNetwork.setInputs_spec sizes a w hw
      simp only [Call.run] at hr
      rw [e] at hr
      cases hr
      rw [hrw.heap]
    | setBias b =>
      obtain ⟨v', e, _, _, hrw, _⟩ := c_NeuralNetwork.setBias_spec sizes b w hw.linked
      simp only [Call.run] at hr
      rw [e] at hr
      cases hr
      rw [hrw.heap]
    | setTargets a =>
      simp only [Call.run] at hr
      rw [c_NeuralNetwork.setTargets_eq sizes a w hw] at hr
      cases hr
      rfl
    | setTrainRate x => simp [Call.keepsWiring] at hk
    | setActivation x => simp [Call.keepsWiring] at hk
    | evaluate => simp [Call.keepsWiring] at hk
    | train => simp [Call.keepsWiring] at hk
    | write a i x => simp [Call.keepsWiring] at hk
    | setWeights k i weights => simp [Call.keepsWiring] at hk

/-- The state reached from the constructor, given a target array that has not as many
elements as the last layer has units, by steps among which every `setTargets` is given
such an array as well: wired, the last layer without a target array, every delta zero. -/
theorem Call.reach_quiet (sizes : List Nat) (heap : Nat → List α) (a t : Nat)
    (actType : e_Activation) (trainRate : α) (bias : Bool) (M : Libm α) (cs : List (Call α))
    (w : c_NeuralNetwork α) (hpos : sizes ≠ []) (hbound : sizes.length < 2 ^ 64)
    (hlen : (heap t).length ≠ sizes.getLast hpos)
    (hcs : ∀ c ∈ cs, ∀ b, c = Call.setTargets b → (heap b).length ≠ sizes.getLast hpos)
    (hr : (c_NeuralNetwork.construct heap (Ref.caller a) (Ref.caller t) sizes actType trainRate
      bias).bind (Call.runAll M cs) = some w) :
    c_NeuralNetwork.Wired sizes w ∧ c_NeuralNetwork.Quiet sizes w := by
  obtain ⟨w0, e0, c0⟩ := c_NeuralNetwork.construct_spec sizes heap a t actType trainRate bias
    hpos hbound
  rw [e0, Option.some_bind] at hr
  have hn : 0 < sizes.length := List.length_pos.mpr hpos
  have hlast : ∀ (v : c_NeuralNetwork α), c_NeuralNetwork.Wired sizes v →
      ∀ L : c_PerceptronLayer α, v.m_Layers[sizes.length - 1]? = some L →
        L.m_Size = sizes.getLast hpos := by
    intro v hv L hL
    have hs := (hv.linked.layer _ L hL).size
    rw [List.getElem?_eq_getElem (by omega)] at hs
    rw [List.getLast_eq_getElem]
    exact (Option.some.inj hs).symm
  have h0 : c_NeuralNetwork.Quiet sizes w0 := by
    refine ⟨?_, ?_⟩
    · intro L hL
      apply c0.untarget L hL
      rw [hlast w0 c0.wired L hL]
      exact hlen
    · intro k L hL p hp
      exact ((c0.blank k L hL).2 p hp).delta
  have hinv := Call.runAll_inv_of M
    (fun w => c_NeuralNetwork.Wired sizes w ∧ c_NeuralNetwork.Quiet sizes w ∧
      ∀ x, (w.heap x).length = (heap x).length) cs w0 w
    (fun c hc u v hu hrun =>
      ⟨Call.run_wired sizes M c u v hu.1 hrun,
        Call.run_quiet sizes M c u v hu.1 hu.2.1 (fun b hb L hL => by
          rw [hu.2.2 b, hlast u hu.1 L hL]
          exact hcs c hc b hb) hrun,
        fun x => by rw [Call.run_heap_length sizes M c u v hu.1 hrun x, hu.2.2 x]⟩)
    ⟨c0.wired, h0, fun x => by rw [c0.heap]⟩ hr
  exact ⟨hinv.1, hinv.2.1⟩

end quiet_reach

/-! ## A target array of the wrong length -/

/-- C22. Silent untrainable network: for a non-empty list of unit counts and a target
array that has not as many elements as the last layer has units, in any state reached
from the constructor by a sequence of steps (any `setTargets` among them being given
such an array as well), no unit of any layer has a target, every delta is zero, and
`train()` returns and leaves every delta zero and every weight of every unit of every
layer as it was, whatever the input, the kind of activation and the rate (the
arithmetic is that of a commutative ring, where `x * 0 = 0`). -/
theorem c_NeuralNetwork.silent_untrainable {α : Type} [CommRing α] [Div α]
    (sizes : List Nat) (heap : Nat → List α) (a t : Nat)
    (actType : e_Activation) (trainRate : α) (bias : Bool) (M : Libm α) (cs : List (Call α))
    (w : c_NeuralNetwork α) (hpos : sizes ≠ []) (hbound : sizes.length < 2 ^ 64)
    (hlen : (heap t).length ≠ sizes.getLast hpos)
    (hcs : ∀ c ∈ cs, ∀ b, c = Call.setTargets b → (heap b).length ≠ sizes.getLast hpos)
    (hr : (c_NeuralNetwork.construct heap (Ref.caller a) (Ref.caller t) sizes actType trainRate
      bias).bind (Call.runAll M cs) = some w) :
    (∀ (k : Nat) (L : c_PerceptronLayer α), w.m_Layers[k]? = some L →
      ∀ p ∈ L.m_Perceptrons, p.m_Target = none ∧ p.m_Delta = 0) ∧
    ∃ v, c_NeuralNetwork.train M w = some v ∧
      ∀ (k n : Nat), sizes[k]? = some n →
        ∃ L L', w.m_Layers[k]? = some L ∧ v.m_Layers[k]? = some L' ∧
          L.m_Perceptrons.length = n ∧ L'.m_Perceptrons.length = n ∧
          ∀ j : Nat, j < n →
            ∃ p q, L.m_Perceptrons[j]? = some p ∧ L'.m_Perceptrons[j]? = some q ∧
              q.m_Delta = 0 ∧ q.m_Weights = p.m_Weights := by
  obtain ⟨hw, hq⟩ := Call.reach_quiet sizes heap a t actType trainRate bias M cs w hpos
    hbound hlen hcs hr
  have hn := hw.linked.pos
  refine ⟨?_, ?_⟩
  · intro k L hL p hp
    have hLk := hw.linked.layer k L hL
    refine ⟨?_, hq.delta k L hL p hp⟩
    obtain ⟨u, hu⟩ := List.getElem?_of_mem hp
    have hLt : L.m_Targets = none := by
      cases e : L.m_Targets with
      | none => rfl
      | some r =>
        have hk := (hLk.targets r e).1
        have ek : k = sizes.length - 1 := by omega
        rw [hq.untargeted L (by rw [← ek]; exact hL)] at e
        cases e
    rw [(hLk.unit u p hu).target, hLt]
    rfl
  · obtain ⟨v, e, hd⟩ := c_NeuralNetwork.train_untargeted sizes M w hw hq.untargeted
    refine ⟨v, e, ?_⟩
    intro k n hk
    have hk' : k < sizes.length := (List.getElem?_eq_some_iff.mp hk).1
    obtain ⟨L, hL, hLk⟩ := hw.linked.get k hk'
    have hnL : n = L.m_Size := by
      have hs := hLk.size
      rw [hk] at hs
      exact Option.some.inj hs
    obtain ⟨L', hL', hlen', hu⟩ := hd k L hL
    have hun : L.m_Perceptrons.length = n := by rw [hLk.units, hnL]
    refine ⟨L, L', hL, hL', hun, by rw [hlen', hun], ?_⟩
    intro j hj
    have hj' : j < L.m_Perceptrons.length := by rw [hun]; exact hj
    obtain ⟨q, hq', h1, h2⟩ := hu j _ (List.getElem?_eq_getElem hj')
    exact ⟨_, q, List.getElem?_eq_getElem hj', hq', h1, h2⟩

/-- Witness of C22: unit counts `[2, 1]`, a target array of two elements, the weights set
to `[1, 1, 1]`, `[1, 0, 2]` and `[1, 2, 3]`, then `evaluate()`: `train()` leaves the
three deltas zero and the weights as they are. -/
theorem c_NeuralNetwork.silent_untrainable_witness :
    ((∀ (k : Nat) (L : c_PerceptronLayer ℤ), exampleDeaf.m_Layers[k]? = some L →
      ∀ p ∈ L.m_Perceptrons, p.m_Target = none ∧ p.m_Delta = 0) ∧
    ∃ v, c_NeuralNetwork.train exampleLibm exampleDeaf = some v ∧
      ∀ (k n : Nat), [2, 1][k]? = some n →
        ∃ L L', exampleDeaf.m_Layers[k]? = some L ∧ v.m_Layers[k]? = some L' ∧
          L.m_Perceptrons.length = n ∧ L'.m_Perceptrons.length = n ∧
          ∀ j : Nat, j < n →
            ∃ p q, L.m_Perceptrons[j]? = some p ∧ L'.m_Perceptrons[j]? = some q ∧
              q.m_Delta = 0 ∧ q.m_Weights = p.m_Weights) ∧
    (c_NeuralNetwork.train exampleLibm exampleDeaf).map
      (fun v => v.m_Layers.map (fun L => L.m_Perceptrons.map
        (fun p => (p.m_Delta, p.m_Weights))))
      = some [[(0, [1, 1, 1]), (0, [1, 0, 2])], [(0, [1, 2, 3])]] :=
  ⟨c_NeuralNetwork.silent_untrainable [2, 1] exampleHeap 0 0 e_Activation.ACT_OTHER 1 true
      exampleLibm
      [Call.setWeights 0 0 [1, 1, 1], Call.setWeights 0 1 [1, 0, 2],
        Call.setWeights 1 0 [1, 2, 3], Call.evaluate] exampleDeaf (by decide) (by decide)
      (by decide) (by intro c hc b hb; subst hb; simp at hc) (Option.some_get _).symm,
    by decide⟩

/-! ## The copy constructor -/

section copy_layer

variable {α : Type} [CommRing α] [Div α]

/-- A loop over the elements of a vector that changes none of them. -/
theorem forEach_id {β : Type} (f : Nat → β → β) (n : Nat) (l : List β)
    (h : ∀ (i : Nat) (x : β), l[i]? = some x → f i x = x) : forEach f n l = l := by
  apply List.ext_getElem?
  intro i
  rw [forEach_getElem?]
  split
  · cases hx : l[i]? with
    | none => rfl
    | some x => rw [Option.map_some', h i x hx]
  · rfl

/-- `_connect()` on a layer of a wired network binds every unit to what it is bound to. -/
theorem c_PerceptronLayer.connect_wired {sizes : List Nat} {w : c_NeuralNetwork α}
    (hw : c_NeuralNetwork.Wired sizes w) (k : Nat) (L : c_PerceptronLayer α)
    (hL : w.m_Layers[k]? = some L) : c_PerceptronLayer._connect w.memory L = L := by
  have hLk := hw.linked.layer k L hL
  have hk : k < sizes.length := by
    rw [← hw.linked.length]
    exact (List.getElem?_eq_some_iff.mp hL).1
  have h1 : c_PerceptronLayer._connectInputs w.memory L = L := by
    unfold c_PerceptronLayer._connectInputs
    cases hI : L.m_Inputs with
    | none => rfl
    | some r =>
      have hf : forEach (fun _ => c_Perceptron.setInputs w.memory r) L.m_Size
          L.m_Perceptrons = L.m_Perceptrons := by
        apply forEach_id
        intro i p hp
        have hs := hw.sync k L hL r hI p (List.getElem?_mem hp)
        rw [c_Perceptron.setInputs_same _ _ _ hs]
        have := (hLk.unit i p hp).inputs
        rw [hI] at this
        rw [← this]
      simp only [hf]
      rw [← hI]
  have h2 : c_PerceptronLayer._connectTargets w.memory L = L := by
    unfold c_PerceptronLayer._connectTargets
    cases hT : L.m_Targets with
    | none => rfl
    | some t =>
      have hf : forEach (fun i => c_Perceptron.setTarget (t, i)) L.m_Size
          L.m_Perceptrons = L.m_Perceptrons := by
        apply forEach_id
        intro i p hp
        have bp := hLk.unit i p hp
        have hk1 := (hLk.targets t hT).1
        have hs := hLk.sumsIn
        have hnl : ¬ k + 1 < sizes.length := by omega
        simp only [hnl, if_false] at hs
        have e1 : p.m_Target = some (t, i) := by rw [bp.target, hT]; rfl
        have e2 : p.m_WeightedDeltaSum = none := by rw [bp.deltaSum, hs]; rfl
        unfold c_Perceptron.setTarget
        rw [← e1, ← e2]
      simp only [hf]
      rw [← hT]
      split <;> rfl
  have h3 : c_PerceptronLayer._connectWeightedDeltaSums w.memory L = L := by
    unfold c_PerceptronLayer._connectWeightedDeltaSums
    cases hD : L.m_WeightedDeltaSumsIn with
    | none => rfl
    | some d =>
      have hf : forEach (fun i => c_Perceptron.setWeightedDeltaSum (d, i)) L.m_Size
          L.m_Perceptrons = L.m_Perceptrons := by
        apply forEach_id
        intro i p hp
        have bp := hLk.unit i p hp
        have hs := hLk.sumsIn
        rw [hD] at hs
        have hk1 : k + 1 < sizes.length := by
          by_contra hc
          simp [hc] at hs
        have hT : L.m_Targets = none := by
          cases e : L.m_Targets with
          | none => rfl
          | some r => exact absurd (hLk.targets r e).1 (by omega)
        have e1 : p.m_Target = none := by rw [bp.target, hT]; rfl
        have e2 : p.m_WeightedDeltaSum = some (d, i) := by rw [bp.deltaSum, hD]; rfl
        unfold c_Perceptron.setWeightedDeltaSum
        rw [← e1, ← e2]
      simp only [hf]
      rw [← hD]
      split <;> rfl
  unfold c_PerceptronLayer._connect
  rw [h1, h2, h3]

/-- The copy of a layer of a wired network is that layer. -/
theorem c_PerceptronLayer.copy_wired {sizes : List Nat} {w : c_NeuralNetwork α}
    (hw : c_NeuralNetwork.Wired sizes w) (k : Nat) (L : c_PerceptronLayer α)
    (hL : w.m_Layers[k]? = some L) : c_PerceptronLayer._copy w.memory L = L := by
  have hm : L.m_Perceptrons.map c_Perceptron._copy = L.m_Perceptrons := by
    rw [List.map_congr_left (fun p _ => c_Perceptron.copy_eq p)]
    exact List.map_id _
  unfold c_PerceptronLayer._copy
  rw [hm]
  exact c_PerceptronLayer.connect_wired hw k L hL

/-- The layers of a wired network, copy-constructed one by one. -/
theorem c_NeuralNetwork.copy_layers {sizes : List Nat} {w : c_NeuralNetwork α}
    (hw : c_NeuralNetwork.Wired sizes w) :
    w.m_Layers.map (c_PerceptronLayer._copy w.memory) = w.m_Layers := by
  apply List.ext_getElem?
  intro k
  rw [List.getElem?_map]
  cases hL : w.m_Layers[k]? with
  | none => rfl
  | some L => rw [Option.map_some', c_PerceptronLayer.copy_wired hw k L hL]

/-- `setInput` with the layer before is `_build` from the start state of `build_step`,
with the bias flag the layer has. -/
theorem c_PerceptronLayer.setInput_eq_build (w : c_NeuralNetwork α) (i : Nat) (hi : 0 < i)
    (b : Bool) (hb : ∀ L, w.m_Layers[i]? = some L → L.m_Bias = b) :
    c_PerceptronLayer.setInput i (i - 1) w
      = c_PerceptronLayer._build i (c_PerceptronLayer.buildStart i b w) := by
  unfold c_PerceptronLayer.setInput c_PerceptronLayer.buildStart
  congr 1
  apply c_NeuralNetwork.onLayer_congr
  intro L hL
  have := hb L hL
  simp only [c_PerceptronLayer.relink, hi, if_true, ← this]

/-- `_connectInputs` of a linked network with an empty local input array: the units of the
first layer lose their weights. -/
theorem c_NeuralNetwork.connectInputs_unfed (sizes : List Nat) (w : c_NeuralNetwork α)
    (h : c_NeuralNetwork.Linked sizes sizes.length w) (he : w.m_LocalInputs = []) :
    ∃ v, c_NeuralNetwork._connectInputs w = some v ∧ c_NeuralNetwork.Unfed sizes w v := by
  obtain ⟨a, ha⟩ := h.inputs
  have hlen := h.length
  have hpos := h.pos
  have hl : w.m_Layers.length > 0 := by omega
  have e : c_NeuralNetwork._connectInputs w = some (c_NeuralNetwork.onLayer 0
      (c_PerceptronLayer.setInputs w.memory Ref.localInputs) w) := by
    unfold c_NeuralNetwork._connectInputs
    simp only [hl, if_true, ha, c_NeuralNetwork.atLayer_some _ _ _ hl]
  have hmem : (w.memory Ref.localInputs).length = 0 := by
    rw [c_NeuralNetwork.memory_localInputs, he]; rfl
  refine ⟨_, e, ⟨⟨?_, ?_, h.pos, h.bound, ⟨a, ha⟩, h.targets, ?_⟩, he, rfl, rfl, rfl, ?_⟩⟩
  · rw [(c_NeuralNetwork.frame_onLayer w 0 _).1]; exact hlen
  · exact h.size
  · intro k L' hL'
    rw [c_NeuralNetwork.onLayer_getElem?] at hL'
    by_cases hk : 0 = k
    · subst hk
      simp only [if_true, Option.map_eq_some'] at hL'
      obtain ⟨L, hL, e1⟩ := hL'
      subst e1
      exact (c_PerceptronLayer.reconnect_first sizes sizes.length w
        (c_NeuralNetwork.onLayer 0 (c_PerceptronLayer.setInputs w.memory Ref.localInputs) w)
        L (h.layer 0 L hL) rfl w.memory).1
    · simp only [hk, if_false] at hL'
      exact (h.layer k L' hL').heap_congr rfl
  · intro L' hL' q hq
    rw [c_NeuralNetwork.onLayer_getElem?] at hL'
    simp only [if_true, Option.map_eq_some'] at hL'
    obtain ⟨L, hL, e1⟩ := hL'
    subst e1
    obtain ⟨u, hu⟩ := List.getElem?_of_mem hq
    have := ((c_PerceptronLayer.reconnect_first sizes sizes.length w w L (h.layer 0 L hL) rfl
      w.memory).2 u q hu).1
    rw [hmem] at this
    exact List.length_eq_zero.mp this

/-- `_connectTargets` in the copy constructor keeps the state of the copy. -/
theorem c_NeuralNetwork.connectTargets_unfed (sizes : List Nat) (w v : c_NeuralNetwork α)
    (h : c_NeuralNetwork.Unfed sizes w v) :
    ∃ v', c_NeuralNetwork._connectTargets v = some v' ∧ c_NeuralNetwork.Unfed sizes w v' := by
  obtain ⟨t, ht⟩ := h.linked.targets
  have hlen := h.linked.length
  have hpos := h.linked.pos
  have hl : v.m_Layers.length > 0 := by omega
  have hs : size_t_sub v.m_Size 1 = sizes.length - 1 := by
    rw [h.linked.size]
    exact size_t_sub_one _ hpos h.linked.bound
  have hl1 : sizes.length - 1 < v.m_Layers.length := by omega
  have e : c_NeuralNetwork._connectTargets v = some (c_NeuralNetwork.onLayer (sizes.length - 1)
      (c_PerceptronLayer.setTargets v.memory (Ref.caller t)) v) := by
    unfold c_NeuralNetwork._connectTargets
    simp only [hl, if_true, ht, hs, c_NeuralNetwork.atLayer_some _ _ _ hl1]
  have hstep : ∀ L, v.m_Layers[sizes.length - 1]? = some L →
      c_PerceptronLayer.Linked sizes sizes.length
        (c_NeuralNetwork.onLayer (sizes.length - 1)
          (c_PerceptronLayer.setTargets v.memory (Ref.caller t)) v) (sizes.length - 1)
        (c_PerceptronLayer.setTargets v.memory (Ref.caller t) L) ∧
      ∀ (i : Nat) (q : c_Perceptron α),
        (c_PerceptronLayer.setTargets v.memory (Ref.caller t) L).m_Perceptrons[i]? = some q →
        ∃ p, L.m_Perceptrons[i]? = some p ∧
          (q = p ∨ q = c_Perceptron.setTarget (Ref.caller t, i) p) := fun L hL =>
    c_PerceptronLayer.setTargets_linked sizes sizes.length (sizes.length - 1) v _ L
      (h.linked.layer _ L hL) (by omega) (Nat.le_refl _) v.memory t rfl rfl
  refine ⟨_, e, ⟨⟨?_, ?_, h.linked.pos, h.linked.bound, h.linked.inputs, h.linked.targets, ?_⟩,
    h.localInputs, h.bias, h.trainRate, h.actType, ?_⟩⟩
  · rw [(c_NeuralNetwork.frame_onLayer v _ _).1]; exact hlen
  · exact h.linked.size
  · intro k L' hL'
    rw [c_NeuralNetwork.onLayer_getElem?] at hL'
    by_cases hk : sizes.length - 1 = k
    · subst hk
      simp only [if_true, Option.map_eq_some'] at hL'
      obtain ⟨L, hL, e1⟩ := hL'
      subst e1
      exact (hstep L hL).1
    · simp only [hk, if_false] at hL'
      exact (h.linked.layer k L' hL').heap_congr rfl
  · intro L' hL' q hq
    rw [c_NeuralNetwork.onLayer_getElem?] at hL'
    by_cases hk : sizes.length - 1 = 0
    · simp only [hk, if_true, Option.map_eq_some'] at hL'
      obtain ⟨L, hL, e1⟩ := hL'
      subst e1
      obtain ⟨u, hu⟩ := List.getElem?_of_mem hq
      rw [← hk] at hL
      obtain ⟨p, hp, hq'⟩ := (hstep L hL).2 u q hu
      rw [hk] at hL
      have hw0 := h.first L hL p (List.getElem?_mem hp)
      rcases hq' with e2 | e2
      · rw [e2]; exact hw0
      · rw [e2]; exact hw0
    · simp only [hk, if_false] at hL'
      exact h.first L' hL' q hq

/-- `_connectLayers` in the copy constructor keeps the state of the copy. -/
theorem c_NeuralNetwork.connectLayers_unfed (sizes : List Nat) (w v : c_NeuralNetwork α)
    (h : c_NeuralNetwork.Unfed sizes w v) :
    ∃ v', c_NeuralNetwork._connectLayers v = some v' ∧ c_NeuralNetwork.Unfed sizes w v' := by
  unfold c_NeuralNetwork._connectLayers
  by_cases hl : v.m_Layers.length > 1
  · simp only [hl, if_true]
    have hn : 1 + (v.m_Size - 1) = sizes.length := by
      rw [h.linked.size]
      have := h.linked.pos
      omega
    obtain ⟨u, hu, hP⟩ := forLoopM_some (fun i (w : c_NeuralNetwork α) =>
        if i - 1 < w.m_Layers.length then
          c_NeuralNetwork.atLayer i (fun k => c_PerceptronLayer.setInput k (i - 1)) w
        else none) (fun _ s => c_NeuralNetwork.Unfed sizes w s) (v.m_Size - 1) 1 v h
      (by
        intro i s hi1 hi2 hs
        rw [hn] at hi2
        have hlen := hs.linked.length
        have h1 : i - 1 < s.m_Layers.length := by omega
        have h2 : i < s.m_Layers.length := by omega
        obtain ⟨L, hL, hLi⟩ := hs.linked.get i hi2
        have e := c_PerceptronLayer.setInput_eq_build s i (by omega) L.m_Bias
          (fun L1 hL1 => by rw [hL] at hL1; rw [← Option.some.inj hL1])
        obtain ⟨s1, s2, s3, s4, s5, s6, s7, s8, s9, s10⟩ :=
          c_PerceptronLayer.build_step sizes sizes.length i L.m_Bias s hs.linked
            (Nat.le_refl _) (by omega) hi2
        have hmax : max sizes.length (i + 1) = sizes.length := by omega
        rw [hmax] at s1
        refine ⟨_, ?_, ⟨s1, by rw [s3, hs.localInputs], by rw [s2, hs.bias],
          by rw [s7, hs.trainRate], by rw [s8, hs.actType], ?_⟩⟩
        · simp only [h1, if_true, c_NeuralNetwork.atLayer_some _ _ _ h2, e]
        · intro L' hL' q hq
          obtain ⟨L0, hL0, r⟩ := s9 0 L' hL'
          obtain ⟨x, hx⟩ := List.getElem?_of_mem hq
          obtain ⟨p, hp, _, hk⟩ := r.unit x q hx
          rw [(hk (by omega)).1]
          exact hs.first L0 hL0 p (List.getElem?_mem hp))
    exact ⟨u, hu, hP⟩
  · simp only [hl, if_false]
    exact ⟨v, rfl, h⟩

/-- The copy constructor on a wired network returns, with the scalars of the source, an
empty local input array and no weight in the first layer. -/
theorem c_NeuralNetwork.copy_spec (sizes : List Nat) (w : c_NeuralNetwork α)
    (hw : c_NeuralNetwork.Wired sizes w) :
    ∃ v, c_NeuralNetwork._copy w = some v ∧ c_NeuralNetwork.Unfed sizes w v := by
  have hseed : c_NeuralNetwork.Linked sizes sizes.length
      ({ w with m_LocalInputs := [] } : c_NeuralNetwork α) :=
    hw.linked.congr rfl rfl rfl hw.linked.inputs hw.linked.targets
  obtain ⟨v1, e1, h1⟩ := c_NeuralNetwork.connectInputs_unfed sizes _ hseed rfl
  obtain ⟨v2, e2, h2⟩ := c_NeuralNetwork.connectTargets_unfed sizes _ v1 h1
  obtain ⟨v3, e3, h3⟩ := c_NeuralNetwork.connectLayers_unfed sizes _ v2 h2
  refine ⟨v3, ?_, ⟨h3.linked, h3.localInputs, h3.bias, h3.trainRate, h3.actType, h3.first⟩⟩
  unfold c_NeuralNetwork._copy c_NeuralNetwork._connect
  rw [c_NeuralNetwork.copy_layers hw]
  rw [e1, Option.some_bind, e2, Option.some_bind, e3]

end copy_layer
/-! ## What the copy constructor keeps -/

/-- C24. Copy construction loses the first layer: for a non-empty list of unit counts, in
any state reached from the constructor by a sequence of steps, the copy constructor
returns a network whose local input array is empty and whose first layer has the units of
the source, every one with a weight vector of length zero, whatever the weights of the
source were; the number of layers, the bias flag, the rate and the activation kind of the
copy are those of the source. -/
theorem c_NeuralNetwork.copy_loses_first_layer {α : Type} [CommRing α] [Div α]
    (sizes : List Nat) (heap : Nat → List α) (a t : Nat)
    (actType : e_Activation) (trainRate : α) (bias : Bool) (M : Libm α) (cs : List (Call α))
    (w : c_NeuralNetwork α) (hpos : sizes ≠ []) (hbound : sizes.length < 2 ^ 64)
    (hr : (c_NeuralNetwork.construct heap (Ref.caller a) (Ref.caller t) sizes actType trainRate
      bias).bind (Call.runAll M cs) = some w) :
    ∃ c, c_NeuralNetwork._copy w = some c ∧ c.m_LocalInputs = [] ∧
      (∃ L, c.m_Layers[0]? = some L ∧ sizes[0]? = some L.m_Perceptrons.length ∧
        ∀ p ∈ L.m_Perceptrons, p.m_Weights.length = 0) ∧
      c.m_Layers.length = w.m_Layers.length ∧ c.m_Size = w.m_Size ∧
      c.m_Bias = w.m_Bias ∧ c.m_TrainRate = w.m_TrainRate ∧ c.m_ActType = w.m_ActType := by
  have hw := Call.reach_wired sizes heap a t actType trainRate bias M cs w hpos hbound hr
  obtain ⟨c, e, hc⟩ := c_NeuralNetwork.copy_spec sizes w hw
  obtain ⟨L, hL, hLk⟩ := hc.linked.get 0 hc.linked.pos
  refine ⟨c, e, hc.localInputs, ⟨L, hL, ?_, ?_⟩, ?_, ?_, hc.bias, hc.trainRate, hc.actType⟩
  · rw [hLk.units]
    exact hLk.size
  · intro p hp
    rw [hc.first L hL p hp]
    rfl
  · rw [hc.linked.length, hw.linked.length]
  · rw [hc.linked.size, hw.linked.size]

/-- Witness of C24: unit counts `[2, 1]`, bias on, the weights set to `[1, 1, 1]`,
`[1, 0, 2]` and `[1, 2, 3]`: the source has three local inputs, the copy has none, the
two units of its first layer have no weight and the unit of its last layer has the
weights of the source. -/
theorem c_NeuralNetwork.copy_loses_first_layer_witness :
    (∃ c, c_NeuralNetwork._copy exampleWeighted = some c ∧ c.m_LocalInputs = [] ∧
      (∃ L, c.m_Layers[0]? = some L ∧ [2, 1][0]? = some L.m_Perceptrons.length ∧
        ∀ p ∈ L.m_Perceptrons, p.m_Weights.length = 0) ∧
      c.m_Layers.length = exampleWeighted.m_Layers.length ∧
      c.m_Size = exampleWeighted.m_Size ∧ c.m_Bias = exampleWeighted.m_Bias ∧
      c.m_TrainRate = exampleWeighted.m_TrainRate ∧
      c.m_ActType = exampleWeighted.m_ActType) ∧
    exampleWeighted.m_LocalInputs.length = 3 ∧
    exampleWeighted.m_Layers.map (fun L => L.m_Perceptrons.map (fun p => p.m_Weights))
      = [[[1, 1, 1], [1, 0, 2]], [[1, 2, 3]]] ∧
    (c_NeuralNetwork._copy exampleWeighted).map
      (fun c => (c.m_LocalInputs,
        c.m_Layers.map (fun L => L.m_Perceptrons.map (fun p => p.m_Weights))))
      = some ([], [[[], []], [[1, 2, 3]]]) :=
  ⟨c_NeuralNetwork.copy_loses_first_layer [2, 1] exampleHeap 0 1
      e_Activation.ACT_OTHER 1 true exampleLibm
      [Call.setWeights 0 0 [1, 1, 1], Call.setWeights 0 1 [1, 0, 2],
        Call.setWeights 1 0 [1, 2, 3]] exampleWeighted (by decide) (by decide)
      (Option.some_get _).symm,
    by decide, by decide, by decide⟩
/-! ## Rounding to the nearest `double` -/

section double

/-- A finite `double` is rounded to itself. -/
theorem binary64.Nearest.exact {fl : ℝ → ℝ} (h : binary64.Nearest fl) {x : ℝ}
    (hx : binary64.IsFinite x) : fl x = x := by
  have := (h x).2 x hx
  rw [sub_self, abs_zero] at this
  have h0 := abs_nonpos_iff.mp this
  linarith

end double
/-! ## The range of the output in `double` arithmetic -/

